import Mathlib

/-!
Secure-Informationsystem: a shallow embedding of the registry.

The development follows the C sources of the repository:

* `errors.h`                                  error codes and packet tags
* `communication/simple-memory-buffer.c`      the byte buffer behind `data_store_t`
* `communication/bpack.c`                     the packer and unpacker
* `communication/crypto/hmac.c`               HMAC over SHA-1
* `communication/channel*.c`                  the channel variants
* `server/server.c`                           the request dispatcher
* `server/database.c`                         the value store
* `registry/registry.c`                       the client API

Conventions of the embedding.

* A byte (`unsigned char`) is a `Fin 256`; a buffer of bytes together with its
  length (`unsigned char*`, `size_t`) is a `List Byte`; a nullable pointer is an
  `Option`.
* A `char*` that is used as a C string is the list of bytes it points to; the
  C string itself is the part before the first NUL byte (`cstr`, `strlen`).
* `int64_t` values are `Int`, `uint64_t`/`size_t` values are `Nat`; conversions
  between them are explicit (`to_uint64`, `to_int64`), `size_t` has 64 bits.
* A `double` is its IEEE-754 binary64 bit pattern, a `Nat` below `2 ^ 64`.
* `malloc`, `realloc` and `calloc` are taken to succeed.
* A function returns `none` where the C program has no defined result
  (a `va_arg` of the wrong type, a read outside a buffer, a loop that never
  ends).
-/

namespace Sis

/-! ## errors.h -/

def ERROR_OK : Int := 0
def ERROR_UNKNOWN : Int := 1
def ERROR_MEMORY : Int := 2
def ERROR_INVALID_ARGUMENTS : Int := 3
def ERROR_EOF : Int := 4
def ERROR_BPACK_INVALID_FORMAT_STRING : Int := 5
def ERROR_BPACK_WRITE : Int := 6
def ERROR_BPACK_READ : Int := 7
def ERROR_BUNPACK_INVALID_DATA : Int := 8
def ERROR_CHANNEL_BUSY : Int := 9
def ERROR_CHANNEL_FAILED : Int := 10
def ERROR_REGISTRY_NO_SUCH_KEY : Int := 11
def ERROR_REGISTRY_UNKNOWN_IDENTIFIER : Int := 12
def ERROR_REGISTRY_INVALID_STATE : Int := 13
def ERROR_DATABASE_OPEN : Int := 14
def ERROR_DATABASE_INVALID : Int := 15
def ERROR_DATABASE_NO_SUCH_KEY : Int := 16
def ERROR_DATABASE_IO : Int := 17
def ERROR_DATABASE_TYPE_MISMATCH : Int := 18
def ERROR_DATABASE_TYPE_UNKNOWN : Int := 19
def ERROR_SERVER_INIT : Int := 20
def ERROR_SERVER_SHUTDOWN : Int := 21
def ERROR_SERVER_PROCESS : Int := 22
def ERROR_HMAC_VERIFICATION_FAILED : Int := 23

abbrev Byte := Fin 256
abbrev Bytes := List Byte

def PACKET_INVALID : Byte := 0
def PACKET_OK : Byte := 1
def PACKET_ERROR : Byte := 2
def PACKET_INT : Byte := 3
def PACKET_GET_INT : Byte := 4
def PACKET_SET_INT : Byte := 5
def PACKET_DOUBLE : Byte := 6
def PACKET_GET_DOUBLE : Byte := 7
def PACKET_SET_DOUBLE : Byte := 8
def PACKET_STRING : Byte := 9
def PACKET_GET_STRING : Byte := 10
def PACKET_SET_STRING : Byte := 11
def PACKET_BLOB : Byte := 12
def PACKET_GET_BLOB : Byte := 13
def PACKET_SET_BLOB : Byte := 14
def PACKET_ENUM : Byte := 15
def PACKET_GET_ENUM : Byte := 16
def PACKET_TYPE : Byte := 17
def PACKET_GET_VALUE_TYPE : Byte := 18
def PACKET_SHUTDOWN : Byte := 19

/-! ## C strings and machine integers -/

/-- The C string that starts at the first byte of `s`: the bytes before the first NUL. -/
def cstr (s : Bytes) : Bytes := s.takeWhile (fun c => decide (c ≠ 0))

/-- The `strlen` of the C string that starts at the first byte of `s`. -/
def strlen (s : Bytes) : Nat := (cstr s).length

/-- The bytes of an ASCII text. -/
def ascii (s : String) : Bytes := s.toList.map (fun c => Fin.ofNat c.toNat)

/-- The largest `size_t`. -/
def SIZE_MAX : Nat := 2 ^ 64 - 1

/-- The conversion of an integer to `uint64_t` (and to `size_t`). -/
def to_uint64 (v : Int) : Nat := (v % 2 ^ 64).toNat

/-- The conversion of an unsigned value to `int64_t`. -/
def to_int64 (u : Nat) : Int :=
  if u % 2 ^ 64 < 2 ^ 63 then ((u % 2 ^ 64 : Nat) : Int) else ((u % 2 ^ 64 : Nat) : Int) - 2 ^ 64

/-- The conversion of an integer to `uint16_t`. -/
def to_uint16 (v : Int) : Nat := (v % 2 ^ 16).toNat

/-- The conversion of an unsigned value to `int16_t`. -/
def to_int16 (u : Nat) : Int :=
  if u % 2 ^ 16 < 2 ^ 15 then ((u % 2 ^ 16 : Nat) : Int) else ((u % 2 ^ 16 : Nat) : Int) - 2 ^ 16

/-- The byte `x & 0xff`. -/
def byte_of (x : Nat) : Byte := ⟨x % 256, Nat.mod_lt x (by decide)⟩

/-- The `n` bytes of the object representation of the unsigned value `w` on the
little-endian host: `((unsigned char*)&w)[s]` for `s = 0 .. n-1`. -/
def bytes_of_word (n : Nat) (w : Nat) : Bytes :=
  (List.range n).map (fun s => byte_of (w / 256 ^ s))

/-- The unsigned value whose object representation on the little-endian host is `bs`. -/
def word_of_bytes : Bytes → Nat
  | [] => 0
  | b :: bs => b.val + 256 * word_of_bytes bs

/-! ## communication/bpack.c: byte order helpers -/

def htole64 (v : Nat) : Nat := v

def le64toh (v : Nat) : Nat := v

def htole16 (v : Nat) : Nat := v

def le16toh (v : Nat) : Nat := v

def htobe64 (v : Nat) : Nat :=
  ((v &&& 0x00000000000000FF) <<< 56) |||
  ((v &&& 0x000000000000FF00) <<< 40) |||
  ((v &&& 0x0000000000FF0000) <<< 24) |||
  ((v &&& 0x00000000FF000000) <<< 8) |||
  ((v &&& 0x000000FF00000000) >>> 8) |||
  ((v &&& 0x0000FF0000000000) >>> 24) |||
  ((v &&& 0x00FF000000000000) >>> 40) |||
  ((v &&& 0xFF00000000000000) >>> 56)

def be64toh (v : Nat) : Nat := htobe64 v

def htobe16 (v : Nat) : Nat :=
  ((v &&& 0x00FF) <<< 8) ||| ((v &&& 0xFF00) >>> 8)

def be16toh (v : Nat) : Nat := htobe16 v

/-! ## communication/simple-memory-buffer.c and communication/datastore.c -/

/-- The buffer `simple_memory_buffer_t`; the field `size` is the length of `buffer`. -/
structure simple_memory_buffer_t where
  buffer : Bytes
  position : Nat
deriving DecidableEq, Repr

/-- The size field of the buffer. -/
def simple_memory_buffer_t.size (b : simple_memory_buffer_t) : Nat := b.buffer.length

/-- The function `simple_memory_buffer_read`: the code, the byte read, the buffer afterwards. -/
def simple_memory_buffer_read (b : simple_memory_buffer_t) :
    Int × Option Byte × simple_memory_buffer_t :=
  if b.position ≥ b.size then
    (ERROR_EOF, none, b)
  else
    (ERROR_OK, b.buffer.get? b.position, { b with position := b.position + 1 })

/-- The function `simple_memory_buffer_write`.  When the cursor is at the end the
buffer grows by one byte; the byte is then stored at the cursor. -/
def simple_memory_buffer_write (b : simple_memory_buffer_t) (byte : Byte) :
    Int × simple_memory_buffer_t :=
  let grown : Bytes := if b.position ≥ b.size then b.buffer ++ [0] else b.buffer
  (ERROR_OK, { buffer := grown.set b.position byte, position := b.position + 1 })

/-- The function `simple_memory_buffer_new` on `size` bytes of `data`. -/
def simple_memory_buffer_new (data : Bytes) : simple_memory_buffer_t :=
  { buffer := data, position := 0 }

def simple_memory_buffer_get_data (b : simple_memory_buffer_t) : Bytes := b.buffer

def simple_memory_buffer_get_size (b : simple_memory_buffer_t) : Nat := b.size

/-- The data store `data_store_t`: its only implementation is the memory buffer. -/
abbrev data_store_t := simple_memory_buffer_t

def data_store_read_byte (ds : data_store_t) : Int × Option Byte × data_store_t :=
  simple_memory_buffer_read ds

def data_store_write_byte (ds : data_store_t) (byte : Byte) : Int × data_store_t :=
  simple_memory_buffer_write ds byte

/-- A call on the memory buffer: `simple_memory_buffer_read` or
`simple_memory_buffer_write` with a byte. -/
inductive buffer_op where
  | read_byte
  | write_byte (byte : Byte)
deriving DecidableEq, Repr

/-- The buffer after the calls `ops`, one after the other. -/
def buffer_run : simple_memory_buffer_t → List buffer_op → simple_memory_buffer_t
  | b, [] => b
  | b, buffer_op.read_byte :: ops => buffer_run (simple_memory_buffer_read b).2.2 ops
  | b, buffer_op.write_byte byte :: ops => buffer_run (simple_memory_buffer_write b byte).2 ops

/-! ## IEEE-754 binary64 values as bit patterns (`math.h`) -/

def DOUBLE_NAN : Nat := 0x02
def DOUBLE_INF : Nat := 0x04
def DOUBLE_NEG : Nat := 0x01
def DOUBLE_ZERO : Nat := 0x08

/-- The value `NAN`. -/
def NAN : Nat := 0x7ff8000000000000

/-- The value `INFINITY`. -/
def INFINITY : Nat := 0x7ff0000000000000

/-- The exponent field of a double. -/
def dbl_exp (x : Nat) : Nat := x / 2 ^ 52 % 2048

/-- The fraction field of a double. -/
def dbl_frac (x : Nat) : Nat := x % 2 ^ 52

def signbit (x : Nat) : Bool := x / 2 ^ 63 % 2 = 1

def isnan (x : Nat) : Bool := dbl_exp x = 2047 && dbl_frac x ≠ 0

def isinf (x : Nat) : Bool := dbl_exp x = 2047 && dbl_frac x = 0

def fabs (x : Nat) : Nat := x % 2 ^ 63

/-- The negation `-x` of a double. -/
def dbl_neg (x : Nat) : Nat := if signbit x then x % 2 ^ 63 else x % 2 ^ 63 + 2 ^ 63

/-- The function `frexp` on a non-negative double: the normalized fraction in
`[0.5, 1)` and the exponent.  Zero, infinity and NaN are returned unchanged. -/
def frexp (x : Nat) : Nat × Int :=
  if dbl_exp x = 2047 ∨ x % 2 ^ 63 = 0 then (x, 0)
  else if dbl_exp x = 0 then
    (0x3fe0000000000000 + dbl_frac x * 2 ^ (53 - Nat.size (dbl_frac x)) % 2 ^ 52,
      (Nat.size (dbl_frac x) : Int) - 1074)
  else (0x3fe0000000000000 + dbl_frac x, (dbl_exp x : Int) - 1022)

/-- Rounding of `sig / 2 ^ s` to the nearest integer, ties to even. -/
def round_half_even (sig s : Nat) : Nat :=
  if s = 0 then sig
  else if sig % 2 ^ s > 2 ^ (s - 1) ∨ (sig % 2 ^ s = 2 ^ (s - 1) ∧ sig / 2 ^ s % 2 = 1)
  then sig / 2 ^ s + 1 else sig / 2 ^ s

/-- The function `ldexp` on a non-negative double, with the `errno` flag the
library sets (a range error is reported when the result is infinite or zero). -/
def ldexp (x : Nat) (exp : Int) : Nat × Bool :=
  if dbl_exp x = 2047 ∨ x % 2 ^ 63 = 0 then (x, false)
  else
    let sig : Nat := if dbl_exp x = 0 then dbl_frac x else 2 ^ 52 + dbl_frac x
    let q : Int := (if dbl_exp x = 0 then -1074 else (dbl_exp x : Int) - 1075) + exp
    let top : Int := (Nat.size sig : Int) - 1 + q
    if top > 1023 then (INFINITY, true)
    else if top ≥ -1022 then
      ((top + 1023).toNat * 2 ^ 52 + (sig * 2 ^ (53 - Nat.size sig) - 2 ^ 52), false)
    else
      let r : Nat :=
        if q + 1074 ≥ 0 then sig * 2 ^ (q + 1074).toNat
        else round_half_even sig (-(q + 1074)).toNat
      (r, decide (r = 0))

/-- The rational value of a finite double: the sign, the significand and the
power of two of the exponent field. -/
def dbl_value (x : Nat) : ℚ :=
  (if signbit x then -1 else 1) *
    (if dbl_exp x = 0 then (dbl_frac x : ℚ) * 2 ^ (-1074 : Int)
      else ((2 ^ 52 + dbl_frac x : Nat) : ℚ) * 2 ^ ((dbl_exp x : Int) - 1075))

/-! ## communication/bpack.c: bpack -/

/-- One argument of the variable argument list of `bpack`.  The pair
`(size_t, const unsigned char*)` of a blob is the list of the `size` bytes. -/
inductive Arg where
  | l (val : Int)
  | d (val : Nat)
  | s (val : Option Bytes)
  | b (val : Option Bytes)
deriving DecidableEq, Repr

/-- The loop `for (s = 0; s != n; ++s) data_store_write_byte(datastore, begin[s])`. -/
def write_loop (ds : data_store_t) : Bytes → Int × data_store_t
  | [] => (ERROR_OK, ds)
  | byte :: rest =>
    if (data_store_write_byte ds byte).1 ≠ ERROR_OK then
      (ERROR_BPACK_WRITE, (data_store_write_byte ds byte).2)
    else write_loop (data_store_write_byte ds byte).2 rest

/-- The case `l` of `bpack_v`, also reached by the nested calls
`bpack(datastore, little_endian ? "<l" : ">l", val)`. -/
def bpack_l (little_endian : Bool) (val : Int) (ds : data_store_t) : Int × data_store_t :=
  write_loop ds (bytes_of_word 8
    (if little_endian then htole64 (to_uint64 val) else htobe64 (to_uint64 val)))

/-- The case `b` of `bpack_v`, also reached by the nested call
`bpack(datastore, little_endian ? "<b" : ">b", size, val)`. -/
def bpack_b (little_endian : Bool) (val : Bytes) (ds : data_store_t) : Int × data_store_t :=
  if (bpack_l little_endian (to_int64 val.length) ds).1 ≠ ERROR_OK then
    bpack_l little_endian (to_int64 val.length) ds
  else write_loop (bpack_l little_endian (to_int64 val.length) ds).2 val

/-- The case `s` of `bpack_v`. -/
def bpack_s (little_endian : Bool) (val : Bytes) (ds : data_store_t) : Int × data_store_t :=
  bpack_b little_endian (cstr val) ds

/-- The sign byte of the case `d` of `bpack_v`. -/
def bpack_d_sign (val : Nat) : Nat :=
  if isnan val then DOUBLE_NAN
  else if isinf val then (if signbit val then DOUBLE_NEG else 0) ||| DOUBLE_INF
  else if fabs val = 0 then (if signbit val then DOUBLE_NEG else 0) ||| DOUBLE_ZERO
  else (if signbit val then DOUBLE_NEG else 0)

/-- The case `d` of `bpack_v`. -/
def bpack_d (little_endian : Bool) (val : Nat) (ds : data_store_t) : Int × data_store_t :=
  let sign := bpack_d_sign val
  if (data_store_write_byte ds (byte_of sign)).1 ≠ ERROR_OK then
    (ERROR_BPACK_WRITE, (data_store_write_byte ds (byte_of sign)).2)
  else if sign &&& DOUBLE_NAN ≠ 0 ∨ sign &&& DOUBLE_INF ≠ 0 ∨ sign &&& DOUBLE_ZERO ≠ 0 then
    (ERROR_OK, (data_store_write_byte ds (byte_of sign)).2)
  else
    let exponent : Int := (frexp (fabs val)).2
    let exp : Nat :=
      if little_endian then htole16 (to_uint16 exponent) else htobe16 (to_uint16 exponent)
    let mantissa : Nat := (frexp (fabs val)).1
    let r := write_loop (data_store_write_byte ds (byte_of sign)).2 (bytes_of_word 2 exp)
    if r.1 ≠ ERROR_OK then (ERROR_BPACK_WRITE, r.2)
    else bpack_l little_endian (to_int64 (mantissa &&& 0xfffffffffffff)) r.2

/-- The function `bpack_v`: the loop over the format string.  The result is the
return code and the data store afterwards. -/
def bpack_v : List Char → Bool → data_store_t → List Arg → Option (Int × data_store_t)
  | [], _, ds, _ => some (ERROR_OK, ds)
  | c :: fmt, little_endian, ds, ap =>
    if c = 'l' then
      match ap with
      | Arg.l val :: ap =>
        if (bpack_l little_endian val ds).1 ≠ ERROR_OK then some (bpack_l little_endian val ds)
        else bpack_v fmt little_endian (bpack_l little_endian val ds).2 ap
      | _ => none
    else if c = '<' then bpack_v fmt true ds ap
    else if c = '>' then bpack_v fmt false ds ap
    else if c = 'd' then
      match ap with
      | Arg.d val :: ap =>
        if (bpack_d little_endian val ds).1 ≠ ERROR_OK then some (bpack_d little_endian val ds)
        else bpack_v fmt little_endian (bpack_d little_endian val ds).2 ap
      | _ => none
    else if c = 's' then
      match ap with
      | Arg.s none :: _ => some (ERROR_INVALID_ARGUMENTS, ds)
      | Arg.s (some val) :: ap =>
        if (bpack_s little_endian val ds).1 ≠ ERROR_OK then some (bpack_s little_endian val ds)
        else bpack_v fmt little_endian (bpack_s little_endian val ds).2 ap
      | _ => none
    else if c = 'b' then
      match ap with
      | Arg.b none :: _ => some (ERROR_INVALID_ARGUMENTS, ds)
      | Arg.b (some val) :: ap =>
        if (bpack_b little_endian val ds).1 ≠ ERROR_OK then some (bpack_b little_endian val ds)
        else bpack_v fmt little_endian (bpack_b little_endian val ds).2 ap
      | _ => none
    else some (ERROR_BPACK_INVALID_FORMAT_STRING, ds)

/-- The function `bpack` on a data store and a format string that are not NULL. -/
def bpack (ds : data_store_t) (fmt : String) (ap : List Arg) : Option (Int × data_store_t) :=
  bpack_v fmt.toList true ds ap

/-! ## communication/bpack.c: bunpack -/

/-- One argument of the variable argument list of `bunpack`: a pointer to the
variable that receives the value.  `none` is the NULL pointer, `some x` a valid
pointer whose target currently holds `x`.  For a string and a blob the target
is itself a pointer (`char*`, `unsigned char*`). -/
inductive Out where
  | l (val : Option Int)
  | d (val : Option Nat)
  | s (val : Option (Option Bytes))
  | b (size : Option Nat) (val : Option (Option Bytes))
deriving DecidableEq, Repr

/-- The loop `for (s = 0; s != n; ++s) data_store_read_byte(datastore, &begin[s])`:
the code, the bytes read so far, the data store afterwards. -/
def read_loop (ds : data_store_t) : Nat → Int × Bytes × data_store_t
  | 0 => (ERROR_OK, [], ds)
  | n + 1 =>
    match data_store_read_byte ds with
    | (code, some byte, ds1) =>
      if code ≠ ERROR_OK then (ERROR_BPACK_READ, [], ds1)
      else ((read_loop ds1 n).1, byte :: (read_loop ds1 n).2.1, (read_loop ds1 n).2.2)
    | (_, none, ds1) => (ERROR_BPACK_READ, [], ds1)

/-- The case `l` of `bunpack_v`, also reached by the nested calls
`bunpack(datastore, little_endian ? "<l" : ">l", &val)`: the code, the value
for the target, the data store afterwards. -/
def bunpack_l (little_endian : Bool) (ds : data_store_t) : Int × Int × data_store_t :=
  let r := read_loop ds 8
  if r.1 ≠ ERROR_OK then (ERROR_BPACK_READ, 0, r.2.2)
  else
    (ERROR_OK,
      to_int64 (if little_endian then le64toh (word_of_bytes r.2.1)
        else be64toh (word_of_bytes r.2.1)),
      r.2.2)

/-- The case `b` of `bunpack_v`, also reached by the nested call
`bunpack(datastore, little_endian ? "<b" : ">b", &size, &tmp)`: the code, the
bytes for the target (their number is the size), the data store afterwards.
`malloc s` tells whether `malloc(s)` returns memory: with `tmp == NULL` for a
size other than 0 the case returns `ERROR_MEMORY` before it reads the content.
Where the argument is left out, every allocation succeeds. -/
def bunpack_b (little_endian : Bool) (ds : data_store_t)
    (malloc : Nat → Bool := fun _ => true) : Int × Bytes × data_store_t :=
  let r := bunpack_l little_endian ds
  if r.1 ≠ ERROR_OK then (r.1, [], r.2.2)
  else
    let rs : Nat := to_uint64 r.2.1
    if rs > SIZE_MAX then (ERROR_MEMORY, [], r.2.2)
    else if malloc rs = false ∧ rs ≠ 0 then (ERROR_MEMORY, [], r.2.2)
    else
      let t := read_loop r.2.2 rs
      if t.1 ≠ ERROR_OK then (ERROR_BPACK_READ, [], t.2.2)
      else (ERROR_OK, t.2.1, t.2.2)

/-- The case `s` of `bunpack_v`: the code, the bytes of the string (a NUL is put
behind them), the data store afterwards.  The nested call allocates with
`malloc`, and `realloc(tmp, size + 1)` returns NULL when `malloc (size + 1)` is
false. -/
def bunpack_s (little_endian : Bool) (ds : data_store_t)
    (malloc : Nat → Bool := fun _ => true) : Int × Bytes × data_store_t :=
  let r := bunpack_b little_endian ds malloc
  if r.1 ≠ ERROR_OK then (r.1, [], r.2.2)
  else if r.2.1.length = SIZE_MAX then (ERROR_MEMORY, [], r.2.2)
  else if malloc (r.2.1.length + 1) = false then (ERROR_MEMORY, [], r.2.2)
  else (ERROR_OK, r.2.1, r.2.2)

/-- The case `d` of `bunpack_v`: the code, the double for the target, the data
store afterwards. -/
def bunpack_d (little_endian : Bool) (ds : data_store_t) : Int × Nat × data_store_t :=
  match data_store_read_byte ds with
  | (code, some signbyte, ds1) =>
    if code ≠ ERROR_OK then (ERROR_BPACK_READ, 0, ds1)
    else
      let signno : Nat := signbyte.val &&& 0xFE
      if signno = DOUBLE_NAN then
        if signbyte.val &&& DOUBLE_NEG ≠ 0 then (ERROR_BUNPACK_INVALID_DATA, 0, ds1)
        else (ERROR_OK, NAN, ds1)
      else if signno = DOUBLE_INF then
        (ERROR_OK, if signbyte.val &&& DOUBLE_NEG ≠ 0 then dbl_neg INFINITY else INFINITY, ds1)
      else if signno = DOUBLE_ZERO then
        (ERROR_OK, if signbyte.val &&& DOUBLE_NEG ≠ 0 then dbl_neg 0 else 0, ds1)
      else if signno ≠ 0 then (ERROR_BUNPACK_INVALID_DATA, 0, ds1)
      else
        let r := read_loop ds1 2
        if r.1 ≠ ERROR_OK then (ERROR_BPACK_READ, 0, r.2.2)
        else
          let exponent : Int :=
            to_int16 (if little_endian then le16toh (word_of_bytes r.2.1)
              else be16toh (word_of_bytes r.2.1))
          let m := bunpack_l little_endian r.2.2
          if m.1 ≠ ERROR_OK then (m.1, 0, m.2.2)
          else if to_uint64 m.2.1 &&& 0xfff0000000000000 ≠ 0 then
            (ERROR_BUNPACK_INVALID_DATA, 0, m.2.2)
          else
            let normalized_mantissa : Nat := to_uint64 m.2.1 ||| 0x3fe0000000000000
            let value := ldexp normalized_mantissa exponent
            if value.2 then (ERROR_BUNPACK_INVALID_DATA, 0, m.2.2)
            else
              (ERROR_OK, if signbyte.val &&& DOUBLE_NEG ≠ 0 then dbl_neg value.1 else value.1,
                m.2.2)
  | (_, none, ds1) => (ERROR_BPACK_READ, 0, ds1)

/-- The function `bunpack_v`: the loop over the format string.  The result is the
return code, the data store afterwards, and the argument list with the targets
as they are after the call. -/
def bunpack_v : List Char → Bool → data_store_t → List Out →
    optParam (Nat → Bool) (fun _ => true) → Option (Int × data_store_t × List Out)
  | [], _, ds, ap, _ => some (ERROR_OK, ds, ap)
  | c :: fmt, little_endian, ds, ap, malloc =>
    if c = 'l' then
      match ap with
      | Out.l none :: rest => some (ERROR_INVALID_ARGUMENTS, ds, Out.l none :: rest)
      | Out.l (some old) :: rest =>
        if (bunpack_l little_endian ds).1 ≠ ERROR_OK then
          some ((bunpack_l little_endian ds).1, (bunpack_l little_endian ds).2.2,
            Out.l (some old) :: rest)
        else
          (bunpack_v fmt little_endian (bunpack_l little_endian ds).2.2 rest malloc).map
            (fun r => (r.1, r.2.1, Out.l (some (bunpack_l little_endian ds).2.1) :: r.2.2))
      | _ => none
    else if c = '<' then bunpack_v fmt true ds ap malloc
    else if c = '>' then bunpack_v fmt false ds ap malloc
    else if c = 'd' then
      match ap with
      | Out.d none :: rest => some (ERROR_INVALID_ARGUMENTS, ds, Out.d none :: rest)
      | Out.d (some old) :: rest =>
        if (bunpack_d little_endian ds).1 ≠ ERROR_OK then
          some ((bunpack_d little_endian ds).1, (bunpack_d little_endian ds).2.2,
            Out.d (some old) :: rest)
        else
          (bunpack_v fmt little_endian (bunpack_d little_endian ds).2.2 rest malloc).map
            (fun r => (r.1, r.2.1, Out.d (some (bunpack_d little_endian ds).2.1) :: r.2.2))
      | _ => none
    else if c = 's' then
      match ap with
      | Out.s none :: rest => some (ERROR_INVALID_ARGUMENTS, ds, Out.s none :: rest)
      | Out.s (some old) :: rest =>
        if (bunpack_s little_endian ds malloc).1 ≠ ERROR_OK then
          some ((bunpack_s little_endian ds malloc).1, (bunpack_s little_endian ds malloc).2.2,
            Out.s (some old) :: rest)
        else
          (bunpack_v fmt little_endian (bunpack_s little_endian ds malloc).2.2 rest malloc).map
            (fun r =>
              (r.1, r.2.1, Out.s (some (some (bunpack_s little_endian ds malloc).2.1)) :: r.2.2))
      | _ => none
    else if c = 'b' then
      match ap with
      | Out.b (some oldsize) (some old) :: rest =>
        if (bunpack_b little_endian ds malloc).1 ≠ ERROR_OK then
          some ((bunpack_b little_endian ds malloc).1, (bunpack_b little_endian ds malloc).2.2,
            Out.b (some oldsize) (some old) :: rest)
        else
          (bunpack_v fmt little_endian (bunpack_b little_endian ds malloc).2.2 rest malloc).map
            (fun r =>
              (r.1, r.2.1,
                Out.b (some (bunpack_b little_endian ds malloc).2.1.length)
                  (some (some (bunpack_b little_endian ds malloc).2.1)) :: r.2.2))
      | Out.b size val :: rest => some (ERROR_INVALID_ARGUMENTS, ds, Out.b size val :: rest)
      | _ => none
    else some (ERROR_BPACK_INVALID_FORMAT_STRING, ds, ap)

/-- The function `bunpack` on a data store and a format string that are not
NULL, with the `malloc` of `bunpack_v`. -/
def bunpack (ds : data_store_t) (fmt : String) (ap : List Out)
    (malloc : Nat → Bool := fun _ => true) : Option (Int × data_store_t × List Out) :=
  bunpack_v fmt.toList true ds ap malloc


/-! ## Vocabulary of the statements about bpack and bunpack -/

/-- The mask that selects the byte that starts at bit `k`. -/
def byte_mask (k : Nat) : Nat := 0xFF <<< k

/-- The values of the type `int64_t`. -/
def is_int64 (v : Int) : Prop := -2 ^ 63 ≤ v ∧ v < 2 ^ 63

instance (v : Int) : Decidable (is_int64 v) := by unfold is_int64; infer_instance

/-- A C string: no NUL among the characters, and the string with its
terminating NUL fits into an object. -/
def is_c_string (s : Bytes) : Prop := (∀ c ∈ s, c ≠ 0) ∧ s.length < SIZE_MAX

instance (s : Bytes) : Decidable (is_c_string s) := by unfold is_c_string; infer_instance

/-- A blob: its size is a `size_t`. -/
def is_blob (b : Bytes) : Prop := b.length ≤ SIZE_MAX

instance (b : Bytes) : Decidable (is_blob b) := by unfold is_blob; infer_instance

/-- The value tuple `v` matches the format string: one `int64_t` for each `l`,
one C string for each `s`, one blob for each `b`, nothing for `<` and `>`,
and the format has no other characters. -/
def matches_format : List Char → List Arg → Prop
  | [], [] => True
  | [], _ :: _ => False
  | c :: fmt, v =>
    if c = '<' ∨ c = '>' then matches_format fmt v
    else if c = 'l' then
      match v with
      | Arg.l x :: v => is_int64 x ∧ matches_format fmt v
      | _ => False
    else if c = 's' then
      match v with
      | Arg.s (some x) :: v => is_c_string x ∧ matches_format fmt v
      | _ => False
    else if c = 'b' then
      match v with
      | Arg.b (some x) :: v => is_blob x ∧ matches_format fmt v
      | _ => False
    else False

/-- The target that holds the value `a` after it was unpacked. -/
def Arg.unpacked : Arg → Out
  | Arg.l x => Out.l (some x)
  | Arg.d x => Out.d (some x)
  | Arg.s x => Out.s (some x)
  | Arg.b x => Out.b (x.map List.length) (some x)

/-- The output argument `o` is a valid (non-NULL) target for a value of the kind of `a`. -/
def Out.target_of : Out → Arg → Prop
  | Out.l (some _), Arg.l _ => True
  | Out.d (some _), Arg.d _ => True
  | Out.s (some _), Arg.s _ => True
  | Out.b (some _) (some _), Arg.b _ => True
  | _, _ => False

/-- The number of arguments that the characters of a format consume: one for
each `l`, `d`, `s` and `b` (the size and the pointer of a blob count as one). -/
def slots : List Char → Nat
  | [] => 0
  | c :: fmt => if c = 'l' ∨ c = 'd' ∨ c = 's' ∨ c = 'b' then slots fmt + 1 else slots fmt

/-- The byte order in effect behind the characters of a format: `<` selects
little-endian and `>` big-endian. -/
def little_endian_after : Bool → List Char → Bool
  | little_endian, [] => little_endian
  | little_endian, c :: fmt =>
    little_endian_after (if c = '<' then true else if c = '>' then false else little_endian) fmt

/-- The frame property of `bunpack_v` for a call with the allocator `malloc`
that returned `code` with the targets `ap1`: the format splits at a character
`c` behind the characters `pre`; unpacking `pre` alone succeeds and gives the
first targets of `ap1`; the slot `c` fails with `code` on the data store left
by `pre`; the targets from this slot on are those of `ap`. -/
def frame_at (malloc : Nat → Bool) (fmt : List Char) (le : Bool) (ds : data_store_t)
    (ap : List Out) (code : Int) (ds1 : data_store_t) (ap1 : List Out) : Prop :=
  ∃ pre c post ds0, fmt = pre ++ c :: post ∧
    bunpack_v pre le ds (ap.take (slots pre)) malloc
      = some (ERROR_OK, ds0, ap1.take (slots pre)) ∧
    bunpack_v [c] (little_endian_after le pre) ds0 (ap.drop (slots pre)) malloc
      = some (code, ds1, ap.drop (slots pre)) ∧
    ap1.drop (slots pre) = ap.drop (slots pre)

/-- The eight bytes `bpack` writes for the integer `v`. -/
def enc_l (little_endian : Bool) (v : Int) : Bytes :=
  bytes_of_word 8 (if little_endian then htole64 (to_uint64 v) else htobe64 (to_uint64 v))

/-- The bytes `bpack` writes for the double `val`: the byte of the flags, then,
when the value is finite and not zero, the exponent in two bytes and the
mantissa in eight. -/
def enc_d (little_endian : Bool) (val : Nat) : Bytes :=
  let sign := bpack_d_sign val
  if sign &&& DOUBLE_NAN ≠ 0 ∨ sign &&& DOUBLE_INF ≠ 0 ∨ sign &&& DOUBLE_ZERO ≠ 0 then
    [byte_of sign]
  else
    let exponent : Int := (frexp (fabs val)).2
    let exp : Nat :=
      if little_endian then htole16 (to_uint16 exponent) else htobe16 (to_uint16 exponent)
    byte_of sign :: (bytes_of_word 2 exp ++
      enc_l little_endian (to_int64 ((frexp (fabs val)).1 &&& 0xfffffffffffff)))

/-- The bytes `bpack` writes for the blob `b`: the length, then the content. -/
def enc_b (little_endian : Bool) (b : Bytes) : Bytes :=
  enc_l little_endian (to_int64 b.length) ++ b

/-- The bytes `bpack` writes for the string that starts at `s`. -/
def enc_s (little_endian : Bool) (s : Bytes) : Bytes := enc_b little_endian (cstr s)

/-- Modelled from the spec: the unsigned 64-bit integer `n` in eight bytes, the
least significant byte first (little-endian). -/
def le64 (n : Nat) : Bytes := (List.range 8).map (fun i => byte_of (n / 256 ^ i))

/-- Modelled from the spec: the unsigned 64-bit integer `n` in eight bytes, the
most significant byte first (big-endian). -/
def be64 (n : Nat) : Bytes := (List.range 8).map (fun i => byte_of (n / 256 ^ (7 - i)))

/-- Modelled from the spec: the 16-bit integer `e` in two bytes, the least
significant byte first (little-endian). -/
def le16 (e : Int) : Bytes := [byte_of (to_uint16 e), byte_of (to_uint16 e / 256)]

/-- Modelled from the spec: the 16-bit integer `e` in two bytes, the most
significant byte first (big-endian). -/
def be16 (e : Int) : Bytes := [byte_of (to_uint16 e / 256), byte_of (to_uint16 e)]

/-- Modelled from the spec: the eleven bytes of a finite double that is not
zero: the sign byte `0x00` or `0x01`, the exponent that `frexp` gives for the
absolute value as a 16-bit integer, and the 52 fraction bits of the normalized
fraction as a 64-bit integer, both in the byte order chosen. -/
def finite_double_bytes (little_endian : Bool) (x : Nat) : Bytes :=
  (if signbit x then (0x01 : Byte) else 0x00) ::
    ((if little_endian then le16 (frexp (fabs x)).2 else be16 (frexp (fabs x)).2) ++
      (if little_endian then le64 (dbl_frac (frexp (fabs x)).1)
        else be64 (dbl_frac (frexp (fabs x)).1)))

/-- Modelled from the spec: the byte that stands for a double that is NaN,
infinite or zero: `0x02` for a NaN, `0x04` and `0x05` for +infinity and
-infinity, `0x08` and `0x09` for +0.0 and -0.0. -/
def special_double_byte (x : Nat) : Byte :=
  if isnan x then 0x02
  else if isinf x then (if signbit x then 0x05 else 0x04)
  else if signbit x then 0x09 else 0x08

/-- The bytes of a request: the tag byte, the domain and the key packed with
`"ss"`, then the packed arguments of the operation. -/
def request (tag : Byte) (domain key payload : Bytes) : Bytes :=
  tag :: (enc_s true domain ++ enc_s true key ++ payload)

/-- The bytes of the error reply with the code `e`: the tag byte `PACKET_ERROR`,
then `e` packed with `"l"`. -/
def error_response (e : Int) : Bytes := PACKET_ERROR :: enc_l true e

/-! ## server/database.h: the interface of the value store

`server_process` reaches the value store only through the functions declared
in `database.h`.  `Store σ` is that interface over a store state `σ` (the
target of `database_handle_t*`); the model of `database.c` further down
provides the functions themselves. -/

/-- The return codes of the functions of `database.c`. -/
inductive DbCode where
  | OK
  | MEMORY
  | INVALID_ARGUMENTS
  | DATABASE_OPEN
  | DATABASE_INVALID
  | DATABASE_NO_SUCH_KEY
  | DATABASE_IOERR
  | DATABASE_TYPE_MISMATCH
  | DATABASE_TYPE_UNKNOWN
deriving DecidableEq, Repr

/-- The `int` value of a return code of `database.c`. -/
def DbCode.toInt : DbCode → Int
  | DbCode.OK => ERROR_OK
  | DbCode.MEMORY => ERROR_MEMORY
  | DbCode.INVALID_ARGUMENTS => ERROR_INVALID_ARGUMENTS
  | DbCode.DATABASE_OPEN => ERROR_DATABASE_OPEN
  | DbCode.DATABASE_INVALID => ERROR_DATABASE_INVALID
  | DbCode.DATABASE_NO_SUCH_KEY => ERROR_DATABASE_NO_SUCH_KEY
  | DbCode.DATABASE_IOERR => ERROR_DATABASE_IO
  | DbCode.DATABASE_TYPE_MISMATCH => ERROR_DATABASE_TYPE_MISMATCH
  | DbCode.DATABASE_TYPE_UNKNOWN => ERROR_DATABASE_TYPE_UNKNOWN

def DATABASE_TYPE_INT64 : Nat := 0
def DATABASE_TYPE_DOUBLE : Nat := 1
def DATABASE_TYPE_STRING : Nat := 2
def DATABASE_TYPE_BLOB : Nat := 3

/-- The functions of `database.h` on a store state `σ`.  Domains, keys and
string values are passed as `char*`, a blob as its bytes.  A function returns
its code, what it stored through its output pointers, and the store afterwards;
the outputs count only when the code is `OK`.  `enum_keys` is called with
`count = 0`, `size = 0`, `keys = NULL` and returns the count and the `keys`
pointer (whose length is `size`).  A result `none` stands for a call that does
not return. -/
structure Store (σ : Type) where
  get_int64 : σ → Bytes → Bytes → Option (DbCode × Int × σ)
  set_int64 : σ → Bytes → Bytes → Int → Option (DbCode × σ)
  get_double : σ → Bytes → Bytes → Option (DbCode × Nat × σ)
  set_double : σ → Bytes → Bytes → Nat → Option (DbCode × σ)
  get_string : σ → Bytes → Bytes → Option (DbCode × Bytes × σ)
  set_string : σ → Bytes → Bytes → Bytes → Option (DbCode × σ)
  get_blob : σ → Bytes → Bytes → Option (DbCode × Bytes × σ)
  set_blob : σ → Bytes → Bytes → Bytes → Option (DbCode × σ)
  enum_keys : σ → Bytes → Bytes → Option (DbCode × (Nat × Option Bytes) × σ)
  get_type : σ → Bytes → Bytes → Option (DbCode × Nat × σ)
  close : σ → Option (DbCode × σ)
  /-- The function `database_open` on a path: the code and, when the code is
  `OK`, the handle. -/
  open_path : Bytes → DbCode × Option σ
  /-- The function `database_enum_keys` allocates `keys` when it appends the
  first key and counts every key it appends. -/
  enum_keys_spec : ∀ s d p c ks s1, enum_keys s d p = some (DbCode.OK, (c, ks), s1) →
    (ks = none ↔ c = 0)

/-! ## server/server.c -/

/-- The state `server_t`: the database handle. -/
structure server_t (σ : Type) where
  db : σ
deriving DecidableEq

/-- The function `sendPacket`: the response is the content of the data store. -/
def sendPacket (ds : data_store_t) : Int × Bytes :=
  (ERROR_OK, simple_memory_buffer_get_data ds)

/-- The function `server_shutdown` on a server whose database is open. -/
def server_shutdown {σ : Type} (S : Store σ) (server : server_t σ) :
    Option (Int × server_t σ) :=
  match S.close server.db with
  | none => none
  | some r => if r.1 ≠ DbCode.OK then some (ERROR_UNKNOWN, ⟨r.2⟩) else some (ERROR_OK, ⟨r.2⟩)

/-- The reply part `data_store_write_byte(&response_ds, tag) != ERROR_OK ||
bpack(&response_ds, fmt, ...) != ERROR_OK` of a branch of `server_process`: the
value of `ret` and the response data store. -/
def server_reply (tag : Byte) (fmt : String) (ap : List Arg) (response_ds : data_store_t) :
    Option (Int × data_store_t) :=
  if (data_store_write_byte response_ds tag).1 ≠ ERROR_OK then
    some (ERROR_UNKNOWN, (data_store_write_byte response_ds tag).2)
  else
    match bpack (data_store_write_byte response_ds tag).2 fmt ap with
    | some (code, ds) => if code ≠ ERROR_OK then some (ERROR_UNKNOWN, ds) else some (ERROR_OK, ds)
    | none => none

/-- The reply of a set branch of `server_process`:
`if (data_store_write_byte(&response_ds, PACKET_OK) != ERROR_OK) ret = ERROR_UNKNOWN`. -/
def server_reply_ok (response_ds : data_store_t) : Int × data_store_t :=
  if (data_store_write_byte response_ds PACKET_OK).1 ≠ ERROR_OK then
    (ERROR_UNKNOWN, (data_store_write_byte response_ds PACKET_OK).2)
  else (ERROR_OK, (data_store_write_byte response_ds PACKET_OK).2)

/-- The reply of the branch `PACKET_GET_ENUM` of `server_process`: the tag byte
is written, then `bpack` runs with `"l"` when `keys` is NULL and with `"lb"`
otherwise; a failure of either sets `ret` to `ERROR_UNKNOWN`. -/
def server_reply_enum (count : Nat) (keys : Option Bytes) (response_ds : data_store_t) :
    Option (Int × data_store_t) :=
  let w := data_store_write_byte response_ds PACKET_ENUM
  let ret : Int := if w.1 ≠ ERROR_OK then ERROR_UNKNOWN else ERROR_OK
  match keys with
  | none =>
    (bpack w.2 "l" [Arg.l (to_int64 count)]).map
      (fun x => (if x.1 ≠ ERROR_OK then ERROR_UNKNOWN else ret, x.2))
  | some keys =>
    (bpack w.2 "lb" [Arg.l (to_int64 count), Arg.b (some keys)]).map
      (fun x => (if x.1 ≠ ERROR_OK then ERROR_UNKNOWN else ret, x.2))

/-- The `switch (packettype)` of `server_process`: the value of `ret`, the
response data store and the server afterwards. -/
def server_dispatch {σ : Type} (S : Store σ) (server : server_t σ) (packettype : Byte)
    (domain key : Bytes) (ds response_ds : data_store_t) :
    Option (Int × data_store_t × server_t σ) :=
  if packettype = PACKET_GET_INT then
    match S.get_int64 server.db domain key with
    | none => none
    | some r =>
      if r.1 ≠ DbCode.OK then some (r.1.toInt, response_ds, ⟨r.2.2⟩)
      else (server_reply PACKET_INT "l" [Arg.l r.2.1] response_ds).map
        (fun x => (x.1, x.2, ⟨r.2.2⟩))
  else if packettype = PACKET_SET_INT then
    match bunpack ds "l" [Out.l (some 0)] with
    | some (code, _, [Out.l (some integer)]) =>
      if code ≠ ERROR_OK then some (ERROR_UNKNOWN, response_ds, server)
      else
        match S.set_int64 server.db domain key integer with
        | none => none
        | some r =>
          if r.1 ≠ DbCode.OK then some (r.1.toInt, response_ds, ⟨r.2⟩)
          else some ((server_reply_ok response_ds).1, (server_reply_ok response_ds).2, ⟨r.2⟩)
    | _ => none
  else if packettype = PACKET_GET_DOUBLE then
    match S.get_double server.db domain key with
    | none => none
    | some r =>
      if r.1 ≠ DbCode.OK then some (r.1.toInt, response_ds, ⟨r.2.2⟩)
      else (server_reply PACKET_DOUBLE "d" [Arg.d r.2.1] response_ds).map
        (fun x => (x.1, x.2, ⟨r.2.2⟩))
  else if packettype = PACKET_SET_DOUBLE then
    match bunpack ds "d" [Out.d (some 0)] with
    | some (code, _, [Out.d (some dob)]) =>
      if code ≠ ERROR_OK then some (ERROR_UNKNOWN, response_ds, server)
      else
        match S.set_double server.db domain key dob with
        | none => none
        | some r =>
          if r.1 ≠ DbCode.OK then some (r.1.toInt, response_ds, ⟨r.2⟩)
          else some ((server_reply_ok response_ds).1, (server_reply_ok response_ds).2, ⟨r.2⟩)
    | _ => none
  else if packettype = PACKET_GET_STRING then
    match S.get_string server.db domain key with
    | none => none
    | some r =>
      if r.1 ≠ DbCode.OK then some (r.1.toInt, response_ds, ⟨r.2.2⟩)
      else (server_reply PACKET_STRING "s" [Arg.s (some r.2.1)] response_ds).map
        (fun x => (x.1, x.2, ⟨r.2.2⟩))
  else if packettype = PACKET_SET_STRING then
    match bunpack ds "s" [Out.s (some none)] with
    | some (code, _, [Out.s (some string)]) =>
      if code ≠ ERROR_OK then some (ERROR_UNKNOWN, response_ds, server)
      else
        match string with
        | some string =>
          match S.set_string server.db domain key string with
          | none => none
          | some r =>
            if r.1 ≠ DbCode.OK then some (r.1.toInt, response_ds, ⟨r.2⟩)
            else some ((server_reply_ok response_ds).1, (server_reply_ok response_ds).2, ⟨r.2⟩)
        | none => none
    | _ => none
  else if packettype = PACKET_GET_BLOB then
    match S.get_blob server.db domain key with
    | none => none
    | some r =>
      if r.1 ≠ DbCode.OK then some (r.1.toInt, response_ds, ⟨r.2.2⟩)
      else (server_reply PACKET_BLOB "b" [Arg.b (some r.2.1)] response_ds).map
        (fun x => (x.1, x.2, ⟨r.2.2⟩))
  else if packettype = PACKET_SET_BLOB then
    match bunpack ds "b" [Out.b (some 0) (some none)] with
    | some (code, _, [Out.b (some _) (some blob)]) =>
      if code ≠ ERROR_OK then some (ERROR_UNKNOWN, response_ds, server)
      else
        match blob with
        | some blob =>
          match S.set_blob server.db domain key blob with
          | none => none
          | some r =>
            if r.1 ≠ DbCode.OK then some (r.1.toInt, response_ds, ⟨r.2⟩)
            else some ((server_reply_ok response_ds).1, (server_reply_ok response_ds).2, ⟨r.2⟩)
        | none => none
    | _ => none
  else if packettype = PACKET_GET_ENUM then
    match S.enum_keys server.db domain key with
    | none => none
    | some r =>
      if r.1 ≠ DbCode.OK then some (r.1.toInt, response_ds, ⟨r.2.2⟩)
      else (server_reply_enum r.2.1.1 r.2.1.2 response_ds).map (fun x => (x.1, x.2, ⟨r.2.2⟩))
  else if packettype = PACKET_GET_VALUE_TYPE then
    match S.get_type server.db domain key with
    | none => none
    | some r =>
      if r.1 ≠ DbCode.OK then some (r.1.toInt, response_ds, ⟨r.2.2⟩)
      else (server_reply PACKET_TYPE "l" [Arg.l (r.2.1 : Int)] response_ds).map
        (fun x => (x.1, x.2, ⟨r.2.2⟩))
  else if packettype = PACKET_SHUTDOWN then
    match server_shutdown S server with
    | none => none
    | some r =>
      if r.1 ≠ ERROR_OK then some (ERROR_UNKNOWN, response_ds, r.2)
      else some (ERROR_SERVER_SHUTDOWN, response_ds, r.2)
  else some (ERROR_UNKNOWN, response_ds, server)

/-- The error packet of `server_process` for the code `ret`: the value returned
and the response. -/
def server_error_packet (ret : Int) : Option (Int × Bytes) :=
  (server_reply PACKET_ERROR "l" [Arg.l ret] (simple_memory_buffer_new [])).map
    (fun x => if x.1 ≠ ERROR_OK then (ERROR_UNKNOWN, []) else (ERROR_OK, (sendPacket x.2).2))

/-- The decode step of `server_process`: the tag byte, then the domain and the
key (`data_store_read_byte(&ds, &packettype)`, then `bunpack(&ds, "ss", &domain,
&key)`).  The result is the value of `ret`, the packet type, the data store
afterwards, the domain and the key. -/
def server_decode (data : Bytes) :
    Option (Int × Option Byte × data_store_t × Bytes × Bytes) :=
  match data_store_read_byte (simple_memory_buffer_new data) with
  | (code, packettype, ds1) =>
    if code ≠ ERROR_OK then some (code, packettype, ds1, [], [])
    else
      match bunpack ds1 "ss" [Out.s (some none), Out.s (some none)] with
      | some (c, ds2, [Out.s (some domain), Out.s (some key)]) =>
        some (c, packettype, ds2, domain.getD [], key.getD [])
      | _ => none

/-- The end of `server_process`, from the comment `send packet` on: the value
returned, the response (`none` when `*response` was not written) and the server. -/
def server_send {σ : Type} (ret : Int) (response_ds : data_store_t) (server1 : server_t σ) :
    Option (Int × Option Bytes × server_t σ) :=
  -- send packet
  let sent : Int × Option Bytes :=
    if ret = ERROR_OK then
      (if (sendPacket response_ds).1 ≠ ERROR_OK then ERROR_UNKNOWN else ret,
        some (sendPacket response_ds).2)
    else (ret, none)
  -- error packet
  if sent.1 ≠ ERROR_OK ∧ sent.1 ≠ ERROR_SERVER_SHUTDOWN then
    (server_error_packet sent.1).map
      (fun x => (x.1, if x.1 = ERROR_OK then some x.2 else sent.2, server1))
  else some (sent.1, sent.2, server1)

/-- The function `server_process` on a server with an open database and
non-NULL `data`, `response` and `response_size`: the value returned, the
response (`none` when `*response` was not written) and the server afterwards. -/
def server_process {σ : Type} (S : Store σ) (server : server_t σ) (data : Bytes) :
    Option (Int × Option Bytes × server_t σ) :=
  if strlen data = 0 ∨ data.length = 0 then some (ERROR_INVALID_ARGUMENTS, none, server)
  else
    match server_decode data with
    | none => none
    | some (ret, packettype, ds2, domain, key) =>
      let response_ds := simple_memory_buffer_new []
      let switched : Option (Int × data_store_t × server_t σ) :=
        if ret = ERROR_OK then
          server_dispatch S server (packettype.getD 0) domain key ds2 response_ds
        else some (ret, response_ds, server)
      match switched with
      | none => none
      | some (ret, response_ds, server1) => server_send ret response_ds server1

/-! ## communication/crypto/hmac.c

The SHA-1 implementation (`sha1_impl.h`, `sha1()`) is not among the sources; it
is a parameter of the development. -/

/-- The size of a SHA-1 hash in bytes. -/
def SHA1_BLOCKSIZE : Nat := 20

/-- A hash function with SHA-1 output size: `SHA1Reset`, `SHA1Input ...`,
`SHA1Result` on the concatenated input. -/
structure Sha1 where
  hash : Bytes → Bytes
  hash_length : ∀ m, (hash m).length = SHA1_BLOCKSIZE

/-- The byte-wise exclusive or of the 64 bytes of a pad with `c`. -/
def xor_pad (k : Bytes) (c : Byte) : Bytes := k.map (fun b => b ^^^ c)

/-- The function `hmac`: the code and the 20 bytes written to the output. -/
def hmac (H : Sha1) (key message : Bytes) : Int × Bytes :=
  if key.length = 0 ∨ message.length = 0 then (ERROR_INVALID_ARGUMENTS, [])
  else
    -- a key longer than 64 bytes is replaced by its hash
    let key : Bytes := if key.length > 64 then H.hash key else key
    -- the key is stored in the zeroed pads and XORed with ipad and opad
    let k_ipad : Bytes := xor_pad (key ++ List.replicate (64 - key.length) 0) 0x36
    let k_opad : Bytes := xor_pad (key ++ List.replicate (64 - key.length) 0) 0x5c
    -- inner SHA-1, then outer SHA-1
    (ERROR_OK, H.hash (k_opad ++ H.hash (k_ipad ++ message)))

/-- Modelled from the spec: HMAC over the hash `H` as RFC 2104 defines it,
`H((K0 xor opad) || H((K0 xor ipad) || m))`, where `ipad` is 64 bytes `0x36`,
`opad` is 64 bytes `0x5c`, and `K0` is the key padded with zero bytes to 64
bytes when it has at most 64 bytes, and the hash of the key padded with zero
bytes to 64 bytes otherwise. -/
def hmac_rfc2104 (H : Sha1) (K m : Bytes) : Bytes :=
  let K0 : Bytes :=
    if K.length ≤ 64 then K ++ List.replicate (64 - K.length) 0
    else H.hash K ++ List.replicate (64 - (H.hash K).length) 0
  let ipad : Bytes := List.replicate 64 0x36
  let opad : Bytes := List.replicate 64 0x5c
  H.hash (List.zipWith (fun a b => a ^^^ b) K0 opad
    ++ H.hash (List.zipWith (fun a b => a ^^^ b) K0 ipad ++ m))

/-- The function `hmac_verify`. -/
def hmac_verify (H : Sha1) (key message hmac_value : Bytes) : Int :=
  if key.length = 0 ∨ message.length = 0 then ERROR_INVALID_ARGUMENTS
  else if (hmac H key message).1 ≠ ERROR_OK then ERROR_HMAC_VERIFICATION_FAILED
  else if hmac_value.take SHA1_BLOCKSIZE ≠ (hmac H key message).2.take SHA1_BLOCKSIZE then
    ERROR_HMAC_VERIFICATION_FAILED
  else ERROR_OK

/-! ## communication/channel-hmac.c

An HMAC channel has no state of its own besides its key; the functions below
take the child channel `child` (of any channel type `χ`) and the function that
calls the child, as the C code does through `channel_t`. -/

/-- The data `channel_hmac_t` without the child: the key (`keysize` is its length). -/
structure channel_hmac_t where
  key : Option Bytes
deriving DecidableEq, Repr

/-- The test `ch->key != NULL && ch->keysize != 0`. -/
def channel_hmac_t.keyed (ch : channel_hmac_t) : Option Bytes :=
  match ch.key with
  | some k => if k.length ≠ 0 then some k else none
  | none => none

/-- The function `channel_hmac_set_key` on an HMAC channel: `key` points to at
least `len` bytes. -/
def channel_hmac_set_key (ch : channel_hmac_t) (key : Option Bytes) (len : Nat) :
    Int × channel_hmac_t :=
  if len = 0 then (ERROR_INVALID_ARGUMENTS, ch)
  else
    match key with
    | none => (ERROR_OK, ⟨none⟩)
    | some k => if strlen k = 0 then (ERROR_OK, ⟨none⟩) else (ERROR_OK, ⟨some (k.take len)⟩)

/-- The part of `ch_client_read_bytes` and `ch_server_read_bytes` after the
call of the child: `r` is what the child returned.  With a key set the code
does not compare `message_size` with the size of the digest, and the result is
`none` (no defined behaviour) for a message of 20 bytes or fewer: for fewer
than 20 bytes `message_size - digest_size` wraps around and the digest is
copied from before the start of the message; for exactly 20 bytes
`editMemory(&message, 0)` calls `realloc(message, 0)`, which frees the message
and returns NULL, and `editMemory` then frees the message a second time. -/
def ch_read_bytes {χ : Type} (H : Sha1) (ch : channel_hmac_t) (r : Int × Option Bytes × χ) :
    Option (Int × Option Bytes × χ) :=
  if r.1 ≠ ERROR_OK then some (r.1, none, r.2.2)
  else
    match r.2.1 with
    | none => some (ERROR_UNKNOWN, none, r.2.2)
    | some message =>
      if strlen message = 0 ∨ message.length = 0 then some (ERROR_UNKNOWN, none, r.2.2)
      else
        match ch.keyed with
        | some key =>
          if message.length ≤ SHA1_BLOCKSIZE then none
          else
            let digest := message.drop (message.length - SHA1_BLOCKSIZE)
            let message := message.take (message.length - SHA1_BLOCKSIZE)
            if hmac_verify H key message digest ≠ ERROR_OK then some (ERROR_UNKNOWN, none, r.2.2)
            else some (ERROR_OK, some message, r.2.2)
        | none => some (ERROR_OK, some message, r.2.2)

/-- The function `ch_client_read_bytes`; `child_read` is
`channel_client_read_bytes(ch->child, ...)`. -/
def ch_client_read_bytes {χ : Type} (H : Sha1) (ch : channel_hmac_t)
    (child_read : Option (Int × Option Bytes × χ)) : Option (Int × Option Bytes × χ) :=
  match child_read with
  | some r => ch_read_bytes H ch r
  | none => none

/-- The function `ch_server_read_bytes`; `child_read` is
`channel_server_read_bytes(ch->child, ...)`. -/
def ch_server_read_bytes {χ : Type} (H : Sha1) (ch : channel_hmac_t)
    (child_read : Option (Int × Option Bytes × χ)) : Option (Int × Option Bytes × χ) :=
  match child_read with
  | some r => ch_read_bytes H ch r
  | none => none

/-- The part of `ch_client_write_bytes` and `ch_server_write_bytes` before the
call of the child: the error code, or the message that is forwarded. -/
def ch_write_message (H : Sha1) (ch : channel_hmac_t) (bytes : Bytes) : Except Int Bytes :=
  if strlen bytes = 0 ∨ bytes.length = 0 then Except.error ERROR_INVALID_ARGUMENTS
  else
    match ch.keyed with
    | some key =>
      if (hmac H key bytes).1 ≠ ERROR_OK then Except.error ERROR_UNKNOWN
      else Except.ok (bytes ++ (hmac H key bytes).2.take SHA1_BLOCKSIZE)
    | none => Except.ok bytes

/-- The function `ch_client_write_bytes`; `child_write message` is
`channel_client_write_bytes(ch->child, message, message_size)`. -/
def ch_client_write_bytes {χ : Type} (H : Sha1) (ch : channel_hmac_t) (child : χ)
    (child_write : Bytes → Option (Int × χ)) (bytes : Bytes) : Option (Int × χ) :=
  match ch_write_message H ch bytes with
  | Except.error e => some (e, child)
  | Except.ok message =>
    match child_write message with
    | some (ret, child1) => if ret ≠ ERROR_OK then some (ERROR_UNKNOWN, child1) else some (ret, child1)
    | none => none

/-- The function `ch_server_write_bytes`; `child_write message` is
`channel_server_write_bytes(ch->child, message, message_size)`. -/
def ch_server_write_bytes {χ : Type} (H : Sha1) (ch : channel_hmac_t) (child : χ)
    (child_write : Bytes → Option (Int × χ)) (bytes : Bytes) : Option (Int × χ) :=
  match ch_write_message H ch bytes with
  | Except.error e => some (e, child)
  | Except.ok message =>
    match child_write message with
    | some (ret, child1) => if ret ≠ ERROR_OK then some (ERROR_UNKNOWN, child1) else some (ret, child1)
    | none => none

/-! ## communication/channel-with-server.c, channel-endpoint-connector.c, channel.c -/

/-- The data `channel_server_t`: the reply slot (`client_size` is its length)
and the server. -/
structure channel_server_t (σ : Type) where
  client_data : Option Bytes
  server : server_t σ
deriving DecidableEq

/-- The data `channel_endpoint_connector_t` without the owned server channel.
The forward reference `endpoint` points to an HMAC channel of the chain that is
stacked on this connector, or is NULL; it is kept as the HMAC channels from
that channel down to this connector, the top one first.  Calls through
`endpoint` therefore end in `cec_server_read_bytes` and
`cec_server_write_bytes` of this same connector. -/
structure channel_endpoint_connector_t where
  endpoint : Option (List channel_hmac_t)
  client_bytes : Option Bytes
  server_bytes : Option Bytes
deriving DecidableEq, Repr

/-- The struct `channel_t` with its three implementations. -/
inductive channel_t (σ : Type) where
  | with_server (cs : channel_server_t σ)
  | endpoint_connector (cec : channel_endpoint_connector_t) (server : channel_t σ)
  | hmac (ch : channel_hmac_t) (child : channel_t σ)
deriving DecidableEq

/-- The function `cs_client_read_bytes`. -/
def cs_client_read_bytes {σ : Type} (cs : channel_server_t σ) :
    Int × Option Bytes × channel_server_t σ :=
  match cs.client_data with
  | none => (ERROR_CHANNEL_BUSY, none, cs)
  | some data => (ERROR_OK, some data, { cs with client_data := none })

/-- The function `cs_server_write_bytes`. -/
def cs_server_write_bytes {σ : Type} (cs : channel_server_t σ) (bytes : Bytes) :
    Int × channel_server_t σ :=
  if bytes.length = 0 then (ERROR_INVALID_ARGUMENTS, cs)
  else if cs.client_data ≠ none then (ERROR_CHANNEL_BUSY, cs)
  else (ERROR_OK, { cs with client_data := some bytes })

/-- The function `cs_client_write_bytes`.  The loop
`while ((ret = channel_server_write_bytes(...)) == ERROR_CHANNEL_BUSY);` does
not end when the call answers busy, as a busy call changes nothing. -/
def cs_client_write_bytes {σ : Type} (S : Store σ) (cs : channel_server_t σ) (bytes : Bytes) :
    Option (Int × channel_server_t σ) :=
  if bytes.length = 0 then some (ERROR_INVALID_ARGUMENTS, cs)
  else if cs.client_data ≠ none then some (ERROR_CHANNEL_BUSY, cs)
  else
    match server_process S cs.server bytes with
    | none => none
    | some (ret, result, server1) =>
      if ret ≠ ERROR_OK then some (ERROR_CHANNEL_FAILED, { cs with server := server1 })
      else
        let w := cs_server_write_bytes { cs with server := server1 } (result.getD [])
        if w.1 = ERROR_CHANNEL_BUSY then none else some w

/-- The function `cec_server_read_bytes`. -/
def cec_server_read_bytes (cec : channel_endpoint_connector_t) :
    Int × Option Bytes × channel_endpoint_connector_t :=
  if cec.endpoint = none then (ERROR_INVALID_ARGUMENTS, none, cec)
  else
    match cec.server_bytes with
    | none => (ERROR_CHANNEL_BUSY, none, cec)
    | some bytes => (ERROR_OK, some bytes, { cec with server_bytes := none })

/-- The function `cec_server_write_bytes`. -/
def cec_server_write_bytes (cec : channel_endpoint_connector_t) (bytes : Bytes) :
    Int × channel_endpoint_connector_t :=
  if bytes.length = 0 then (ERROR_INVALID_ARGUMENTS, cec)
  else if cec.endpoint = none then (ERROR_INVALID_ARGUMENTS, cec)
  else if cec.client_bytes ≠ none then (ERROR_CHANNEL_BUSY, cec)
  else (ERROR_OK, { cec with client_bytes := some bytes })

/-- The call `channel_server_read_bytes(endpoint, ...)` on the HMAC chain
`chain` that ends in the connector `cec`. -/
def endpoint_server_read_bytes (H : Sha1) :
    List channel_hmac_t → channel_endpoint_connector_t →
      Option (Int × Option Bytes × channel_endpoint_connector_t)
  | [], cec => some (cec_server_read_bytes cec)
  | ch :: chain, cec => ch_server_read_bytes H ch (endpoint_server_read_bytes H chain cec)

/-- The call `channel_server_write_bytes(endpoint, bytes, size)` on the HMAC
chain `chain` that ends in the connector `cec`. -/
def endpoint_server_write_bytes (H : Sha1) :
    List channel_hmac_t → channel_endpoint_connector_t → Bytes →
      Option (Int × channel_endpoint_connector_t)
  | [], cec, bytes => some (cec_server_write_bytes cec bytes)
  | ch :: chain, cec, bytes =>
    if bytes.length = 0 then some (ERROR_INVALID_ARGUMENTS, cec)
    else
      ch_server_write_bytes H ch cec (fun m => endpoint_server_write_bytes H chain cec m) bytes

/-- The function `channel_client_read_bytes` with the functions it dispatches
to: `cs_client_read_bytes`, `cec_client_read_bytes`, `ch_client_read_bytes`. -/
def channel_client_read_bytes {σ : Type} (H : Sha1) :
    channel_t σ → Option (Int × Option Bytes × channel_t σ)
  | channel_t.with_server cs =>
    some ((cs_client_read_bytes cs).1, (cs_client_read_bytes cs).2.1,
      channel_t.with_server (cs_client_read_bytes cs).2.2)
  | channel_t.endpoint_connector cec server =>
    -- cec_client_read_bytes
    match cec.endpoint with
    | none => some (ERROR_INVALID_ARGUMENTS, none, channel_t.endpoint_connector cec server)
    | some endpoint =>
      if cec.client_bytes ≠ none then
        some (ERROR_CHANNEL_BUSY, none, channel_t.endpoint_connector cec server)
      else
        -- get the data from the server
        match channel_client_read_bytes H server with
        | none => none
        | some (err, tmp_bytes, server1) =>
          if err ≠ ERROR_OK then some (err, none, channel_t.endpoint_connector cec server1)
          else
            -- pass it through the chain
            match endpoint_server_write_bytes H endpoint cec (tmp_bytes.getD []) with
            | none => none
            | some (err, cec1) =>
              if err ≠ ERROR_OK then some (err, none, channel_t.endpoint_connector cec1 server1)
              else
                some (ERROR_OK, cec1.client_bytes,
                  channel_t.endpoint_connector { cec1 with client_bytes := none } server1)
  | channel_t.hmac ch child =>
    (ch_client_read_bytes H ch (channel_client_read_bytes H child)).map
      (fun r => (r.1, r.2.1, channel_t.hmac ch r.2.2))

/-- The function `channel_server_write_bytes` on a channel that is reached from
the server side of a stack: `cs_server_write_bytes`, `cec_server_write_bytes`,
`ch_server_write_bytes`. -/
def channel_server_write_bytes {σ : Type} (H : Sha1) :
    channel_t σ → Bytes → Option (Int × channel_t σ)
  | channel_t.with_server cs, bytes =>
    some ((cs_server_write_bytes cs bytes).1, channel_t.with_server (cs_server_write_bytes cs bytes).2)
  | channel_t.endpoint_connector cec server, bytes =>
    some ((cec_server_write_bytes cec bytes).1,
      channel_t.endpoint_connector (cec_server_write_bytes cec bytes).2 server)
  | channel_t.hmac ch child, bytes =>
    if bytes.length = 0 then some (ERROR_INVALID_ARGUMENTS, channel_t.hmac ch child)
    else
      (ch_server_write_bytes H ch child (fun m => channel_server_write_bytes H child m) bytes).map
        (fun r => (r.1, channel_t.hmac ch r.2))

/-- The function `channel_server_read_bytes`: `cec_server_read_bytes`,
`ch_server_read_bytes`; the server channel has no `server_read_bytes`. -/
def channel_server_read_bytes {σ : Type} (H : Sha1) :
    channel_t σ → Option (Int × Option Bytes × channel_t σ)
  | channel_t.with_server cs => some (ERROR_INVALID_ARGUMENTS, none, channel_t.with_server cs)
  | channel_t.endpoint_connector cec server =>
    some ((cec_server_read_bytes cec).1, (cec_server_read_bytes cec).2.1,
      channel_t.endpoint_connector (cec_server_read_bytes cec).2.2 server)
  | channel_t.hmac ch child =>
    (ch_server_read_bytes H ch (channel_server_read_bytes H child)).map
      (fun r => (r.1, r.2.1, channel_t.hmac ch r.2.2))

/-- The function `channel_client_write_bytes` with the functions it dispatches
to: `cs_client_write_bytes`, `cec_client_write_bytes`, `ch_client_write_bytes`. -/
def channel_client_write_bytes {σ : Type} (H : Sha1) (S : Store σ) :
    channel_t σ → Bytes → Option (Int × channel_t σ)
  | channel_t.with_server cs, bytes =>
    (cs_client_write_bytes S cs bytes).map (fun r => (r.1, channel_t.with_server r.2))
  | channel_t.endpoint_connector cec server, bytes =>
    -- cec_client_write_bytes
    if bytes.length = 0 then
      some (ERROR_INVALID_ARGUMENTS, channel_t.endpoint_connector cec server)
    else
      match cec.endpoint with
      | none => some (ERROR_INVALID_ARGUMENTS, channel_t.endpoint_connector cec server)
      | some endpoint =>
        -- store the data
        if cec.server_bytes ≠ none then
          some (ERROR_CHANNEL_BUSY, channel_t.endpoint_connector cec server)
        else
          -- simulate a server
          match endpoint_server_read_bytes H endpoint { cec with server_bytes := some bytes } with
          | none => none
          | some (err, tmp_bytes, cec1) =>
            if err ≠ ERROR_OK then
              some (err, channel_t.endpoint_connector { cec1 with server_bytes := none } server)
            else
              -- write bytes to the server
              (channel_client_write_bytes H S server (tmp_bytes.getD [])).map
                (fun r =>
                  (r.1, channel_t.endpoint_connector { cec1 with server_bytes := none } r.2))
  | channel_t.hmac ch child, bytes =>
    if bytes.length = 0 then some (ERROR_INVALID_ARGUMENTS, channel_t.hmac ch child)
    else
      (ch_client_write_bytes H ch child (fun m => channel_client_write_bytes H S child m) bytes).map
        (fun r => (r.1, channel_t.hmac ch r.2))

/-- The function `channel_free`: `cs_free`, `cec_free` and `ch_free` give up the
channel with the channels it owns and report the code of the C function. -/
def channel_free {σ : Type} : channel_t σ → Int
  | channel_t.with_server _ => ERROR_OK
  | channel_t.endpoint_connector _ _ => ERROR_OK
  | channel_t.hmac _ child => if channel_free child ≠ ERROR_OK then ERROR_UNKNOWN else ERROR_OK

/-- The function `channel_with_server_new` with `server_init`: the code and the
new channel. -/
def channel_with_server_new {σ : Type} (S : Store σ) (database : Bytes) :
    Int × Option (channel_t σ) :=
  if strlen database = 0 then (ERROR_INVALID_ARGUMENTS, none)
  else
    match S.open_path (cstr database) with
    | (DbCode.OK, some db) => (ERROR_OK, some (channel_t.with_server ⟨none, ⟨db⟩⟩))
    | (DbCode.OK, none) => (ERROR_UNKNOWN, none)
    | (code, _) => (code.toInt, none)

/-- The function `channel_endpoint_connector_new`. -/
def channel_endpoint_connector_new {σ : Type} (server : channel_t σ) : Int × channel_t σ :=
  (ERROR_OK, channel_t.endpoint_connector ⟨none, none, none⟩ server)

/-- The function `channel_hmac_new`. -/
def channel_hmac_new {σ : Type} (child : channel_t σ) : Int × channel_t σ :=
  (ERROR_OK, channel_t.hmac ⟨none⟩ child)

/-- The HMAC channels from `channel` down to the first channel of another kind. -/
def hmac_chain {σ : Type} : channel_t σ → List channel_hmac_t
  | channel_t.hmac ch child => ch :: hmac_chain child
  | _ => []

/-- The function `channel_endpoint_connector_set_endpoint` on the connector that
lies under the HMAC channels of `channel`, with the endpoint `endpoint`. -/
def channel_endpoint_connector_set_endpoint {σ : Type} :
    channel_t σ → List channel_hmac_t → channel_t σ
  | channel_t.hmac ch child, endpoint =>
    channel_t.hmac ch (channel_endpoint_connector_set_endpoint child endpoint)
  | channel_t.endpoint_connector cec server, endpoint =>
    channel_t.endpoint_connector { cec with endpoint := some endpoint } server
  | channel_t.with_server cs, _ => channel_t.with_server cs

/-! ### Stacks of channels -/

/-- The message an HMAC channel forwards for `bytes`: with a key, the bytes
followed by the 20 bytes of their HMAC; without a key, the bytes. -/
def ch_tagged (H : Sha1) (ch : channel_hmac_t) (bytes : Bytes) : Bytes :=
  match ch.keyed with
  | some key => bytes ++ (hmac H key bytes).2.take SHA1_BLOCKSIZE
  | none => bytes

/-- The message that leaves a chain of HMAC channels (the top one first) for
the message `bytes` written at the top. -/
def wrap (H : Sha1) : List channel_hmac_t → Bytes → Bytes
  | [], bytes => bytes
  | ch :: chain, bytes => wrap H chain (ch_tagged H ch bytes)

/-- The HMAC channels `chain` (the top one first) stacked on `base`. -/
def hmac_stack {σ : Type} (chain : List channel_hmac_t) (base : channel_t σ) : channel_t σ :=
  chain.foldr channel_t.hmac base

/-- The channel stack with the HMAC channels `chain` on an idle endpoint
connector on the server channel `cs`, the endpoint of the connector being the
top HMAC channel. -/
def channel_stack {σ : Type} (chain : List channel_hmac_t) (cs : channel_server_t σ) :
    channel_t σ :=
  hmac_stack chain (channel_t.endpoint_connector ⟨some chain, none, none⟩ (channel_t.with_server cs))

/-! ## registry/registry.c -/

def DELIMITER : Byte := 124

/-- The text `file://`. -/
def FILE_SCHEME : Bytes := [102, 105, 108, 101, 58, 47, 47]

/-- The text `hmac://`. -/
def HMAC_SCHEME : Bytes := [104, 109, 97, 99, 58, 47, 47]

/-- The struct `registry_s`; the field `endpoint` is an alias of the connector
inside `channel`. -/
structure registry_t (σ : Type) where
  channel : Option (channel_t σ)
  domain : Option Bytes
deriving DecidableEq

/-- The loop of `checkDelimiterAndSetToTerminator`, `n` iterations at most. -/
def check_delimiter_loop (size : Nat) : Nat → Bytes → Nat → Int → Bytes × Nat × Int
  | 0, id, position, delimiter => (id, position, delimiter)
  | n + 1, id, position, delimiter =>
    if position < size then
      if id.get? position = some DELIMITER then (id.set position 0, position + 1, 1)
      else check_delimiter_loop size n id (position + 1) delimiter
    else (id, position, delimiter)

/-- The function `checkDelimiterAndSetToTerminator`: the identifier, the
position and the delimiter flag afterwards. -/
def checkDelimiterAndSetToTerminator (id : Bytes) (position size : Nat) (delimiter : Int) :
    Bytes × Nat × Int :=
  check_delimiter_loop size (size - position) id position delimiter

/-- The comparison `strncmp(protocol, scheme, 7) == 0` after
`memcpy(protocol, id + position, 7)`; `id` has `size` characters and a NUL
behind them, so the comparison ends inside the identifier. -/
def protocol_is (scheme : Bytes) (id : Bytes) (position : Nat) : Bool :=
  (id.drop position).take 7 = scheme

/-- The part `set hmac key` of the loop of `registry_open`: the call of
`channel_hmac_set_key` on the new HMAC channel, with NULL and 42 when `keysize`
is 0 and with `id + start_position` and `keysize` otherwise.  The result is
the code and the channel afterwards. -/
def registry_open_set_key {σ : Type} (channel : channel_t σ) (id : Bytes) (start_position : Nat)
    (keysize : Int) : Int × channel_t σ :=
  match channel with
  | channel_t.hmac ch child =>
    if keysize = 0 then
      ((channel_hmac_set_key ch none 42).1,
        channel_t.hmac (channel_hmac_set_key ch none 42).2 child)
    else
      ((channel_hmac_set_key ch (some (id.drop start_position)) keysize.toNat).1,
        channel_t.hmac
          (channel_hmac_set_key ch (some (id.drop start_position)) keysize.toNat).2 child)
  | c => (ERROR_INVALID_ARGUMENTS, c)

/-- The loop `while (position < size)` of `registry_open` over the segments
behind the first one; `n` bounds the number of iterations.  The result is the
code, the delimiter flag and the channel built so far. -/
def registry_open_loop {σ : Type} (size : Nat) :
    Nat → Bytes → Nat → Int → channel_t σ → Int × Int × channel_t σ
  | 0, _, _, delimiter, channel => (ERROR_OK, delimiter, channel)
  | n + 1, id, position, delimiter, channel =>
    if position < size then
      if protocol_is HMAC_SCHEME id position then
        let start_position := position + 7
        let r := checkDelimiterAndSetToTerminator id (position + 7) size 0
        -- create new hmac channel
        let channel := (channel_hmac_new channel).2
        -- set hmac key
        let keysize : Int := (r.2.1 : Int) - (start_position : Int) - r.2.2
        let k := registry_open_set_key channel r.1 start_position keysize
        if k.1 ≠ ERROR_OK then
          (if channel_free k.2 ≠ ERROR_OK then ERROR_UNKNOWN else k.1, r.2.2, k.2)
        else registry_open_loop size n r.1 r.2.1 r.2.2 k.2
      else
        (if channel_free channel ≠ ERROR_OK then ERROR_UNKNOWN
          else ERROR_REGISTRY_UNKNOWN_IDENTIFIER, delimiter, channel)
    else (ERROR_OK, delimiter, channel)

/-- The function `registry_open` with a non-NULL `handle`: the code and the
handle (`none` is NULL). -/
def registry_open {σ : Type} (S : Store σ) (identifier domain : Option Bytes) :
    Int × Option (registry_t σ) :=
  match identifier, domain with
  | some identifier, some domain =>
    if strlen domain = 0 then (ERROR_INVALID_ARGUMENTS, none)
    else if strlen identifier = 0 then (ERROR_REGISTRY_UNKNOWN_IDENTIFIER, none)
    else
      -- duplicating identifier
      let id := cstr identifier
      let size := strlen identifier
      if size < 15 then (ERROR_REGISTRY_UNKNOWN_IDENTIFIER, none)
      -- check if file://
      else if protocol_is FILE_SCHEME id 0 then
        let r := checkDelimiterAndSetToTerminator id 7 size 0
        match channel_with_server_new S (r.1.drop 7) with
        | (channel_ok, some channel) =>
          if channel_ok ≠ ERROR_OK then (channel_ok, none)
          else
            -- create channel-endpoint-connector
            let endpoint_existing : Bool := decide (r.2.1 < size)
            let channel :=
              if r.2.1 < size then (channel_endpoint_connector_new channel).2 else channel
            let l := registry_open_loop size size r.1 r.2.1 r.2.2 channel
            if l.1 ≠ ERROR_OK then (l.1, none)
            -- check delimiter
            else if l.2.1 = 1 then
              (if channel_free l.2.2 ≠ ERROR_OK then ERROR_UNKNOWN
                else ERROR_REGISTRY_UNKNOWN_IDENTIFIER, none)
            else
              -- set endpoint, set channel, set domain
              let channel :=
                if endpoint_existing then
                  channel_endpoint_connector_set_endpoint l.2.2 (hmac_chain l.2.2)
                else l.2.2
              (ERROR_OK, some ⟨some channel, some (cstr domain)⟩)
        | (channel_ok, none) => (channel_ok, none)
      else (ERROR_REGISTRY_UNKNOWN_IDENTIFIER, none)
  | _, _ => (ERROR_INVALID_ARGUMENTS, none)

/-- Modelled from the spec: the segments of an identifier, which the separator
`|` divides; an identifier that ends with the separator has an empty last
segment. -/
def segments : Bytes → List Bytes
  | [] => [[]]
  | c :: cs =>
    if c = DELIMITER then [] :: segments cs
    else
      match segments cs with
      | s :: ss => (c :: s) :: ss
      | [] => [[c]]

/-- Modelled from the spec: the identifier `file://PATH` followed by one
`|hmac://KEY` for each key of `keys`. -/
def identifier_of (path : Bytes) (keys : List Bytes) : Bytes :=
  FILE_SCHEME ++ path ++ keys.flatMap (fun key => DELIMITER :: (HMAC_SCHEME ++ key))

/-- Modelled from the spec: the HMAC channel of a segment `hmac://KEY`: it holds
exactly the bytes of the key with their length, and no key when the key is
empty. -/
def key_channel (key : Bytes) : channel_hmac_t :=
  if key = [] then ⟨none⟩ else ⟨some key⟩

/-- The conversion of an integer to `int`. -/
def to_int32 (v : Int) : Int :=
  if v % 2 ^ 32 < 2 ^ 31 then v % 2 ^ 32 else v % 2 ^ 32 - 2 ^ 32

/-- The parts "pack package", "send package" and "receive response" that every
registry operation starts with: the request is the tag byte followed by
`bpack(&ds, fmt, ...)`, it is written to the channel and the reply is read.
The result is `ERROR_OK` with the reply, or the code the operation returns at
once, and the channel afterwards.  A loop
`while ((retval = channel_client_..._bytes(...)) == ERROR_CHANNEL_BUSY);`
does not end when the call answers busy, as a busy call changes nothing. -/
def registry_exchange {σ : Type} (H : Sha1) (S : Store σ) (channel : channel_t σ)
    (tag : Byte) (fmt : String) (ap : List Arg) :
    Option (Int × Option Bytes × channel_t σ) :=
  let ds := simple_memory_buffer_new []
  if (data_store_write_byte ds tag).1 ≠ ERROR_OK then some (ERROR_UNKNOWN, none, channel)
  else
    match bpack (data_store_write_byte ds tag).2 fmt ap with
    | none => none
    | some (code, ds1) =>
      if code ≠ ERROR_OK then some (ERROR_UNKNOWN, none, channel)
      else
        -- send package
        match channel_client_write_bytes H S channel (simple_memory_buffer_get_data ds1) with
        | none => none
        | some (retval, channel1) =>
          if retval = ERROR_CHANNEL_BUSY then none
          else if retval ≠ ERROR_OK then some (ERROR_UNKNOWN, none, channel1)
          else
            -- receive response
            match channel_client_read_bytes H channel1 with
            | none => none
            | some (retval, res_data, channel2) =>
              if retval = ERROR_CHANNEL_BUSY then none
              else if retval ≠ ERROR_OK then some (ERROR_UNKNOWN, none, channel2)
              else some (ERROR_OK, res_data, channel2)

/-- The statements of the case `PACKET_ERROR` in the get operations:
`if (errorcode == ERROR_DATABASE_INVALID) ret = ERROR_REGISTRY_INVALID_STATE;`
`if (errorcode == ERROR_DATABASE_NO_SUCH_KEY) ret = ERROR_REGISTRY_NO_SUCH_KEY;`
`else ret = ERROR_UNKNOWN; break;` after the error code was unpacked. -/
def registry_get_error (res_ds : data_store_t) : Option Int :=
  match bunpack res_ds "l" [Out.l (some ERROR_OK)] with
  | some (code, _, [Out.l (some errorcode)]) =>
    -- the three statements, each as the change it makes to `ret`
    let unpacked : Int → Int := fun ret => if code ≠ ERROR_OK then ERROR_UNKNOWN else ret
    let invalid : Int → Int := fun ret =>
      if errorcode = ERROR_DATABASE_INVALID then ERROR_REGISTRY_INVALID_STATE else ret
    let no_such_key : Int → Int := fun _ =>
      if errorcode = ERROR_DATABASE_NO_SUCH_KEY then ERROR_REGISTRY_NO_SUCH_KEY else ERROR_UNKNOWN
    some (no_such_key (invalid (unpacked ERROR_OK)))
  | _ => none

/-- The statements of the case `PACKET_ERROR` in the set operations:
`if (errorcode == ERROR_DATABASE_INVALID) ret = ERROR_REGISTRY_INVALID_STATE;`
`else ret = ERROR_UNKNOWN; break;` after the error code was unpacked. -/
def registry_set_error (res_ds : data_store_t) : Option Int :=
  match bunpack res_ds "l" [Out.l (some ERROR_OK)] with
  | some (_, _, [Out.l (some errorcode)]) =>
    some (if errorcode = ERROR_DATABASE_INVALID then ERROR_REGISTRY_INVALID_STATE
      else ERROR_UNKNOWN)
  | _ => none

/-- The argument check and the exchange of a registry operation on the key
`key`: `ERROR_INVALID_ARGUMENTS` for a NULL or empty argument (`args_ok` is the
check of the further arguments), else the exchange on the channel of the
handle.  The result is the code, the reply and the handle afterwards. -/
def registry_call {σ : Type} (H : Sha1) (S : Store σ) (handle : Option (registry_t σ))
    (key : Option Bytes) (key_may_be_empty : Bool) (args_ok : Bool) (tag : Byte) (fmt : String)
    (ap : Bytes → Bytes → List Arg) : Option (Int × Option Bytes × Option (registry_t σ)) :=
  match handle, key with
  | some ⟨some channel, some domain⟩, some key =>
    if strlen domain = 0 ∨ (strlen key = 0 ∧ key_may_be_empty = false) ∨ args_ok = false then
      some (ERROR_INVALID_ARGUMENTS, none, handle)
    else
      (registry_exchange H S channel tag fmt (ap domain key)).map
        (fun r => (r.1, r.2.1, some ⟨some r.2.2, some domain⟩))
  | _, _ => some (ERROR_INVALID_ARGUMENTS, none, handle)

/-- The function `registry_get_int64`: the code, the pointer `value` with its
target afterwards, the handle afterwards. -/
def registry_get_int64 {σ : Type} (H : Sha1) (S : Store σ) (handle : Option (registry_t σ))
    (key : Option Bytes) (value : Option Int) :
    Option (Int × Option Int × Option (registry_t σ)) :=
  match registry_call H S handle key false value.isSome PACKET_GET_INT "ss"
      (fun domain key => [Arg.s (some domain), Arg.s (some key)]) with
  | none => none
  | some (code, res_data, handle1) =>
    if code ≠ ERROR_OK then some (code, value, handle1)
    else
      -- unpack package
      match data_store_read_byte (simple_memory_buffer_new (res_data.getD [])) with
      | (c, packettype, res_ds) =>
        if c ≠ ERROR_OK then some (ERROR_UNKNOWN, value, handle1)
        -- handling data
        else if packettype = some PACKET_ERROR then
          (registry_get_error res_ds).map (fun ret => (ret, value, handle1))
        else if packettype = some PACKET_INT then
          match bunpack res_ds "l" [Out.l value] with
          | some (c, _, [Out.l value1]) =>
            some (if c ≠ ERROR_OK then ERROR_UNKNOWN else ERROR_OK, value1, handle1)
          | _ => none
        else some (ERROR_UNKNOWN, value, handle1)

/-- The function `registry_set_int64`. -/
def registry_set_int64 {σ : Type} (H : Sha1) (S : Store σ) (handle : Option (registry_t σ))
    (key : Option Bytes) (value : Int) : Option (Int × Option (registry_t σ)) :=
  match registry_call H S handle key false true PACKET_SET_INT "ssl"
      (fun domain key => [Arg.s (some domain), Arg.s (some key), Arg.l value]) with
  | none => none
  | some (code, res_data, handle1) =>
    if code ≠ ERROR_OK then some (code, handle1)
    else
      match data_store_read_byte (simple_memory_buffer_new (res_data.getD [])) with
      | (c, packettype, res_ds) =>
        if c ≠ ERROR_OK then some (ERROR_UNKNOWN, handle1)
        else if packettype = some PACKET_OK then some (ERROR_OK, handle1)
        else if packettype = some PACKET_ERROR then
          (registry_set_error res_ds).map (fun ret => (ret, handle1))
        else some (ERROR_UNKNOWN, handle1)

/-- The function `registry_get_double`. -/
def registry_get_double {σ : Type} (H : Sha1) (S : Store σ) (handle : Option (registry_t σ))
    (key : Option Bytes) (value : Option Nat) :
    Option (Int × Option Nat × Option (registry_t σ)) :=
  match registry_call H S handle key false value.isSome PACKET_GET_DOUBLE "ss"
      (fun domain key => [Arg.s (some domain), Arg.s (some key)]) with
  | none => none
  | some (code, res_data, handle1) =>
    if code ≠ ERROR_OK then some (code, value, handle1)
    else
      match data_store_read_byte (simple_memory_buffer_new (res_data.getD [])) with
      | (c, packettype, res_ds) =>
        if c ≠ ERROR_OK then some (ERROR_UNKNOWN, value, handle1)
        else if packettype = some PACKET_ERROR then
          (registry_get_error res_ds).map (fun ret => (ret, value, handle1))
        else if packettype = some PACKET_DOUBLE then
          match bunpack res_ds "d" [Out.d value] with
          | some (c, _, [Out.d value1]) =>
            some (if c ≠ ERROR_OK then ERROR_UNKNOWN else ERROR_OK, value1, handle1)
          | _ => none
        else some (ERROR_UNKNOWN, value, handle1)

/-- The function `registry_set_double`. -/
def registry_set_double {σ : Type} (H : Sha1) (S : Store σ) (handle : Option (registry_t σ))
    (key : Option Bytes) (value : Nat) : Option (Int × Option (registry_t σ)) :=
  match registry_call H S handle key false true PACKET_SET_DOUBLE "ssd"
      (fun domain key => [Arg.s (some domain), Arg.s (some key), Arg.d value]) with
  | none => none
  | some (code, res_data, handle1) =>
    if code ≠ ERROR_OK then some (code, handle1)
    else
      match data_store_read_byte (simple_memory_buffer_new (res_data.getD [])) with
      | (c, packettype, res_ds) =>
        if c ≠ ERROR_OK then some (ERROR_UNKNOWN, handle1)
        else if packettype = some PACKET_OK then some (ERROR_OK, handle1)
        else if packettype = some PACKET_ERROR then
          (registry_set_error res_ds).map (fun ret => (ret, handle1))
        else some (ERROR_UNKNOWN, handle1)

/-- The function `registry_get_string`; the target of `value` is a `char*`. -/
def registry_get_string {σ : Type} (H : Sha1) (S : Store σ) (handle : Option (registry_t σ))
    (key : Option Bytes) (value : Option (Option Bytes)) :
    Option (Int × Option (Option Bytes) × Option (registry_t σ)) :=
  match registry_call H S handle key false value.isSome PACKET_GET_STRING "ss"
      (fun domain key => [Arg.s (some domain), Arg.s (some key)]) with
  | none => none
  | some (code, res_data, handle1) =>
    if code ≠ ERROR_OK then some (code, value, handle1)
    else
      match data_store_read_byte (simple_memory_buffer_new (res_data.getD [])) with
      | (c, packettype, res_ds) =>
        if c ≠ ERROR_OK then some (ERROR_UNKNOWN, value, handle1)
        else if packettype = some PACKET_ERROR then
          (registry_get_error res_ds).map (fun ret => (ret, value, handle1))
        else if packettype = some PACKET_STRING then
          match bunpack res_ds "s" [Out.s value] with
          | some (c, _, [Out.s value1]) =>
            some (if c ≠ ERROR_OK then ERROR_UNKNOWN else ERROR_OK, value1, handle1)
          | _ => none
        else some (ERROR_UNKNOWN, value, handle1)

/-- The function `registry_set_string`. -/
def registry_set_string {σ : Type} (H : Sha1) (S : Store σ) (handle : Option (registry_t σ))
    (key : Option Bytes) (value : Option Bytes) : Option (Int × Option (registry_t σ)) :=
  match registry_call H S handle key false value.isSome PACKET_SET_STRING "sss"
      (fun domain key => [Arg.s (some domain), Arg.s (some key), Arg.s value]) with
  | none => none
  | some (code, res_data, handle1) =>
    if code ≠ ERROR_OK then some (code, handle1)
    else
      match data_store_read_byte (simple_memory_buffer_new (res_data.getD [])) with
      | (c, packettype, res_ds) =>
        if c ≠ ERROR_OK then some (ERROR_UNKNOWN, handle1)
        else if packettype = some PACKET_OK then some (ERROR_OK, handle1)
        else if packettype = some PACKET_ERROR then
          (registry_set_error res_ds).map (fun ret => (ret, handle1))
        else some (ERROR_UNKNOWN, handle1)

/-- The function `registry_get_blob`: the targets of `value` and `size`. -/
def registry_get_blob {σ : Type} (H : Sha1) (S : Store σ) (handle : Option (registry_t σ))
    (key : Option Bytes) (value : Option (Option Bytes)) (size : Option Nat) :
    Option (Int × Option (Option Bytes) × Option Nat × Option (registry_t σ)) :=
  match registry_call H S handle key false (value.isSome && size.isSome) PACKET_GET_BLOB "ss"
      (fun domain key => [Arg.s (some domain), Arg.s (some key)]) with
  | none => none
  | some (code, res_data, handle1) =>
    if code ≠ ERROR_OK then some (code, value, size, handle1)
    else
      match data_store_read_byte (simple_memory_buffer_new (res_data.getD [])) with
      | (c, packettype, res_ds) =>
        if c ≠ ERROR_OK then some (ERROR_UNKNOWN, value, size, handle1)
        else if packettype = some PACKET_ERROR then
          (registry_get_error res_ds).map (fun ret => (ret, value, size, handle1))
        else if packettype = some PACKET_BLOB then
          match bunpack res_ds "b" [Out.b size value] with
          | some (c, _, [Out.b size1 value1]) =>
            some (if c ≠ ERROR_OK then ERROR_UNKNOWN else ERROR_OK, value1, size1, handle1)
          | _ => none
        else some (ERROR_UNKNOWN, value, size, handle1)

/-- The function `registry_set_blob`; `value` points to `size` bytes. -/
def registry_set_blob {σ : Type} (H : Sha1) (S : Store σ) (handle : Option (registry_t σ))
    (key : Option Bytes) (value : Option Bytes) : Option (Int × Option (registry_t σ)) :=
  match registry_call H S handle key false value.isSome PACKET_SET_BLOB "ssb"
      (fun domain key => [Arg.s (some domain), Arg.s (some key), Arg.b value]) with
  | none => none
  | some (code, res_data, handle1) =>
    if code ≠ ERROR_OK then some (code, handle1)
    else
      match data_store_read_byte (simple_memory_buffer_new (res_data.getD [])) with
      | (c, packettype, res_ds) =>
        if c ≠ ERROR_OK then some (ERROR_UNKNOWN, handle1)
        else if packettype = some PACKET_OK then some (ERROR_OK, handle1)
        else if packettype = some PACKET_ERROR then
          (registry_set_error res_ds).map (fun ret => (ret, handle1))
        else some (ERROR_UNKNOWN, handle1)

/-- The function `registry_enum_keys`: the targets of `count`, `size` and `keys`. -/
def registry_enum_keys {σ : Type} (H : Sha1) (S : Store σ) (handle : Option (registry_t σ))
    (pattern : Option Bytes) (count size : Option Nat) (keys : Option (Option Bytes)) :
    Option (Int × Option Nat × Option Nat × Option (Option Bytes) × Option (registry_t σ)) :=
  match registry_call H S handle pattern true (count.isSome && size.isSome && keys.isSome)
      PACKET_GET_ENUM "ss" (fun domain pattern => [Arg.s (some domain), Arg.s (some pattern)]) with
  | none => none
  | some (code, res_data, handle1) =>
    if code ≠ ERROR_OK then some (code, count, size, keys, handle1)
    else
      match data_store_read_byte (simple_memory_buffer_new (res_data.getD [])) with
      | (c, packettype, res_ds) =>
        if c ≠ ERROR_OK then some (ERROR_UNKNOWN, count, size, keys, handle1)
        else if packettype = some PACKET_ERROR then
          (registry_get_error res_ds).map (fun ret => (ret, count, size, keys, handle1))
        else if packettype = some PACKET_ENUM then
          match bunpack res_ds "l" [Out.l (some 0)] with
          | some (c, res_ds1, [Out.l (some count_enum)]) =>
            let ret : Int := if c ≠ ERROR_OK then ERROR_UNKNOWN else ERROR_OK
            if count_enum > 0 then
              match bunpack res_ds1 "b" [Out.b size keys] with
              | some (c, _, [Out.b size1 keys1]) =>
                some (if c ≠ ERROR_OK then ERROR_UNKNOWN else ret,
                  some (to_uint64 count_enum), size1, keys1, handle1)
              | _ => none
            else some (ret, some (to_uint64 count_enum), some 0, some none, handle1)
          | _ => none
        else some (ERROR_UNKNOWN, count, size, keys, handle1)

/-- The function `registry_key_get_value_type`: the target of `type`. -/
def registry_key_get_value_type {σ : Type} (H : Sha1) (S : Store σ)
    (handle : Option (registry_t σ)) (key : Option Bytes) (type : Option Int) :
    Option (Int × Option Int × Option (registry_t σ)) :=
  match registry_call H S handle key false type.isSome PACKET_GET_VALUE_TYPE "ss"
      (fun domain key => [Arg.s (some domain), Arg.s (some key)]) with
  | none => none
  | some (code, res_data, handle1) =>
    if code ≠ ERROR_OK then some (code, type, handle1)
    else
      match data_store_read_byte (simple_memory_buffer_new (res_data.getD [])) with
      | (c, packettype, res_ds) =>
        if c ≠ ERROR_OK then some (ERROR_UNKNOWN, type, handle1)
        else if packettype = some PACKET_ERROR then
          (registry_get_error res_ds).map (fun ret => (ret, type, handle1))
        else if packettype = some PACKET_TYPE then
          match bunpack res_ds "l" [Out.l (some 0)] with
          | some (c, _, [Out.l (some valuetype)]) =>
            some (if c ≠ ERROR_OK then ERROR_UNKNOWN else ERROR_OK,
              some (to_int32 valuetype), handle1)
          | _ => none
        else some (ERROR_UNKNOWN, type, handle1)

/-- The handle, its domain, its channel or the key is NULL, or the domain or the
key is the empty string: the arguments every registry operation on a key
rejects. -/
def null_or_empty {σ : Type} (handle : Option (registry_t σ)) (key : Option Bytes) : Prop :=
  handle = none ∨
  (∃ h, handle = some h ∧
    (h.domain = none ∨ h.channel = none ∨ ∃ d, h.domain = some d ∧ strlen d = 0)) ∨
  key = none ∨ ∃ k, key = some k ∧ strlen k = 0

/-! ## server/database.c

SQLite and the C library are not among the sources.  The database is kept as
the rows of the five tables that `database_open` checks, with the constraints it
checks (`KeyInfo.id` is the primary key with AUTOINCREMENT, `id` is the primary
key of each value table, no column but `KeyInfo.domain` holds NULL); every
`sqlite3_prepare_v2`, `sqlite3_bind_*`, `sqlite3_reset`, `sqlite3_finalize` and
`requestMemory` succeeds, and `sqlite3_step` answers `SQLITE_ROW`, `SQLITE_DONE`
or, for an insert that breaks a constraint, `SQLITE_CONSTRAINT`.  The file system
is reached through the interface `FileSystem`. -/

/-- The names in the table `Datatypes`; the column `KeyInfo.datatype` holds one
of them. -/
inductive Datatype where
  | Int64
  | Double
  | String
  | Blob
deriving DecidableEq, Repr

/-- A value in a column of a value table, with the type `sqlite3_column_type`
reports for it. -/
inductive SqlValue where
  | integer (v : Int)
  | real (v : Nat)
  | text (v : Bytes)
  | blob (v : Bytes)
deriving DecidableEq, Repr

/-- A row of the table `KeyInfo`. -/
structure KeyInfo_row where
  id : Int
  domain : Option Bytes
  key : Bytes
  datatype : Datatype
deriving DecidableEq, Repr

/-- The content of the database behind `sqlite3*`: the rows of `KeyInfo`, the
largest id AUTOINCREMENT has recorded for `KeyInfo`, and the rows (`id` and
`value` or `path`) of the four value tables. -/
structure sqlite3 where
  KeyInfo : List KeyInfo_row
  sequence : Int
  ValueInt64 : List (Int × SqlValue)
  ValueDouble : List (Int × SqlValue)
  ValueString : List (Int × SqlValue)
  ValueBlob : List (Int × SqlValue)
deriving DecidableEq, Repr

/-- The rows of the table `Value` followed by the name of the data type. -/
def value_table (db : sqlite3) : Datatype → List (Int × SqlValue)
  | Datatype.Int64 => db.ValueInt64
  | Datatype.Double => db.ValueDouble
  | Datatype.String => db.ValueString
  | Datatype.Blob => db.ValueBlob

/-- The database with the rows `rows` in the value table of the data type. -/
def with_value_table (db : sqlite3) (t : Datatype) (rows : List (Int × SqlValue)) : sqlite3 :=
  match t with
  | Datatype.Int64 => { db with ValueInt64 := rows }
  | Datatype.Double => { db with ValueDouble := rows }
  | Datatype.String => { db with ValueString := rows }
  | Datatype.Blob => { db with ValueBlob := rows }

/-- The first row of
`SELECT id, datatype FROM KeyInfo WHERE domain = :dom and key = :key;`. -/
def select_id_datatype (db : sqlite3) (dom key : Bytes) : Option KeyInfo_row :=
  db.KeyInfo.find? (fun r => decide (r.domain = some dom ∧ r.key = key))

/-- The first row of `SELECT V.value FROM KeyInfo INNER JOIN V ON KeyInfo.id =
V.id WHERE KeyInfo.datatype = 't' AND KeyInfo.domain = :dom AND KeyInfo.key =
:key;` for the value table `V` of the data type `t`. -/
def select_value (db : sqlite3) (t : Datatype) (dom key : Bytes) : Option SqlValue :=
  (((db.KeyInfo.filter
      (fun r => decide (r.datatype = t ∧ r.domain = some dom ∧ r.key = key))).flatMap
    (fun r => (value_table db t).filter (fun x => decide (x.1 = r.id)))).head?).map Prod.snd

/-- The largest id in `KeyInfo`, 0 for a table without a positive id. -/
def max_rowid (db : sqlite3) : Int := db.KeyInfo.foldl (fun m r => max m r.id) 0

/-- The statement `INSERT INTO KeyInfo(domain, key, datatype) VALUES (:dom, :key,
't');`: the id AUTOINCREMENT gives the row (`sqlite3_last_insert_rowid`) and the
database afterwards.  When the largest id is in use the step answers
`SQLITE_FULL` and the loop around `sqlite3_step` does not end. -/
def insert_key_info (db : sqlite3) (dom key : Bytes) (t : Datatype) : Option (Int × sqlite3) :=
  let top := max (max_rowid db) db.sequence
  if top ≥ 2 ^ 63 - 1 then none
  else
    some (top + 1,
      { db with KeyInfo := db.KeyInfo ++ [⟨top + 1, some dom, key, t⟩], sequence := top + 1 })

/-- The statement `INSERT INTO KeyInfo(id, domain, key, datatype) VALUES (:id,
:dom, :key, 't');`.  When the id is in use the step answers `SQLITE_CONSTRAINT`
and the loop around `sqlite3_step` does not end. -/
def insert_key_info_id (db : sqlite3) (id : Int) (dom key : Bytes) (t : Datatype) :
    Option sqlite3 :=
  if id ∈ db.KeyInfo.map (fun r => r.id) then none
  else
    some { db with KeyInfo := db.KeyInfo ++ [⟨id, some dom, key, t⟩],
                   sequence := max db.sequence id }

/-- The statement `INSERT INTO V(id, value) VALUES (:id, :val);` for the value
table `V` of the data type `t`.  When the id is in use the step answers
`SQLITE_CONSTRAINT` and the loop around `sqlite3_step` does not end. -/
def insert_value (db : sqlite3) (t : Datatype) (id : Int) (v : SqlValue) : Option sqlite3 :=
  if id ∈ (value_table db t).map Prod.fst then none
  else some (with_value_table db t (value_table db t ++ [(id, v)]))

/-- The statement `UPDATE V SET value = :val WHERE id = :id;`. -/
def update_value (db : sqlite3) (t : Datatype) (id : Int) (v : SqlValue) : sqlite3 :=
  with_value_table db t ((value_table db t).map (fun x => if x.1 = id then (x.1, v) else x))

/-- The statement `DELETE FROM V WHERE id = :id;`, `V` being `Value` followed
by the data type read from `KeyInfo`. -/
def delete_value (db : sqlite3) (t : Datatype) (id : Int) : sqlite3 :=
  with_value_table db t ((value_table db t).filter (fun x => decide (x.1 ≠ id)))

/-- The statement `DELETE FROM KeyInfo WHERE id = :id;`. -/
def delete_key_info (db : sqlite3) (id : Int) : sqlite3 :=
  { db with KeyInfo := db.KeyInfo.filter (fun r => decide (r.id ≠ id)) }

/-- The statements of the branch `key doesn't exist` of a set function: the
insert into `KeyInfo`, then the insert into the value table with the id
`sqlite3_last_insert_rowid` returns. -/
def insert_new_key (db : sqlite3) (t : Datatype) (dom key : Bytes) (v : SqlValue) :
    Option sqlite3 :=
  match insert_key_info db dom key t with
  | none => none
  | some (rowid, db1) => insert_value db1 t rowid v

/-- The statements of the branch `Different datatype - delete, update and
insert` of a set function: the delete from the value table of the old data
type, the delete from `KeyInfo`, the insert into `KeyInfo` with the old id and
the insert into the value table. -/
def replace_key (db : sqlite3) (t : Datatype) (id : Int) (old : Datatype) (dom key : Bytes)
    (v : SqlValue) : Option sqlite3 :=
  match insert_key_info_id (delete_key_info (delete_value db old id) id) id dom key t with
  | none => none
  | some db1 => insert_value db1 t id v

/-- What `stat` reports about a path that exists. -/
inductive FileKind where
  | regular
  | directory
  | other
deriving DecidableEq, Repr

/-- The calls of `database.c` into the file system, on a file system state `φ`:
`stat` (`none` when it fails), `mkdir`, `fopen(path, "wb")` (`none` for NULL),
`realpath`, `fwrite` of all bytes followed by `fclose` on the file that was
opened at the path, `remove`, and `fopen(path, "rb")` with the reading of the
whole file and `fclose`.  The three laws say that `fopen(path, "wb")` leaves a
regular file at the path, and that writing the bytes changes neither what `stat`
and `realpath` report nor anything but the content, which is then what is read. -/
structure FileSystem (φ : Type) where
  stat : φ → Bytes → Option FileKind
  mkdir : φ → Bytes → Option φ
  fopen_wb : φ → Bytes → Option φ
  realpath : φ → Bytes → Option Bytes
  fwrite : φ → Bytes → Bytes → Option φ
  remove : φ → Bytes → φ
  fread : φ → Bytes → Option Bytes
  fopen_regular : ∀ fs p fs1, fopen_wb fs p = some fs1 → stat fs1 p = some FileKind.regular
  fwrite_names : ∀ fs p v fs1, fwrite fs p v = some fs1 →
    ∀ q, stat fs1 q = stat fs q ∧ realpath fs1 q = realpath fs q
  fwrite_fread : ∀ fs p v fs1, fwrite fs p v = some fs1 → fread fs1 p = some v

/-- The struct `database_handle_s`: the database connection and the blob path;
the state of the file system is carried along with it. -/
structure database_handle_t (φ : Type) where
  db : sqlite3
  blobpath : Bytes
  fs : φ
deriving DecidableEq

/-- The function `check_blob_path`. -/
def check_blob_path {φ : Type} (F : FileSystem φ) (fs : φ) (blobpath referencepath : Bytes) :
    DbCode :=
  match F.realpath fs blobpath with
  | none => DbCode.DATABASE_INVALID
  | some path =>
    if (cstr path).take (strlen referencepath) ≠ cstr referencepath then DbCode.DATABASE_INVALID
    else DbCode.OK

/-- The path `$blob-path/$path` of a blob file. -/
def pathtoblob {φ : Type} (handle : database_handle_t φ) (path : Bytes) : Bytes :=
  cstr handle.blobpath ++ [47] ++ cstr path

/-- The function `removeReferencedBlobFile`. -/
def removeReferencedBlobFile {φ : Type} (F : FileSystem φ) (handle : database_handle_t φ)
    (domain key : Bytes) : DbCode × database_handle_t φ :=
  match select_value handle.db Datatype.Blob (cstr domain) (cstr key) with
  | none => (DbCode.DATABASE_NO_SUCH_KEY, handle)
  | some (SqlValue.text blobpath) =>
    -- check for relative path
    if (cstr blobpath).head? = some 47 then (DbCode.DATABASE_INVALID, handle)
    else
      -- check if path: is a regular file
      match F.stat handle.fs (pathtoblob handle blobpath) with
      | some FileKind.regular =>
        if check_blob_path F handle.fs (pathtoblob handle blobpath) handle.blobpath ≠ DbCode.OK then
          (check_blob_path F handle.fs (pathtoblob handle blobpath) handle.blobpath, handle)
        else
          -- remove referenced blob
          (DbCode.OK, { handle with fs := F.remove handle.fs (pathtoblob handle blobpath) })
      | _ => (DbCode.DATABASE_INVALID, handle)
  | some _ => (DbCode.DATABASE_TYPE_MISMATCH, handle)

/-- The function `database_get_int64` with a non-NULL `value`: the code and
what was stored in `*value`. -/
def database_get_int64 {φ : Type} (handle : database_handle_t φ) (domain key : Bytes) :
    DbCode × Option Int :=
  if strlen domain = 0 ∨ strlen key = 0 ∨ strlen handle.blobpath = 0 then
    (DbCode.INVALID_ARGUMENTS, none)
  else
    match select_value handle.db Datatype.Int64 (cstr domain) (cstr key) with
    | some (SqlValue.integer v) => (DbCode.OK, some v)
    | some _ => (DbCode.DATABASE_TYPE_MISMATCH, none)
    | none => (DbCode.DATABASE_NO_SUCH_KEY, none)

/-- The function `database_set_int64`. -/
def database_set_int64 {φ : Type} (F : FileSystem φ) (handle : database_handle_t φ)
    (domain key : Bytes) (value : Int) : Option (DbCode × database_handle_t φ) :=
  if strlen handle.blobpath = 0 ∨ strlen domain = 0 ∨ strlen key = 0 then
    some (DbCode.INVALID_ARGUMENTS, handle)
  else
    -- check if already existing
    match select_id_datatype handle.db (cstr domain) (cstr key) with
    | none =>
      -- key doesn't exist
      (insert_new_key handle.db Datatype.Int64 (cstr domain) (cstr key)
        (SqlValue.integer value)).map (fun db => (DbCode.OK, { handle with db := db }))
    | some row =>
      -- key already exist
      if row.datatype = Datatype.Int64 then
        -- datatype is the same - just update value
        some (DbCode.OK, { handle with
          db := update_value handle.db Datatype.Int64 (to_int32 row.id) (SqlValue.integer value) })
      else
        -- different datatype - delete, update and insert
        let removed : DbCode × database_handle_t φ :=
          if row.datatype = Datatype.Blob then removeReferencedBlobFile F handle domain key
          else (DbCode.OK, handle)
        if removed.1 ≠ DbCode.OK then some (removed.1, removed.2)
        else
          (replace_key removed.2.db Datatype.Int64 (to_int32 row.id) row.datatype (cstr domain)
            (cstr key) (SqlValue.integer value)).map
            (fun db => (DbCode.OK, { removed.2 with db := db }))

/-- The double that a column of the type REAL gives back for the double `x` that
was bound into it (SQLite is not among the sources): SQLite keeps a REAL with an
integer value as an integer, so that -0.0 comes back as +0.0; every other double
that is no NaN comes back with the bits it had. -/
def sqlite_real (x : Nat) : Nat := if x = 0x8000000000000000 then 0 else x

/-- The function `database_get_double` with a non-NULL `value`: the code and
what `sqlite3_column_double` stored in `*value`. -/
def database_get_double {φ : Type} (handle : database_handle_t φ) (domain key : Bytes) :
    DbCode × Option Nat :=
  if strlen handle.blobpath = 0 ∨ strlen domain = 0 ∨ strlen key = 0 then
    (DbCode.INVALID_ARGUMENTS, none)
  else
    match select_value handle.db Datatype.Double (cstr domain) (cstr key) with
    | some (SqlValue.real v) => (DbCode.OK, some (sqlite_real v))
    | some _ => (DbCode.DATABASE_TYPE_MISMATCH, none)
    | none => (DbCode.DATABASE_NO_SUCH_KEY, none)

/-- The function `database_set_double`.  The call of `removeReferencedBlobFile`
stands in the branch of the same data type.  The value is bound with
`sqlite3_bind_double` into a column of the type REAL. -/
def database_set_double {φ : Type} (F : FileSystem φ) (handle : database_handle_t φ)
    (domain key : Bytes) (value : Nat) : Option (DbCode × database_handle_t φ) :=
  if strlen handle.blobpath = 0 ∨ strlen domain = 0 ∨ strlen key = 0 ∨ isnan value then
    some (DbCode.INVALID_ARGUMENTS, handle)
  else
    -- check if already existing
    match select_id_datatype handle.db (cstr domain) (cstr key) with
    | none =>
      -- key doesn't exist
      (insert_new_key handle.db Datatype.Double (cstr domain) (cstr key)
        (SqlValue.real (sqlite_real value))).map (fun db => (DbCode.OK, { handle with db := db }))
    | some row =>
      -- key already exist
      if row.datatype = Datatype.Double then
        -- datatype is the same - just update value
        let removed : DbCode × database_handle_t φ :=
          if row.datatype = Datatype.Blob then removeReferencedBlobFile F handle domain key
          else (DbCode.OK, handle)
        if removed.1 ≠ DbCode.OK then some (removed.1, removed.2)
        else
          some (DbCode.OK, { removed.2 with
            db := update_value removed.2.db Datatype.Double (to_int32 row.id)
              (SqlValue.real (sqlite_real value)) })
      else
        -- different datatype - delete, update and insert
        (replace_key handle.db Datatype.Double (to_int32 row.id) row.datatype (cstr domain)
          (cstr key) (SqlValue.real (sqlite_real value))).map (fun db => (DbCode.OK, { handle with db := db }))

/-- The function `database_get_string` with a non-NULL `value`: the code and
the string `*value` points to. -/
def database_get_string {φ : Type} (handle : database_handle_t φ) (domain key : Bytes) :
    DbCode × Option Bytes :=
  if strlen handle.blobpath = 0 ∨ strlen domain = 0 ∨ strlen key = 0 then
    (DbCode.INVALID_ARGUMENTS, none)
  else
    match select_value handle.db Datatype.String (cstr domain) (cstr key) with
    | some (SqlValue.text v) => (DbCode.OK, some (cstr v))
    | some _ => (DbCode.DATABASE_TYPE_MISMATCH, none)
    | none => (DbCode.DATABASE_NO_SUCH_KEY, none)

/-- The function `database_set_string` with a non-NULL `value`.  The call of
`removeReferencedBlobFile` stands in the branch of the same data type. -/
def database_set_string {φ : Type} (F : FileSystem φ) (handle : database_handle_t φ)
    (domain key value : Bytes) : Option (DbCode × database_handle_t φ) :=
  if strlen handle.blobpath = 0 ∨ strlen domain = 0 ∨ strlen key = 0 then
    some (DbCode.INVALID_ARGUMENTS, handle)
  else
    -- check if already existing
    match select_id_datatype handle.db (cstr domain) (cstr key) with
    | none =>
      -- key doesn't exist
      (insert_new_key handle.db Datatype.String (cstr domain) (cstr key)
        (SqlValue.text (cstr value))).map (fun db => (DbCode.OK, { handle with db := db }))
    | some row =>
      -- key already exist
      if row.datatype = Datatype.String then
        -- datatype is the same - just update value
        let removed : DbCode × database_handle_t φ :=
          if row.datatype = Datatype.Blob then removeReferencedBlobFile F handle domain key
          else (DbCode.OK, handle)
        if removed.1 ≠ DbCode.OK then some (removed.1, removed.2)
        else
          some (DbCode.OK, { removed.2 with
            db := update_value removed.2.db Datatype.String (to_int32 row.id)
              (SqlValue.text (cstr value)) })
      else
        -- different datatype - delete, update and insert
        (replace_key handle.db Datatype.String (to_int32 row.id) row.datatype (cstr domain)
          (cstr key) (SqlValue.text (cstr value))).map
          (fun db => (DbCode.OK, { handle with db := db }))

/-- The function `database_get_blob` with non-NULL `value` and `size`: the code
and the bytes `*value` points to (`*size` is their number). -/
def database_get_blob {φ : Type} (F : FileSystem φ) (handle : database_handle_t φ)
    (domain key : Bytes) : DbCode × Option Bytes :=
  if strlen handle.blobpath = 0 ∨ strlen domain = 0 ∨ strlen key = 0 then
    (DbCode.INVALID_ARGUMENTS, none)
  else
    match select_value handle.db Datatype.Blob (cstr domain) (cstr key) with
    | none => (DbCode.DATABASE_NO_SUCH_KEY, none)
    | some (SqlValue.text blobpath) =>
      -- check for relative path
      if (cstr blobpath).head? = some 47 then (DbCode.DATABASE_INVALID, none)
      else
        -- check if path: is a regular file
        match F.stat handle.fs (pathtoblob handle blobpath) with
        | some FileKind.regular =>
          if check_blob_path F handle.fs (pathtoblob handle blobpath) handle.blobpath ≠ DbCode.OK
          then (check_blob_path F handle.fs (pathtoblob handle blobpath) handle.blobpath, none)
          else
            -- get blob
            match F.fread handle.fs (pathtoblob handle blobpath) with
            | none => (DbCode.DATABASE_IOERR, none)
            | some value => (DbCode.OK, some value)
        | _ => (DbCode.DATABASE_INVALID, none)
    | some _ => (DbCode.DATABASE_TYPE_MISMATCH, none)

/-- The name `domain_path` or `key_path` that `database_set_blob` derives from
a domain or a key: blanks and slashes become underscores. -/
def blob_name (s : Bytes) : Bytes :=
  (cstr s).map (fun c => if c = 32 then 95 else if c = 47 then 95 else c)

/-- The function `database_set_blob` on the `size` bytes `value`.  The loops
that derive the file name count with an `unsigned int` and do not end for a
domain or a key of 2^32 or more characters. -/
def database_set_blob {φ : Type} (F : FileSystem φ) (handle : database_handle_t φ)
    (domain key value : Bytes) : Option (DbCode × database_handle_t φ) :=
  if strlen handle.blobpath = 0 ∨ strlen domain = 0 ∨ strlen key = 0 then
    some (DbCode.INVALID_ARGUMENTS, handle)
  else if strlen domain ≥ 2 ^ 32 ∨ strlen key ≥ 2 ^ 32 then none
  else
    let path : Bytes := blob_name domain ++ [47] ++ blob_name key
    let createdirectory_path : Bytes := cstr handle.blobpath ++ [47] ++ blob_name domain
    let made : Option φ :=
      if F.stat handle.fs createdirectory_path = none then F.mkdir handle.fs createdirectory_path
      else some handle.fs
    match made with
    | none => some (DbCode.DATABASE_IOERR, handle)
    | some fs1 =>
      -- check for relative path
      if path.head? = some 47 then some (DbCode.DATABASE_INVALID, { handle with fs := fs1 })
      else
        match F.fopen_wb fs1 (pathtoblob handle path) with
        | none => some (DbCode.DATABASE_IOERR, { handle with fs := fs1 })
        | some fs2 =>
          if check_blob_path F fs2 (pathtoblob handle path) handle.blobpath ≠ DbCode.OK then
            some (check_blob_path F fs2 (pathtoblob handle path) handle.blobpath,
              { handle with fs := F.remove fs2 (pathtoblob handle path) })
          else
            match F.fwrite fs2 (pathtoblob handle path) value with
            | none => some (DbCode.DATABASE_IOERR, { handle with fs := fs2 })
            | some fs3 =>
              -- check if already existing
              match select_id_datatype handle.db (cstr domain) (cstr key) with
              | none =>
                -- key doesn't exist
                (insert_new_key handle.db Datatype.Blob (cstr domain) (cstr key)
                  (SqlValue.text path)).map
                  (fun db => (DbCode.OK, { handle with db := db, fs := fs3 }))
              | some row =>
                -- key already exist
                if row.datatype = Datatype.Blob then
                  -- datatype is the same - just update value
                  some (DbCode.OK, { handle with
                    db := update_value handle.db Datatype.Blob (to_int32 row.id)
                      (SqlValue.text path),
                    fs := fs3 })
                else
                  -- different datatype - delete, update and insert
                  (replace_key handle.db Datatype.Blob (to_int32 row.id) row.datatype
                    (cstr domain) (cstr key) (SqlValue.text path)).map
                    (fun db => (DbCode.OK, { handle with db := db, fs := fs3 }))

/-! ### database_enum_keys -/

/-- The operator `GLOB` of SQLite on a pattern and a text (SQLite is not among
the sources): a pattern without characters matches the text without characters
and no other text. -/
structure Glob where
  glob : Bytes → Bytes → Bool
  empty_pattern : ∀ s, glob [] s = true ↔ s = []

/-- The comparison of two texts under `ORDER BY ... ASC` with the collation
BINARY: `memcmp` on the common length, then the shorter text first. -/
def key_le : Bytes → Bytes → Bool
  | [], _ => true
  | _ :: _, [] => false
  | a :: s, b :: t => decide (a < b) || (decide (a = b) && key_le s t)

/-- The rows of
`SELECT key FROM KeyInfo WHERE domain = :dom AND key GLOB :pat ORDER BY key ASC;`. -/
def select_keys (G : Glob) (db : sqlite3) (dom pat : Bytes) : List Bytes :=
  ((db.KeyInfo.filter (fun r => decide (r.domain = some dom) && G.glob pat r.key)).map
    (fun r => r.key)).insertionSort (fun a b => key_le a b = true)

/-- The loop `while (42)` of `database_enum_keys` over the rows the statement
steps through, on the values of `*count`, `*size` and `*keys` (`*keys` holds
`*size` bytes): each row is appended to `*keys` with a NUL after it.  The copy
loop counts with an `unsigned int i` up to `(*size)+strlen(dbentry)` and does
not end when that bound is 2^32 or more. -/
def enum_keys_loop : List Bytes → Nat → Nat → Option Bytes → Option (Nat × Nat × Option Bytes)
  | [], count, size, keys => some (count, size, keys)
  | dbentry :: rows, count, size, keys =>
    if size + strlen dbentry ≥ 2 ^ 32 then none
    else
      enum_keys_loop rows (count + 1) (size + strlen dbentry + 1)
        (some ((keys.getD []).take size ++ cstr dbentry ++ [0]))

/-- The function `database_enum_keys` on the values `count`, `size` and `keys`
of `*count`, `*size` and `*keys` at the call: the code and the three values
afterwards.  The function does not reset them; it adds to them. -/
def database_enum_keys {φ : Type} (G : Glob) (handle : database_handle_t φ)
    (domain pattern : Bytes) (count size : Nat) (keys : Option Bytes) :
    Option (DbCode × Nat × Nat × Option Bytes) :=
  if strlen handle.blobpath = 0 ∨ strlen domain = 0 then
    some (DbCode.INVALID_ARGUMENTS, count, size, keys)
  else
    (enum_keys_loop (select_keys G handle.db (cstr domain) (cstr pattern)) count size keys).map
      (fun r => (DbCode.OK, r))

/-! ### The clean database of `database.h` -/

/-- The database is clean: the primary keys are obeyed, a pair of domain and
key has one row in `KeyInfo`, a value table of a data type holds a row with an
id exactly when `KeyInfo` holds a row with that id and that data type, and the
ids of `KeyInfo` are values of an `int`. -/
def clean (db : sqlite3) : Prop :=
  (db.KeyInfo.map (fun r => r.id)).Nodup ∧
  (∀ t, ((value_table db t).map Prod.fst).Nodup) ∧
  (∀ r1 ∈ db.KeyInfo, ∀ r2 ∈ db.KeyInfo, r1.domain = r2.domain → r1.key = r2.key → r1 = r2) ∧
  (∀ t id, id ∈ (value_table db t).map Prod.fst ↔
    ∃ r ∈ db.KeyInfo, r.id = id ∧ r.datatype = t) ∧
  (∀ r ∈ db.KeyInfo, to_int32 r.id = r.id)

/-- The next id of AUTOINCREMENT for `KeyInfo` is a value of an `int`. -/
def room_for_key (db : sqlite3) : Prop := max (max_rowid db) db.sequence < 2 ^ 31 - 1

/-- The pair of `dom` and `key` has one row in `KeyInfo`, of the data type `t`
and with an id that is a value of an `int`, and the value table of `t` has one
row with that id, which holds `v`. -/
def stored (db : sqlite3) (t : Datatype) (dom key : Bytes) (v : SqlValue) : Prop :=
  ∃ id, db.KeyInfo.filter (fun r => decide (r.domain = some dom ∧ r.key = key))
      = [⟨id, some dom, key, t⟩] ∧
    (value_table db t).filter (fun x => decide (x.1 = id)) = [(id, v)] ∧
    to_int32 id = id

/-- The number of rows of `KeyInfo` for a domain and a key. -/
def entries (db : sqlite3) (domain key : Bytes) : Nat :=
  (db.KeyInfo.filter (fun r => decide (r.domain = some (cstr domain) ∧ r.key = cstr key))).length

/-! ## Instances for the examples -/

/-- A hash with the output size of SHA-1, for the examples: twenty copies of the
sum of the bytes. -/
def checksum_hash : Sha1 where
  hash := fun m => List.replicate 20 (byte_of (m.foldl (fun a b => a + b.val) 0))
  hash_length := by intro m; simp [SHA1_BLOCKSIZE]

/-- A store for the examples: every function returns the code `code` (and the
values 7, 7, `x`, `x`, one key `k`, the type 2), the store is a counter of the
calls. -/
def constant_store (code : DbCode) : Store Nat where
  get_int64 := fun s _ _ => some (code, 7, s + 1)
  set_int64 := fun s _ _ _ => some (code, s + 1)
  get_double := fun s _ _ => some (code, 7, s + 1)
  set_double := fun s _ _ _ => some (code, s + 1)
  get_string := fun s _ _ => some (code, [120], s + 1)
  set_string := fun s _ _ _ => some (code, s + 1)
  get_blob := fun s _ _ => some (code, [120], s + 1)
  set_blob := fun s _ _ _ => some (code, s + 1)
  enum_keys := fun s _ _ => some (code, (1, some [107, 0]), s + 1)
  get_type := fun s _ _ => some (code, 2, s + 1)
  close := fun s => some (code, s + 1)
  open_path := fun _ => (code, some 0)
  enum_keys_spec := by
    intro s d p c ks s1 h
    simp only [Option.some.injEq, Prod.mk.injEq] at h
    obtain ⟨_, ⟨h1, h2⟩, _⟩ := h
    subst h1 h2
    simp

/-- A file system for the examples: the regular files with their content, every
path being its own `realpath`; directories are not kept and `mkdir` succeeds. -/
def file_list : FileSystem (List (Bytes × Bytes)) where
  stat := fun fs p => if p ∈ fs.map Prod.fst then some FileKind.regular else none
  mkdir := fun fs _ => some fs
  fopen_wb := fun fs p => some ((p, []) :: fs.filter (fun x => decide (x.1 ≠ p)))
  realpath := fun fs p => if p ∈ fs.map Prod.fst then some p else none
  fwrite := fun fs p v =>
    if p ∈ fs.map Prod.fst then some ((p, v) :: fs.filter (fun x => decide (x.1 ≠ p))) else none
  remove := fun fs p => fs.filter (fun x => decide (x.1 ≠ p))
  fread := fun fs p => (fs.find? (fun x => decide (x.1 = p))).map Prod.snd
  fopen_regular := by
    intro fs p fs1 h
    injection h with h
    subst h
    simp
  fwrite_names := by
    intro fs p v fs1 h q
    dsimp only at h ⊢
    by_cases hp : p ∈ fs.map Prod.fst
    · rw [if_pos hp] at h
      injection h with h
      subst h
      have hq : q ∈ ((p, v) :: fs.filter (fun x => decide (x.1 ≠ p))).map Prod.fst
          ↔ q ∈ fs.map Prod.fst := by
        by_cases hqp : q = p
        · subst hqp
          simp only [List.map_cons, List.mem_cons, true_or, true_iff]
          exact hp
        · simp [hqp]
      by_cases h1 : q ∈ fs.map Prod.fst
      · rw [if_pos h1, if_pos (hq.mpr h1), if_pos h1, if_pos (hq.mpr h1)]
        exact ⟨rfl, rfl⟩
      · rw [if_neg h1, if_neg (fun h2 => h1 (hq.mp h2)), if_neg h1,
          if_neg (fun h2 => h1 (hq.mp h2))]
        exact ⟨rfl, rfl⟩
    · rw [if_neg hp] at h
      cases h
  fwrite_fread := by
    intro fs p v fs1 h
    dsimp only at h ⊢
    by_cases hp : p ∈ fs.map Prod.fst
    · rw [if_pos hp] at h
      injection h with h
      subst h
      simp
    · rw [if_neg hp] at h
      cases h

/-- A database without rows, with the blob path `/b`, on a file system without
files. -/
def empty_database : database_handle_t (List (Bytes × Bytes)) :=
  { db := ⟨[], 0, [], [], [], []⟩, blobpath := [47, 98], fs := [] }

/-- A `GLOB` for the examples: a pattern that ends in `*` matches the texts
that start with what stands before the `*`, every other pattern matches the
text equal to it. -/
def star_glob : Glob where
  glob := fun pat s =>
    if pat.getLast? = some 42 then decide (s.take (pat.length - 1) = pat.take (pat.length - 1))
    else decide (pat = s)
  empty_pattern := by
    intro s
    simp only [List.getLast?_nil, reduceCtorEq, if_false, decide_eq_true_eq]
    exact eq_comm

/-- The database of the enumeration test of `test.c`: the keys `key3`, `key1`,
`no match` and `key2` of the domain `enum` with the integer 0, the blob path
`/b`, a file system without files. -/
def enum_database : database_handle_t (List (Bytes × Bytes)) :=
  { db := ⟨[⟨1, some [101, 110, 117, 109], [107, 101, 121, 51], Datatype.Int64⟩,
            ⟨2, some [101, 110, 117, 109], [107, 101, 121, 49], Datatype.Int64⟩,
            ⟨3, some [101, 110, 117, 109], [110, 111, 32, 109, 97, 116, 99, 104], Datatype.Int64⟩,
            ⟨4, some [101, 110, 117, 109], [107, 101, 121, 50], Datatype.Int64⟩], 4,
          [(1, SqlValue.integer 0), (2, SqlValue.integer 0), (3, SqlValue.integer 0),
            (4, SqlValue.integer 0)], [], [], []⟩,
    blobpath := [47, 98], fs := [] }

/-! # Theorems -/

/-! ## Byte order -/

theorem testBit_byte_mask (k i : Nat) :
    (byte_mask k).testBit i = decide (k ≤ i ∧ i < k + 8) := by
  unfold byte_mask
  rw [Nat.testBit_shiftLeft]
  have : (0xFF : Nat) = 2 ^ 8 - 1 := by decide
  rw [this, Nat.testBit_two_pow_sub_one]
  by_cases h1 : k ≤ i <;> by_cases h2 : i < k + 8 <;> simp [h1, h2] <;> omega

/-- Bit `i` of the byte-swapped word is the bit of the mirrored byte. -/
theorem htobe64_testBit (v i : Nat) :
    (htobe64 v).testBit i = (decide (i < 64) && v.testBit (i + 56 - 16 * (i / 8))) := by
  have m0 : (0x00000000000000FF : Nat) = byte_mask 0 := by decide
  have m1 : (0x000000000000FF00 : Nat) = byte_mask 8 := by decide
  have m2 : (0x0000000000FF0000 : Nat) = byte_mask 16 := by decide
  have m3 : (0x00000000FF000000 : Nat) = byte_mask 24 := by decide
  have m4 : (0x000000FF00000000 : Nat) = byte_mask 32 := by decide
  have m5 : (0x0000FF0000000000 : Nat) = byte_mask 40 := by decide
  have m6 : (0x00FF000000000000 : Nat) = byte_mask 48 := by decide
  have m7 : (0xFF00000000000000 : Nat) = byte_mask 56 := by decide
  unfold htobe64
  rw [m0, m1, m2, m3, m4, m5, m6, m7]
  simp only [Nat.testBit_or, Nat.testBit_and, Nat.testBit_shiftLeft, Nat.testBit_shiftRight,
    testBit_byte_mask]
  by_cases h : i < 64
  · have hlo : 8 * (i / 8) ≤ i := by omega
    have hhi : i < 8 * (i / 8) + 8 := by omega
    rcases (show i / 8 = 0 ∨ i / 8 = 1 ∨ i / 8 = 2 ∨ i / 8 = 3 ∨ i / 8 = 4 ∨ i / 8 = 5 ∨
        i / 8 = 6 ∨ i / 8 = 7 by omega) with hq | hq | hq | hq | hq | hq | hq | hq
    all_goals
      rw [hq] at hlo hhi
      simp only [hq, h, decide_True, Bool.true_and]
      simp (disch := omega) only [decide_eq_true, decide_eq_false, Bool.true_and, Bool.false_and,
        Bool.or_false, Bool.false_or, Bool.and_true, Bool.and_false, ge_iff_le]
      first | rfl | (apply congrArg; omega)
  · simp (disch := omega) only [decide_eq_true, decide_eq_false, Bool.true_and, Bool.false_and,
        Bool.or_false, Bool.false_or, Bool.and_true, Bool.and_false, ge_iff_le, h]
    simp

theorem htobe64_lt (v : Nat) : htobe64 v < 2 ^ 64 := by
  apply Nat.lt_pow_two_of_testBit
  intro i hi
  rw [htobe64_testBit]
  simp; omega

/-- Swapping the bytes twice gives the word back. -/
theorem htobe64_htobe64 (v : Nat) (h : v < 2 ^ 64) : htobe64 (htobe64 v) = v := by
  apply Nat.eq_of_testBit_eq
  intro i
  rw [htobe64_testBit, htobe64_testBit]
  by_cases hi : i < 64
  · have e : i + 56 - 16 * (i / 8) + 56 - 16 * ((i + 56 - 16 * (i / 8)) / 8) = i := by omega
    have e2 : i + 56 - 16 * (i / 8) < 64 := by omega
    simp [hi, e, e2]
  · have : v.testBit i = false := by
      apply Nat.testBit_lt_two_pow
      exact lt_of_lt_of_le h (Nat.pow_le_pow_right (by decide) (by omega))
    simp [hi, this]

theorem to_uint64_lt (v : Int) : to_uint64 v < 2 ^ 64 := by
  unfold to_uint64
  have h1 : 0 ≤ v % 2 ^ 64 := Int.emod_nonneg _ (by norm_num)
  have h2 : v % 2 ^ 64 < 2 ^ 64 := Int.emod_lt_of_pos _ (by norm_num)
  omega

theorem to_int64_to_uint64 (v : Int) (h : is_int64 v) : to_int64 (to_uint64 v) = v := by
  unfold to_int64 to_uint64
  obtain ⟨h1, h2⟩ := h
  have h3 : 0 ≤ v % 2 ^ 64 := Int.emod_nonneg _ (by norm_num)
  have h4 : v % 2 ^ 64 < 2 ^ 64 := Int.emod_lt_of_pos _ (by norm_num)
  split <;> omega

theorem to_uint64_to_int64 (n : Nat) (h : n < 2 ^ 64) : to_uint64 (to_int64 n) = n := by
  unfold to_int64 to_uint64
  split <;> omega

/-! ## The object representation of a word -/

theorem bytes_of_word_succ (n w : Nat) :
    bytes_of_word (n + 1) w = byte_of w :: bytes_of_word n (w / 256) := by
  unfold bytes_of_word
  rw [List.range_succ_eq_map]
  simp only [List.map_cons, List.map_map, pow_zero, Nat.div_one]
  congr 1
  apply List.map_congr_left
  intro s _
  simp only [Function.comp, pow_succ, Nat.div_div_eq_div_mul]
  rw [Nat.mul_comm]

theorem bytes_of_word_length (n w : Nat) : (bytes_of_word n w).length = n := by
  simp [bytes_of_word]

theorem word_of_bytes_of_word (n w : Nat) : word_of_bytes (bytes_of_word n w) = w % 256 ^ n := by
  induction n generalizing w with
  | zero => simp [bytes_of_word, word_of_bytes, Nat.mod_one]
  | succ n ih =>
    rw [bytes_of_word_succ, word_of_bytes, ih]
    simp only [byte_of]
    rw [pow_succ, Nat.mul_comm (256 ^ n) 256, Nat.mod_mul]

/-! ## The byte buffer -/

theorem write_loop_append (buf bs : Bytes) :
    write_loop ⟨buf, buf.length⟩ bs = (ERROR_OK, ⟨buf ++ bs, (buf ++ bs).length⟩) := by
  induction bs generalizing buf with
  | nil => simp [write_loop]
  | cons b bs ih =>
    have hw : data_store_write_byte ⟨buf, buf.length⟩ b
        = (ERROR_OK, ⟨buf ++ [b], (buf ++ [b]).length⟩) := by
      simp [data_store_write_byte, simple_memory_buffer_write, simple_memory_buffer_t.size]
    rw [write_loop, hw]
    simp only [ne_eq, not_true_eq_false, if_false]
    rw [ih]
    simp

theorem read_loop_append (pre bs post : Bytes) :
    read_loop ⟨pre ++ bs ++ post, pre.length⟩ bs.length
      = (ERROR_OK, bs, ⟨pre ++ bs ++ post, pre.length + bs.length⟩) := by
  induction bs generalizing pre with
  | nil => simp [read_loop]
  | cons b bs ih =>
    have hr : data_store_read_byte ⟨pre ++ (b :: bs) ++ post, pre.length⟩
        = (ERROR_OK, some b, ⟨(pre ++ [b]) ++ bs ++ post, (pre ++ [b]).length⟩) := by
      simp [data_store_read_byte, simple_memory_buffer_read, simple_memory_buffer_t.size,
        List.getElem_append_right]
    simp only [List.length_cons, read_loop, hr]
    rw [ih]
    simp [ERROR_OK, Nat.add_assoc, Nat.add_comm 1]

/-! ## bpack and bunpack, case by case -/

theorem enc_l_length (le : Bool) (v : Int) : (enc_l le v).length = 8 := by
  simp [enc_l, bytes_of_word_length]

theorem bpack_l_append (le : Bool) (v : Int) (buf : Bytes) :
    bpack_l le v ⟨buf, buf.length⟩
      = (ERROR_OK, ⟨buf ++ enc_l le v, (buf ++ enc_l le v).length⟩) := by
  unfold bpack_l
  rw [write_loop_append]
  rfl

theorem bpack_b_append (le : Bool) (b buf : Bytes) :
    bpack_b le b ⟨buf, buf.length⟩
      = (ERROR_OK, ⟨buf ++ enc_b le b, (buf ++ enc_b le b).length⟩) := by
  unfold bpack_b
  rw [bpack_l_append]
  simp only [ne_eq, not_true_eq_false, if_false]
  rw [write_loop_append]
  simp [enc_b]

theorem bpack_s_append (le : Bool) (s buf : Bytes) :
    bpack_s le s ⟨buf, buf.length⟩
      = (ERROR_OK, ⟨buf ++ enc_s le s, (buf ++ enc_s le s).length⟩) := by
  unfold bpack_s enc_s
  exact bpack_b_append le (cstr s) buf

theorem word_of_enc_l (le : Bool) (v : Int) :
    to_int64 (if le then le64toh (word_of_bytes (enc_l le v))
      else be64toh (word_of_bytes (enc_l le v))) = to_int64 (to_uint64 v) := by
  unfold enc_l
  rw [word_of_bytes_of_word]
  have h256 : (256 : Nat) ^ 8 = 2 ^ 64 := by norm_num
  rw [h256]
  cases le with
  | true =>
    simp only [if_true, htole64, le64toh]
    rw [Nat.mod_eq_of_lt (to_uint64_lt v)]
  | false =>
    simp only [Bool.false_eq_true, if_false, be64toh]
    rw [Nat.mod_eq_of_lt (htobe64_lt _), htobe64_htobe64 _ (to_uint64_lt v)]

theorem bunpack_l_enc (le : Bool) (v : Int) (pre post : Bytes) :
    bunpack_l le ⟨pre ++ enc_l le v ++ post, pre.length⟩
      = (ERROR_OK, to_int64 (to_uint64 v), ⟨pre ++ enc_l le v ++ post, pre.length + 8⟩) := by
  unfold bunpack_l
  have h := read_loop_append pre (enc_l le v) post
  rw [enc_l_length] at h
  simp only [h, ne_eq, not_true_eq_false, if_false]
  rw [word_of_enc_l]

theorem enc_b_length (le : Bool) (b : Bytes) : (enc_b le b).length = 8 + b.length := by
  simp [enc_b, enc_l_length]

theorem bunpack_b_enc (le : Bool) (b pre post : Bytes) (hb : is_blob b) :
    bunpack_b le ⟨pre ++ enc_b le b ++ post, pre.length⟩
      = (ERROR_OK, b, ⟨pre ++ enc_b le b ++ post, pre.length + (8 + b.length)⟩) := by
  unfold bunpack_b
  have hlen : b.length < 2 ^ 64 := by
    unfold is_blob SIZE_MAX at hb
    omega
  have e1 : pre ++ enc_b le b ++ post
      = pre ++ enc_l le (to_int64 b.length) ++ (b ++ post) := by
    simp [enc_b]
  have e2 : pre ++ enc_b le b ++ post
      = (pre ++ enc_l le (to_int64 b.length)) ++ b ++ post := by
    simp [enc_b]
  have hl := bunpack_l_enc le (to_int64 b.length) pre (b ++ post)
  rw [← e1, to_uint64_to_int64 _ hlen] at hl
  have hr := read_loop_append (pre ++ enc_l le (to_int64 b.length)) b post
  rw [← e2] at hr
  simp only [List.length_append, enc_l_length] at hr
  simp only [hl, ne_eq, not_true_eq_false, if_false, to_uint64_to_int64 _ hlen]
  have hs : ¬ b.length > SIZE_MAX := by
    unfold is_blob at hb
    omega
  simp only [hs, if_false, hr, Bool.true_eq_false, false_and]
  simp [Nat.add_assoc]

theorem bunpack_s_enc (le : Bool) (s pre post : Bytes) (hs : is_c_string s) :
    bunpack_s le ⟨pre ++ enc_b le s ++ post, pre.length⟩
      = (ERROR_OK, s, ⟨pre ++ enc_b le s ++ post, pre.length + (8 + s.length)⟩) := by
  unfold bunpack_s
  have hb : is_blob s := by
    unfold is_blob
    exact Nat.le_of_lt hs.2
  rw [bunpack_b_enc le s pre post hb]
  have hne : s.length ≠ SIZE_MAX := Nat.ne_of_lt hs.2
  simp [hne]

theorem cstr_of_c_string (s : Bytes) (hs : is_c_string s) : cstr s = s := by
  unfold cstr
  rw [List.takeWhile_eq_self_iff]
  intro c hc
  simpa using hs.1 c hc

/-! ## C1: unpacking what was packed -/

theorem roundtrip_aux : ∀ (fmt : List Char) (le : Bool) (v : List Arg) (outs : List Out)
    (buf : Bytes), matches_format fmt v → List.Forall₂ Out.target_of outs v →
    ∃ bs, bpack_v fmt le ⟨buf, buf.length⟩ v
        = some (ERROR_OK, ⟨buf ++ bs, (buf ++ bs).length⟩) ∧
      ∀ pre post, bunpack_v fmt le ⟨pre ++ bs ++ post, pre.length⟩ outs
        = some (ERROR_OK, ⟨pre ++ bs ++ post, pre.length + bs.length⟩,
            v.map Arg.unpacked) := by
  intro fmt
  induction fmt with
  | nil =>
    intro le v outs buf hm ho
    cases v with
    | nil =>
      cases ho
      exact ⟨[], by simp [bpack_v], by intro pre post; simp [bunpack_v]⟩
    | cons a v => simp [matches_format] at hm
  | cons c fmt ih =>
    intro le v outs buf hm ho
    by_cases hsw : c = '<' ∨ c = '>'
    · -- an endianness switch consumes no argument
      simp only [matches_format, hsw, if_true] at hm
      rcases hsw with rfl | rfl
      · obtain ⟨bs, h1, h2⟩ := ih true v outs buf hm ho
        refine ⟨bs, ?_, ?_⟩
        · simpa [bpack_v] using h1
        · intro pre post
          simpa [bunpack_v] using h2 pre post
      · obtain ⟨bs, h1, h2⟩ := ih false v outs buf hm ho
        refine ⟨bs, ?_, ?_⟩
        · simpa [bpack_v] using h1
        · intro pre post
          simpa [bunpack_v] using h2 pre post
    · simp only [matches_format, hsw, if_false] at hm
      have hlt : c ≠ '<' := fun h => hsw (Or.inl h)
      have hgt : c ≠ '>' := fun h => hsw (Or.inr h)
      by_cases hl : c = 'l'
      · subst hl
        simp only [if_true] at hm
        match v, hm, ho with
        | Arg.l x :: v, hm, ho =>
          obtain ⟨hx, hm⟩ := hm
          cases ho with
          | cons hhd htl =>
            rename_i o outs
            match o, hhd with
            | Out.l (some old), _ =>
              obtain ⟨bs, h1, h2⟩ := ih le v outs (buf ++ enc_l le x) hm htl
              refine ⟨enc_l le x ++ bs, ?_, ?_⟩
              · simp only [bpack_v, if_true, bpack_l_append, ne_eq, not_true_eq_false, if_false]
                rw [h1]
                simp
              · intro pre post
                have h3 := h2 (pre ++ enc_l le x) post
                have e : pre ++ (enc_l le x ++ bs) ++ post
                    = pre ++ enc_l le x ++ (bs ++ post) := by simp
                have hu := bunpack_l_enc le x pre (bs ++ post)
                rw [← e, to_int64_to_uint64 x hx] at hu
                simp only [bunpack_v, if_true, hu, ne_eq, not_true_eq_false, if_false]
                have e2 : pre ++ (enc_l le x ++ bs) ++ post
                    = pre ++ enc_l le x ++ bs ++ post := by simp
                rw [e2]
                simp only [List.length_append, enc_l_length] at h3
                rw [h3]
                simp [Arg.unpacked, Nat.add_assoc, enc_l_length]
      · simp only [hl, if_false] at hm
        by_cases hs : c = 's'
        · subst hs
          simp only [if_true] at hm
          match v, hm, ho with
          | Arg.s (some x) :: v, hm, ho =>
            obtain ⟨hx, hm⟩ := hm
            cases ho with
            | cons hhd htl =>
              rename_i o outs
              match o, hhd with
              | Out.s (some old), _ =>
                obtain ⟨bs, h1, h2⟩ := ih le v outs (buf ++ enc_s le x) hm htl
                refine ⟨enc_s le x ++ bs, ?_, ?_⟩
                · simp only [bpack_v, bpack_s_append, ne_eq, not_true_eq_false, if_false]
                  rw [h1]
                  simp
                · intro pre post
                  have hc : enc_s le x = enc_b le x := by
                    unfold enc_s
                    rw [cstr_of_c_string x hx]
                  rw [hc]
                  have h3 := h2 (pre ++ enc_s le x) post
                  rw [hc] at h3
                  have e : pre ++ (enc_b le x ++ bs) ++ post
                      = pre ++ enc_b le x ++ (bs ++ post) := by simp
                  have hu := bunpack_s_enc le x pre (bs ++ post) hx
                  rw [← e] at hu
                  simp only [bunpack_v, hu, ne_eq, not_true_eq_false, if_false]
                  have e2 : pre ++ (enc_b le x ++ bs) ++ post
                      = pre ++ enc_b le x ++ bs ++ post := by simp
                  rw [e2]
                  simp only [List.length_append, enc_b_length] at h3
                  simp only [Char.reduceEq, if_false]
                  rw [h3]
                  simp [Arg.unpacked, Nat.add_assoc, enc_b_length]
        · simp only [hs, if_false] at hm
          by_cases hb : c = 'b'
          · subst hb
            simp only [if_true] at hm
            match v, hm, ho with
            | Arg.b (some x) :: v, hm, ho =>
              obtain ⟨hx, hm⟩ := hm
              cases ho with
              | cons hhd htl =>
                rename_i o outs
                match o, hhd with
                | Out.b (some oldsize) (some old), _ =>
                  obtain ⟨bs, h1, h2⟩ := ih le v outs (buf ++ enc_b le x) hm htl
                  refine ⟨enc_b le x ++ bs, ?_, ?_⟩
                  · simp only [bpack_v, bpack_b_append, ne_eq, not_true_eq_false, if_false]
                    rw [h1]
                    simp
                  · intro pre post
                    have h3 := h2 (pre ++ enc_b le x) post
                    have e : pre ++ (enc_b le x ++ bs) ++ post
                        = pre ++ enc_b le x ++ (bs ++ post) := by simp
                    have hu := bunpack_b_enc le x pre (bs ++ post) hx
                    rw [← e] at hu
                    simp only [bunpack_v, hu, ne_eq, not_true_eq_false, if_false]
                    have e2 : pre ++ (enc_b le x ++ bs) ++ post
                        = pre ++ enc_b le x ++ bs ++ post := by simp
                    rw [e2]
                    simp only [List.length_append, enc_b_length] at h3
                    simp only [Char.reduceEq, if_false]
                    rw [h3]
                    simp [Arg.unpacked, Nat.add_assoc, enc_b_length]
          · simp [hb] at hm

/-- C1: for every format string `f` over the characters `l`, `s`, `b`, `<`, `>`
and every matching value tuple `v` (64-bit integers, strings without a NUL,
blobs of any length), `bpack` on an empty buffer succeeds, and `bunpack` with
`f` on a fresh buffer that holds exactly the bytes written returns `ERROR_OK`
and leaves exactly the values of `v` in the targets, whatever endianness
switches `f` contains. -/
theorem bunpack_bpack_roundtrip (f : String) (v : List Arg) (outs : List Out)
    (hm : matches_format f.toList v) (ho : List.Forall₂ Out.target_of outs v) :
    ∃ ds, bpack (simple_memory_buffer_new []) f v = some (ERROR_OK, ds) ∧
      ∃ ds1, bunpack (simple_memory_buffer_new ds.buffer) f outs
        = some (ERROR_OK, ds1, v.map Arg.unpacked) := by
  obtain ⟨bs, h1, h2⟩ := roundtrip_aux f.toList true v outs [] hm ho
  refine ⟨⟨[] ++ bs, ([] ++ bs).length⟩, by simpa [bpack, simple_memory_buffer_new] using h1, ?_⟩
  have h3 := h2 [] []
  simp only [List.nil_append, List.append_nil, List.length_nil, Nat.zero_add] at h3
  exact ⟨_, by simpa [bunpack, simple_memory_buffer_new] using h3⟩

/-- Witness of C1: two integers around a big-endian switch, a string and an
empty blob. -/
theorem bunpack_bpack_roundtrip_witness :
    ∃ ds, bpack (simple_memory_buffer_new []) "l>l<sb"
        [Arg.l (-2), Arg.l 258, Arg.s (some [97, 98]), Arg.b (some [])] = some (ERROR_OK, ds) ∧
      ∃ ds1, bunpack (simple_memory_buffer_new ds.buffer) "l>l<sb"
          [Out.l (some 0), Out.l (some 0), Out.s (some none), Out.b (some 7) (some none)]
        = some (ERROR_OK, ds1,
            [Arg.l (-2), Arg.l 258, Arg.s (some [97, 98]), Arg.b (some [])].map Arg.unpacked) :=
  bunpack_bpack_roundtrip "l>l<sb"
    [Arg.l (-2), Arg.l 258, Arg.s (some [97, 98]), Arg.b (some [])]
    [Out.l (some 0), Out.l (some 0), Out.s (some none), Out.b (some 7) (some none)]
    (by simp [matches_format, is_int64, is_c_string, is_blob, SIZE_MAX])
    (by simp [Out.target_of])

/-! ## C3: a tag that does not verify -/

/-- C3 as stated does not hold: on a message whose tag does not verify, the
HMAC channel returns `ERROR_UNKNOWN`, not `ERROR_HMAC_VERIFICATION_FAILED`.
Here the key is `k`, the message is `a` followed by twenty zero bytes, and the
tag of `a` under the example hash is not zero. -/
theorem ch_read_bytes_tampered_code :
    (List.replicate 20 (0 : Byte) ≠ (hmac checksum_hash [107] [97]).2) ∧
    ch_client_read_bytes checksum_hash ⟨some [107]⟩
        (some (ERROR_OK, some (97 :: List.replicate 20 (0 : Byte)), ()))
      = some (ERROR_UNKNOWN, none, ()) ∧
    ch_server_read_bytes checksum_hash ⟨some [107]⟩
        (some (ERROR_OK, some (97 :: List.replicate 20 (0 : Byte)), ()))
      = some (ERROR_UNKNOWN, none, ()) ∧
    ERROR_UNKNOWN ≠ ERROR_HMAC_VERIFICATION_FAILED := by
  decide

theorem hmac_length (H : Sha1) (key message : Bytes) (hk : key.length ≠ 0)
    (hm : message.length ≠ 0) :
    (hmac H key message).1 = ERROR_OK ∧ (hmac H key message).2.length = SHA1_BLOCKSIZE := by
  unfold hmac
  simp [hk, hm, H.hash_length]

/-- C3, amended: for a keyed HMAC channel, whenever the child delivers a
message of more than 20 bytes (a payload of one byte or more and the tag) whose
last 20 bytes are not the HMAC of the preceding bytes under the key of the
channel, client-recv and server-recv return `ERROR_UNKNOWN` and hand no bytes to
the caller. -/
theorem ch_read_bytes_tampered {χ : Type} (H : Sha1) (ch : channel_hmac_t) (key message : Bytes)
    (child : χ) (hkey : ch.keyed = some key) (hlen : SHA1_BLOCKSIZE < message.length)
    (htag : message.drop (message.length - SHA1_BLOCKSIZE)
      ≠ (hmac H key (message.take (message.length - SHA1_BLOCKSIZE))).2) :
    ch_client_read_bytes H ch (some (ERROR_OK, some message, child))
        = some (ERROR_UNKNOWN, none, child) ∧
    ch_server_read_bytes H ch (some (ERROR_OK, some message, child))
        = some (ERROR_UNKNOWN, none, child) := by
  have hk : key.length ≠ 0 := by
    unfold channel_hmac_t.keyed at hkey
    split at hkey
    · split at hkey
      · simp only [Option.some.injEq] at hkey
        subst hkey
        assumption
      · simp at hkey
    · simp at hkey
  have main : ch_read_bytes H ch (ERROR_OK, some message, child)
      = some (ERROR_UNKNOWN, none, child) := by
    unfold ch_read_bytes
    simp only [ne_eq, not_true_eq_false, if_false, hkey]
    by_cases h0 : strlen message = 0 ∨ message.length = 0
    · rw [if_pos h0]
    · have hl : ¬ message.length ≤ SHA1_BLOCKSIZE := by omega
      simp only [h0, if_false, hl]
      have hv : hmac_verify H key (message.take (message.length - SHA1_BLOCKSIZE))
          (message.drop (message.length - SHA1_BLOCKSIZE)) ≠ ERROR_OK := by
        unfold hmac_verify
        by_cases hm : (message.take (message.length - SHA1_BLOCKSIZE)).length = 0
        · simp [hk, hm, ERROR_INVALID_ARGUMENTS, ERROR_OK]
        · have hh := hmac_length H key _ hk hm
          have hd : (message.drop (message.length - SHA1_BLOCKSIZE)).length = SHA1_BLOCKSIZE := by
            simp only [List.length_drop]
            omega
          have ht1 : (message.drop (message.length - SHA1_BLOCKSIZE)).take SHA1_BLOCKSIZE
              = message.drop (message.length - SHA1_BLOCKSIZE) :=
            List.take_of_length_le (le_of_eq hd)
          have ht2 : (hmac H key (message.take (message.length - SHA1_BLOCKSIZE))).2.take
              SHA1_BLOCKSIZE = (hmac H key (message.take (message.length - SHA1_BLOCKSIZE))).2 :=
            List.take_of_length_le (le_of_eq hh.2)
          simp only [hk, hm, or_self, if_false, hh.1, ne_eq, not_true_eq_false, ht1, ht2, htag,
            not_false_eq_true, if_true]
          simp [ERROR_HMAC_VERIFICATION_FAILED, ERROR_OK]
      simp [hv]
  exact ⟨by simp [ch_client_read_bytes, main], by simp [ch_server_read_bytes, main]⟩

/-- Witness of the amended C3: the key `k` and the message of 21 bytes `a`
followed by twenty zero bytes. -/
theorem ch_read_bytes_tampered_witness :
    ch_client_read_bytes checksum_hash ⟨some [107]⟩
        (some (ERROR_OK, some (97 :: List.replicate 20 (0 : Byte)), ()))
        = some (ERROR_UNKNOWN, none, ()) ∧
    ch_server_read_bytes checksum_hash ⟨some [107]⟩
        (some (ERROR_OK, some (97 :: List.replicate 20 (0 : Byte)), ()))
        = some (ERROR_UNKNOWN, none, ()) :=
  ch_read_bytes_tampered checksum_hash ⟨some [107]⟩ [107] (97 :: List.replicate 20 (0 : Byte)) ()
    (by decide) (by decide) (by decide)

/-! ## The registry operations: request and reply -/

theorem bpack_request_ss (tag : Byte) (domain key : Bytes) :
    bpack (data_store_write_byte (simple_memory_buffer_new []) tag).2 "ss"
        [Arg.s (some domain), Arg.s (some key)]
      = some (ERROR_OK, ⟨tag :: (enc_s true domain ++ enc_s true key),
          (tag :: (enc_s true domain ++ enc_s true key)).length⟩) := by
  have hw : (data_store_write_byte (simple_memory_buffer_new []) tag).2
      = ⟨[tag], ([tag] : Bytes).length⟩ := by
    simp [data_store_write_byte, simple_memory_buffer_write, simple_memory_buffer_new,
      simple_memory_buffer_t.size]
  rw [hw]
  have hfmt : "ss".toList = ['s', 's'] := by decide
  simp only [bpack, hfmt, bpack_v, Char.reduceEq, if_false, if_true, bpack_s_append, ne_eq,
    not_true_eq_false]
  simp

theorem read_tag (tag : Byte) (rest : Bytes) :
    data_store_read_byte (simple_memory_buffer_new (tag :: rest))
      = (ERROR_OK, some tag, ⟨tag :: rest, ([tag] : Bytes).length⟩) := by
  simp [data_store_read_byte, simple_memory_buffer_read, simple_memory_buffer_new,
    simple_memory_buffer_t.size]

theorem bunpack_error_code (tag : Byte) (e : Int) (rest : Bytes) (old : Int) (he : is_int64 e) :
    bunpack ⟨tag :: (enc_l true e ++ rest), ([tag] : Bytes).length⟩ "l" [Out.l (some old)]
      = some (ERROR_OK, ⟨tag :: (enc_l true e ++ rest), ([tag] : Bytes).length + 8⟩,
          [Out.l (some e)]) := by
  have hfmt : "l".toList = ['l'] := by decide
  have hu := bunpack_l_enc true e [tag] rest
  rw [to_int64_to_uint64 e he] at hu
  have e1 : tag :: (enc_l true e ++ rest) = [tag] ++ enc_l true e ++ rest := by simp
  rw [e1]
  simp only [bunpack, hfmt, bunpack_v, if_true, hu, ne_eq, not_true_eq_false, if_false,
    Option.map_some']

theorem registry_get_error_no_such_key (rest : Bytes) :
    registry_get_error ⟨PACKET_ERROR :: (enc_l true ERROR_DATABASE_NO_SUCH_KEY ++ rest),
        ([PACKET_ERROR] : Bytes).length⟩ = some ERROR_REGISTRY_NO_SUCH_KEY := by
  unfold registry_get_error
  rw [bunpack_error_code PACKET_ERROR ERROR_DATABASE_NO_SUCH_KEY rest ERROR_OK (by decide)]
  simp

/-- The exchange of a get operation whose request is accepted by the channel and
whose reply is `reply`. -/
theorem registry_call_get {σ : Type} (H : Sha1) (S : Store σ) (channel channel1 channel2 : channel_t σ)
    (domain key reply : Bytes) (tag : Byte) (empty_ok : Bool)
    (hd : strlen domain ≠ 0) (hk : strlen key ≠ 0)
    (hw : channel_client_write_bytes H S channel (tag :: (enc_s true domain ++ enc_s true key))
      = some (ERROR_OK, channel1))
    (hr : channel_client_read_bytes H channel1 = some (ERROR_OK, some reply, channel2)) :
    registry_call H S (some ⟨some channel, some domain⟩) (some key) empty_ok true tag "ss"
        (fun domain key => [Arg.s (some domain), Arg.s (some key)])
      = some (ERROR_OK, some reply, some ⟨some channel2, some domain⟩) := by
  unfold registry_call registry_exchange
  have hw0 : (data_store_write_byte (simple_memory_buffer_new []) tag).1 = ERROR_OK := rfl
  simp only [hd, hk, false_and, or_self, if_false, hw0, ne_eq, not_true_eq_false,
    bpack_request_ss, simple_memory_buffer_get_data, hw, hr, Option.map_some']
  simp [ERROR_OK, ERROR_CHANNEL_BUSY]

/-! ## C8: the reply that carries `ERROR_DATABASE_NO_SUCH_KEY` -/

/-- C8: for each of `registry_get_int64`, `registry_get_double`,
`registry_get_string`, `registry_get_blob` and `registry_key_get_value_type`,
called with valid arguments on a channel that accepts the request, when the
reply is an ERROR packet that carries `ERROR_DATABASE_NO_SUCH_KEY` the call
returns `ERROR_REGISTRY_NO_SUCH_KEY` and the output variables of the caller
keep their values. -/
theorem registry_get_no_such_key {σ : Type} (H : Sha1) (S : Store σ) (channel : channel_t σ)
    (domain key rest : Bytes) (hd : strlen domain ≠ 0) (hk : strlen key ≠ 0) :
    (∀ (channel1 channel2 : channel_t σ) (value : Int),
      channel_client_write_bytes H S channel
          (PACKET_GET_INT :: (enc_s true domain ++ enc_s true key)) = some (ERROR_OK, channel1) →
      channel_client_read_bytes H channel1 = some (ERROR_OK,
          some (PACKET_ERROR :: (enc_l true ERROR_DATABASE_NO_SUCH_KEY ++ rest)), channel2) →
      registry_get_int64 H S (some ⟨some channel, some domain⟩) (some key) (some value)
        = some (ERROR_REGISTRY_NO_SUCH_KEY, some value, some ⟨some channel2, some domain⟩)) ∧
    (∀ (channel1 channel2 : channel_t σ) (value : Nat),
      channel_client_write_bytes H S channel
          (PACKET_GET_DOUBLE :: (enc_s true domain ++ enc_s true key))
        = some (ERROR_OK, channel1) →
      channel_client_read_bytes H channel1 = some (ERROR_OK,
          some (PACKET_ERROR :: (enc_l true ERROR_DATABASE_NO_SUCH_KEY ++ rest)), channel2) →
      registry_get_double H S (some ⟨some channel, some domain⟩) (some key) (some value)
        = some (ERROR_REGISTRY_NO_SUCH_KEY, some value, some ⟨some channel2, some domain⟩)) ∧
    (∀ (channel1 channel2 : channel_t σ) (value : Option Bytes),
      channel_client_write_bytes H S channel
          (PACKET_GET_STRING :: (enc_s true domain ++ enc_s true key))
        = some (ERROR_OK, channel1) →
      channel_client_read_bytes H channel1 = some (ERROR_OK,
          some (PACKET_ERROR :: (enc_l true ERROR_DATABASE_NO_SUCH_KEY ++ rest)), channel2) →
      registry_get_string H S (some ⟨some channel, some domain⟩) (some key) (some value)
        = some (ERROR_REGISTRY_NO_SUCH_KEY, some value, some ⟨some channel2, some domain⟩)) ∧
    (∀ (channel1 channel2 : channel_t σ) (value : Option Bytes) (size : Nat),
      channel_client_write_bytes H S channel
          (PACKET_GET_BLOB :: (enc_s true domain ++ enc_s true key))
        = some (ERROR_OK, channel1) →
      channel_client_read_bytes H channel1 = some (ERROR_OK,
          some (PACKET_ERROR :: (enc_l true ERROR_DATABASE_NO_SUCH_KEY ++ rest)), channel2) →
      registry_get_blob H S (some ⟨some channel, some domain⟩) (some key) (some value) (some size)
        = some (ERROR_REGISTRY_NO_SUCH_KEY, some value, some size,
            some ⟨some channel2, some domain⟩)) ∧
    (∀ (channel1 channel2 : channel_t σ) (type : Int),
      channel_client_write_bytes H S channel
          (PACKET_GET_VALUE_TYPE :: (enc_s true domain ++ enc_s true key))
        = some (ERROR_OK, channel1) →
      channel_client_read_bytes H channel1 = some (ERROR_OK,
          some (PACKET_ERROR :: (enc_l true ERROR_DATABASE_NO_SUCH_KEY ++ rest)), channel2) →
      registry_key_get_value_type H S (some ⟨some channel, some domain⟩) (some key) (some type)
        = some (ERROR_REGISTRY_NO_SUCH_KEY, some type, some ⟨some channel2, some domain⟩)) := by
  refine ⟨?_, ?_, ?_, ?_, ?_⟩
  · intro channel1 channel2 value hw hr
    have hc := registry_call_get H S channel channel1 channel2 domain key _ PACKET_GET_INT false
      hd hk hw hr
    unfold registry_get_int64
    rw [show (some value).isSome = true from rfl, hc]
    dsimp only
    rw [if_neg (by simp)]
    rw [Option.getD_some, read_tag]
    dsimp only
    rw [if_neg (by simp), if_pos rfl, registry_get_error_no_such_key]
    rfl
  · intro channel1 channel2 value hw hr
    have hc := registry_call_get H S channel channel1 channel2 domain key _ PACKET_GET_DOUBLE false
      hd hk hw hr
    unfold registry_get_double
    rw [show (some value).isSome = true from rfl, hc]
    dsimp only
    rw [if_neg (by simp)]
    rw [Option.getD_some, read_tag]
    dsimp only
    rw [if_neg (by simp), if_pos rfl, registry_get_error_no_such_key]
    rfl
  · intro channel1 channel2 value hw hr
    have hc := registry_call_get H S channel channel1 channel2 domain key _ PACKET_GET_STRING false
      hd hk hw hr
    unfold registry_get_string
    rw [show (some value).isSome = true from rfl, hc]
    dsimp only
    rw [if_neg (by simp)]
    rw [Option.getD_some, read_tag]
    dsimp only
    rw [if_neg (by simp), if_pos rfl, registry_get_error_no_such_key]
    rfl
  · intro channel1 channel2 value size hw hr
    have hc := registry_call_get H S channel channel1 channel2 domain key _ PACKET_GET_BLOB false
      hd hk hw hr
    unfold registry_get_blob
    rw [show ((some value).isSome && (some size).isSome) = true from rfl, hc]
    dsimp only
    rw [if_neg (by simp)]
    rw [Option.getD_some, read_tag]
    dsimp only
    rw [if_neg (by simp), if_pos rfl, registry_get_error_no_such_key]
    rfl
  · intro channel1 channel2 type hw hr
    have hc := registry_call_get H S channel channel1 channel2 domain key _ PACKET_GET_VALUE_TYPE
      false hd hk hw hr
    unfold registry_key_get_value_type
    rw [show (some type).isSome = true from rfl, hc]
    dsimp only
    rw [if_neg (by simp)]
    rw [Option.getD_some, read_tag]
    dsimp only
    rw [if_neg (by simp), if_pos rfl, registry_get_error_no_such_key]
    rfl

set_option maxRecDepth 100000 in
/-- Witness of C8: the store answers the get with `ERROR_DATABASE_NO_SUCH_KEY`
over the plain server channel. -/
theorem registry_get_no_such_key_witness :
    registry_get_int64 checksum_hash (constant_store DbCode.DATABASE_NO_SUCH_KEY)
        (some ⟨some (channel_t.with_server ⟨none, ⟨0⟩⟩), some [100]⟩) (some [107]) (some 42)
      = some (ERROR_REGISTRY_NO_SUCH_KEY, some 42,
          some ⟨some (channel_t.with_server ⟨none, ⟨1⟩⟩), some [100]⟩) :=
  (registry_get_no_such_key checksum_hash (constant_store DbCode.DATABASE_NO_SUCH_KEY)
    (channel_t.with_server ⟨none, ⟨0⟩⟩) [100] [107] [] (by decide) (by decide)).1
    (channel_t.with_server
      ⟨some (PACKET_ERROR :: (enc_l true ERROR_DATABASE_NO_SUCH_KEY ++ [])), ⟨1⟩⟩)
    (channel_t.with_server ⟨none, ⟨1⟩⟩) 42 (by decide) (by decide)

/-! ## C7: the code `ERROR_REGISTRY_INVALID_STATE` -/

set_option maxRecDepth 100000 in
/-- C7 at the failing input: the store answers every call with
`ERROR_DATABASE_INVALID`, so the reply to each registry operation is the ERROR
packet with the code 15.  The four set operations return
`ERROR_REGISTRY_INVALID_STATE`; the six get operations return `ERROR_UNKNOWN`. -/
theorem registry_get_database_invalid :
    (server_process (constant_store DbCode.DATABASE_INVALID) ⟨0⟩
        (PACKET_GET_INT :: (enc_s true [100] ++ enc_s true [107]))).map (fun r => (r.1, r.2.1))
      = some (ERROR_OK, some (PACKET_ERROR :: enc_l true ERROR_DATABASE_INVALID)) ∧
    (registry_get_int64 checksum_hash (constant_store DbCode.DATABASE_INVALID)
        (some ⟨some (channel_t.with_server ⟨none, ⟨0⟩⟩), some [100]⟩) (some [107]) (some 42)).map
        (fun r => r.1) = some ERROR_UNKNOWN ∧
    (registry_get_double checksum_hash (constant_store DbCode.DATABASE_INVALID)
        (some ⟨some (channel_t.with_server ⟨none, ⟨0⟩⟩), some [100]⟩) (some [107]) (some 42)).map
        (fun r => r.1) = some ERROR_UNKNOWN ∧
    (registry_get_string checksum_hash (constant_store DbCode.DATABASE_INVALID)
        (some ⟨some (channel_t.with_server ⟨none, ⟨0⟩⟩), some [100]⟩) (some [107])
        (some none)).map (fun r => r.1) = some ERROR_UNKNOWN ∧
    (registry_get_blob checksum_hash (constant_store DbCode.DATABASE_INVALID)
        (some ⟨some (channel_t.with_server ⟨none, ⟨0⟩⟩), some [100]⟩) (some [107])
        (some none) (some 0)).map (fun r => r.1) = some ERROR_UNKNOWN ∧
    (registry_enum_keys checksum_hash (constant_store DbCode.DATABASE_INVALID)
        (some ⟨some (channel_t.with_server ⟨none, ⟨0⟩⟩), some [100]⟩) (some [42])
        (some 0) (some 0) (some none)).map (fun r => r.1) = some ERROR_UNKNOWN ∧
    (registry_key_get_value_type checksum_hash (constant_store DbCode.DATABASE_INVALID)
        (some ⟨some (channel_t.with_server ⟨none, ⟨0⟩⟩), some [100]⟩) (some [107])
        (some 0)).map (fun r => r.1) = some ERROR_UNKNOWN ∧
    (registry_set_int64 checksum_hash (constant_store DbCode.DATABASE_INVALID)
        (some ⟨some (channel_t.with_server ⟨none, ⟨0⟩⟩), some [100]⟩) (some [107]) 42).map
        (fun r => r.1) = some ERROR_REGISTRY_INVALID_STATE ∧
    (registry_set_double checksum_hash (constant_store DbCode.DATABASE_INVALID)
        (some ⟨some (channel_t.with_server ⟨none, ⟨0⟩⟩), some [100]⟩) (some [107]) 0).map
        (fun r => r.1) = some ERROR_REGISTRY_INVALID_STATE ∧
    (registry_set_string checksum_hash (constant_store DbCode.DATABASE_INVALID)
        (some ⟨some (channel_t.with_server ⟨none, ⟨0⟩⟩), some [100]⟩) (some [107])
        (some [120])).map (fun r => r.1) = some ERROR_REGISTRY_INVALID_STATE ∧
    (registry_set_blob checksum_hash (constant_store DbCode.DATABASE_INVALID)
        (some ⟨some (channel_t.with_server ⟨none, ⟨0⟩⟩), some [100]⟩) (some [107])
        (some [120])).map (fun r => r.1) = some ERROR_REGISTRY_INVALID_STATE := by
  refine ⟨?_, ?_, ?_, ?_, ?_, ?_, ?_, ?_, ?_, ?_, ?_⟩
  all_goals decide

/-! ## server_process: decode, dispatch, send -/

theorem bpack_d_append (le : Bool) (v : Nat) (buf : Bytes) :
    bpack_d le v ⟨buf, buf.length⟩
      = (ERROR_OK, ⟨buf ++ enc_d le v, (buf ++ enc_d le v).length⟩) := by
  unfold bpack_d enc_d
  have hw : ∀ b : Byte, data_store_write_byte ⟨buf, buf.length⟩ b
      = (ERROR_OK, ⟨buf ++ [b], (buf ++ [b]).length⟩) := by
    intro b
    simp [data_store_write_byte, simple_memory_buffer_write, simple_memory_buffer_t.size]
  simp only [hw, ne_eq, not_true_eq_false, if_false]
  split
  · rfl
  · rw [write_loop_append]
    simp only [not_true_eq_false, if_false]
    rw [bpack_l_append]
    simp

theorem bunpack_v_nil (le : Bool) (ds : data_store_t) (ap : List Out) :
    bunpack_v [] le ds ap = some (ERROR_OK, ds, ap) := by
  cases ap <;> rfl

theorem bunpack_v_s (fmt : List Char) (le : Bool) (ds : data_store_t) (old : Option Bytes)
    (ap : List Out) (v : Bytes) (ds1 : data_store_t)
    (h : bunpack_s le ds = (ERROR_OK, v, ds1)) :
    bunpack_v ('s' :: fmt) le ds (Out.s (some old) :: ap)
      = (bunpack_v fmt le ds1 ap).map (fun r => (r.1, r.2.1, Out.s (some (some v)) :: r.2.2)) := by
  rw [bunpack_v]
  simp only [Char.reduceEq, if_false, if_true]
  rw [h]
  rfl

theorem server_decode_enc (tag : Byte) (domain key rest : Bytes)
    (hd : is_c_string domain) (hk : is_c_string key) :
    server_decode (tag :: (enc_s true domain ++ enc_s true key ++ rest))
      = some (ERROR_OK, some tag,
          ⟨tag :: (enc_s true domain ++ enc_s true key ++ rest),
            1 + (8 + domain.length) + (8 + key.length)⟩, domain, key) := by
  unfold server_decode
  rw [read_tag]
  have hfmt : "ss".toList = ['s', 's'] := by decide
  have e1 : tag :: (enc_s true domain ++ enc_s true key ++ rest)
      = [tag] ++ enc_b true domain ++ (enc_s true key ++ rest) := by
    simp [enc_s, cstr_of_c_string domain hd]
  have e2 : tag :: (enc_s true domain ++ enc_s true key ++ rest)
      = ([tag] ++ enc_b true domain) ++ enc_b true key ++ rest := by
    simp [enc_s, cstr_of_c_string domain hd, cstr_of_c_string key hk]
  have h1 := bunpack_s_enc true domain [tag] (enc_s true key ++ rest) hd
  rw [← e1] at h1
  have h2 := bunpack_s_enc true key ([tag] ++ enc_b true domain) rest hk
  rw [← e2] at h2
  simp only [List.length_append, enc_b_length] at h2
  dsimp only
  rw [if_neg (by simp)]
  unfold bunpack
  rw [hfmt, bunpack_v_s _ _ _ _ _ _ _ h1, bunpack_v_s _ _ _ _ _ _ _ h2, bunpack_v_nil]
  simp [Nat.add_assoc]

theorem server_send_ok {σ : Type} (response_ds : data_store_t) (server1 : server_t σ) :
    server_send ERROR_OK response_ds server1
      = some (ERROR_OK, some response_ds.buffer, server1) := by
  rfl

theorem server_reply_l (tag : Byte) (v : Int) :
    server_reply tag "l" [Arg.l v] (simple_memory_buffer_new [])
      = some (ERROR_OK, ⟨tag :: enc_l true v, (tag :: enc_l true v).length⟩) := by
  have hw : data_store_write_byte (simple_memory_buffer_new []) tag
      = (ERROR_OK, ⟨[tag], ([tag] : Bytes).length⟩) := by
    simp [data_store_write_byte, simple_memory_buffer_write, simple_memory_buffer_new,
      simple_memory_buffer_t.size]
  have hfmt : "l".toList = ['l'] := by decide
  unfold server_reply
  rw [hw]
  dsimp only
  rw [if_neg (by simp)]
  unfold bpack
  rw [hfmt, bpack_v]
  simp only [if_true]
  rw [bpack_l_append]
  dsimp only
  rw [if_neg (by simp), bpack_v]
  simp

theorem server_error_packet_code (ret : Int) :
    server_error_packet ret = some (ERROR_OK, PACKET_ERROR :: enc_l true ret) := by
  unfold server_error_packet
  rw [server_reply_l]
  rfl

theorem server_send_error {σ : Type} (e : DbCode) (he : e ≠ DbCode.OK)
    (response_ds : data_store_t) (server1 : server_t σ) :
    server_send e.toInt response_ds server1
      = some (ERROR_OK, some (PACKET_ERROR :: enc_l true e.toInt), server1) := by
  have h0 : e.toInt ≠ ERROR_OK := by
    cases e
    · exact absurd rfl he
    all_goals decide
  have h1 : e.toInt ≠ ERROR_SERVER_SHUTDOWN := by
    cases e <;> decide
  unfold server_send
  rw [if_neg h0]
  dsimp only
  rw [if_pos ⟨h0, h1⟩, server_error_packet_code]
  rfl

theorem server_process_enc {σ : Type} (S : Store σ) (server : server_t σ) (tag : Byte)
    (domain key rest : Bytes) (ht : tag ≠ 0)
    (hd : is_c_string domain) (hk : is_c_string key) :
    server_process S server (tag :: (enc_s true domain ++ enc_s true key ++ rest))
      = (server_dispatch S server tag domain key
          ⟨tag :: (enc_s true domain ++ enc_s true key ++ rest),
            1 + (8 + domain.length) + (8 + key.length)⟩ (simple_memory_buffer_new [])).bind
        (fun r => server_send r.1 r.2.1 r.2.2) := by
  unfold server_process
  rw [server_decode_enc tag domain key rest hd hk]
  have h0 : ¬ (strlen (tag :: (enc_s true domain ++ enc_s true key ++ rest)) = 0 ∨
      (tag :: (enc_s true domain ++ enc_s true key ++ rest)).length = 0) := by
    simp [strlen, cstr, ht]
  rw [if_neg h0]
  dsimp only
  rw [if_pos rfl, Option.getD_some]
  cases server_dispatch S server tag domain key
    ⟨tag :: (enc_s true domain ++ enc_s true key ++ rest),
      1 + (8 + domain.length) + (8 + key.length)⟩ (simple_memory_buffer_new []) with
  | none => rfl
  | some r => rfl

/-- The position of the data store of a request after the tag, the domain and
the key were read. -/
theorem request_position (tag : Byte) (domain key : Bytes)
    (hd : is_c_string domain) (hk : is_c_string key) :
    1 + (8 + domain.length) + (8 + key.length)
      = (tag :: (enc_s true domain ++ enc_s true key)).length := by
  simp [enc_s, enc_b_length, cstr_of_c_string domain hd, cstr_of_c_string key hk]
  omega

theorem server_process_request {σ : Type} (S : Store σ) (server : server_t σ) (tag : Byte)
    (domain key payload : Bytes) (ht : tag ≠ 0)
    (hd : is_c_string domain) (hk : is_c_string key) :
    server_process S server (request tag domain key payload)
      = (server_dispatch S server tag domain key
          ⟨(tag :: (enc_s true domain ++ enc_s true key)) ++ payload,
            (tag :: (enc_s true domain ++ enc_s true key)).length⟩
          (simple_memory_buffer_new [])).bind
        (fun r => server_send r.1 r.2.1 r.2.2) := by
  unfold request
  rw [server_process_enc S server tag domain key payload ht hd hk,
    request_position tag domain key hd hk]
  simp

/-! ### Reading the arguments of a set request -/

theorem bunpack_v_l (fmt : List Char) (le : Bool) (ds : data_store_t) (old : Int)
    (ap : List Out) (v : Int) (ds1 : data_store_t)
    (h : bunpack_l le ds = (ERROR_OK, v, ds1)) :
    bunpack_v ('l' :: fmt) le ds (Out.l (some old) :: ap)
      = (bunpack_v fmt le ds1 ap).map (fun r => (r.1, r.2.1, Out.l (some v) :: r.2.2)) := by
  rw [bunpack_v]
  simp only [Char.reduceEq, if_false, if_true]
  rw [h]
  rfl

theorem bunpack_v_d (fmt : List Char) (le : Bool) (ds : data_store_t) (old : Nat)
    (ap : List Out) (v : Nat) (ds1 : data_store_t)
    (h : bunpack_d le ds = (ERROR_OK, v, ds1)) :
    bunpack_v ('d' :: fmt) le ds (Out.d (some old) :: ap)
      = (bunpack_v fmt le ds1 ap).map (fun r => (r.1, r.2.1, Out.d (some v) :: r.2.2)) := by
  rw [bunpack_v]
  simp only [Char.reduceEq, if_false, if_true]
  rw [h]
  rfl

theorem bunpack_v_b (fmt : List Char) (le : Bool) (ds : data_store_t) (oldsize : Nat)
    (old : Option Bytes) (ap : List Out) (v : Bytes) (ds1 : data_store_t)
    (h : bunpack_b le ds = (ERROR_OK, v, ds1)) :
    bunpack_v ('b' :: fmt) le ds (Out.b (some oldsize) (some old) :: ap)
      = (bunpack_v fmt le ds1 ap).map
          (fun r => (r.1, r.2.1, Out.b (some v.length) (some (some v)) :: r.2.2)) := by
  rw [bunpack_v]
  simp only [Char.reduceEq, if_false, if_true]
  rw [h]
  rfl

theorem bunpack_at_l (pre rest : Bytes) (v old : Int) (hv : is_int64 v) :
    bunpack ⟨pre ++ (enc_l true v ++ rest), pre.length⟩ "l" [Out.l (some old)]
      = some (ERROR_OK, ⟨pre ++ (enc_l true v ++ rest), pre.length + 8⟩, [Out.l (some v)]) := by
  have hfmt : "l".toList = ['l'] := by decide
  have hu := bunpack_l_enc true v pre rest
  rw [to_int64_to_uint64 v hv, List.append_assoc] at hu
  unfold bunpack
  rw [hfmt, bunpack_v_l _ _ _ _ _ _ _ hu, bunpack_v_nil]
  rfl

theorem bunpack_at_s (pre rest v : Bytes) (old : Option Bytes) (hv : is_c_string v) :
    bunpack ⟨pre ++ (enc_s true v ++ rest), pre.length⟩ "s" [Out.s (some old)]
      = some (ERROR_OK, ⟨pre ++ (enc_s true v ++ rest), pre.length + (8 + v.length)⟩,
          [Out.s (some (some v))]) := by
  have hfmt : "s".toList = ['s'] := by decide
  have hu := bunpack_s_enc true v pre rest hv
  rw [List.append_assoc] at hu
  unfold bunpack enc_s
  rw [cstr_of_c_string v hv, hfmt, bunpack_v_s _ _ _ _ _ _ _ hu, bunpack_v_nil]
  rfl

theorem bunpack_at_b (pre rest v : Bytes) (oldsize : Nat) (old : Option Bytes)
    (hv : is_blob v) :
    bunpack ⟨pre ++ (enc_b true v ++ rest), pre.length⟩ "b" [Out.b (some oldsize) (some old)]
      = some (ERROR_OK, ⟨pre ++ (enc_b true v ++ rest), pre.length + (8 + v.length)⟩,
          [Out.b (some v.length) (some (some v))]) := by
  have hfmt : "b".toList = ['b'] := by decide
  have hu := bunpack_b_enc true v pre rest hv
  rw [List.append_assoc] at hu
  unfold bunpack
  rw [hfmt, bunpack_v_b _ _ _ _ _ _ _ _ hu, bunpack_v_nil]
  rfl

theorem bunpack_at_d (ds ds1 : data_store_t) (v old : Nat)
    (h : bunpack_d true ds = (ERROR_OK, v, ds1)) :
    bunpack ds "d" [Out.d (some old)] = some (ERROR_OK, ds1, [Out.d (some v)]) := by
  have hfmt : "d".toList = ['d'] := by decide
  unfold bunpack
  rw [hfmt, bunpack_v_d _ _ _ _ _ _ _ h, bunpack_v_nil]
  rfl

/-! ### The replies -/

theorem write_tag (tag : Byte) :
    data_store_write_byte (simple_memory_buffer_new []) tag
      = (ERROR_OK, ⟨[tag], ([tag] : Bytes).length⟩) := by
  simp [data_store_write_byte, simple_memory_buffer_write, simple_memory_buffer_new,
    simple_memory_buffer_t.size]

theorem server_reply_d (tag : Byte) (v : Nat) :
    server_reply tag "d" [Arg.d v] (simple_memory_buffer_new [])
      = some (ERROR_OK, ⟨tag :: enc_d true v, (tag :: enc_d true v).length⟩) := by
  have hfmt : "d".toList = ['d'] := by decide
  unfold server_reply
  rw [write_tag]
  dsimp only
  rw [if_neg (by simp)]
  unfold bpack
  rw [hfmt, bpack_v]
  simp only [Char.reduceEq, if_false, if_true]
  rw [bpack_d_append]
  dsimp only
  rw [if_neg (by simp), bpack_v]
  simp

theorem server_reply_s (tag : Byte) (v : Bytes) :
    server_reply tag "s" [Arg.s (some v)] (simple_memory_buffer_new [])
      = some (ERROR_OK, ⟨tag :: enc_s true v, (tag :: enc_s true v).length⟩) := by
  have hfmt : "s".toList = ['s'] := by decide
  unfold server_reply
  rw [write_tag]
  dsimp only
  rw [if_neg (by simp)]
  unfold bpack
  rw [hfmt, bpack_v]
  simp only [Char.reduceEq, if_false, if_true]
  rw [bpack_s_append]
  dsimp only
  rw [if_neg (by simp), bpack_v]
  simp

theorem server_reply_b (tag : Byte) (v : Bytes) :
    server_reply tag "b" [Arg.b (some v)] (simple_memory_buffer_new [])
      = some (ERROR_OK, ⟨tag :: enc_b true v, (tag :: enc_b true v).length⟩) := by
  have hfmt : "b".toList = ['b'] := by decide
  unfold server_reply
  rw [write_tag]
  dsimp only
  rw [if_neg (by simp)]
  unfold bpack
  rw [hfmt, bpack_v]
  simp only [Char.reduceEq, if_false, if_true]
  rw [bpack_b_append]
  dsimp only
  rw [if_neg (by simp), bpack_v]
  simp

theorem server_reply_enum_none (count : Nat) :
    server_reply_enum count none (simple_memory_buffer_new [])
      = some (ERROR_OK, ⟨PACKET_ENUM :: enc_l true (to_int64 count),
          (PACKET_ENUM :: enc_l true (to_int64 count)).length⟩) := by
  have hfmt : "l".toList = ['l'] := by decide
  unfold server_reply_enum
  rw [write_tag]
  dsimp only
  unfold bpack
  rw [hfmt, bpack_v]
  simp only [Char.reduceEq, if_false, if_true]
  rw [bpack_l_append]
  dsimp only
  rw [if_neg (by simp), bpack_v]
  simp

theorem server_reply_enum_some (count : Nat) (keys : Bytes) :
    server_reply_enum count (some keys) (simple_memory_buffer_new [])
      = some (ERROR_OK, ⟨PACKET_ENUM :: (enc_l true (to_int64 count) ++ enc_b true keys),
          (PACKET_ENUM :: (enc_l true (to_int64 count) ++ enc_b true keys)).length⟩) := by
  have hfmt : "lb".toList = ['l', 'b'] := by decide
  unfold server_reply_enum
  rw [write_tag]
  dsimp only
  unfold bpack
  rw [hfmt, bpack_v]
  simp only [Char.reduceEq, if_false, if_true]
  rw [bpack_l_append]
  dsimp only
  rw [if_neg (by simp), bpack_v]
  simp only [Char.reduceEq, if_false, if_true]
  rw [bpack_b_append]
  dsimp only
  rw [if_neg (by simp), bpack_v]
  simp

theorem request_eq (tag : Byte) (domain key payload : Bytes) :
    request tag domain key payload
      = (tag :: (enc_s true domain ++ enc_s true key)) ++ payload := by
  simp [request]

theorem request_nil_length (tag : Byte) (domain key : Bytes) :
    (request tag domain key []).length
      = (tag :: (enc_s true domain ++ enc_s true key)).length := by
  simp [request]


/-! ## C5: the replies of server_process when the store call succeeds -/

theorem bpack_one (c : Char) (a : Arg) (enc : Bytes) (h : ∀ rest ap,
    bpack_v (c :: rest) true ⟨[], ([] : Bytes).length⟩ (a :: ap)
      = bpack_v rest true ⟨[] ++ enc, ([] ++ enc).length⟩ ap) :
    bpack (simple_memory_buffer_new []) (String.mk [c]) [a]
      = some (ERROR_OK, ⟨enc, enc.length⟩) := by
  unfold bpack
  have e : (String.mk [c]).toList = [c] := rfl
  rw [e]
  have h1 := h [] []
  rw [bpack_v] at h1
  simpa [simple_memory_buffer_new] using h1

/-- The bytes `enc_l`, `enc_d`, `enc_s` and `enc_b` are what `bpack` writes into
an empty data store with the formats `"l"`, `"d"`, `"s"` and `"b"`. -/
theorem bpack_enc (x : Int) (d : Nat) (s b : Bytes) :
    bpack (simple_memory_buffer_new []) "l" [Arg.l x]
        = some (ERROR_OK, ⟨enc_l true x, (enc_l true x).length⟩) ∧
    bpack (simple_memory_buffer_new []) "d" [Arg.d d]
        = some (ERROR_OK, ⟨enc_d true d, (enc_d true d).length⟩) ∧
    bpack (simple_memory_buffer_new []) "s" [Arg.s (some s)]
        = some (ERROR_OK, ⟨enc_s true s, (enc_s true s).length⟩) ∧
    bpack (simple_memory_buffer_new []) "b" [Arg.b (some b)]
        = some (ERROR_OK, ⟨enc_b true b, (enc_b true b).length⟩) := by
  refine ⟨?_, ?_, ?_, ?_⟩
  · apply bpack_one
    intro rest ap
    rw [bpack_v]
    simp only [Char.reduceEq, if_false, if_true]
    rw [bpack_l_append]
    simp
  · apply bpack_one
    intro rest ap
    rw [bpack_v]
    simp only [Char.reduceEq, if_false, if_true]
    rw [bpack_d_append]
    simp
  · apply bpack_one
    intro rest ap
    rw [bpack_v]
    simp only [Char.reduceEq, if_false, if_true]
    rw [bpack_s_append]
    simp
  · apply bpack_one
    intro rest ap
    rw [bpack_v]
    simp only [Char.reduceEq, if_false, if_true]
    rw [bpack_b_append]
    simp

/-- C5: for each of the ten requests with a well-formed payload, when the call
of the store returns `ERROR_OK`, `server_process` returns `ERROR_OK` and the
response is: for a get, the tag byte of the kind followed by the packed value
(`PACKET_INT` and `"l"`, `PACKET_DOUBLE` and `"d"`, `PACKET_STRING` and `"s"`,
`PACKET_BLOB` and `"b"`, `PACKET_TYPE` and `"l"` with the kinds 0 to 3); for
`PACKET_GET_ENUM`, `PACKET_ENUM` followed by the packed count, and by the packed
keys exactly when the count is positive; for a set, the single byte `PACKET_OK`,
the store being the one left by the set called with the decoded domain, key and
value. -/
theorem server_process_store_ok {σ : Type} (S : Store σ) (server : server_t σ)
    (domain key rest : Bytes) (hd : is_c_string domain) (hk : is_c_string key) :
    ((PACKET_OK, PACKET_INT, PACKET_DOUBLE, PACKET_STRING, PACKET_BLOB, PACKET_ENUM, PACKET_TYPE)
        = ((1 : Byte), (3 : Byte), (6 : Byte), (9 : Byte), (12 : Byte), (15 : Byte), (17 : Byte)) ∧
      (DATABASE_TYPE_INT64, DATABASE_TYPE_DOUBLE, DATABASE_TYPE_STRING, DATABASE_TYPE_BLOB)
        = (0, 1, 2, 3)) ∧
    (∀ v s1, S.get_int64 server.db domain key = some (DbCode.OK, v, s1) →
      server_process S server (request PACKET_GET_INT domain key rest)
        = some (ERROR_OK, some (PACKET_INT :: enc_l true v), ⟨s1⟩)) ∧
    (∀ v s1, S.get_double server.db domain key = some (DbCode.OK, v, s1) →
      server_process S server (request PACKET_GET_DOUBLE domain key rest)
        = some (ERROR_OK, some (PACKET_DOUBLE :: enc_d true v), ⟨s1⟩)) ∧
    (∀ v s1, S.get_string server.db domain key = some (DbCode.OK, v, s1) →
      server_process S server (request PACKET_GET_STRING domain key rest)
        = some (ERROR_OK, some (PACKET_STRING :: enc_s true v), ⟨s1⟩)) ∧
    (∀ v s1, S.get_blob server.db domain key = some (DbCode.OK, v, s1) →
      server_process S server (request PACKET_GET_BLOB domain key rest)
        = some (ERROR_OK, some (PACKET_BLOB :: enc_b true v), ⟨s1⟩)) ∧
    (∀ v s1, S.get_type server.db domain key = some (DbCode.OK, v, s1) →
      server_process S server (request PACKET_GET_VALUE_TYPE domain key rest)
        = some (ERROR_OK, some (PACKET_TYPE :: enc_l true (v : Int)), ⟨s1⟩)) ∧
    (∀ c ks s1, S.enum_keys server.db domain key = some (DbCode.OK, (c, ks), s1) →
      (c = 0 →
        server_process S server (request PACKET_GET_ENUM domain key rest)
          = some (ERROR_OK, some (PACKET_ENUM :: enc_l true (to_int64 c)), ⟨s1⟩)) ∧
      (0 < c → ∃ keys, ks = some keys ∧
        server_process S server (request PACKET_GET_ENUM domain key rest)
          = some (ERROR_OK,
              some (PACKET_ENUM :: (enc_l true (to_int64 c) ++ enc_b true keys)), ⟨s1⟩))) ∧
    (∀ (v : Int) s1, is_int64 v → S.set_int64 server.db domain key v = some (DbCode.OK, s1) →
      server_process S server (request PACKET_SET_INT domain key (enc_l true v ++ rest))
        = some (ERROR_OK, some [PACKET_OK], ⟨s1⟩)) ∧
    (∀ (v : Bytes) s1, is_c_string v → S.set_string server.db domain key v = some (DbCode.OK, s1) →
      server_process S server (request PACKET_SET_STRING domain key (enc_s true v ++ rest))
        = some (ERROR_OK, some [PACKET_OK], ⟨s1⟩)) ∧
    (∀ (v : Bytes) s1, is_blob v → S.set_blob server.db domain key v = some (DbCode.OK, s1) →
      server_process S server (request PACKET_SET_BLOB domain key (enc_b true v ++ rest))
        = some (ERROR_OK, some [PACKET_OK], ⟨s1⟩)) ∧
    (∀ p v ds1 s1,
      bunpack_d true ⟨request PACKET_SET_DOUBLE domain key p,
        (request PACKET_SET_DOUBLE domain key []).length⟩ = (ERROR_OK, v, ds1) →
      S.set_double server.db domain key v = some (DbCode.OK, s1) →
      server_process S server (request PACKET_SET_DOUBLE domain key p)
        = some (ERROR_OK, some [PACKET_OK], ⟨s1⟩)) := by
  refine ⟨⟨rfl, rfl⟩, ?_, ?_, ?_, ?_, ?_, ?_, ?_, ?_, ?_, ?_⟩
  · intro v s1 h
    rw [server_process_request S server _ domain key rest (by decide) hd hk]
    unfold server_dispatch
    rw [if_pos rfl, h]
    dsimp only
    rw [if_neg (by simp), server_reply_l]
    rfl
  · intro v s1 h
    rw [server_process_request S server _ domain key rest (by decide) hd hk]
    unfold server_dispatch
    rw [if_neg (by decide)]
    rw [if_neg (by decide)]
    rw [if_pos rfl, h]
    dsimp only
    rw [if_neg (by simp), server_reply_d]
    rfl
  · intro v s1 h
    rw [server_process_request S server _ domain key rest (by decide) hd hk]
    unfold server_dispatch
    rw [if_neg (by decide)]
    rw [if_neg (by decide)]
    rw [if_neg (by decide)]
    rw [if_neg (by decide)]
    rw [if_pos rfl, h]
    dsimp only
    rw [if_neg (by simp), server_reply_s]
    rfl
  · intro v s1 h
    rw [server_process_request S server _ domain key rest (by decide) hd hk]
    unfold server_dispatch
    rw [if_neg (by decide)]
    rw [if_neg (by decide)]
    rw [if_neg (by decide)]
    rw [if_neg (by decide)]
    rw [if_neg (by decide)]
    rw [if_neg (by decide)]
    rw [if_pos rfl, h]
    dsimp only
    rw [if_neg (by simp), server_reply_b]
    rfl
  · intro v s1 h
    rw [server_process_request S server _ domain key rest (by decide) hd hk]
    unfold server_dispatch
    rw [if_neg (by decide)]
    rw [if_neg (by decide)]
    rw [if_neg (by decide)]
    rw [if_neg (by decide)]
    rw [if_neg (by decide)]
    rw [if_neg (by decide)]
    rw [if_neg (by decide)]
    rw [if_neg (by decide)]
    rw [if_neg (by decide)]
    rw [if_pos rfl, h]
    dsimp only
    rw [if_neg (by simp), server_reply_l]
    rfl
  · intro c ks s1 h
    have hspec := S.enum_keys_spec _ _ _ _ _ _ h
    have hp : server_process S server (request PACKET_GET_ENUM domain key rest)
        = (server_reply_enum c ks (simple_memory_buffer_new [])).bind
            (fun x => server_send x.1 x.2 ⟨s1⟩) := by
      rw [server_process_request S server _ domain key rest (by decide) hd hk]
      unfold server_dispatch
      rw [if_neg (by decide)]
      rw [if_neg (by decide)]
      rw [if_neg (by decide)]
      rw [if_neg (by decide)]
      rw [if_neg (by decide)]
      rw [if_neg (by decide)]
      rw [if_neg (by decide)]
      rw [if_neg (by decide)]
      rw [if_pos rfl, h]
      dsimp only
      rw [if_neg (by simp)]
      cases server_reply_enum c ks (simple_memory_buffer_new []) <;> rfl
    constructor
    · intro hc
      rw [hp, hspec.mpr hc, server_reply_enum_none]
      rfl
    · intro hc
      cases ks with
      | none => exact absurd (hspec.mp rfl) (Nat.pos_iff_ne_zero.mp hc)
      | some keys =>
        refine ⟨keys, rfl, ?_⟩
        rw [hp, server_reply_enum_some]
        rfl
  · intro v s1 hv h
    rw [server_process_request S server _ domain key _ (by decide) hd hk]
    unfold server_dispatch
    rw [if_neg (by decide)]
    rw [if_pos rfl, bunpack_at_l _ rest v 0 hv]
    dsimp only
    rw [if_neg (by simp), h]
    rfl
  · intro v s1 hv h
    rw [server_process_request S server _ domain key _ (by decide) hd hk]
    unfold server_dispatch
    rw [if_neg (by decide)]
    rw [if_neg (by decide)]
    rw [if_neg (by decide)]
    rw [if_neg (by decide)]
    rw [if_neg (by decide)]
    rw [if_pos rfl, bunpack_at_s _ rest v none hv]
    dsimp only
    rw [if_neg (by simp), h]
    rfl
  · intro v s1 hv h
    rw [server_process_request S server _ domain key _ (by decide) hd hk]
    unfold server_dispatch
    rw [if_neg (by decide)]
    rw [if_neg (by decide)]
    rw [if_neg (by decide)]
    rw [if_neg (by decide)]
    rw [if_neg (by decide)]
    rw [if_neg (by decide)]
    rw [if_neg (by decide)]
    rw [if_pos rfl, bunpack_at_b _ rest v 0 none hv]
    dsimp only
    rw [if_neg (by simp), h]
    rfl
  · intro p v ds1 s1 hp h
    rw [request_eq, request_nil_length] at hp
    rw [server_process_request S server _ domain key _ (by decide) hd hk]
    unfold server_dispatch
    rw [if_neg (by decide)]
    rw [if_neg (by decide)]
    rw [if_neg (by decide)]
    rw [if_pos rfl, bunpack_at_d _ _ _ 0 hp]
    dsimp only
    rw [if_neg (by simp), h]
    rfl

set_option maxRecDepth 100000 in
/-- Witness of C5: the store answers every call with `ERROR_OK`; the request is
`PACKET_GET_INT` for the domain `d` and the key `k`. -/
theorem server_process_store_ok_witness :
    is_c_string [100] ∧ is_c_string [107] ∧
    (constant_store DbCode.OK).get_int64 0 [100] [107] = some (DbCode.OK, 7, 1) ∧
    server_process (constant_store DbCode.OK) ⟨0⟩ (request PACKET_GET_INT [100] [107] [])
      = some (ERROR_OK, some (PACKET_INT :: enc_l true 7), ⟨1⟩) :=
  ⟨by decide, by decide, rfl,
    (server_process_store_ok (constant_store DbCode.OK) ⟨0⟩ [100] [107] []
      (by decide) (by decide)).2.1 7 1 rfl⟩

/-! ## C6: a failure of the store is answered with an ERROR packet -/

/-- C6: for each of the ten requests whose branch calls a get, set, enum or
type function of the store, with a well-formed payload: when the call of the
store returns a code `e` other than `ERROR_OK`, `server_process` returns
`ERROR_OK` and the response is the byte `PACKET_ERROR` (2) followed by `e` as a
64-bit little-endian integer, nine bytes in all. -/
theorem server_process_store_error {σ : Type} (S : Store σ) (server : server_t σ)
    (domain key rest : Bytes) (hd : is_c_string domain) (hk : is_c_string key)
    (e : DbCode) (he : e ≠ DbCode.OK) :
    (error_response e.toInt = (2 : Byte) :: bytes_of_word 8 (to_uint64 e.toInt) ∧
      (error_response e.toInt).length = 9) ∧
    (∀ v s1, S.get_int64 server.db domain key = some (e, v, s1) →
      server_process S server (request PACKET_GET_INT domain key rest)
        = some (ERROR_OK, some (error_response e.toInt), ⟨s1⟩)) ∧
    (∀ v s1, S.get_double server.db domain key = some (e, v, s1) →
      server_process S server (request PACKET_GET_DOUBLE domain key rest)
        = some (ERROR_OK, some (error_response e.toInt), ⟨s1⟩)) ∧
    (∀ v s1, S.get_string server.db domain key = some (e, v, s1) →
      server_process S server (request PACKET_GET_STRING domain key rest)
        = some (ERROR_OK, some (error_response e.toInt), ⟨s1⟩)) ∧
    (∀ v s1, S.get_blob server.db domain key = some (e, v, s1) →
      server_process S server (request PACKET_GET_BLOB domain key rest)
        = some (ERROR_OK, some (error_response e.toInt), ⟨s1⟩)) ∧
    (∀ v s1, S.enum_keys server.db domain key = some (e, v, s1) →
      server_process S server (request PACKET_GET_ENUM domain key rest)
        = some (ERROR_OK, some (error_response e.toInt), ⟨s1⟩)) ∧
    (∀ v s1, S.get_type server.db domain key = some (e, v, s1) →
      server_process S server (request PACKET_GET_VALUE_TYPE domain key rest)
        = some (ERROR_OK, some (error_response e.toInt), ⟨s1⟩)) ∧
    (∀ (v : Int) s1, is_int64 v → S.set_int64 server.db domain key v = some (e, s1) →
      server_process S server (request PACKET_SET_INT domain key (enc_l true v ++ rest))
        = some (ERROR_OK, some (error_response e.toInt), ⟨s1⟩)) ∧
    (∀ (v : Bytes) s1, is_c_string v → S.set_string server.db domain key v = some (e, s1) →
      server_process S server (request PACKET_SET_STRING domain key (enc_s true v ++ rest))
        = some (ERROR_OK, some (error_response e.toInt), ⟨s1⟩)) ∧
    (∀ (v : Bytes) s1, is_blob v → S.set_blob server.db domain key v = some (e, s1) →
      server_process S server (request PACKET_SET_BLOB domain key (enc_b true v ++ rest))
        = some (ERROR_OK, some (error_response e.toInt), ⟨s1⟩)) ∧
    (∀ p v ds1 s1,
      bunpack_d true ⟨request PACKET_SET_DOUBLE domain key p,
        (request PACKET_SET_DOUBLE domain key []).length⟩ = (ERROR_OK, v, ds1) →
      S.set_double server.db domain key v = some (e, s1) →
      server_process S server (request PACKET_SET_DOUBLE domain key p)
        = some (ERROR_OK, some (error_response e.toInt), ⟨s1⟩)) := by
  refine ⟨⟨rfl, ?_⟩, ?_, ?_, ?_, ?_, ?_, ?_, ?_, ?_, ?_, ?_⟩
  · simp [error_response, enc_l_length]
  · intro v s1 h
    rw [server_process_request S server _ domain key rest (by decide) hd hk]
    unfold server_dispatch
    rw [if_pos rfl, h]
    dsimp only
    rw [if_pos he]
    exact server_send_error e he _ _
  · intro v s1 h
    rw [server_process_request S server _ domain key rest (by decide) hd hk]
    unfold server_dispatch
    rw [if_neg (by decide)]
    rw [if_neg (by decide)]
    rw [if_pos rfl, h]
    dsimp only
    rw [if_pos he]
    exact server_send_error e he _ _
  · intro v s1 h
    rw [server_process_request S server _ domain key rest (by decide) hd hk]
    unfold server_dispatch
    rw [if_neg (by decide)]
    rw [if_neg (by decide)]
    rw [if_neg (by decide)]
    rw [if_neg (by decide)]
    rw [if_pos rfl, h]
    dsimp only
    rw [if_pos he]
    exact server_send_error e he _ _
  · intro v s1 h
    rw [server_process_request S server _ domain key rest (by decide) hd hk]
    unfold server_dispatch
    rw [if_neg (by decide)]
    rw [if_neg (by decide)]
    rw [if_neg (by decide)]
    rw [if_neg (by decide)]
    rw [if_neg (by decide)]
    rw [if_neg (by decide)]
    rw [if_pos rfl, h]
    dsimp only
    rw [if_pos he]
    exact server_send_error e he _ _
  · intro v s1 h
    rw [server_process_request S server _ domain key rest (by decide) hd hk]
    unfold server_dispatch
    rw [if_neg (by decide)]
    rw [if_neg (by decide)]
    rw [if_neg (by decide)]
    rw [if_neg (by decide)]
    rw [if_neg (by decide)]
    rw [if_neg (by decide)]
    rw [if_neg (by decide)]
    rw [if_neg (by decide)]
    rw [if_pos rfl, h]
    dsimp only
    rw [if_pos he]
    exact server_send_error e he _ _
  · intro v s1 h
    rw [server_process_request S server _ domain key rest (by decide) hd hk]
    unfold server_dispatch
    rw [if_neg (by decide)]
    rw [if_neg (by decide)]
    rw [if_neg (by decide)]
    rw [if_neg (by decide)]
    rw [if_neg (by decide)]
    rw [if_neg (by decide)]
    rw [if_neg (by decide)]
    rw [if_neg (by decide)]
    rw [if_neg (by decide)]
    rw [if_pos rfl, h]
    dsimp only
    rw [if_pos he]
    exact server_send_error e he _ _
  · intro v s1 hv h
    rw [server_process_request S server _ domain key _ (by decide) hd hk]
    unfold server_dispatch
    rw [if_neg (by decide)]
    rw [if_pos rfl, bunpack_at_l _ rest v 0 hv]
    dsimp only
    rw [if_neg (by simp), h]
    dsimp only
    rw [if_pos he]
    exact server_send_error e he _ _
  · intro v s1 hv h
    rw [server_process_request S server _ domain key _ (by decide) hd hk]
    unfold server_dispatch
    rw [if_neg (by decide)]
    rw [if_neg (by decide)]
    rw [if_neg (by decide)]
    rw [if_neg (by decide)]
    rw [if_neg (by decide)]
    rw [if_pos rfl, bunpack_at_s _ rest v none hv]
    dsimp only
    rw [if_neg (by simp), h]
    dsimp only
    rw [if_pos he]
    exact server_send_error e he _ _
  · intro v s1 hv h
    rw [server_process_request S server _ domain key _ (by decide) hd hk]
    unfold server_dispatch
    rw [if_neg (by decide)]
    rw [if_neg (by decide)]
    rw [if_neg (by decide)]
    rw [if_neg (by decide)]
    rw [if_neg (by decide)]
    rw [if_neg (by decide)]
    rw [if_neg (by decide)]
    rw [if_pos rfl, bunpack_at_b _ rest v 0 none hv]
    dsimp only
    rw [if_neg (by simp), h]
    dsimp only
    rw [if_pos he]
    exact server_send_error e he _ _
  · intro p v ds1 s1 hp h
    rw [request_eq, request_nil_length] at hp
    rw [server_process_request S server _ domain key _ (by decide) hd hk]
    unfold server_dispatch
    rw [if_neg (by decide)]
    rw [if_neg (by decide)]
    rw [if_neg (by decide)]
    rw [if_pos rfl, bunpack_at_d _ _ _ 0 hp]
    dsimp only
    rw [if_neg (by simp), h]
    dsimp only
    rw [if_pos he]
    exact server_send_error e he _ _

set_option maxRecDepth 100000 in
/-- Witness of C6: the store answers every call with
`ERROR_DATABASE_TYPE_MISMATCH`; the request is `PACKET_GET_INT` for the domain
`d` and the key `k`. -/
theorem server_process_store_error_witness :
    is_c_string [100] ∧ is_c_string [107] ∧
    DbCode.DATABASE_TYPE_MISMATCH ≠ DbCode.OK ∧
    (constant_store DbCode.DATABASE_TYPE_MISMATCH).get_int64 0 [100] [107]
      = some (DbCode.DATABASE_TYPE_MISMATCH, 7, 1) ∧
    server_process (constant_store DbCode.DATABASE_TYPE_MISMATCH) ⟨0⟩
        (request PACKET_GET_INT [100] [107] [])
      = some (ERROR_OK, some (error_response ERROR_DATABASE_TYPE_MISMATCH), ⟨1⟩) :=
  ⟨by decide, by decide, by decide, rfl,
    (server_process_store_error (constant_store DbCode.DATABASE_TYPE_MISMATCH) ⟨0⟩ [100] [107] []
      (by decide) (by decide) DbCode.DATABASE_TYPE_MISMATCH (by decide)).2.1 7 1 rfl⟩

/-! ## The replies of server_process start with a tag byte -/

theorem strlen_cons (b : Byte) (rest : Bytes) (hb : b ≠ 0) : strlen (b :: rest) ≠ 0 := by
  simp [strlen, cstr, hb]

theorem strlen_ne_zero (m : Bytes) (h : strlen m ≠ 0) : ∃ b rest, m = b :: rest ∧ b ≠ 0 := by
  cases m with
  | nil => exact absurd rfl h
  | cons b rest =>
    refine ⟨b, rest, rfl, ?_⟩
    intro hb
    apply h
    simp [strlen, cstr, hb]

theorem DbCode.toInt_ne_ok (e : DbCode) (he : e ≠ DbCode.OK) : e.toInt ≠ ERROR_OK := by
  cases e
  · exact absurd rfl he
  all_goals decide

/-- A get branch of `server_dispatch` that ends with the code `ERROR_OK` has
written its reply. -/
theorem get_branch_head {σ α : Type} (e : DbCode) (a : α) (s2 : server_t σ)
    (reply : α → Option (Int × data_store_t)) (rds0 rds : data_store_t) (s1 : server_t σ)
    (hreply : ∀ a c ds, reply a = some (c, ds) → c = ERROR_OK → strlen ds.buffer ≠ 0)
    (h : (if e ≠ DbCode.OK then some (e.toInt, rds0, s2)
        else (reply a).map (fun x => (x.1, x.2, s2))) = some (ERROR_OK, rds, s1)) :
    strlen rds.buffer ≠ 0 := by
  by_cases hr : e ≠ DbCode.OK
  · rw [if_pos hr] at h
    injection h with h
    injection h with h1 _
    exact absurd h1 (DbCode.toInt_ne_ok e hr)
  · rw [if_neg hr] at h
    cases hx : reply a with
    | none =>
      rw [hx] at h
      cases h
    | some x =>
      rw [hx] at h
      injection h with h
      injection h with h1 h2
      injection h2 with h2 _
      rw [← h2]
      exact hreply a x.1 x.2 hx h1

/-- A set branch of `server_dispatch` that ends with the code `ERROR_OK` has
written the byte `PACKET_OK`. -/
theorem set_branch_head {σ : Type} (e : DbCode) (s2 : server_t σ) (rds : data_store_t)
    (s1 : server_t σ)
    (h : (if e ≠ DbCode.OK then some (e.toInt, simple_memory_buffer_new [], s2)
        else some ((server_reply_ok (simple_memory_buffer_new [])).1,
          (server_reply_ok (simple_memory_buffer_new [])).2, s2)) = some (ERROR_OK, rds, s1)) :
    strlen rds.buffer ≠ 0 := by
  by_cases hr : e ≠ DbCode.OK
  · rw [if_pos hr] at h
    injection h with h
    injection h with h1 _
    exact absurd h1 (DbCode.toInt_ne_ok e hr)
  · rw [if_neg hr] at h
    injection h with h
    injection h with h1 h2
    injection h2 with h2 _
    rw [← h2]
    decide

theorem server_reply_head (tag : Byte) (ht : tag ≠ 0) (fmt : String) (mk : α → List Arg)
    (enc : α → Bytes)
    (hr : ∀ a, server_reply tag fmt (mk a) (simple_memory_buffer_new [])
      = some (ERROR_OK, ⟨tag :: enc a, (tag :: enc a).length⟩)) :
    ∀ a c ds, server_reply tag fmt (mk a) (simple_memory_buffer_new []) = some (c, ds) →
      c = ERROR_OK → strlen ds.buffer ≠ 0 := by
  intro a c ds h _
  rw [hr a] at h
  injection h with h
  injection h with _ h2
  rw [← h2]
  exact strlen_cons tag _ ht

theorem server_reply_enum_head (x : Nat × Option Bytes) (c : Int) (ds : data_store_t)
    (h : server_reply_enum x.1 x.2 (simple_memory_buffer_new []) = some (c, ds))
    (_hc : c = ERROR_OK) : strlen ds.buffer ≠ 0 := by
  obtain ⟨count, keys⟩ := x
  cases keys with
  | none =>
    rw [server_reply_enum_none] at h
    injection h with h
    injection h with _ h2
    rw [← h2]
    exact strlen_cons _ _ (by decide)
  | some keys =>
    rw [server_reply_enum_some] at h
    injection h with h
    injection h with _ h2
    rw [← h2]
    exact strlen_cons _ _ (by decide)

theorem code_ne_ok {α β : Type} (c : Int) (hc : c ≠ ERROR_OK) (a a1 : α) (b b1 : β)
    (h : some (c, a, b) = some (ERROR_OK, a1, b1)) : False := by
  injection h with h
  injection h with h1 _
  exact hc h1

theorem server_dispatch_ok_head {σ : Type} (S : Store σ) (server s1 : server_t σ) (tag : Byte)
    (domain key : Bytes) (ds rds : data_store_t)
    (h : server_dispatch S server tag domain key ds (simple_memory_buffer_new [])
      = some (ERROR_OK, rds, s1)) :
    strlen rds.buffer ≠ 0 := by
  unfold server_dispatch at h
  by_cases hPACKET_GET_INT : tag = PACKET_GET_INT
  · rw [if_pos hPACKET_GET_INT] at h
    split at h
    · cases h
    · exact get_branch_head _ _ _
        (fun v => server_reply PACKET_INT "l" [Arg.l v] (simple_memory_buffer_new [])) _ rds s1
        (server_reply_head PACKET_INT (by decide) "l" (fun v => [Arg.l v]) _ (server_reply_l PACKET_INT)) h
  rw [if_neg hPACKET_GET_INT] at h
  by_cases hPACKET_SET_INT : tag = PACKET_SET_INT
  · rw [if_pos hPACKET_SET_INT] at h
    split at h
    · split at h
      · exact (code_ne_ok _ (by decide) _ _ _ _ h).elim
      · split at h
        · cases h
        · exact set_branch_head _ _ _ _ h
    · cases h
  rw [if_neg hPACKET_SET_INT] at h
  by_cases hPACKET_GET_DOUBLE : tag = PACKET_GET_DOUBLE
  · rw [if_pos hPACKET_GET_DOUBLE] at h
    split at h
    · cases h
    · exact get_branch_head _ _ _
        (fun v => server_reply PACKET_DOUBLE "d" [Arg.d v] (simple_memory_buffer_new [])) _ rds s1
        (server_reply_head PACKET_DOUBLE (by decide) "d" (fun v => [Arg.d v]) _ (server_reply_d PACKET_DOUBLE)) h
  rw [if_neg hPACKET_GET_DOUBLE] at h
  by_cases hPACKET_SET_DOUBLE : tag = PACKET_SET_DOUBLE
  · rw [if_pos hPACKET_SET_DOUBLE] at h
    split at h
    · split at h
      · exact (code_ne_ok _ (by decide) _ _ _ _ h).elim
      · split at h
        · cases h
        · exact set_branch_head _ _ _ _ h
    · cases h
  rw [if_neg hPACKET_SET_DOUBLE] at h
  by_cases hPACKET_GET_STRING : tag = PACKET_GET_STRING
  · rw [if_pos hPACKET_GET_STRING] at h
    split at h
    · cases h
    · exact get_branch_head _ _ _
        (fun v => server_reply PACKET_STRING "s" [Arg.s (some v)] (simple_memory_buffer_new [])) _ rds s1
        (server_reply_head PACKET_STRING (by decide) "s" (fun v => [Arg.s (some v)]) _ (server_reply_s PACKET_STRING)) h
  rw [if_neg hPACKET_GET_STRING] at h
  by_cases hPACKET_SET_STRING : tag = PACKET_SET_STRING
  · rw [if_pos hPACKET_SET_STRING] at h
    split at h
    · split at h
      · exact (code_ne_ok _ (by decide) _ _ _ _ h).elim
      · split at h
        · split at h
          · cases h
          · exact set_branch_head _ _ _ _ h
        · cases h
    · cases h
  rw [if_neg hPACKET_SET_STRING] at h
  by_cases hPACKET_GET_BLOB : tag = PACKET_GET_BLOB
  · rw [if_pos hPACKET_GET_BLOB] at h
    split at h
    · cases h
    · exact get_branch_head _ _ _
        (fun v => server_reply PACKET_BLOB "b" [Arg.b (some v)] (simple_memory_buffer_new [])) _ rds s1
        (server_reply_head PACKET_BLOB (by decide) "b" (fun v => [Arg.b (some v)]) _ (server_reply_b PACKET_BLOB)) h
  rw [if_neg hPACKET_GET_BLOB] at h
  by_cases hPACKET_SET_BLOB : tag = PACKET_SET_BLOB
  · rw [if_pos hPACKET_SET_BLOB] at h
    split at h
    · split at h
      · exact (code_ne_ok _ (by decide) _ _ _ _ h).elim
      · split at h
        · split at h
          · cases h
          · exact set_branch_head _ _ _ _ h
        · cases h
    · cases h
  rw [if_neg hPACKET_SET_BLOB] at h
  by_cases hPACKET_GET_ENUM : tag = PACKET_GET_ENUM
  · rw [if_pos hPACKET_GET_ENUM] at h
    split at h
    · cases h
    · exact get_branch_head _ _ _
        (fun (x : Nat × Option Bytes) => server_reply_enum x.1 x.2 (simple_memory_buffer_new []))
        _ rds s1
        server_reply_enum_head h
  rw [if_neg hPACKET_GET_ENUM] at h
  by_cases hPACKET_GET_VALUE_TYPE : tag = PACKET_GET_VALUE_TYPE
  · rw [if_pos hPACKET_GET_VALUE_TYPE] at h
    split at h
    · cases h
    · exact get_branch_head _ _ _
        (fun (v : Nat) => server_reply PACKET_TYPE "l" [Arg.l (v : Int)] (simple_memory_buffer_new [])) _ rds s1
        (server_reply_head PACKET_TYPE (by decide) "l" (fun (v : Nat) => [Arg.l (v : Int)]) _ (fun v => server_reply_l PACKET_TYPE (v : Int))) h
  rw [if_neg hPACKET_GET_VALUE_TYPE] at h
  by_cases hPACKET_SHUTDOWN : tag = PACKET_SHUTDOWN
  · rw [if_pos hPACKET_SHUTDOWN] at h
    split at h
    · cases h
    · split at h
      · exact (code_ne_ok _ (by decide) _ _ _ _ h).elim
      · exact (code_ne_ok _ (by decide) _ _ _ _ h).elim
  rw [if_neg hPACKET_SHUTDOWN] at h
  exact (code_ne_ok _ (by decide) _ _ _ _ h).elim

theorem server_send_ok_head {σ : Type} (ret : Int) (rds : data_store_t) (s s1 : server_t σ)
    (result : Option Bytes) (h : server_send ret rds s = some (ERROR_OK, result, s1)) :
    (ret = ERROR_OK ∧ result = some rds.buffer) ∨
      result = some (PACKET_ERROR :: enc_l true ret) := by
  unfold server_send at h
  by_cases h0 : ret = ERROR_OK
  · left
    rw [if_pos h0] at h
    dsimp only at h
    have hs : (if (sendPacket rds).1 ≠ ERROR_OK then ERROR_UNKNOWN else ret) = ERROR_OK := by
      rw [h0]
      rfl
    rw [hs, if_neg (by decide)] at h
    injection h with h
    injection h with _ h2
    injection h2 with h2 _
    exact ⟨h0, h2.symm⟩
  · right
    rw [if_neg h0] at h
    dsimp only at h
    by_cases h1 : ret = ERROR_SERVER_SHUTDOWN
    · rw [if_neg (by simp [h1])] at h
      exact (code_ne_ok _ h0 _ _ _ _ h).elim
    · rw [if_pos ⟨h0, h1⟩, server_error_packet_code] at h
      injection h with h
      injection h with _ h2
      injection h2 with h2 _
      exact h2.symm

/-- A response that `server_process` returns with the code `ERROR_OK` starts with
a tag byte, which is not NUL. -/
theorem server_process_ok_head {σ : Type} (S : Store σ) (server s1 : server_t σ)
    (data : Bytes) (result : Option Bytes)
    (h : server_process S server data = some (ERROR_OK, result, s1)) :
    ∃ r, result = some r ∧ strlen r ≠ 0 := by
  unfold server_process at h
  split at h
  · exact (code_ne_ok _ (by decide) _ _ _ _ h).elim
  · split at h
    · cases h
    · rename_i ret packettype ds2 domain key _
      dsimp only at h
      split at h
      · cases h
      · rename_i ret1 rds server1 hsw
        rcases server_send_ok_head ret1 rds server1 s1 result h with ⟨h1, h2⟩ | h2
        · refine ⟨rds.buffer, h2, ?_⟩
          rw [h1] at hsw
          by_cases hr : ret = ERROR_OK
          · rw [if_pos hr] at hsw
            exact server_dispatch_ok_head S server server1 _ domain key ds2 rds hsw
          · rw [if_neg hr] at hsw
            exact (code_ne_ok _ hr _ _ _ _ hsw).elim
        · exact ⟨_, h2, strlen_cons _ _ (by decide)⟩

/-! ## C2: a message through a stack of HMAC channels -/

theorem hmac_verify_hmac (H : Sha1) (key m : Bytes) (hk : key.length ≠ 0) (hm : m.length ≠ 0) :
    hmac_verify H key m ((hmac H key m).2.take SHA1_BLOCKSIZE) = ERROR_OK := by
  have h1 : (hmac H key m).1 = ERROR_OK := by
    unfold hmac
    rw [if_neg (by simp [hk, hm])]
  unfold hmac_verify
  rw [if_neg (by simp [hk, hm]), if_neg (by simp [h1]), if_neg (by simp)]

theorem keyed_length (ch : channel_hmac_t) (key : Bytes) (h : ch.keyed = some key) :
    key.length ≠ 0 := by
  unfold channel_hmac_t.keyed at h
  split at h
  · split at h
    · rename_i hk
      injection h with h
      rw [← h]
      exact hk
    · cases h
  · cases h

theorem ch_tagged_strlen (H : Sha1) (ch : channel_hmac_t) (m : Bytes) (hm : strlen m ≠ 0) :
    strlen (ch_tagged H ch m) ≠ 0 := by
  obtain ⟨b, rest, rfl, hb⟩ := strlen_ne_zero m hm
  unfold ch_tagged
  split
  · exact strlen_cons b _ hb
  · exact strlen_cons b _ hb

theorem wrap_strlen (H : Sha1) (chain : List channel_hmac_t) (m : Bytes) (hm : strlen m ≠ 0) :
    strlen (wrap H chain m) ≠ 0 := by
  induction chain generalizing m with
  | nil => exact hm
  | cons ch chain ih => exact ih _ (ch_tagged_strlen H ch m hm)

theorem length_of_strlen (m : Bytes) (hm : strlen m ≠ 0) : m.length ≠ 0 := by
  obtain ⟨b, rest, rfl, _⟩ := strlen_ne_zero m hm
  simp

theorem ch_write_message_tagged (H : Sha1) (ch : channel_hmac_t) (m : Bytes)
    (hm : strlen m ≠ 0) : ch_write_message H ch m = Except.ok (ch_tagged H ch m) := by
  unfold ch_write_message ch_tagged
  rw [if_neg (by simp [hm, length_of_strlen m hm])]
  cases hk : ch.keyed with
  | none => rfl
  | some key =>
    dsimp only
    have h1 : (hmac H key m).1 = ERROR_OK := by
      unfold hmac
      rw [if_neg (by simp [keyed_length ch key hk, length_of_strlen m hm])]
    rw [if_neg (by simp [h1])]

theorem ch_read_bytes_tagged {χ : Type} (H : Sha1) (ch : channel_hmac_t) (m : Bytes) (x : χ)
    (hm : strlen m ≠ 0) :
    ch_read_bytes H ch (ERROR_OK, some (ch_tagged H ch m), x) = some (ERROR_OK, some m, x) := by
  have ht := ch_tagged_strlen H ch m hm
  unfold ch_read_bytes
  dsimp only
  rw [if_neg (by simp)]
  rw [if_neg (by simp [ht, length_of_strlen _ ht])]
  unfold ch_tagged
  cases hk : ch.keyed with
  | none => rfl
  | some key =>
    dsimp only
    have hl : ((hmac H key m).2.take SHA1_BLOCKSIZE).length = SHA1_BLOCKSIZE := by
      rw [List.length_take,
        (hmac_length H key m (keyed_length ch key hk) (length_of_strlen m hm)).2]
      exact Nat.min_self _
    have h1 : (m ++ (hmac H key m).2.take SHA1_BLOCKSIZE).length - SHA1_BLOCKSIZE = m.length := by
      rw [List.length_append, hl]
      omega
    rw [if_neg (by have := length_of_strlen m hm; rw [List.length_append, hl]; omega), h1]
    rw [List.take_left' rfl, List.drop_left' rfl,
      hmac_verify_hmac H key m (keyed_length ch key hk) (length_of_strlen m hm)]
    rw [if_neg (by simp)]

theorem endpoint_server_read_wrapped (H : Sha1) (chain : List channel_hmac_t)
    (cec : channel_endpoint_connector_t) (m : Bytes) (he : cec.endpoint ≠ none)
    (hs : cec.server_bytes = some (wrap H chain m)) (hm : strlen m ≠ 0) :
    endpoint_server_read_bytes H chain cec
      = some (ERROR_OK, some m, { cec with server_bytes := none }) := by
  induction chain generalizing m with
  | nil =>
    unfold endpoint_server_read_bytes cec_server_read_bytes
    rw [if_neg he, hs]
    rfl
  | cons ch chain ih =>
    unfold endpoint_server_read_bytes
    rw [ih (ch_tagged H ch m) hs (ch_tagged_strlen H ch m hm)]
    exact ch_read_bytes_tagged H ch m _ hm

theorem endpoint_server_write_wrapped (H : Sha1) (chain : List channel_hmac_t)
    (cec : channel_endpoint_connector_t) (r : Bytes) (he : cec.endpoint ≠ none)
    (hc : cec.client_bytes = none) (hr : strlen r ≠ 0) :
    endpoint_server_write_bytes H chain cec r
      = some (ERROR_OK, { cec with client_bytes := some (wrap H chain r) }) := by
  induction chain generalizing r with
  | nil =>
    unfold endpoint_server_write_bytes cec_server_write_bytes
    rw [if_neg (length_of_strlen r hr), if_neg he, if_neg (by simp [hc])]
    rfl
  | cons ch chain ih =>
    unfold endpoint_server_write_bytes
    rw [if_neg (length_of_strlen r hr)]
    unfold ch_server_write_bytes
    rw [ch_write_message_tagged H ch r hr]
    dsimp only
    rw [ih (ch_tagged H ch r) (ch_tagged_strlen H ch r hr)]
    rfl

/-- The code an HMAC channel returns for the code `ret` of its child. -/
theorem hmac_stack_client_write {σ : Type} (H : Sha1) (S : Store σ)
    (chain : List channel_hmac_t) (base : channel_t σ) (m : Bytes) (hm : strlen m ≠ 0) :
    channel_client_write_bytes H S (hmac_stack chain base) m
      = (channel_client_write_bytes H S base (wrap H chain m)).map
          (fun r => (if chain = [] then r.1 else if r.1 ≠ ERROR_OK then ERROR_UNKNOWN else ERROR_OK,
            hmac_stack chain r.2)) := by
  induction chain generalizing m with
  | nil =>
    have e1 : hmac_stack [] base = base := rfl
    have e2 : wrap H [] m = m := rfl
    rw [e1, e2]
    cases channel_client_write_bytes H S base m with
    | none => rfl
    | some r => simp [hmac_stack]
  | cons ch chain ih =>
    have e : hmac_stack (ch :: chain) base = channel_t.hmac ch (hmac_stack chain base) := rfl
    rw [e, channel_client_write_bytes, if_neg (length_of_strlen m hm)]
    unfold ch_client_write_bytes
    rw [ch_write_message_tagged H ch m hm]
    dsimp only
    rw [ih (ch_tagged H ch m) (ch_tagged_strlen H ch m hm)]
    have ew : wrap H (ch :: chain) m = wrap H chain (ch_tagged H ch m) := rfl
    rw [ew]
    cases channel_client_write_bytes H S base (wrap H chain (ch_tagged H ch m)) with
    | none => rfl
    | some r =>
      obtain ⟨ret, x⟩ := r
      by_cases hc : chain = []
      · by_cases h0 : ret = ERROR_OK
        · simp [hc, h0, hmac_stack]
        · simp [hc, h0, hmac_stack]
      · by_cases h0 : ret = ERROR_OK
        · simp [hc, h0, hmac_stack]
        · have h1 : ret ≠ 0 := h0
          simp [hc, h1, hmac_stack, ERROR_UNKNOWN, ERROR_OK]

theorem hmac_stack_client_read {σ : Type} (H : Sha1) (chain : List channel_hmac_t)
    (base base1 : channel_t σ) (r : Bytes) (hr : strlen r ≠ 0)
    (h : channel_client_read_bytes H base = some (ERROR_OK, some (wrap H chain r), base1)) :
    channel_client_read_bytes H (hmac_stack chain base)
      = some (ERROR_OK, some r, hmac_stack chain base1) := by
  induction chain generalizing r with
  | nil => exact h
  | cons ch chain ih =>
    have e : hmac_stack (ch :: chain) base = channel_t.hmac ch (hmac_stack chain base) := rfl
    rw [e, channel_client_read_bytes, ih (ch_tagged H ch r) (ch_tagged_strlen H ch r hr) h]
    unfold ch_client_read_bytes
    dsimp only
    rw [ch_read_bytes_tagged H ch r _ hr]
    rfl

theorem cec_client_write_wrapped {σ : Type} (H : Sha1) (S : Store σ)
    (chain : List channel_hmac_t) (cs : channel_server_t σ) (m : Bytes) (hm : strlen m ≠ 0) :
    channel_client_write_bytes H S
        (channel_t.endpoint_connector ⟨some chain, none, none⟩ (channel_t.with_server cs))
        (wrap H chain m)
      = (cs_client_write_bytes S cs m).map
          (fun r => (r.1, channel_t.endpoint_connector ⟨some chain, none, none⟩
            (channel_t.with_server r.2))) := by
  rw [channel_client_write_bytes, if_neg (length_of_strlen _ (wrap_strlen H chain m hm))]
  dsimp only
  rw [if_neg (by simp)]
  rw [endpoint_server_read_wrapped H chain _ m (by simp) rfl hm]
  dsimp only
  rw [if_neg (by simp), Option.getD_some, channel_client_write_bytes]
  cases cs_client_write_bytes S cs m <;> rfl

theorem cec_client_read_wrapped {σ : Type} (H : Sha1) (chain : List channel_hmac_t)
    (server : server_t σ) (r : Bytes) (hr : strlen r ≠ 0) :
    channel_client_read_bytes H
        (channel_t.endpoint_connector ⟨some chain, none, none⟩
          (channel_t.with_server ⟨some r, server⟩))
      = some (ERROR_OK, some (wrap H chain r),
          channel_t.endpoint_connector ⟨some chain, none, none⟩
            (channel_t.with_server ⟨none, server⟩)) := by
  rw [channel_client_read_bytes]
  dsimp only
  rw [if_neg (by simp), channel_client_read_bytes]
  dsimp only [cs_client_read_bytes]
  rw [if_neg (by simp), Option.getD_some,
    endpoint_server_write_wrapped H chain _ r (by simp) rfl hr]
  dsimp only
  rw [if_neg (by simp)]

theorem code_ne_ok_pair {α : Type} (c : Int) (hc : c ≠ ERROR_OK) (a a1 : α)
    (h : some (c, a) = some (ERROR_OK, a1)) : False := by
  injection h with h
  injection h with h1 _
  exact hc h1

theorem cs_client_write_ok {σ : Type} (S : Store σ) (cs cs1 : channel_server_t σ) (m : Bytes)
    (h : cs_client_write_bytes S cs m = some (ERROR_OK, cs1)) :
    ∃ r, cs1.client_data = some r ∧ strlen r ≠ 0 := by
  unfold cs_client_write_bytes at h
  split at h
  · exact (code_ne_ok_pair _ (by decide) _ _ h).elim
  · split at h
    · exact (code_ne_ok_pair _ (by decide) _ _ h).elim
    · split at h
      · cases h
      · rename_i ret result server1 hp
        split at h
        · exact (code_ne_ok_pair _ (by decide) _ _ h).elim
        · rename_i hret
          have hret1 : ret = ERROR_OK := by
            by_contra hne
            exact hret hne
          rw [hret1] at hp
          obtain ⟨r, hres, hr⟩ := server_process_ok_head S cs.server server1 m result hp
          rw [hres, Option.getD_some] at h
          dsimp only at h
          unfold cs_server_write_bytes at h
          rename_i hbusy _
          rw [if_neg (length_of_strlen r hr)] at h
          dsimp only at h
          rw [if_neg hbusy] at h
          dsimp only at h
          rw [if_neg (by decide)] at h
          injection h with h
          injection h with _ h2
          rw [← h2]
          exact ⟨r, rfl, hr⟩

set_option maxRecDepth 100000 in
/-- C2 as stated fails for a non-empty message whose first byte is NUL: on a
stack of one HMAC channel the client-send of the one-byte message `00` returns
`ERROR_INVALID_ARGUMENTS` from the HMAC channel and leaves the stack as it was,
while the client-send of the server channel, had it been handed that byte, would
have called the server and returned `ERROR_CHANNEL_FAILED`. -/
theorem channel_stack_send_nul :
    ([0] : Bytes) ≠ [] ∧
    channel_client_write_bytes checksum_hash (constant_store DbCode.OK)
        (channel_stack [⟨none⟩] ⟨none, ⟨0⟩⟩) [0]
      = some (ERROR_INVALID_ARGUMENTS, channel_stack [⟨none⟩] ⟨none, ⟨0⟩⟩) ∧
    cs_client_write_bytes (constant_store DbCode.OK) ⟨none, ⟨0⟩⟩ [0]
      = some (ERROR_CHANNEL_FAILED, ⟨none, ⟨0⟩⟩) := by
  decide

/-- C2, amended: for every stack of one or more HMAC channels (keyed or not) on
an idle endpoint connector on a server channel, the endpoint being the top HMAC
channel, and every message `m` whose first byte is not NUL: the client-send of
`m` on the top channel is the client-send of the server channel on exactly the
bytes of `m` (a failure of it is reported as `ERROR_UNKNOWN`), and when it
succeeds the server channel holds a reply `r` and the following client-recv on
the top channel returns `ERROR_OK` with exactly the bytes of `r`. -/
theorem channel_stack_send_recv {σ : Type} (H : Sha1) (S : Store σ)
    (chain : List channel_hmac_t) (hn : chain ≠ []) (cs : channel_server_t σ) (m : Bytes)
    (hm : strlen m ≠ 0) :
    channel_client_write_bytes H S (channel_stack chain cs) m
      = (cs_client_write_bytes S cs m).map
          (fun r => (if r.1 ≠ ERROR_OK then ERROR_UNKNOWN else ERROR_OK,
            channel_stack chain r.2)) ∧
    ∀ cs1, cs_client_write_bytes S cs m = some (ERROR_OK, cs1) →
      ∃ r, cs1.client_data = some r ∧
        channel_client_read_bytes H (channel_stack chain cs1)
          = some (ERROR_OK, some r, channel_stack chain ⟨none, cs1.server⟩) := by
  constructor
  · unfold channel_stack
    rw [hmac_stack_client_write H S chain _ m hm, cec_client_write_wrapped H S chain cs m hm]
    cases cs_client_write_bytes S cs m with
    | none => rfl
    | some r => simp [hn]
  · intro cs1 h
    obtain ⟨r, hr, hs⟩ := cs_client_write_ok S cs cs1 m h
    refine ⟨r, hr, ?_⟩
    obtain ⟨data, server⟩ := cs1
    dsimp only at hr
    rw [hr]
    unfold channel_stack
    exact hmac_stack_client_read H chain _ _ r hs (cec_client_read_wrapped H chain server r hs)

set_option maxRecDepth 100000 in
/-- Witness of C2: two HMAC channels, the upper one with the key `01`, and the
request `PACKET_GET_INT` for the domain `d` and the key `k`. -/
theorem channel_stack_send_recv_witness :
    ([⟨some [1]⟩, ⟨none⟩] : List channel_hmac_t) ≠ [] ∧
    strlen (request PACKET_GET_INT [100] [107] []) ≠ 0 ∧
    channel_client_write_bytes checksum_hash (constant_store DbCode.OK)
        (channel_stack [⟨some [1]⟩, ⟨none⟩] ⟨none, ⟨0⟩⟩) (request PACKET_GET_INT [100] [107] [])
      = (cs_client_write_bytes (constant_store DbCode.OK) ⟨none, ⟨0⟩⟩
          (request PACKET_GET_INT [100] [107] [])).map
          (fun r => (if r.1 ≠ ERROR_OK then ERROR_UNKNOWN else ERROR_OK,
            channel_stack [⟨some [1]⟩, ⟨none⟩] r.2)) :=
  ⟨by decide, by decide,
    (channel_stack_send_recv checksum_hash (constant_store DbCode.OK) [⟨some [1]⟩, ⟨none⟩]
      (by decide) ⟨none, ⟨0⟩⟩ (request PACKET_GET_INT [100] [107] []) (by decide)).1⟩

/-! ## server/database.c: the rows of a key -/

theorem filter_singleton {α : Type} (p : α → Bool) (l : List α) (x : α) (hn : l.Nodup)
    (hx : x ∈ l) (hp : p x = true) (hu : ∀ y ∈ l, p y = true → y = x) : l.filter p = [x] := by
  induction l with
  | nil => cases hx
  | cons a l ih =>
    rw [List.nodup_cons] at hn
    by_cases ha : a = x
    · subst ha
      rw [List.filter_cons_of_pos hp]
      congr 1
      rw [List.filter_eq_nil_iff]
      intro y hy hpy
      have := hu y (List.mem_cons_of_mem _ hy) hpy
      subst this
      exact hn.1 hy
    · have hpa : ¬ p a = true := fun h => ha (hu a (List.mem_cons_self _ _) h)
      rw [List.filter_cons_of_neg hpa]
      have hx1 : x ∈ l := by
        rcases List.mem_cons.mp hx with h | h
        · exact absurd h.symm ha
        · exact h
      exact ih hn.2 hx1 (fun y hy => hu y (List.mem_cons_of_mem _ hy))

theorem find_head_filter {α : Type} (p : α → Bool) (l : List α) :
    l.find? p = (l.filter p).head? := by
  induction l with
  | nil => rfl
  | cons a l ih =>
    by_cases ha : p a = true
    · rw [List.find?_cons_of_pos _ ha, List.filter_cons_of_pos ha]
      rfl
    · rw [List.find?_cons_of_neg _ ha, List.filter_cons_of_neg ha, ih]

theorem value_table_with (db : sqlite3) (t t1 : Datatype) (rows : List (Int × SqlValue)) :
    value_table (with_value_table db t rows) t1 = if t1 = t then rows else value_table db t1 := by
  cases t <;> cases t1 <;> rfl

theorem with_value_table_KeyInfo (db : sqlite3) (t : Datatype) (rows : List (Int × SqlValue)) :
    (with_value_table db t rows).KeyInfo = db.KeyInfo := by
  cases t <;> rfl

theorem stored_select_id (db : sqlite3) (t : Datatype) (dom key : Bytes) (id : Int)
    (h : db.KeyInfo.filter (fun r => decide (r.domain = some dom ∧ r.key = key))
      = [⟨id, some dom, key, t⟩]) :
    select_id_datatype db dom key = some ⟨id, some dom, key, t⟩ := by
  unfold select_id_datatype
  rw [find_head_filter, h]
  rfl

theorem stored_select_value (db : sqlite3) (t : Datatype) (dom key : Bytes) (v : SqlValue)
    (h : stored db t dom key v) : select_value db t dom key = some v := by
  obtain ⟨id, hk, hv, _⟩ := h
  unfold select_value
  have e : db.KeyInfo.filter
      (fun r => decide (r.datatype = t ∧ r.domain = some dom ∧ r.key = key))
      = (db.KeyInfo.filter (fun r => decide (r.domain = some dom ∧ r.key = key))).filter
          (fun r => decide (r.datatype = t)) := by
    rw [List.filter_filter]
    congr 1
    funext r
    simp [and_comm, and_assoc]
  rw [e, hk]
  simp [hv]

theorem stored_entries (db : sqlite3) (t : Datatype) (domain key : Bytes) (v : SqlValue)
    (h : stored db t (cstr domain) (cstr key) v) : entries db domain key = 1 := by
  obtain ⟨id, hk, _, _⟩ := h
  unfold entries
  rw [hk]
  rfl

theorem clean_filter (db : sqlite3) (hc : clean db) (dom key : Bytes) (row : KeyInfo_row)
    (h : select_id_datatype db dom key = some row) :
    row = ⟨row.id, some dom, key, row.datatype⟩ ∧
    db.KeyInfo.filter (fun r => decide (r.domain = some dom ∧ r.key = key)) = [row] ∧
    to_int32 row.id = row.id := by
  obtain ⟨c1, _, c3, _, c5⟩ := hc
  unfold select_id_datatype at h
  have hm := List.mem_of_find?_eq_some h
  have hp := List.find?_some h
  simp only [decide_eq_true_eq] at hp
  have e : row = ⟨row.id, some dom, key, row.datatype⟩ := by
    obtain ⟨i, d, k, t⟩ := row
    simp only at hp
    rw [hp.1, hp.2]
  refine ⟨e, ?_, c5 row hm⟩
  apply filter_singleton _ _ _ (List.Nodup.of_map _ c1) hm
  · simp [hp]
  · intro y hy hpy
    simp only [decide_eq_true_eq] at hpy
    exact c3 y hy row hm (by rw [hpy.1, hp.1]) (by rw [hpy.2, hp.2])

theorem clean_stored (db : sqlite3) (hc : clean db) (dom key : Bytes) (row : KeyInfo_row)
    (h : select_id_datatype db dom key = some row) :
    ∃ w, db.KeyInfo.filter (fun r => decide (r.domain = some dom ∧ r.key = key))
        = [⟨row.id, some dom, key, row.datatype⟩] ∧
      (value_table db row.datatype).filter (fun x => decide (x.1 = row.id)) = [(row.id, w)] ∧
      to_int32 row.id = row.id := by
  obtain ⟨e, hf, h32⟩ := clean_filter db hc dom key row h
  obtain ⟨_, c2, _, c4, _⟩ := hc
  have hm := List.mem_of_find?_eq_some h
  have hid : row.id ∈ (value_table db row.datatype).map Prod.fst :=
    (c4 row.datatype row.id).mpr ⟨row, hm, rfl, rfl⟩
  obtain ⟨x, hx, hx1⟩ := List.mem_map.mp hid
  refine ⟨x.2, by rw [← e]; exact hf, ?_, h32⟩
  have ex : x = (row.id, x.2) := by rw [← hx1]
  rw [← ex]
  apply filter_singleton _ _ _ (List.Nodup.of_map _ (c2 row.datatype)) hx
  · simp [hx1]
  · intro y hy hpy
    simp only [decide_eq_true_eq] at hpy
    exact List.inj_on_of_nodup_map (c2 row.datatype) hy hx (by rw [hpy, hx1])

theorem foldl_max_le (l : List KeyInfo_row) (m : Int) :
    m ≤ l.foldl (fun m r => max m r.id) m := by
  induction l generalizing m with
  | nil => exact le_refl m
  | cons a l ih => exact le_trans (le_max_left m a.id) (ih (max m a.id))

theorem max_rowid_nonneg (db : sqlite3) : 0 ≤ max_rowid db := foldl_max_le db.KeyInfo 0

theorem to_int32_of_range (x : Int) (h0 : 0 ≤ x) (h1 : x < 2 ^ 31) : to_int32 x = x := by
  unfold to_int32
  have e : x % 2 ^ 32 = x := Int.emod_eq_of_lt h0 (by omega)
  rw [e, if_pos h1]

theorem filter_nil_of_find_none {α : Type} (p : α → Bool) (l : List α) (h : l.find? p = none) :
    l.filter p = [] := by
  rw [find_head_filter] at h
  cases hf : l.filter p with
  | nil => rfl
  | cons a l1 =>
    rw [hf] at h
    cases h

theorem filter_fst_nil (l : List (Int × SqlValue)) (id : Int) (h : id ∉ l.map Prod.fst) :
    l.filter (fun x => decide (x.1 = id)) = [] := by
  rw [List.filter_eq_nil_iff]
  intro x hx hp
  simp only [decide_eq_true_eq] at hp
  exact h (List.mem_map.mpr ⟨x, hx, hp⟩)

theorem insert_value_stored (db db1 : sqlite3) (t : Datatype) (id : Int) (v : SqlValue)
    (h : insert_value db t id v = some db1) :
    db1.KeyInfo = db.KeyInfo ∧
      (value_table db1 t).filter (fun x => decide (x.1 = id)) = [(id, v)] := by
  unfold insert_value at h
  split at h
  · cases h
  · rename_i hid
    injection h with h
    subst h
    refine ⟨with_value_table_KeyInfo _ _ _, ?_⟩
    rw [value_table_with, if_pos rfl, List.filter_append, filter_fst_nil _ _ hid]
    simp

/-- The branch `key doesn't exist` of a set function stores the value. -/
theorem insert_new_key_stored (db db1 : sqlite3) (t : Datatype) (dom key : Bytes)
    (v : SqlValue) (hs : select_id_datatype db dom key = none) (hr : room_for_key db)
    (h : insert_new_key db t dom key v = some db1) : stored db1 t dom key v := by
  unfold room_for_key at hr
  unfold insert_new_key insert_key_info at h
  dsimp only at h
  rw [if_neg (by omega)] at h
  dsimp only at h
  obtain ⟨hk, hv⟩ := insert_value_stored _ _ _ _ _ h
  refine ⟨max (max_rowid db) db.sequence + 1, ?_, hv, ?_⟩
  · rw [hk]
    dsimp only
    rw [List.filter_append, filter_nil_of_find_none _ _ hs]
    simp
  · apply to_int32_of_range
    · have := max_rowid_nonneg db
      have := le_max_left (max_rowid db) db.sequence
      omega
    · omega

/-- The branch `Datatype is the same - just update value` of a set function
stores the value. -/
theorem update_value_stored (db : sqlite3) (t : Datatype) (dom key : Bytes) (v w : SqlValue)
    (id : Int)
    (hk : db.KeyInfo.filter (fun r => decide (r.domain = some dom ∧ r.key = key))
      = [⟨id, some dom, key, t⟩])
    (hv : (value_table db t).filter (fun x => decide (x.1 = id)) = [(id, w)])
    (h32 : to_int32 id = id) :
    stored (update_value db t (to_int32 id) v) t dom key v := by
  rw [h32]
  unfold update_value
  refine ⟨id, ?_, ?_, h32⟩
  · rw [with_value_table_KeyInfo]
    exact hk
  · rw [value_table_with, if_pos rfl, List.filter_map]
    have e : ((fun (x : Int × SqlValue) => decide (x.1 = id)) ∘
        fun (x : Int × SqlValue) => if x.1 = id then (x.1, v) else x)
        = fun (x : Int × SqlValue) => decide (x.1 = id) := by
      funext x
      by_cases hx : x.1 = id
      · simp [hx]
      · simp [hx]
    rw [e, hv]
    simp

/-- The branch `Different datatype - delete, update and insert` of a set
function stores the value. -/
theorem replace_key_stored (db db1 : sqlite3) (t old : Datatype) (dom key : Bytes)
    (v : SqlValue) (id : Int)
    (hk : db.KeyInfo.filter (fun r => decide (r.domain = some dom ∧ r.key = key))
      = [⟨id, some dom, key, old⟩])
    (h32 : to_int32 id = id)
    (h : replace_key db t (to_int32 id) old dom key v = some db1) :
    stored db1 t dom key v := by
  rw [h32] at h
  unfold replace_key at h
  split at h
  · cases h
  · rename_i db2 hi
    obtain ⟨hk1, hv⟩ := insert_value_stored _ _ _ _ _ h
    refine ⟨id, ?_, hv, h32⟩
    unfold insert_key_info_id at hi
    split at hi
    · cases hi
    · injection hi with hi
      rw [hk1, ← hi]
      dsimp only [delete_key_info, delete_value]
      rw [List.filter_append, with_value_table_KeyInfo, List.filter_filter]
      have e : db.KeyInfo.filter
          (fun a => decide (a.domain = some dom ∧ a.key = key) && decide (a.id ≠ id))
          = (db.KeyInfo.filter (fun r => decide (r.domain = some dom ∧ r.key = key))).filter
              (fun a => decide (a.id ≠ id)) := by
        rw [List.filter_filter]
        congr 1
        funext a
        exact Bool.and_comm _ _
      rw [e, hk]
      simp

theorem removeReferencedBlobFile_db {φ : Type} (F : FileSystem φ) (handle : database_handle_t φ)
    (domain key : Bytes) :
    (removeReferencedBlobFile F handle domain key).2.db = handle.db ∧
      (removeReferencedBlobFile F handle domain key).2.blobpath = handle.blobpath := by
  unfold removeReferencedBlobFile
  split
  · exact ⟨rfl, rfl⟩
  · split
    · exact ⟨rfl, rfl⟩
    · split
      · split
        · exact ⟨rfl, rfl⟩
        · exact ⟨rfl, rfl⟩
      · exact ⟨rfl, rfl⟩
  · exact ⟨rfl, rfl⟩

theorem ok_pair {α : Type} (e : DbCode) (he : e ≠ DbCode.OK) (a a1 : α)
    (h : some (e, a) = some (DbCode.OK, a1)) : False := by
  injection h with h
  injection h with h1 _
  exact he h1

theorem map_ok {α β : Type} (o : Option α) (f : α → β) (b : β)
    (h : o.map (fun x => (DbCode.OK, f x)) = some (DbCode.OK, b)) : ∃ a, o = some a ∧ f a = b := by
  cases o with
  | none => cases h
  | some a =>
    injection h with h
    injection h with _ h2
    exact ⟨a, rfl, h2⟩

/-- What the set functions need of the database for a domain and a key: a row
of `KeyInfo` for them is the only one, its id is a value of an `int` and its
value table has one row with the id; without such a row the next id is a value
of an `int`. -/
theorem clean_ready (db : sqlite3) (hc : clean db) (hr : room_for_key db) (dom key : Bytes) :
    (∀ row, select_id_datatype db dom key = some row →
      ∃ w, db.KeyInfo.filter (fun r => decide (r.domain = some dom ∧ r.key = key))
          = [⟨row.id, some dom, key, row.datatype⟩] ∧
        (value_table db row.datatype).filter (fun x => decide (x.1 = row.id)) = [(row.id, w)] ∧
        to_int32 row.id = row.id) ∧
    (select_id_datatype db dom key = none → room_for_key db) :=
  ⟨fun row h => clean_stored db hc dom key row h, fun _ => hr⟩

theorem stored_ready (db : sqlite3) (t : Datatype) (dom key : Bytes) (v : SqlValue)
    (hs : stored db t dom key v) :
    (∀ row, select_id_datatype db dom key = some row →
      ∃ w, db.KeyInfo.filter (fun r => decide (r.domain = some dom ∧ r.key = key))
          = [⟨row.id, some dom, key, row.datatype⟩] ∧
        (value_table db row.datatype).filter (fun x => decide (x.1 = row.id)) = [(row.id, w)] ∧
        to_int32 row.id = row.id) ∧
    (select_id_datatype db dom key = none → room_for_key db) := by
  obtain ⟨id, hk, hv, h32⟩ := hs
  have hsel := stored_select_id db t dom key id hk
  constructor
  · intro row h
    rw [hsel] at h
    injection h with h
    subst h
    exact ⟨v, hk, hv, h32⟩
  · intro h
    rw [hsel] at h
    cases h

theorem database_set_int64_stored {φ : Type} (F : FileSystem φ) (h h1 : database_handle_t φ)
    (domain key : Bytes) (a : Int)
    (hpre : (∀ row, select_id_datatype h.db (cstr domain) (cstr key) = some row →
      ∃ w, h.db.KeyInfo.filter
          (fun r => decide (r.domain = some (cstr domain) ∧ r.key = cstr key))
          = [⟨row.id, some (cstr domain), cstr key, row.datatype⟩] ∧
        (value_table h.db row.datatype).filter (fun x => decide (x.1 = row.id)) = [(row.id, w)] ∧
        to_int32 row.id = row.id) ∧
      (select_id_datatype h.db (cstr domain) (cstr key) = none → room_for_key h.db))
    (hset : database_set_int64 F h domain key a = some (DbCode.OK, h1)) :
    stored h1.db Datatype.Int64 (cstr domain) (cstr key) (SqlValue.integer a) ∧
      h1.blobpath = h.blobpath ∧
      ¬ (strlen h.blobpath = 0 ∨ strlen domain = 0 ∨ strlen key = 0) := by
  unfold database_set_int64 at hset
  split at hset
  · exact (ok_pair _ (by decide) _ _ hset).elim
  · rename_i hargs
    split at hset
    · rename_i hsel
      obtain ⟨db1, hi, e⟩ := map_ok _ _ _ hset
      subst e
      exact ⟨insert_new_key_stored _ _ _ _ _ _ hsel (hpre.2 hsel) hi, rfl, hargs⟩
    · rename_i row hsel
      obtain ⟨w, hk, hv, h32⟩ := hpre.1 row hsel
      split at hset
      · rename_i ht
        injection hset with hset
        injection hset with _ e
        subst e
        rw [ht] at hk hv
        exact ⟨update_value_stored _ _ _ _ _ w _ hk hv h32, rfl, hargs⟩
      · dsimp only at hset
        generalize hrem : (if row.datatype = Datatype.Blob then
          removeReferencedBlobFile F h domain key else (DbCode.OK, h)) = removed at hset
        have hdb : removed.2.db = h.db ∧ removed.2.blobpath = h.blobpath := by
          rw [← hrem]
          split
          · exact removeReferencedBlobFile_db F h domain key
          · exact ⟨rfl, rfl⟩
        split at hset
        · rename_i hne
          exact (ok_pair _ hne _ _ hset).elim
        · obtain ⟨db1, hi, e⟩ := map_ok _ _ _ hset
          subst e
          rw [hdb.1] at hi
          exact ⟨replace_key_stored _ _ _ _ _ _ _ _ hk h32 hi, hdb.2, hargs⟩

theorem database_set_double_stored {φ : Type} (F : FileSystem φ) (h h1 : database_handle_t φ)
    (domain key : Bytes) (a : Nat)
    (hpre : (∀ row, select_id_datatype h.db (cstr domain) (cstr key) = some row →
      ∃ w, h.db.KeyInfo.filter
          (fun r => decide (r.domain = some (cstr domain) ∧ r.key = cstr key))
          = [⟨row.id, some (cstr domain), cstr key, row.datatype⟩] ∧
        (value_table h.db row.datatype).filter (fun x => decide (x.1 = row.id)) = [(row.id, w)] ∧
        to_int32 row.id = row.id) ∧
      (select_id_datatype h.db (cstr domain) (cstr key) = none → room_for_key h.db))
    (hset : database_set_double F h domain key a = some (DbCode.OK, h1)) :
    stored h1.db Datatype.Double (cstr domain) (cstr key) (SqlValue.real (sqlite_real a)) ∧
      h1.blobpath = h.blobpath ∧
      ¬ (strlen h.blobpath = 0 ∨ strlen domain = 0 ∨ strlen key = 0) := by
  unfold database_set_double at hset
  split at hset
  · exact (ok_pair _ (by decide) _ _ hset).elim
  · rename_i hargs
    have hargs1 : ¬ (strlen h.blobpath = 0 ∨ strlen domain = 0 ∨ strlen key = 0) := by
      intro hn
      apply hargs
      rcases hn with hn | hn | hn
      · exact Or.inl hn
      · exact Or.inr (Or.inl hn)
      · exact Or.inr (Or.inr (Or.inl hn))
    split at hset
    · rename_i hsel
      obtain ⟨db1, hi, e⟩ := map_ok _ _ _ hset
      subst e
      exact ⟨insert_new_key_stored _ _ _ _ _ _ hsel (hpre.2 hsel) hi, rfl, hargs1⟩
    · rename_i row hsel
      obtain ⟨w, hk, hv, h32⟩ := hpre.1 row hsel
      split at hset
      · rename_i ht
        dsimp only at hset
        generalize hrem : (if row.datatype = Datatype.Blob then
          removeReferencedBlobFile F h domain key else (DbCode.OK, h)) = removed at hset
        have hdb : removed.2.db = h.db ∧ removed.2.blobpath = h.blobpath := by
          rw [← hrem]
          split
          · exact removeReferencedBlobFile_db F h domain key
          · exact ⟨rfl, rfl⟩
        split at hset
        · rename_i hne
          exact (ok_pair _ hne _ _ hset).elim
        · injection hset with hset
          injection hset with _ e
          subst e
          rw [ht] at hk hv
          dsimp only
          rw [hdb.1]
          exact ⟨update_value_stored _ _ _ _ _ w _ hk hv h32, hdb.2, hargs1⟩
      · obtain ⟨db1, hi, e⟩ := map_ok _ _ _ hset
        subst e
        exact ⟨replace_key_stored _ _ _ _ _ _ _ _ hk h32 hi, rfl, hargs1⟩

theorem database_set_string_stored {φ : Type} (F : FileSystem φ) (h h1 : database_handle_t φ)
    (domain key : Bytes) (a : Bytes)
    (hpre : (∀ row, select_id_datatype h.db (cstr domain) (cstr key) = some row →
      ∃ w, h.db.KeyInfo.filter
          (fun r => decide (r.domain = some (cstr domain) ∧ r.key = cstr key))
          = [⟨row.id, some (cstr domain), cstr key, row.datatype⟩] ∧
        (value_table h.db row.datatype).filter (fun x => decide (x.1 = row.id)) = [(row.id, w)] ∧
        to_int32 row.id = row.id) ∧
      (select_id_datatype h.db (cstr domain) (cstr key) = none → room_for_key h.db))
    (hset : database_set_string F h domain key a = some (DbCode.OK, h1)) :
    stored h1.db Datatype.String (cstr domain) (cstr key) (SqlValue.text (cstr a)) ∧
      h1.blobpath = h.blobpath ∧
      ¬ (strlen h.blobpath = 0 ∨ strlen domain = 0 ∨ strlen key = 0) := by
  unfold database_set_string at hset
  split at hset
  · exact (ok_pair _ (by decide) _ _ hset).elim
  · rename_i hargs
    have hargs1 : ¬ (strlen h.blobpath = 0 ∨ strlen domain = 0 ∨ strlen key = 0) := by
      intro hn
      apply hargs
      rcases hn with hn | hn | hn
      · exact Or.inl hn
      · exact Or.inr (Or.inl hn)
      · exact Or.inr (Or.inr hn)
    split at hset
    · rename_i hsel
      obtain ⟨db1, hi, e⟩ := map_ok _ _ _ hset
      subst e
      exact ⟨insert_new_key_stored _ _ _ _ _ _ hsel (hpre.2 hsel) hi, rfl, hargs1⟩
    · rename_i row hsel
      obtain ⟨w, hk, hv, h32⟩ := hpre.1 row hsel
      split at hset
      · rename_i ht
        dsimp only at hset
        generalize hrem : (if row.datatype = Datatype.Blob then
          removeReferencedBlobFile F h domain key else (DbCode.OK, h)) = removed at hset
        have hdb : removed.2.db = h.db ∧ removed.2.blobpath = h.blobpath := by
          rw [← hrem]
          split
          · exact removeReferencedBlobFile_db F h domain key
          · exact ⟨rfl, rfl⟩
        split at hset
        · rename_i hne
          exact (ok_pair _ hne _ _ hset).elim
        · injection hset with hset
          injection hset with _ e
          subst e
          rw [ht] at hk hv
          dsimp only
          rw [hdb.1]
          exact ⟨update_value_stored _ _ _ _ _ w _ hk hv h32, hdb.2, hargs1⟩
      · obtain ⟨db1, hi, e⟩ := map_ok _ _ _ hset
        subst e
        exact ⟨replace_key_stored _ _ _ _ _ _ _ _ hk h32 hi, rfl, hargs1⟩

theorem blob_path_head (domain key : Bytes) (hd : strlen domain ≠ 0) :
    (cstr (blob_name domain ++ [47] ++ blob_name key)).head? ≠ some 47 := by
  obtain ⟨b, rest, rfl, hb⟩ := strlen_ne_zero domain hd
  have hb1 : (b : Byte) ≠ 0 := hb
  by_cases h32 : b = 32
  · subst h32
    simp [blob_name, cstr]
  · by_cases h47 : b = 47
    · subst h47
      simp [blob_name, cstr]
    · simp [blob_name, cstr, hb1, h32, h47]

theorem check_blob_path_fwrite {φ : Type} (F : FileSystem φ) (fs fs1 : φ) (p v q r : Bytes)
    (h : F.fwrite fs p v = some fs1) : check_blob_path F fs1 q r = check_blob_path F fs q r := by
  unfold check_blob_path
  rw [(F.fwrite_names fs p v fs1 h q).2]

theorem database_set_blob_stored {φ : Type} (F : FileSystem φ) (h h1 : database_handle_t φ)
    (domain key : Bytes) (a : Bytes)
    (hpre : (∀ row, select_id_datatype h.db (cstr domain) (cstr key) = some row →
      ∃ w, h.db.KeyInfo.filter
          (fun r => decide (r.domain = some (cstr domain) ∧ r.key = cstr key))
          = [⟨row.id, some (cstr domain), cstr key, row.datatype⟩] ∧
        (value_table h.db row.datatype).filter (fun x => decide (x.1 = row.id)) = [(row.id, w)] ∧
        to_int32 row.id = row.id) ∧
      (select_id_datatype h.db (cstr domain) (cstr key) = none → room_for_key h.db))
    (hset : database_set_blob F h domain key a = some (DbCode.OK, h1)) :
    stored h1.db Datatype.Blob (cstr domain) (cstr key)
        (SqlValue.text (blob_name domain ++ [47] ++ blob_name key)) ∧
      h1.blobpath = h.blobpath ∧
      ¬ (strlen h.blobpath = 0 ∨ strlen domain = 0 ∨ strlen key = 0) ∧
      F.stat h1.fs (pathtoblob h (blob_name domain ++ [47] ++ blob_name key))
        = some FileKind.regular ∧
      check_blob_path F h1.fs (pathtoblob h (blob_name domain ++ [47] ++ blob_name key))
        h.blobpath = DbCode.OK ∧
      F.fread h1.fs (pathtoblob h (blob_name domain ++ [47] ++ blob_name key)) = some a := by
  unfold database_set_blob at hset
  split at hset
  · exact (ok_pair _ (by decide) _ _ hset).elim
  · rename_i hargs
    split at hset
    · cases hset
    · dsimp only at hset
      split at hset
      · exact (ok_pair _ (by decide) _ _ hset).elim
      · rename_i fs1 _
        split at hset
        · exact (ok_pair _ (by decide) _ _ hset).elim
        · split at hset
          · exact (ok_pair _ (by decide) _ _ hset).elim
          · rename_i fs2 hopen
            split at hset
            · rename_i hne
              exact (ok_pair _ hne _ _ hset).elim
            · rename_i hcheck
              have hcheck1 : check_blob_path F fs2
                  (pathtoblob h (blob_name domain ++ [47] ++ blob_name key)) h.blobpath
                  = DbCode.OK := by
                by_contra hne
                exact hcheck hne
              split at hset
              · exact (ok_pair _ (by decide) _ _ hset).elim
              · rename_i fs3 hwrite
                have hfs : F.stat fs3 (pathtoblob h (blob_name domain ++ [47] ++ blob_name key))
                      = some FileKind.regular ∧
                    check_blob_path F fs3
                      (pathtoblob h (blob_name domain ++ [47] ++ blob_name key)) h.blobpath
                      = DbCode.OK ∧
                    F.fread fs3 (pathtoblob h (blob_name domain ++ [47] ++ blob_name key))
                      = some a := by
                  refine ⟨?_, ?_, F.fwrite_fread _ _ _ _ hwrite⟩
                  · rw [(F.fwrite_names _ _ _ _ hwrite _).1]
                    exact F.fopen_regular _ _ _ hopen
                  · rw [check_blob_path_fwrite F _ _ _ _ _ _ hwrite]
                    exact hcheck1
                split at hset
                · rename_i hsel
                  obtain ⟨db1, hi, e⟩ := map_ok _ _ _ hset
                  subst e
                  exact ⟨insert_new_key_stored _ _ _ _ _ _ hsel (hpre.2 hsel) hi, rfl, hargs,
                    hfs⟩
                · rename_i row hsel
                  obtain ⟨w, hk, hv, h32⟩ := hpre.1 row hsel
                  split at hset
                  · rename_i ht
                    injection hset with hset
                    injection hset with _ e
                    subst e
                    rw [ht] at hk hv
                    exact ⟨update_value_stored _ _ _ _ _ w _ hk hv h32, rfl, hargs, hfs⟩
                  · obtain ⟨db1, hi, e⟩ := map_ok _ _ _ hset
                    subst e
                    exact ⟨replace_key_stored _ _ _ _ _ _ _ _ hk h32 hi, rfl, hargs, hfs⟩

theorem database_get_blob_stored {φ : Type} (F : FileSystem φ) (h : database_handle_t φ)
    (domain key path a : Bytes)
    (hs : stored h.db Datatype.Blob (cstr domain) (cstr key) (SqlValue.text path))
    (hargs : ¬ (strlen h.blobpath = 0 ∨ strlen domain = 0 ∨ strlen key = 0))
    (hhead : (cstr path).head? ≠ some 47)
    (hstat : F.stat h.fs (pathtoblob h path) = some FileKind.regular)
    (hcheck : check_blob_path F h.fs (pathtoblob h path) h.blobpath = DbCode.OK)
    (hread : F.fread h.fs (pathtoblob h path) = some a) :
    database_get_blob F h domain key = (DbCode.OK, some a) := by
  unfold database_get_blob
  rw [if_neg hargs, stored_select_value _ _ _ _ _ hs]
  dsimp only
  rw [if_neg hhead, hstat]
  dsimp only
  rw [if_neg (by simp [hcheck]), hread]

theorem pathtoblob_blobpath {φ : Type} (h h1 : database_handle_t φ) (path : Bytes)
    (e : h1.blobpath = h.blobpath) : pathtoblob h1 path = pathtoblob h path := by
  unfold pathtoblob
  rw [e]

/-! ## C4: the value of the last set is the value read -/

theorem sqlite_real_idem (x : Nat) : sqlite_real (sqlite_real x) = sqlite_real x := by
  unfold sqlite_real
  split
  · rfl
  · rfl

/-- The databases on which two sets and a get behave as expected: on a clean
database in which the next id of `KeyInfo` is a value of an `int`, for each of
the four kinds, when `database_set_X(domain, key, a)` and then
`database_set_X(domain, key, b)` return `ERROR_OK`, `database_get_X(domain,
key)` returns `ERROR_OK` with the value `b` (for a string, the characters of `b`
up to its NUL; for a double, `b` as the column of the type REAL gives it back,
+0.0 for -0.0), and `KeyInfo` has exactly one row for the domain and the key. -/
theorem database_set_set_get {φ : Type} (F : FileSystem φ) (h h1 h2 : database_handle_t φ)
    (domain key : Bytes) (hc : clean h.db) (hr : room_for_key h.db) :
    (∀ a b : Int,
      database_set_int64 F h domain key a = some (DbCode.OK, h1) →
      database_set_int64 F h1 domain key b = some (DbCode.OK, h2) →
      database_get_int64 h2 domain key = (DbCode.OK, some b) ∧ entries h2.db domain key = 1) ∧
    (∀ a b : Nat,
      database_set_double F h domain key a = some (DbCode.OK, h1) →
      database_set_double F h1 domain key b = some (DbCode.OK, h2) →
      database_get_double h2 domain key = (DbCode.OK, some (sqlite_real b)) ∧
        entries h2.db domain key = 1) ∧
    (∀ a b : Bytes,
      database_set_string F h domain key a = some (DbCode.OK, h1) →
      database_set_string F h1 domain key b = some (DbCode.OK, h2) →
      database_get_string h2 domain key = (DbCode.OK, some (cstr b)) ∧
        entries h2.db domain key = 1) ∧
    (∀ a b : Bytes,
      database_set_blob F h domain key a = some (DbCode.OK, h1) →
      database_set_blob F h1 domain key b = some (DbCode.OK, h2) →
      database_get_blob F h2 domain key = (DbCode.OK, some b) ∧
        entries h2.db domain key = 1) := by
  have hpre := clean_ready h.db hc hr (cstr domain) (cstr key)
  refine ⟨?_, ?_, ?_, ?_⟩
  · intro a b hs1 hs2
    obtain ⟨st1, _, _⟩ := database_set_int64_stored F h h1 domain key a hpre hs1
    obtain ⟨st2, e2, hargs⟩ := database_set_int64_stored F h1 h2 domain key b
      (stored_ready _ _ _ _ _ st1) hs2
    refine ⟨?_, stored_entries _ _ _ _ _ st2⟩
    unfold database_get_int64
    rw [if_neg (by rw [e2]; tauto), stored_select_value _ _ _ _ _ st2]
  · intro a b hs1 hs2
    obtain ⟨st1, _, _⟩ := database_set_double_stored F h h1 domain key a hpre hs1
    obtain ⟨st2, e2, hargs⟩ := database_set_double_stored F h1 h2 domain key b
      (stored_ready _ _ _ _ _ st1) hs2
    refine ⟨?_, stored_entries _ _ _ _ _ st2⟩
    unfold database_get_double
    rw [if_neg (by rw [e2]; tauto), stored_select_value _ _ _ _ _ st2]
    dsimp only
    rw [sqlite_real_idem]
  · intro a b hs1 hs2
    obtain ⟨st1, _, _⟩ := database_set_string_stored F h h1 domain key a hpre hs1
    obtain ⟨st2, e2, hargs⟩ := database_set_string_stored F h1 h2 domain key b
      (stored_ready _ _ _ _ _ st1) hs2
    refine ⟨?_, stored_entries _ _ _ _ _ st2⟩
    unfold database_get_string
    rw [if_neg (by rw [e2]; tauto), stored_select_value _ _ _ _ _ st2]
    have hcc : cstr (cstr b) = cstr b := by
      unfold cstr
      rw [List.takeWhile_eq_self_iff]
      intro x hx
      exact List.mem_takeWhile_imp (p := fun c => decide (c ≠ 0)) hx
    dsimp only
    rw [hcc]
  · intro a b hs1 hs2
    obtain ⟨st1, _, _⟩ := database_set_blob_stored F h h1 domain key a hpre hs1
    obtain ⟨st2, e2, hargs, hstat, hcheck, hread⟩ := database_set_blob_stored F h1 h2 domain key b
      (stored_ready _ _ _ _ _ st1) hs2
    refine ⟨?_, stored_entries _ _ _ _ _ st2⟩
    have ep := pathtoblob_blobpath h1 h2 (blob_name domain ++ [47] ++ blob_name key) e2
    apply database_get_blob_stored F h2 domain key _ b st2
    · rw [e2]
      exact hargs
    · exact blob_path_head domain key (by tauto)
    · rw [ep]
      exact hstat
    · rw [ep, e2]
      exact hcheck
    · rw [ep]
      exact hread

set_option maxRecDepth 100000 in
/-- An instance: on the database without rows, the integer 1 and then the
integer 2 are set for the domain `d` and the key `k`. -/
theorem database_set_set_get_witness :
    clean empty_database.db ∧ room_for_key empty_database.db ∧
    database_set_int64 file_list empty_database [100] [107] 1
      = some (DbCode.OK, { empty_database with
          db := ⟨[⟨1, some [100], [107], Datatype.Int64⟩], 1, [(1, SqlValue.integer 1)], [], [],
            []⟩ }) ∧
    database_set_int64 file_list
        { empty_database with
          db := ⟨[⟨1, some [100], [107], Datatype.Int64⟩], 1, [(1, SqlValue.integer 1)], [], [],
            []⟩ } [100] [107] 2
      = some (DbCode.OK, { empty_database with
          db := ⟨[⟨1, some [100], [107], Datatype.Int64⟩], 1, [(1, SqlValue.integer 2)], [], [],
            []⟩ }) ∧
    database_get_int64
        { empty_database with
          db := ⟨[⟨1, some [100], [107], Datatype.Int64⟩], 1, [(1, SqlValue.integer 2)], [], [],
            []⟩ } [100] [107] = (DbCode.OK, some 2) ∧
    entries (⟨[⟨1, some [100], [107], Datatype.Int64⟩], 1, [(1, SqlValue.integer 2)], [], [],
      []⟩ : sqlite3) [100] [107] = 1 :=
  have hc : clean empty_database.db :=
    ⟨by simp [empty_database], fun t => by cases t <;> simp [value_table, empty_database],
      by simp [empty_database],
      fun t id => by cases t <;> simp [value_table, empty_database],
      by simp [empty_database]⟩
  have hr : room_for_key empty_database.db := by
    unfold room_for_key
    decide
  ⟨hc, hr, by decide, by decide,
    (database_set_set_get file_list empty_database
      { empty_database with
        db := ⟨[⟨1, some [100], [107], Datatype.Int64⟩], 1, [(1, SqlValue.integer 1)], [], [],
          []⟩ }
      { empty_database with
        db := ⟨[⟨1, some [100], [107], Datatype.Int64⟩], 1, [(1, SqlValue.integer 2)], [], [],
          []⟩ }
      [100] [107] hc hr).1 1 2 (by decide) (by decide)⟩

set_option maxRecDepth 100000 in
/-- The double -0.0, set twice for the domain `d` and the key `k` on the
database without rows, is read back as +0.0. -/
theorem database_double_negative_zero :
    (database_set_double file_list empty_database [100] [107] 0x8000000000000000).bind
        (fun r => (database_set_double file_list r.2 [100] [107] 0x8000000000000000).map
          (fun r2 => (r.1, r2.1, database_get_double r2.2 [100] [107])))
      = some (DbCode.OK, DbCode.OK, (DbCode.OK, some 0)) := by
  rfl

set_option maxRecDepth 100000 in
/-- C4 at the failing input: a clean database without rows in which
AUTOINCREMENT has recorded the id 2^31 - 1 for `KeyInfo`.
`database_set_int64(d, k, 1)` inserts the key with the id 2^31 and returns
`ERROR_OK`; `database_set_int64(d, k, 2)` reads the id into an `unsigned int`
with `sqlite3_column_int` and binds it with `sqlite3_bind_int`, so that its
`UPDATE ... WHERE id = :id` runs with the id -2^31, changes no row and returns
`ERROR_OK`; `database_get_int64(d, k)` then returns `ERROR_OK` with the value
1, not 2.  `KeyInfo` has one row for the domain and the key. -/
theorem database_set_truncated_id :
    clean (⟨[], 2147483647, [], [], [], []⟩ : sqlite3) ∧
    (database_set_int64 file_list
          { empty_database with db := ⟨[], 2147483647, [], [], [], []⟩ } [100] [107] 1).bind
        (fun r => (database_set_int64 file_list r.2 [100] [107] 2).map
          (fun r2 => (r.1, r.2.db, r2.1, r2.2.db, database_get_int64 r2.2 [100] [107],
            entries r2.2.db [100] [107])))
      = some (DbCode.OK,
          ⟨[⟨2147483648, some [100], [107], Datatype.Int64⟩], 2147483648,
            [(2147483648, SqlValue.integer 1)], [], [], []⟩,
          DbCode.OK,
          ⟨[⟨2147483648, some [100], [107], Datatype.Int64⟩], 2147483648,
            [(2147483648, SqlValue.integer 1)], [], [], []⟩,
          (DbCode.OK, some 1), 1) :=
  ⟨⟨by simp, fun t => by cases t <;> simp [value_table], by simp,
      fun t id => by cases t <;> simp [value_table], by simp⟩,
    by rfl⟩

/-! ## C9: reading a key of another kind -/

set_option maxRecDepth 100000 in
/-- C9 at the failing input: on the database without rows the double 0.0 is set
for the domain `d` and the key `k`.  Then `database_get_double` returns
`ERROR_OK`, and `database_get_int64`, `database_get_string` and
`database_get_blob` for the same domain and key return
`ERROR_DATABASE_NO_SUCH_KEY`, not `ERROR_DATABASE_TYPE_MISMATCH`; likewise
`database_get_double` for a key that holds an integer. -/
theorem database_get_other_kind :
    (database_set_double file_list empty_database [100] [107] 0).map
        (fun r => (r.1, database_get_double r.2 [100] [107], database_get_int64 r.2 [100] [107],
          database_get_string r.2 [100] [107], database_get_blob file_list r.2 [100] [107]))
      = some (DbCode.OK, (DbCode.OK, some 0), (DbCode.DATABASE_NO_SUCH_KEY, none),
          (DbCode.DATABASE_NO_SUCH_KEY, none), (DbCode.DATABASE_NO_SUCH_KEY, none)) ∧
    (database_set_int64 file_list empty_database [100] [107] 5).map
        (fun r => (r.1, database_get_int64 r.2 [100] [107], database_get_double r.2 [100] [107]))
      = some (DbCode.OK, (DbCode.OK, some 5), (DbCode.DATABASE_NO_SUCH_KEY, none)) := by
  constructor
  · rfl
  · rfl

/-! ## registry_open: the segments of the identifier -/

theorem segments_step (c : Byte) (cs : Bytes) :
    segments (c :: cs) = if c = DELIMITER then [] :: segments cs
      else
        match segments cs with
        | s :: ss => (c :: s) :: ss
        | [] => [[c]] := by
  rw [segments]

theorem segments_ne_nil (l : Bytes) : segments l ≠ [] := by
  induction l with
  | nil => simp [segments]
  | cons c cs ih =>
    rw [segments_step]
    split
    · simp
    · split
      · simp
      · simp

theorem segments_no_delimiter (l : Bytes) (h : DELIMITER ∉ l) : segments l = [l] := by
  induction l with
  | nil => rfl
  | cons c cs ih =>
    have hc : c ≠ DELIMITER := fun e => h (by rw [e]; exact List.mem_cons_self _ _)
    have hcs : DELIMITER ∉ cs := fun e => h (List.mem_cons_of_mem _ e)
    rw [segments_step, if_neg hc, ih hcs]

theorem segments_append (s0 rest : Bytes) (h : DELIMITER ∉ s0) :
    segments (s0 ++ DELIMITER :: rest) = s0 :: segments rest := by
  induction s0 with
  | nil =>
    show segments (DELIMITER :: rest) = [] :: segments rest
    rw [segments_step, if_pos rfl]
  | cons c cs ih =>
    have hc : c ≠ DELIMITER := fun e => h (by rw [e]; exact List.mem_cons_self _ _)
    have hcs : DELIMITER ∉ cs := fun e => h (List.mem_cons_of_mem _ e)
    show segments (c :: (cs ++ DELIMITER :: rest)) = (c :: cs) :: segments rest
    rw [segments_step, if_neg hc, ih hcs]

theorem first_delimiter (l : Bytes) (h : DELIMITER ∈ l) :
    ∃ s0 rest, l = s0 ++ DELIMITER :: rest ∧ DELIMITER ∉ s0 := by
  induction l with
  | nil => cases h
  | cons c cs ih =>
    by_cases hc : c = DELIMITER
    · exact ⟨[], cs, by rw [hc]; rfl, by simp⟩
    · have hcs : DELIMITER ∈ cs := by
        rcases List.mem_cons.mp h with e | e
        · exact absurd e.symm hc
        · exact e
      obtain ⟨s0, rest, e, hs0⟩ := ih hcs
      refine ⟨c :: s0, rest, by rw [e]; rfl, ?_⟩
      intro hm
      rcases List.mem_cons.mp hm with e1 | e1
      · exact hc e1.symm
      · exact hs0 e1

/-- An identifier with more than one segment is the first segment, the
separator and the rest, whose segments are the other ones. -/
theorem segments_cons (l s0 : Bytes) (ss : List Bytes) (h : segments l = s0 :: ss)
    (hss : ss ≠ []) : ∃ rest, l = s0 ++ DELIMITER :: rest ∧ DELIMITER ∉ s0 ∧ ss = segments rest := by
  by_cases hd : DELIMITER ∈ l
  · obtain ⟨t0, rest, e, ht0⟩ := first_delimiter l hd
    rw [e, segments_append t0 rest ht0] at h
    injection h with h1 h2
    subst h1
    exact ⟨rest, e, ht0, h2.symm⟩
  · rw [segments_no_delimiter l hd] at h
    injection h with _ h2
    exact absurd h2.symm hss

theorem segments_getLast (l : Bytes) (h : l.getLast? = some DELIMITER) :
    ∃ s0 ss, segments l = s0 :: ss ∧ [] ∈ ss := by
  induction l with
  | nil => cases h
  | cons c cs ih =>
    cases cs with
    | nil =>
      have hc : c = DELIMITER := by simpa using h
      subst hc
      exact ⟨[], [[]], by decide, by simp⟩
    | cons c1 cs1 =>
      have h1 : (c1 :: cs1).getLast? = some DELIMITER := by
        rw [List.getLast?_cons_cons] at h
        exact h
      obtain ⟨s0, ss, e, hm⟩ := ih h1
      by_cases hc : c = DELIMITER
      · refine ⟨[], s0 :: ss, ?_, List.mem_cons_of_mem _ hm⟩
        rw [segments_step, if_pos hc, e]
      · refine ⟨c :: s0, ss, ?_, hm⟩
        rw [segments_step, if_neg hc, e]

theorem channel_free_ok {σ : Type} (c : channel_t σ) : channel_free c = ERROR_OK := by
  induction c with
  | with_server cs => rfl
  | endpoint_connector cec server _ => rfl
  | hmac ch child ih =>
    unfold channel_free
    rw [ih]
    rfl

theorem get_append_head (pre rest : Bytes) (x : Byte) :
    (pre ++ x :: rest).get? pre.length = some x := by
  induction pre with
  | nil => rfl
  | cons a pre ih => simpa using ih

theorem check_delimiter_found (s1 : Bytes) : ∀ (pre rest : Bytes) (d : Int) (n : Nat),
    DELIMITER ∉ s1 → s1.length < n →
    check_delimiter_loop (pre ++ s1 ++ DELIMITER :: rest).length n
        (pre ++ s1 ++ DELIMITER :: rest) pre.length d
      = (pre ++ s1 ++ 0 :: rest, (pre ++ s1).length + 1, 1) := by
  induction s1 with
  | nil =>
    intro pre rest d n _ hn
    obtain ⟨m, rfl⟩ : ∃ m, n = m + 1 := ⟨n - 1, by simp at hn; omega⟩
    rw [check_delimiter_loop, if_pos (by simp),
      if_pos (by rw [List.append_nil]; exact get_append_head pre rest DELIMITER)]
    simp
  | cons c s1 ih =>
    intro pre rest d n hs hn
    have hc : c ≠ DELIMITER := fun e => hs (by rw [e]; exact List.mem_cons_self _ _)
    have hcs : DELIMITER ∉ s1 := fun e => hs (List.mem_cons_of_mem _ e)
    obtain ⟨m, rfl⟩ : ∃ m, n = m + 1 := ⟨n - 1, by simp at hn; omega⟩
    have hm : s1.length < m := by simp at hn; omega
    have hg : (pre ++ (c :: s1) ++ DELIMITER :: rest).get? pre.length = some c := by
      rw [List.append_assoc]
      exact get_append_head pre _ c
    rw [check_delimiter_loop, if_pos (by simp), if_neg (by rw [hg]; simp [hc])]
    have e1 : pre ++ c :: s1 ++ DELIMITER :: rest = (pre ++ [c]) ++ s1 ++ DELIMITER :: rest := by
      simp
    have e2 : pre.length + 1 = (pre ++ [c]).length := by simp
    rw [e1, e2, ih (pre ++ [c]) rest d m hcs hm]
    simp

theorem registry_open_loop_step {σ : Type} (n : Nat) (pre s1 rest : Bytes) (d : Int)
    (channel : channel_t σ) (hs1 : DELIMITER ∉ s1) :
    ∃ channel1,
      registry_open_loop (pre ++ (HMAC_SCHEME ++ s1 ++ DELIMITER :: rest)).length (n + 1)
          (pre ++ (HMAC_SCHEME ++ s1 ++ DELIMITER :: rest)) pre.length d channel
        = registry_open_loop ((pre ++ HMAC_SCHEME ++ s1 ++ [0]) ++ rest).length n
            ((pre ++ HMAC_SCHEME ++ s1 ++ [0]) ++ rest) (pre ++ HMAC_SCHEME ++ s1 ++ [0]).length 1
            channel1 := by
  have hpos : pre.length < (pre ++ (HMAC_SCHEME ++ s1 ++ DELIMITER :: rest)).length := by
    simp [HMAC_SCHEME]
  have hp : protocol_is HMAC_SCHEME (pre ++ (HMAC_SCHEME ++ s1 ++ DELIMITER :: rest)) pre.length
      = true := by
    unfold protocol_is
    rw [List.drop_left, List.append_assoc, List.take_left' (by rfl)]
    simp
  have hr : checkDelimiterAndSetToTerminator (pre ++ (HMAC_SCHEME ++ s1 ++ DELIMITER :: rest))
      (pre.length + 7) (pre ++ (HMAC_SCHEME ++ s1 ++ DELIMITER :: rest)).length 0
      = ((pre ++ HMAC_SCHEME) ++ s1 ++ 0 :: rest, ((pre ++ HMAC_SCHEME) ++ s1).length + 1, 1) := by
    unfold checkDelimiterAndSetToTerminator
    have e : pre ++ (HMAC_SCHEME ++ s1 ++ DELIMITER :: rest)
        = (pre ++ HMAC_SCHEME) ++ s1 ++ DELIMITER :: rest := by simp
    have e2 : pre.length + 7 = (pre ++ HMAC_SCHEME).length := by simp [HMAC_SCHEME]
    rw [e, e2]
    exact check_delimiter_found s1 (pre ++ HMAC_SCHEME) rest 0 _ hs1 (by simp; omega)
  rw [registry_open_loop, if_pos hpos, if_pos hp]
  dsimp only
  rw [hr]
  dsimp only
  have hk : (registry_open_set_key (channel_hmac_new channel).2
      (pre ++ HMAC_SCHEME ++ s1 ++ 0 :: rest) (pre.length + 7)
      (((pre ++ HMAC_SCHEME ++ s1).length + 1 : Nat) - ((pre.length + 7 : Nat) : Int) - 1)).1
      = ERROR_OK := by
    have e : (((pre ++ HMAC_SCHEME ++ s1).length + 1 : Nat) - ((pre.length + 7 : Nat) : Int) - 1)
        = (s1.length : Int) := by
      simp [HMAC_SCHEME]
      omega
    rw [e]
    unfold registry_open_set_key channel_hmac_new
    dsimp only
    by_cases h0 : (s1.length : Int) = 0
    · rw [if_pos h0]
      rfl
    · rw [if_neg h0]
      dsimp only
      unfold channel_hmac_set_key
      have h1 : (s1.length : Int).toNat ≠ 0 := by
        simp only [Int.toNat_ofNat]
        intro h2
        apply h0
        rw [h2]
        rfl
      rw [if_neg h1]
      split
      · rfl
      · split
        · rfl
        · rfl
  rw [if_neg (by rw [hk]; simp)]
  refine ⟨(registry_open_set_key (channel_hmac_new channel).2
      (pre ++ HMAC_SCHEME ++ s1 ++ 0 :: rest) (pre.length + 7)
      (((pre ++ HMAC_SCHEME ++ s1).length + 1 : Nat) - ((pre.length + 7 : Nat) : Int) - 1)).2, ?_⟩
  have e1 : pre ++ HMAC_SCHEME ++ s1 ++ 0 :: rest = (pre ++ HMAC_SCHEME ++ s1 ++ [0]) ++ rest := by
    simp
  have e2 : (pre ++ HMAC_SCHEME ++ s1).length + 1 = (pre ++ HMAC_SCHEME ++ s1 ++ [0]).length := by
    simp [HMAC_SCHEME]
    omega
  have e3 : (pre ++ (HMAC_SCHEME ++ s1 ++ DELIMITER :: rest)).length
      = ((pre ++ HMAC_SCHEME ++ s1 ++ [0]) ++ rest).length := by
    simp [HMAC_SCHEME]
  rw [e3, e2]
  rw [e1]

theorem hmac_scheme_no_delimiter (s1 : Bytes) (h : DELIMITER ∉ s1) :
    DELIMITER ∉ HMAC_SCHEME ++ s1 := by
  intro hm
  rcases List.mem_append.mp hm with h1 | h1
  · revert h1
    decide
  · exact h h1

/-- The loop of `registry_open` behind a separator: when a segment of the rest
of the identifier does not start with `hmac://`, the loop ends with
`ERROR_REGISTRY_UNKNOWN_IDENTIFIER` or with the delimiter flag set. -/
theorem registry_open_loop_rejected {σ : Type} : ∀ (n : Nat) (pre rem : Bytes)
    (channel : channel_t σ), rem.length ≤ n →
    (∃ s ∈ segments rem, s.take 7 ≠ HMAC_SCHEME) →
    (registry_open_loop (pre ++ rem).length n (pre ++ rem) pre.length 1 channel).1
        = ERROR_REGISTRY_UNKNOWN_IDENTIFIER ∨
      ((registry_open_loop (pre ++ rem).length n (pre ++ rem) pre.length 1 channel).1 = ERROR_OK ∧
        (registry_open_loop (pre ++ rem).length n (pre ++ rem) pre.length 1 channel).2.1 = 1) := by
  intro n
  induction n with
  | zero =>
    intro pre rem channel _ _
    right
    rw [registry_open_loop]
    exact ⟨rfl, rfl⟩
  | succ n ih =>
    intro pre rem channel hlen hbad
    by_cases hrem : rem = []
    · subst hrem
      right
      rw [registry_open_loop, if_neg (by simp)]
      exact ⟨rfl, rfl⟩
    · have hpos : pre.length < (pre ++ rem).length := by
        have : 0 < rem.length := List.length_pos.mpr hrem
        simp
        omega
      by_cases hp : rem.take 7 = HMAC_SCHEME
      · have e : rem = HMAC_SCHEME ++ rem.drop 7 := by
          have := (List.take_append_drop 7 rem).symm
          rw [hp] at this
          exact this
        by_cases hd : DELIMITER ∈ rem.drop 7
        · obtain ⟨s1, rest, e1, hs1⟩ := first_delimiter (rem.drop 7) hd
          have e2 : rem = HMAC_SCHEME ++ s1 ++ DELIMITER :: rest := by
            rw [e, e1]
            simp
          obtain ⟨s, hs, hsbad⟩ := hbad
          rw [e2, segments_append _ _ (hmac_scheme_no_delimiter s1 hs1)] at hs
          have hs2 : s ∈ segments rest := by
            rcases List.mem_cons.mp hs with h1 | h1
            · exfalso
              apply hsbad
              rw [h1, List.take_left' (by rfl)]
            · exact h1
          obtain ⟨ch1, hstep⟩ := registry_open_loop_step n pre s1 rest 1 channel hs1
          have hl : rest.length ≤ n := by
            rw [e2] at hlen
            simp [HMAC_SCHEME] at hlen
            omega
          rw [e2, hstep]
          exact ih (pre ++ HMAC_SCHEME ++ s1 ++ [0]) rest ch1 hl ⟨s, hs2, hsbad⟩
        · exfalso
          obtain ⟨s, hs, hsbad⟩ := hbad
          have hnd : DELIMITER ∉ rem := by
            rw [e]
            exact hmac_scheme_no_delimiter _ hd
          rw [segments_no_delimiter rem hnd] at hs
          have : s = rem := by simpa using hs
          rw [this] at hsbad
          exact hsbad hp
      · left
        have hpf : ¬ protocol_is HMAC_SCHEME (pre ++ rem) pre.length = true := by
          unfold protocol_is
          rw [List.drop_left]
          simpa using hp
        rw [registry_open_loop, if_pos hpos, if_neg hpf, channel_free_ok]
        rfl

theorem cstr_no_zero (l : Bytes) : (0 : Byte) ∉ cstr l := by
  intro h
  have := List.mem_takeWhile_imp (p := fun c => decide (c ≠ 0)) h
  simp at this

theorem cstr_append_zero (path rest : Bytes) (h : (0 : Byte) ∉ path) :
    cstr (path ++ 0 :: rest) = path := by
  induction path with
  | nil => simp [cstr]
  | cons c cs ih =>
    have hc : c ≠ 0 := fun e => h (by rw [e]; exact List.mem_cons_self _ _)
    have hcs : (0 : Byte) ∉ cs := fun e => h (List.mem_cons_of_mem _ e)
    have := ih hcs
    unfold cstr at this ⊢
    rw [List.cons_append, List.takeWhile_cons_of_pos (by simp [hc]), this]

theorem registry_open_segments {σ : Type} (S : Store σ) (identifier domain path rest : Bytes)
    (db : σ) (hd : strlen domain ≠ 0)
    (hid : cstr identifier = FILE_SCHEME ++ path ++ DELIMITER :: rest)
    (hnd : DELIMITER ∉ path) (hpath : path ≠ [])
    (hopen : S.open_path path = (DbCode.OK, some db))
    (hbad : ∃ s ∈ segments rest, s.take 7 ≠ HMAC_SCHEME) :
    registry_open S (some identifier) (some domain)
      = (ERROR_REGISTRY_UNKNOWN_IDENTIFIER, none) := by
  have hsize : strlen identifier = (FILE_SCHEME ++ path ++ DELIMITER :: rest).length := by
    unfold strlen
    rw [hid]
  have hz : (0 : Byte) ∉ path := by
    intro h
    apply cstr_no_zero identifier
    rw [hid]
    simp [h]
  unfold registry_open
  dsimp only
  rw [if_neg hd]
  split
  · rfl
  · split
    · rfl
    · have hp : protocol_is FILE_SCHEME (cstr identifier) 0 = true := by
        unfold protocol_is
        rw [hid, List.drop_zero, List.append_assoc, List.take_left' (by rfl)]
        simp
      rw [if_pos hp]
      have hr : checkDelimiterAndSetToTerminator (cstr identifier) 7 (strlen identifier) 0
          = (FILE_SCHEME ++ path ++ 0 :: rest, (FILE_SCHEME ++ path).length + 1, 1) := by
        unfold checkDelimiterAndSetToTerminator
        rw [hid, hsize]
        have e7 : (7 : Nat) = FILE_SCHEME.length := rfl
        rw [e7]
        exact check_delimiter_found path FILE_SCHEME rest 0 _ hnd (by simp)
      rw [hr]
      dsimp only
      have hc : channel_with_server_new S (List.drop 7 (FILE_SCHEME ++ path ++ 0 :: rest))
          = (ERROR_OK, some (channel_t.with_server ⟨none, ⟨db⟩⟩)) := by
        have e : List.drop 7 (FILE_SCHEME ++ path ++ 0 :: rest) = path ++ 0 :: rest := by
          rw [List.append_assoc]
          exact List.drop_left' rfl
        rw [e]
        unfold channel_with_server_new
        have hl : strlen (path ++ 0 :: rest) ≠ 0 := by
          unfold strlen
          rw [cstr_append_zero path rest hz]
          exact fun h => hpath (List.length_eq_zero.mp h)
        rw [if_neg hl, cstr_append_zero path rest hz, hopen]
      rw [hc]
      dsimp only
      rw [if_neg (by simp)]
      generalize (if (FILE_SCHEME ++ path).length + 1 < strlen identifier then
          (channel_endpoint_connector_new (channel_t.with_server ⟨none, ⟨db⟩⟩)).2
        else channel_t.with_server ⟨none, ⟨db⟩⟩) = channel
      have e1 : FILE_SCHEME ++ path ++ 0 :: rest = (FILE_SCHEME ++ path ++ [0]) ++ rest := by
        simp
      have e2 : (FILE_SCHEME ++ path).length + 1 = (FILE_SCHEME ++ path ++ [0]).length := by
        simp
        omega
      have e3 : strlen identifier = ((FILE_SCHEME ++ path ++ [0]) ++ rest).length := by
        rw [hsize]
        simp
      have hl : rest.length ≤ ((FILE_SCHEME ++ path ++ [0]) ++ rest).length := by
        simp
        omega
      have hrej := registry_open_loop_rejected ((FILE_SCHEME ++ path ++ [0]) ++ rest).length
        (FILE_SCHEME ++ path ++ [0]) rest channel hl hbad
      rw [e1, e2, e3]
      generalize registry_open_loop ((FILE_SCHEME ++ path ++ [0]) ++ rest).length
        ((FILE_SCHEME ++ path ++ [0]) ++ rest).length ((FILE_SCHEME ++ path ++ [0]) ++ rest)
        (FILE_SCHEME ++ path ++ [0]).length 1 channel = l at hrej ⊢
      rcases hrej with h1 | ⟨h1, h2⟩
      · rw [if_pos (by rw [h1]; decide), h1]
      · rw [if_neg (by rw [h1]; simp), if_pos h2, channel_free_ok]
        rfl

/-! ## C10: identifiers that registry_open rejects -/

set_option maxRecDepth 100000 in
/-- C10 as stated fails when the first segment names no path or a database
that cannot be opened: the identifier `file://|hmeac://key` has a second
segment that does not start with `hmac://`, and `file://||||||||` ends with the
separator, yet `registry_open` returns `ERROR_INVALID_ARGUMENTS` for both; for
`file://mydb.sqlite|hmeac://key` and a database that fails to open it returns
`ERROR_DATABASE_OPEN`. -/
theorem registry_open_database_first :
    ((∃ s ∈ (segments (ascii "file://|hmeac://key")).tail, s.take 7 ≠ HMAC_SCHEME) ∧
      registry_open (constant_store DbCode.OK) (some (ascii "file://|hmeac://key"))
        (some (ascii "domain")) = (ERROR_INVALID_ARGUMENTS, none)) ∧
    ((ascii "file://||||||||").getLast? = some DELIMITER ∧
      registry_open (constant_store DbCode.OK) (some (ascii "file://||||||||"))
        (some (ascii "domain")) = (ERROR_INVALID_ARGUMENTS, none)) ∧
    ((∃ s ∈ (segments (ascii "file://mydb.sqlite|hmeac://key")).tail, s.take 7 ≠ HMAC_SCHEME) ∧
      registry_open (constant_store DbCode.DATABASE_OPEN)
        (some (ascii "file://mydb.sqlite|hmeac://key")) (some (ascii "domain"))
        = (ERROR_DATABASE_OPEN, none)) := by
  decide

/-- C10, amended: for a non-NULL identifier and a non-empty domain,
`registry_open` returns `ERROR_REGISTRY_UNKNOWN_IDENTIFIER` and sets the handle
to NULL when the identifier does not start with `file://`; and, when the first
segment is `file://` followed by a non-empty path whose database opens, when a
segment after the first does not start with `hmac://` or the identifier ends
with the separator. -/
theorem registry_open_unknown_identifier {σ : Type} (S : Store σ) (identifier domain : Bytes)
    (hd : strlen domain ≠ 0) :
    (protocol_is FILE_SCHEME (cstr identifier) 0 = false →
      registry_open S (some identifier) (some domain)
        = (ERROR_REGISTRY_UNKNOWN_IDENTIFIER, none)) ∧
    (∀ path ss db, segments (cstr identifier) = (FILE_SCHEME ++ path) :: ss → path ≠ [] →
      S.open_path path = (DbCode.OK, some db) →
      ((∃ s ∈ ss, s.take 7 ≠ HMAC_SCHEME) ∨ (cstr identifier).getLast? = some DELIMITER) →
      registry_open S (some identifier) (some domain)
        = (ERROR_REGISTRY_UNKNOWN_IDENTIFIER, none)) := by
  constructor
  · intro hp
    unfold registry_open
    dsimp only
    rw [if_neg hd]
    split
    · rfl
    · split
      · rfl
      · rw [if_neg (by rw [hp]; simp)]
  · intro path ss db hseg hpath hopen hcond
    have hbad : ∃ s ∈ ss, s.take 7 ≠ HMAC_SCHEME := by
      rcases hcond with h | h
      · exact h
      · obtain ⟨s0, ss1, e, hm⟩ := segments_getLast _ h
        rw [hseg] at e
        injection e with _ e2
        rw [e2]
        exact ⟨[], hm, by decide⟩
    have hss : ss ≠ [] := by
      obtain ⟨s, hs, _⟩ := hbad
      exact List.ne_nil_of_mem hs
    obtain ⟨rest, e, hnd, hrest⟩ := segments_cons _ _ _ hseg hss
    have hnd1 : DELIMITER ∉ path := fun h => hnd (List.mem_append_right _ h)
    rw [hrest] at hbad
    exact registry_open_segments S identifier domain path rest db hd e hnd1 hpath hopen hbad

set_option maxRecDepth 100000 in
/-- Witness of C10: the identifier `file://mydb.sqlite|hmeac://key` with a
database that opens. -/
theorem registry_open_unknown_identifier_witness :
    strlen (ascii "domain") ≠ 0 ∧
    segments (cstr (ascii "file://mydb.sqlite|hmeac://key"))
      = (FILE_SCHEME ++ ascii "mydb.sqlite") :: [ascii "hmeac://key"] ∧
    ascii "mydb.sqlite" ≠ [] ∧
    (constant_store DbCode.OK).open_path (ascii "mydb.sqlite") = (DbCode.OK, some 0) ∧
    (∃ s ∈ [ascii "hmeac://key"], s.take 7 ≠ HMAC_SCHEME) ∧
    registry_open (constant_store DbCode.OK) (some (ascii "file://mydb.sqlite|hmeac://key"))
        (some (ascii "domain")) = (ERROR_REGISTRY_UNKNOWN_IDENTIFIER, none) :=
  ⟨by decide, by decide, by decide, rfl, by decide,
    (registry_open_unknown_identifier (constant_store DbCode.OK)
      (ascii "file://mydb.sqlite|hmeac://key") (ascii "domain") (by decide)).2
      (ascii "mydb.sqlite") [ascii "hmeac://key"] 0 (by decide) (by decide) rfl
      (Or.inl (by decide))⟩

/-! ## C11: identifiers that registry_open accepts -/

theorem check_delimiter_not_found (s1 : Bytes) : ∀ (pre : Bytes) (d : Int) (n : Nat),
    DELIMITER ∉ s1 →
    check_delimiter_loop (pre ++ s1).length n (pre ++ s1) pre.length d
      = (pre ++ s1, if s1.length ≤ n then (pre ++ s1).length else pre.length + n, d) := by
  induction s1 with
  | nil =>
    intro pre d n _
    cases n with
    | zero => simp [check_delimiter_loop]
    | succ m =>
      rw [check_delimiter_loop, if_neg (by simp)]
      simp
  | cons c s1 ih =>
    intro pre d n hs
    have hc : c ≠ DELIMITER := fun e => hs (by rw [e]; exact List.mem_cons_self _ _)
    have hcs : DELIMITER ∉ s1 := fun e => hs (List.mem_cons_of_mem _ e)
    cases n with
    | zero => simp [check_delimiter_loop]
    | succ m =>
      have hg : (pre ++ c :: s1).get? pre.length = some c := get_append_head pre _ c
      rw [check_delimiter_loop, if_pos (by simp), if_neg (by rw [hg]; simp [hc])]
      have e1 : pre ++ c :: s1 = (pre ++ [c]) ++ s1 := by simp
      have e2 : pre.length + 1 = (pre ++ [c]).length := by simp
      rw [e1, e2, ih (pre ++ [c]) d m hcs]
      simp only [List.length_append, List.length_cons, List.length_nil, Nat.add_le_add_iff_right]
      split
      · rfl
      · simp only [Prod.mk.injEq, and_true, true_and]
        omega
theorem registry_open_loop_last {σ : Type} (n : Nat) (pre s1 : Bytes) (d : Int)
    (channel : channel_t σ) (hs1 : DELIMITER ∉ s1) :
    (registry_open_loop (pre ++ (HMAC_SCHEME ++ s1)).length (n + 1)
        (pre ++ (HMAC_SCHEME ++ s1)) pre.length d channel).1 = ERROR_OK ∧
    (registry_open_loop (pre ++ (HMAC_SCHEME ++ s1)).length (n + 1)
        (pre ++ (HMAC_SCHEME ++ s1)) pre.length d channel).2.1 = 0 := by
  have hpos : pre.length < (pre ++ (HMAC_SCHEME ++ s1)).length := by
    simp [HMAC_SCHEME]
  have hp : protocol_is HMAC_SCHEME (pre ++ (HMAC_SCHEME ++ s1)) pre.length = true := by
    unfold protocol_is
    rw [List.drop_left, List.take_left' (by rfl)]
    simp
  have hr : checkDelimiterAndSetToTerminator (pre ++ (HMAC_SCHEME ++ s1))
      (pre.length + 7) (pre ++ (HMAC_SCHEME ++ s1)).length 0
      = (pre ++ HMAC_SCHEME ++ s1, (pre ++ HMAC_SCHEME ++ s1).length, 0) := by
    unfold checkDelimiterAndSetToTerminator
    have e : pre ++ (HMAC_SCHEME ++ s1) = (pre ++ HMAC_SCHEME) ++ s1 := by simp
    have e2 : pre.length + 7 = (pre ++ HMAC_SCHEME).length := by simp [HMAC_SCHEME]
    rw [e, e2, check_delimiter_not_found s1 (pre ++ HMAC_SCHEME) 0 _ hs1]
    rw [if_pos (by simp; omega)]
  rw [registry_open_loop, if_pos hpos, if_pos hp]
  dsimp only
  rw [hr]
  dsimp only
  have hk : (registry_open_set_key (channel_hmac_new channel).2
      (pre ++ HMAC_SCHEME ++ s1) (pre.length + 7)
      (((pre ++ HMAC_SCHEME ++ s1).length : Nat) - ((pre.length + 7 : Nat) : Int) - 0)).1
      = ERROR_OK := by
    have e : (((pre ++ HMAC_SCHEME ++ s1).length : Nat) - ((pre.length + 7 : Nat) : Int) - 0)
        = (s1.length : Int) := by
      simp [HMAC_SCHEME]
      omega
    rw [e]
    unfold registry_open_set_key channel_hmac_new
    dsimp only
    by_cases h0 : (s1.length : Int) = 0
    · rw [if_pos h0]
      rfl
    · rw [if_neg h0]
      dsimp only
      unfold channel_hmac_set_key
      have h1 : (s1.length : Int).toNat ≠ 0 := by
        simp only [Int.toNat_ofNat]
        intro h2
        apply h0
        rw [h2]
        rfl
      rw [if_neg h1]
      split
      · rfl
      · split
        · rfl
        · rfl
  rw [if_neg (by rw [hk]; simp)]
  cases n with
  | zero =>
    rw [registry_open_loop]
    exact ⟨rfl, rfl⟩
  | succ m =>
    rw [registry_open_loop, if_neg (by simp)]
    exact ⟨rfl, rfl⟩
theorem registry_open_loop_accepts {σ : Type} : ∀ (keys : List Bytes) (k1 : Bytes) (n : Nat)
    (pre : Bytes) (d : Int) (channel : channel_t σ),
    (HMAC_SCHEME ++ k1 ++ keys.flatMap (fun key => DELIMITER :: (HMAC_SCHEME ++ key))).length ≤ n →
    DELIMITER ∉ k1 → (∀ k ∈ keys, DELIMITER ∉ k) →
    (registry_open_loop
        (pre ++ (HMAC_SCHEME ++ k1
          ++ keys.flatMap (fun key => DELIMITER :: (HMAC_SCHEME ++ key)))).length n
        (pre ++ (HMAC_SCHEME ++ k1 ++ keys.flatMap (fun key => DELIMITER :: (HMAC_SCHEME ++ key))))
        pre.length d channel).1 = ERROR_OK ∧
    (registry_open_loop
        (pre ++ (HMAC_SCHEME ++ k1
          ++ keys.flatMap (fun key => DELIMITER :: (HMAC_SCHEME ++ key)))).length n
        (pre ++ (HMAC_SCHEME ++ k1 ++ keys.flatMap (fun key => DELIMITER :: (HMAC_SCHEME ++ key))))
        pre.length d channel).2.1 = 0 := by
  intro keys
  induction keys with
  | nil =>
    intro k1 n pre d channel hn hk1 _
    obtain ⟨m, rfl⟩ : ∃ m, n = m + 1 := ⟨n - 1, by simp [HMAC_SCHEME] at hn; omega⟩
    rw [List.flatMap_nil, List.append_nil]
    exact registry_open_loop_last m pre k1 d channel hk1
  | cons k2 ks ih =>
    intro k1 n pre d channel hn hk1 hks
    obtain ⟨m, rfl⟩ : ∃ m, n = m + 1 := ⟨n - 1, by simp [HMAC_SCHEME] at hn; omega⟩
    have e : HMAC_SCHEME ++ k1 ++ (k2 :: ks).flatMap (fun key => DELIMITER :: (HMAC_SCHEME ++ key))
        = HMAC_SCHEME ++ k1 ++ DELIMITER ::
            (HMAC_SCHEME ++ k2 ++ ks.flatMap (fun key => DELIMITER :: (HMAC_SCHEME ++ key))) := by
      simp [List.flatMap_cons]
    rw [e] at hn ⊢
    obtain ⟨ch1, hstep⟩ := registry_open_loop_step m pre k1
      (HMAC_SCHEME ++ k2 ++ ks.flatMap (fun key => DELIMITER :: (HMAC_SCHEME ++ key))) d channel hk1
    rw [hstep]
    have hl : (HMAC_SCHEME ++ k2
        ++ ks.flatMap (fun key => DELIMITER :: (HMAC_SCHEME ++ key))).length ≤ m := by
      simp [HMAC_SCHEME] at hn ⊢
      omega
    exact ih k2 m (pre ++ HMAC_SCHEME ++ k1 ++ [0]) 1 ch1 hl (hks k2 (List.mem_cons_self _ _))
      (fun k hk => hks k (List.mem_cons_of_mem _ hk))
theorem cstr_of_no_zero (l : Bytes) (h : (0 : Byte) ∉ l) : cstr l = l := by
  unfold cstr
  rw [List.takeWhile_eq_self_iff]
  intro c hc
  have : c ≠ 0 := fun e => h (e ▸ hc)
  simpa using this

theorem identifier_of_no_zero (path : Bytes) (keys : List Bytes) (hz : (0 : Byte) ∉ path)
    (hk : ∀ k ∈ keys, DELIMITER ∉ k ∧ (0 : Byte) ∉ k) : (0 : Byte) ∉ identifier_of path keys := by
  unfold identifier_of
  intro h
  rcases List.mem_append.mp h with h1 | h1
  · rcases List.mem_append.mp h1 with h2 | h2
    · revert h2
      decide
    · exact hz h2
  · obtain ⟨k, hk1, hk2⟩ := List.mem_flatMap.mp h1
    rcases List.mem_cons.mp hk2 with h3 | h3
    · revert h3
      decide
    · rcases List.mem_append.mp h3 with h4 | h4
      · revert h4
        decide
      · exact (hk k hk1).2 h4

theorem registry_open_accepts {σ : Type} (S : Store σ) (path domain : Bytes)
    (keys : List Bytes) (db : σ) (hd : strlen domain ≠ 0) (hpath : path ≠ [])
    (hp : DELIMITER ∉ path) (hz : (0 : Byte) ∉ path)
    (hk : ∀ k ∈ keys, DELIMITER ∉ k ∧ (0 : Byte) ∉ k)
    (hopen : S.open_path path = (DbCode.OK, some db))
    (hlen : 15 ≤ (identifier_of path keys).length) :
    ∃ channel, registry_open S (some (identifier_of path keys)) (some domain)
      = (ERROR_OK, some ⟨some channel, some (cstr domain)⟩) := by
  have hc := cstr_of_no_zero _ (identifier_of_no_zero path keys hz hk)
  have hsize : strlen (identifier_of path keys) = (identifier_of path keys).length := by
    unfold strlen
    rw [hc]
  have hcp : cstr path = path := cstr_of_no_zero path hz
  unfold registry_open
  dsimp only
  rw [if_neg hd, hsize, hc, if_neg (by omega), if_neg (by omega)]
  have hpr : protocol_is FILE_SCHEME (identifier_of path keys) 0 = true := by
    unfold protocol_is identifier_of
    rw [List.drop_zero, List.append_assoc, List.take_left' (by rfl)]
    simp
  rw [if_pos hpr]
  cases keys with
  | nil =>
    have hid : identifier_of path [] = FILE_SCHEME ++ path := by
      simp [identifier_of]
    rw [hid] at hlen ⊢
    have hr : checkDelimiterAndSetToTerminator (FILE_SCHEME ++ path) 7 (FILE_SCHEME ++ path).length 0
        = (FILE_SCHEME ++ path, (FILE_SCHEME ++ path).length, 0) := by
      unfold checkDelimiterAndSetToTerminator
      have e7 : (7 : Nat) = FILE_SCHEME.length := rfl
      rw [e7, check_delimiter_not_found path FILE_SCHEME 0 _ hp, if_pos (by simp)]
    rw [hr]
    dsimp only
    have hch : channel_with_server_new S (List.drop 7 (FILE_SCHEME ++ path))
        = (ERROR_OK, some (channel_t.with_server ⟨none, ⟨db⟩⟩)) := by
      have e : List.drop 7 (FILE_SCHEME ++ path) = path := List.drop_left' rfl
      rw [e]
      unfold channel_with_server_new
      have hl : strlen path ≠ 0 := by
        unfold strlen
        rw [hcp]
        exact fun h => hpath (List.length_eq_zero.mp h)
      rw [if_neg hl, hcp, hopen]
    rw [hch]
    dsimp only
    rw [if_neg (by simp), if_neg (Nat.lt_irrefl _)]
    obtain ⟨m, hm⟩ : ∃ m, (FILE_SCHEME ++ path).length = m + 1 :=
      ⟨(FILE_SCHEME ++ path).length - 1, by omega⟩
    have hloop : registry_open_loop (FILE_SCHEME ++ path).length (FILE_SCHEME ++ path).length
        (FILE_SCHEME ++ path) (FILE_SCHEME ++ path).length 0
        (channel_t.with_server ⟨none, ⟨db⟩⟩ : channel_t σ)
        = (ERROR_OK, 0, channel_t.with_server ⟨none, ⟨db⟩⟩) := by
      generalize (FILE_SCHEME ++ path).length = n at hm
      subst hm
      rw [registry_open_loop, if_neg (Nat.lt_irrefl _)]
    rw [hloop]
    dsimp only
    rw [if_neg (by simp), if_neg (by decide)]
    simp only [Nat.lt_irrefl, decide_False, Bool.false_eq_true, if_false]
    exact ⟨_, rfl⟩
  | cons k1 ks =>
    have hid : identifier_of path (k1 :: ks) = FILE_SCHEME ++ path ++ DELIMITER ::
        (HMAC_SCHEME ++ k1 ++ ks.flatMap (fun key => DELIMITER :: (HMAC_SCHEME ++ key))) := by
      simp [identifier_of, List.flatMap_cons]
    rw [hid] at hlen ⊢
    generalize hrest : HMAC_SCHEME ++ k1
      ++ ks.flatMap (fun key => DELIMITER :: (HMAC_SCHEME ++ key)) = rest at hlen ⊢
    have hr : checkDelimiterAndSetToTerminator (FILE_SCHEME ++ path ++ DELIMITER :: rest) 7
        (FILE_SCHEME ++ path ++ DELIMITER :: rest).length 0
        = (FILE_SCHEME ++ path ++ 0 :: rest, (FILE_SCHEME ++ path).length + 1, 1) := by
      unfold checkDelimiterAndSetToTerminator
      have e7 : (7 : Nat) = FILE_SCHEME.length := rfl
      rw [e7]
      exact check_delimiter_found path FILE_SCHEME rest 0 _ hp (by simp)
    rw [hr]
    dsimp only
    have hch : channel_with_server_new S (List.drop 7 (FILE_SCHEME ++ path ++ 0 :: rest))
        = (ERROR_OK, some (channel_t.with_server ⟨none, ⟨db⟩⟩)) := by
      have e : List.drop 7 (FILE_SCHEME ++ path ++ 0 :: rest) = path ++ 0 :: rest := by
        rw [List.append_assoc]
        exact List.drop_left' rfl
      rw [e]
      unfold channel_with_server_new
      have hl : strlen (path ++ 0 :: rest) ≠ 0 := by
        unfold strlen
        rw [cstr_append_zero path rest hz]
        exact fun h => hpath (List.length_eq_zero.mp h)
      rw [if_neg hl, cstr_append_zero path rest hz, hopen]
    rw [hch]
    dsimp only
    have hlt : (FILE_SCHEME ++ path).length + 1 < (FILE_SCHEME ++ path ++ DELIMITER :: rest).length := by
      have h7 : 7 ≤ rest.length := by
        rw [← hrest]
        have : HMAC_SCHEME.length = 7 := rfl
        simp only [List.length_append]
        omega
      simp only [List.length_append, List.length_cons]
      omega
    rw [if_neg (by simp), if_pos hlt]
    have e1 : FILE_SCHEME ++ path ++ 0 :: rest = (FILE_SCHEME ++ path ++ [0]) ++ rest := by
      simp
    have e2 : (FILE_SCHEME ++ path).length + 1 = (FILE_SCHEME ++ path ++ [0]).length := by
      simp only [List.length_append, List.length_cons, List.length_nil]
    have e3 : (FILE_SCHEME ++ path ++ DELIMITER :: rest).length
        = ((FILE_SCHEME ++ path ++ [0]) ++ rest).length := by
      simp only [List.length_append, List.length_cons, List.length_nil]
      omega
    have hl : rest.length ≤ ((FILE_SCHEME ++ path ++ [0]) ++ rest).length := by
      simp only [List.length_append, List.length_cons, List.length_nil]
      omega
    have hacc := registry_open_loop_accepts ks k1 ((FILE_SCHEME ++ path ++ [0]) ++ rest).length
      (FILE_SCHEME ++ path ++ [0]) 1
      (channel_endpoint_connector_new (channel_t.with_server ⟨none, ⟨db⟩⟩ : channel_t σ)).2
      (by rw [hrest]; exact hl) (hk k1 (List.mem_cons_self _ _)).1
      (fun k hk1 => (hk k (List.mem_cons_of_mem _ hk1)).1)
    rw [hrest] at hacc
    rw [e1, e2, e3]
    generalize registry_open_loop ((FILE_SCHEME ++ path ++ [0]) ++ rest).length
      ((FILE_SCHEME ++ path ++ [0]) ++ rest).length ((FILE_SCHEME ++ path ++ [0]) ++ rest)
      (FILE_SCHEME ++ path ++ [0]).length 1
      (channel_endpoint_connector_new (channel_t.with_server ⟨none, ⟨db⟩⟩ : channel_t σ)).2
      = l at hacc ⊢
    rw [if_neg (by rw [hacc.1]; simp), if_neg (by rw [hacc.2]; decide)]
    exact ⟨_, rfl⟩

/-- C11 does not hold for short identifiers.  For an identifier `file://PATH`
followed by `|hmac://KEY` segments, with a non-empty path without `|` that the
storage backend opens and keys without `|` (and a non-empty domain),
`registry_open` returns `ERROR_REGISTRY_UNKNOWN_IDENTIFIER` and a NULL handle
when the identifier has fewer than 15 characters, and `ERROR_OK` with a handle
that holds a channel and the domain when it has 15 characters or more. -/
theorem registry_open_identifier_length {σ : Type} (S : Store σ) (path domain : Bytes)
    (keys : List Bytes) (db : σ) (hd : strlen domain ≠ 0) (hpath : path ≠ [])
    (hp : DELIMITER ∉ path) (hz : (0 : Byte) ∉ path)
    (hk : ∀ k ∈ keys, DELIMITER ∉ k ∧ (0 : Byte) ∉ k)
    (hopen : S.open_path path = (DbCode.OK, some db)) :
    ((identifier_of path keys).length < 15 →
      registry_open S (some (identifier_of path keys)) (some domain)
        = (ERROR_REGISTRY_UNKNOWN_IDENTIFIER, none)) ∧
    (15 ≤ (identifier_of path keys).length →
      ∃ channel, registry_open S (some (identifier_of path keys)) (some domain)
        = (ERROR_OK, some ⟨some channel, some (cstr domain)⟩)) := by
  constructor
  · intro hlen
    have hc := cstr_of_no_zero _ (identifier_of_no_zero path keys hz hk)
    have hsize : strlen (identifier_of path keys) = (identifier_of path keys).length := by
      unfold strlen
      rw [hc]
    unfold registry_open
    dsimp only
    rw [if_neg hd, hsize]
    rw [if_pos hlen]
    split
    · rfl
    · rfl
  · exact registry_open_accepts S path domain keys db hd hpath hp hz hk hopen

set_option maxRecDepth 100000 in
/-- Witness of C11: the identifier `file://a.db` (11 characters) is rejected
although the backend opens `a.db`; `file://mydb.sqlite|hmac://key` is accepted. -/
theorem registry_open_identifier_length_witness :
    (identifier_of (ascii "a.db") [] = ascii "file://a.db" ∧
      (constant_store DbCode.OK).open_path (ascii "a.db") = (DbCode.OK, some 0) ∧
      registry_open (constant_store DbCode.OK) (some (ascii "file://a.db")) (some (ascii "domain"))
        = (ERROR_REGISTRY_UNKNOWN_IDENTIFIER, none)) ∧
    (identifier_of (ascii "mydb.sqlite") [ascii "key"] = ascii "file://mydb.sqlite|hmac://key" ∧
      ∃ channel, registry_open (constant_store DbCode.OK)
          (some (ascii "file://mydb.sqlite|hmac://key")) (some (ascii "domain"))
        = (ERROR_OK, some ⟨some channel, some (cstr (ascii "domain"))⟩)) :=
  ⟨⟨by decide, rfl,
      (registry_open_identifier_length (constant_store DbCode.OK) (ascii "a.db") (ascii "domain")
        [] 0 (by decide) (by decide) (by decide) (by decide) (by decide) rfl).1 (by decide)⟩,
    ⟨by decide,
      (registry_open_identifier_length (constant_store DbCode.OK) (ascii "mydb.sqlite")
        (ascii "domain") [ascii "key"] 0 (by decide) (by decide) (by decide) (by decide)
        (by decide) rfl).2 (by decide)⟩⟩

/-! ## C12: the frame of a string and of a blob -/


theorem byte_of_htobe64 (v i : Nat) (hi : i < 8) :
    byte_of (htobe64 v / 256 ^ i) = byte_of (v / 256 ^ (7 - i)) := by
  unfold byte_of
  apply Fin.ext
  show htobe64 v / 256 ^ i % 256 = v / 256 ^ (7 - i) % 256
  have h256 : (256 : Nat) = 2 ^ 8 := by norm_num
  rw [h256, ← pow_mul, ← pow_mul, ← Nat.shiftRight_eq_div_pow, ← Nat.shiftRight_eq_div_pow]
  apply Nat.eq_of_testBit_eq
  intro j
  rw [Nat.testBit_mod_two_pow, Nat.testBit_mod_two_pow, Nat.testBit_shiftRight,
    Nat.testBit_shiftRight, htobe64_testBit]
  by_cases hj : j < 8
  · have e1 : 8 * i + j < 64 := by omega
    have e2 : 8 * i + j + 56 - 16 * ((8 * i + j) / 8) = 8 * (7 - i) + j := by omega
    simp [hj, e1, e2]
  · simp [hj]

theorem enc_l_be64 (n : Nat) (h : n < 2 ^ 64) : enc_l false (to_int64 n) = be64 n := by
  unfold enc_l be64 bytes_of_word
  rw [to_uint64_to_int64 n h]
  simp only [Bool.false_eq_true, if_false]
  apply List.map_congr_left
  intro i hi
  exact byte_of_htobe64 n i (List.mem_range.mp hi)

theorem enc_l_le64 (n : Nat) (h : n < 2 ^ 64) : enc_l true (to_int64 n) = le64 n := by
  unfold enc_l le64 bytes_of_word
  rw [to_uint64_to_int64 n h]
  rfl

theorem bpack_v_s_one (le : Bool) (s buf : Bytes) :
    bpack_v ['s'] le ⟨buf, buf.length⟩ [Arg.s (some s)]
      = some (ERROR_OK, ⟨buf ++ enc_s le s, (buf ++ enc_s le s).length⟩) := by
  simp only [bpack_v, Char.reduceEq, if_false, if_true, bpack_s_append, ne_eq,
    not_true_eq_false]

theorem bpack_v_b_one (le : Bool) (b buf : Bytes) :
    bpack_v ['b'] le ⟨buf, buf.length⟩ [Arg.b (some b)]
      = some (ERROR_OK, ⟨buf ++ enc_b le b, (buf ++ enc_b le b).length⟩) := by
  simp only [bpack_v, Char.reduceEq, if_false, if_true, bpack_b_append, ne_eq,
    not_true_eq_false]

/-- C12: for a string `s` without a NUL and a blob `b` (their lengths fit
`size_t`), `bpack` with the format `s` (respectively `b`) appends exactly
`8 + len` bytes to the buffer: the length as an unsigned 64-bit little-endian
integer, then the `len` content bytes in order and no terminating NUL; with the
formats `>s` and `>b` the length is written big-endian. -/
theorem bpack_string_blob_frame (s b buf : Bytes) (hs : is_c_string s) (hb : is_blob b) :
    (bpack ⟨buf, buf.length⟩ "s" [Arg.s (some s)]
        = some (ERROR_OK, ⟨buf ++ (le64 s.length ++ s), buf.length + (8 + s.length)⟩) ∧
      bpack ⟨buf, buf.length⟩ "b" [Arg.b (some b)]
        = some (ERROR_OK, ⟨buf ++ (le64 b.length ++ b), buf.length + (8 + b.length)⟩)) ∧
    (bpack ⟨buf, buf.length⟩ ">s" [Arg.s (some s)]
        = some (ERROR_OK, ⟨buf ++ (be64 s.length ++ s), buf.length + (8 + s.length)⟩) ∧
      bpack ⟨buf, buf.length⟩ ">b" [Arg.b (some b)]
        = some (ERROR_OK, ⟨buf ++ (be64 b.length ++ b), buf.length + (8 + b.length)⟩)) := by
  have hsl : s.length < 2 ^ 64 := by
    have := hs.2
    unfold SIZE_MAX at this
    omega
  have hbl : b.length < 2 ^ 64 := by
    unfold is_blob SIZE_MAX at hb
    omega
  have es : ∀ le, enc_s le s = enc_l le (to_int64 s.length) ++ s := by
    intro le
    unfold enc_s enc_b
    rw [cstr_of_c_string s hs]
  have e1 : ∀ le (x : Bytes), (buf ++ (enc_l le (to_int64 x.length) ++ x)).length
      = buf.length + (8 + x.length) := by
    intro le x
    simp only [List.length_append, enc_l_length]
  refine ⟨⟨?_, ?_⟩, ?_, ?_⟩
  · show bpack_v ['s'] true ⟨buf, buf.length⟩ [Arg.s (some s)] = _
    rw [bpack_v_s_one, es, e1, enc_l_le64 _ hsl]
  · show bpack_v ['b'] true ⟨buf, buf.length⟩ [Arg.b (some b)] = _
    rw [bpack_v_b_one]
    unfold enc_b
    rw [e1, enc_l_le64 _ hbl]
  · show bpack_v ('>' :: ['s']) true ⟨buf, buf.length⟩ [Arg.s (some s)] = _
    rw [bpack_v]
    simp only [Char.reduceEq, if_false, if_true]
    rw [bpack_v_s_one, es, e1, enc_l_be64 _ hsl]
  · show bpack_v ('>' :: ['b']) true ⟨buf, buf.length⟩ [Arg.b (some b)] = _
    rw [bpack_v]
    simp only [Char.reduceEq, if_false, if_true]
    rw [bpack_v_b_one]
    unfold enc_b
    rw [e1, enc_l_be64 _ hbl]

set_option maxRecDepth 100000 in
/-- Witness of C12: the string `ab` and the blob `01 00 02` appended to an
empty buffer. -/
theorem bpack_string_blob_frame_witness :
    (bpack ⟨[], 0⟩ "s" [Arg.s (some [97, 98])]
        = some (ERROR_OK, ⟨[2, 0, 0, 0, 0, 0, 0, 0, 97, 98], 10⟩) ∧
      bpack ⟨[], 0⟩ "b" [Arg.b (some [1, 0, 2])]
        = some (ERROR_OK, ⟨[3, 0, 0, 0, 0, 0, 0, 0, 1, 0, 2], 11⟩)) ∧
    (bpack ⟨[], 0⟩ ">s" [Arg.s (some [97, 98])]
        = some (ERROR_OK, ⟨[0, 0, 0, 0, 0, 0, 0, 2, 97, 98], 10⟩) ∧
      bpack ⟨[], 0⟩ ">b" [Arg.b (some [1, 0, 2])]
        = some (ERROR_OK, ⟨[0, 0, 0, 0, 0, 0, 0, 3, 1, 0, 2], 11⟩)) :=
  bpack_string_blob_frame [97, 98] [1, 0, 2] [] (by decide) (by decide)

/-! ## C13: doubles that are NaN, infinite or zero -/


theorem read_byte_at (pre post : Bytes) (b : Byte) :
    data_store_read_byte ⟨pre ++ b :: post, pre.length⟩
      = (ERROR_OK, some b, ⟨pre ++ b :: post, pre.length + 1⟩) := by
  unfold data_store_read_byte simple_memory_buffer_read simple_memory_buffer_t.size
  dsimp only
  rw [if_neg (by simp), get_append_head]

/-- The doubles that are infinite or zero. -/
theorem special_double_cases (x : Nat) (hx : x < 2 ^ 64)
    (hc : isinf x = true ∨ fabs x = 0) :
    x = 0x7ff0000000000000 ∨ x = 0xfff0000000000000 ∨ x = 0 ∨ x = 0x8000000000000000 := by
  unfold isinf fabs dbl_exp dbl_frac at hc
  simp only [Bool.and_eq_true, decide_eq_true_eq] at hc
  norm_num at hc hx
  omega

theorem bunpack_d_special (le : Bool) (pre post : Bytes) :
    bunpack_d le ⟨pre ++ (0x02 : Byte) :: post, pre.length⟩
        = (ERROR_OK, NAN, ⟨pre ++ (0x02 : Byte) :: post, pre.length + 1⟩) ∧
    bunpack_d le ⟨pre ++ (0x04 : Byte) :: post, pre.length⟩
        = (ERROR_OK, 0x7ff0000000000000, ⟨pre ++ (0x04 : Byte) :: post, pre.length + 1⟩) ∧
    bunpack_d le ⟨pre ++ (0x05 : Byte) :: post, pre.length⟩
        = (ERROR_OK, 0xfff0000000000000, ⟨pre ++ (0x05 : Byte) :: post, pre.length + 1⟩) ∧
    bunpack_d le ⟨pre ++ (0x08 : Byte) :: post, pre.length⟩
        = (ERROR_OK, 0, ⟨pre ++ (0x08 : Byte) :: post, pre.length + 1⟩) ∧
    bunpack_d le ⟨pre ++ (0x09 : Byte) :: post, pre.length⟩
        = (ERROR_OK, 0x8000000000000000, ⟨pre ++ (0x09 : Byte) :: post, pre.length + 1⟩) := by
  unfold bunpack_d
  simp only [read_byte_at]
  refine ⟨?_, ?_, ?_, ?_, ?_⟩ <;> rfl

theorem bpack_v_d_one (le : Bool) (x : Nat) (buf : Bytes) :
    bpack_v ['d'] le ⟨buf, buf.length⟩ [Arg.d x]
      = some (ERROR_OK, ⟨buf ++ enc_d le x, (buf ++ enc_d le x).length⟩) := by
  simp only [bpack_v, Char.reduceEq, if_false, if_true, bpack_d_append, ne_eq,
    not_true_eq_false]

theorem enc_d_nan (le : Bool) (x : Nat) (hn : isnan x = true) : enc_d le x = [0x02] := by
  unfold enc_d bpack_d_sign
  rw [if_pos hn]
  rfl

/-- C13: for a double `x` that is a NaN (with either sign bit), +infinity,
-infinity, +0.0 or -0.0, `bpack` with the format `d` appends exactly one byte
to the buffer, `0x02` for a NaN, `0x04` for +infinity, `0x05` for -infinity,
`0x08` for +0.0 and `0x09` for -0.0; `bunpack` with the format `d` reads that
one byte and returns a NaN with the sign bit clear for a NaN, and `x` itself
otherwise. -/
theorem bpack_bunpack_special_double (x : Nat) (hx : x < 2 ^ 64)
    (hc : isnan x = true ∨ isinf x = true ∨ fabs x = 0) (buf pre post : Bytes) (old : Nat) :
    bpack ⟨buf, buf.length⟩ "d" [Arg.d x]
      = some (ERROR_OK, ⟨buf ++ [special_double_byte x], buf.length + 1⟩) ∧
    ∃ y, bunpack ⟨pre ++ special_double_byte x :: post, pre.length⟩ "d" [Out.d (some old)]
        = some (ERROR_OK, ⟨pre ++ special_double_byte x :: post, pre.length + 1⟩,
            [Out.d (some y)]) ∧
      (isnan x = true → isnan y = true ∧ signbit y = false) ∧ (isnan x = false → y = x) := by
  have hb : bpack ⟨buf, buf.length⟩ "d" [Arg.d x]
      = some (ERROR_OK, ⟨buf ++ enc_d true x, (buf ++ enc_d true x).length⟩) :=
    bpack_v_d_one true x buf
  have hs := bunpack_d_special true pre post
  by_cases hn : isnan x = true
  · have hbyte : special_double_byte x = 0x02 := by
      unfold special_double_byte
      rw [if_pos hn]
    rw [hbyte, hb, enc_d_nan true x hn]
    refine ⟨by simp, NAN, bunpack_at_d _ _ _ _ hs.1, fun _ => by decide, fun h => ?_⟩
    rw [hn] at h
    cases h
  · have hn1 : isnan x = false := by simpa using hn
    have hc1 : isinf x = true ∨ fabs x = 0 := by
      rcases hc with h | h
      · exact absurd h hn
      · exact h
    rw [hb]
    rcases special_double_cases x hx hc1 with h | h | h | h
    · subst h
      have e : enc_d true 0x7ff0000000000000 = [0x04] := by decide
      have hbyte : special_double_byte 0x7ff0000000000000 = 0x04 := by decide
      rw [e, hbyte]
      exact ⟨by simp, _, bunpack_at_d _ _ _ _ hs.2.1, fun h => absurd h (by decide),
        fun _ => rfl⟩
    · subst h
      have e : enc_d true 0xfff0000000000000 = [0x05] := by decide
      have hbyte : special_double_byte 0xfff0000000000000 = 0x05 := by decide
      rw [e, hbyte]
      exact ⟨by simp, _, bunpack_at_d _ _ _ _ hs.2.2.1, fun h => absurd h (by decide),
        fun _ => rfl⟩
    · subst h
      have e : enc_d true 0 = [0x08] := by decide
      have hbyte : special_double_byte 0 = 0x08 := by decide
      rw [e, hbyte]
      exact ⟨by simp, _, bunpack_at_d _ _ _ _ hs.2.2.2.1, fun h => absurd h (by decide),
        fun _ => rfl⟩
    · subst h
      have e : enc_d true 0x8000000000000000 = [0x09] := by decide
      have hbyte : special_double_byte 0x8000000000000000 = 0x09 := by decide
      rw [e, hbyte]
      exact ⟨by simp, _, bunpack_at_d _ _ _ _ hs.2.2.2.2, fun h => absurd h (by decide),
        fun _ => rfl⟩

/-- Witness of C13: a NaN with the sign bit set is packed as the byte `0x02`
and comes back as a NaN with the sign bit clear. -/
theorem bpack_bunpack_special_double_witness :
    isnan 0xfff8000000000001 = true ∧
    bpack ⟨[], 0⟩ "d" [Arg.d 0xfff8000000000001] = some (ERROR_OK, ⟨[0x02], 1⟩) ∧
    ∃ y, bunpack ⟨[0x02], 0⟩ "d" [Out.d (some 0)] = some (ERROR_OK, ⟨[0x02], 1⟩, [Out.d (some y)]) ∧
      (isnan 0xfff8000000000001 = true → isnan y = true ∧ signbit y = false) ∧
      (isnan 0xfff8000000000001 = false → y = 0xfff8000000000001) :=
  ⟨by decide,
    bpack_bunpack_special_double 0xfff8000000000001 (by decide) (Or.inl (by decide)) [] [] [] 0⟩

/-! ## C14: finite doubles that are not zero -/

/-- Bit `i` of the byte-swapped 16-bit word. -/
theorem htobe16_testBit (v i : Nat) :
    (htobe16 v).testBit i = (decide (i < 16) && v.testBit (i + 8 - 16 * (i / 8))) := by
  have m0 : (0x00FF : Nat) = byte_mask 0 := by decide
  have m1 : (0xFF00 : Nat) = byte_mask 8 := by decide
  unfold htobe16
  rw [m0, m1]
  simp only [Nat.testBit_or, Nat.testBit_and, Nat.testBit_shiftLeft, Nat.testBit_shiftRight,
    testBit_byte_mask]
  by_cases h : i < 16
  · have hlo : 8 * (i / 8) ≤ i := by omega
    have hhi : i < 8 * (i / 8) + 8 := by omega
    rcases (show i / 8 = 0 ∨ i / 8 = 1 by omega) with hq | hq
    all_goals
      rw [hq] at hlo hhi
      simp only [hq, h, decide_True, Bool.true_and]
      simp (disch := omega) only [decide_eq_true, decide_eq_false, Bool.true_and, Bool.false_and,
        Bool.or_false, Bool.false_or, Bool.and_true, Bool.and_false, ge_iff_le]
      first | rfl | (apply congrArg; omega)
  · simp (disch := omega) only [decide_eq_true, decide_eq_false, Bool.true_and, Bool.false_and,
        Bool.or_false, Bool.false_or, Bool.and_true, Bool.and_false, ge_iff_le, h]
    simp

theorem htobe16_lt (v : Nat) : htobe16 v < 2 ^ 16 := by
  apply Nat.lt_pow_two_of_testBit
  intro i hi
  rw [htobe16_testBit]
  simp; omega

theorem htobe16_htobe16 (v : Nat) (h : v < 2 ^ 16) : htobe16 (htobe16 v) = v := by
  apply Nat.eq_of_testBit_eq
  intro i
  rw [htobe16_testBit, htobe16_testBit]
  by_cases hi : i < 16
  · have e : i + 8 - 16 * (i / 8) + 8 - 16 * ((i + 8 - 16 * (i / 8)) / 8) = i := by omega
    have e2 : i + 8 - 16 * (i / 8) < 16 := by omega
    simp [hi, e, e2]
  · have : v.testBit i = false := by
      apply Nat.testBit_lt_two_pow
      exact lt_of_lt_of_le h (Nat.pow_le_pow_right (by decide) (by omega))
    simp [hi, this]

theorem byte_of_htobe16 (v i : Nat) (hi : i < 2) :
    byte_of (htobe16 v / 256 ^ i) = byte_of (v / 256 ^ (1 - i)) := by
  unfold byte_of
  apply Fin.ext
  show htobe16 v / 256 ^ i % 256 = v / 256 ^ (1 - i) % 256
  have h256 : (256 : Nat) = 2 ^ 8 := by norm_num
  rw [h256, ← pow_mul, ← pow_mul, ← Nat.shiftRight_eq_div_pow, ← Nat.shiftRight_eq_div_pow]
  apply Nat.eq_of_testBit_eq
  intro j
  rw [Nat.testBit_mod_two_pow, Nat.testBit_mod_two_pow, Nat.testBit_shiftRight,
    Nat.testBit_shiftRight, htobe16_testBit]
  by_cases hj : j < 8
  · have e1 : 8 * i + j < 16 := by omega
    have e2 : 8 * i + j + 8 - 16 * ((8 * i + j) / 8) = 8 * (1 - i) + j := by omega
    simp [hj, e1, e2]
  · simp [hj]

theorem to_uint16_lt (v : Int) : to_uint16 v < 2 ^ 16 := by
  unfold to_uint16
  have h1 : 0 ≤ v % 2 ^ 16 := Int.emod_nonneg _ (by norm_num)
  have h2 : v % 2 ^ 16 < 2 ^ 16 := Int.emod_lt_of_pos _ (by norm_num)
  omega

theorem to_int16_to_uint16 (v : Int) (h1 : -2 ^ 15 ≤ v) (h2 : v < 2 ^ 15) :
    to_int16 (to_uint16 v) = v := by
  unfold to_int16 to_uint16
  have h3 : 0 ≤ v % 2 ^ 16 := Int.emod_nonneg _ (by norm_num)
  have h4 : v % 2 ^ 16 < 2 ^ 16 := Int.emod_lt_of_pos _ (by norm_num)
  split <;> omega

theorem size_of_range (n k : Nat) (h1 : 2 ^ k ≤ n) (h2 : n < 2 ^ (k + 1)) :
    Nat.size n = k + 1 := by
  have a : Nat.size n ≤ k + 1 := Nat.size_le.mpr h2
  have b : k < Nat.size n := Nat.lt_size.mpr h1
  omega

/-- The fields of a normalized fraction `0x3fe0000000000000 + f`. -/
theorem normalized_fields (f : Nat) (hf : f < 2 ^ 52) :
    dbl_exp (0x3fe0000000000000 + f) = 1022 ∧ dbl_frac (0x3fe0000000000000 + f) = f ∧
      (0x3fe0000000000000 + f) % 2 ^ 63 ≠ 0 := by
  unfold dbl_exp dbl_frac
  norm_num at hf ⊢
  omega

/-- The function `ldexp` on a normalized fraction with an exponent in the range
of the normal doubles. -/
theorem ldexp_normal (f : Nat) (hf : f < 2 ^ 52) (e : Int) (h1 : -1021 ≤ e) (h2 : e ≤ 1024) :
    ldexp (0x3fe0000000000000 + f) e = ((e + 1022).toNat * 2 ^ 52 + f, false) := by
  obtain ⟨he, hfr, hnz⟩ := normalized_fields f hf
  unfold ldexp
  have hcond : ¬ ((1022 : Nat) = 2047 ∨ (0x3fe0000000000000 + f) % 2 ^ 63 = 0) := by
    rintro (h | h)
    · omega
    · exact hnz h
  rw [he, hfr, if_neg hcond]
  have hs : Nat.size (2 ^ 52 + f) = 53 := size_of_range _ 52 (by omega) (by omega)
  simp only [show ¬ (1022 : Nat) = 0 by decide, if_false, hs]
  rw [if_neg (by push_cast; omega), if_pos (by push_cast; omega)]
  have e1 : ((53 : Nat) : Int) - 1 + ((1022 : Nat) - 1075 + e) + 1023 = e + 1022 := by
    push_cast
    omega
  rw [e1]
  simp

/-- The function `ldexp` on the normalized fraction of a subnormal double with
the fraction field `g`. -/
theorem ldexp_subnormal (g : Nat) (hg0 : g ≠ 0) (hg : g < 2 ^ 52) :
    g * 2 ^ (53 - Nat.size g) % 2 ^ 52 < 2 ^ 52 ∧
    ldexp (0x3fe0000000000000 + g * 2 ^ (53 - Nat.size g) % 2 ^ 52) ((Nat.size g : Int) - 1074)
      = (g, false) := by
  have hs1 : 0 < Nat.size g := Nat.size_pos.mpr (Nat.pos_of_ne_zero hg0)
  have hs2 : Nat.size g ≤ 52 := Nat.size_le.mpr hg
  obtain ⟨k, hk⟩ : ∃ k, 53 - Nat.size g = k := ⟨_, rfl⟩
  have hk1 : 1 ≤ k := by omega
  have hks : Nat.size g + k = 53 := by omega
  have hlo : 2 ^ 52 ≤ g * 2 ^ k := by
    have h1 : 2 ^ (Nat.size g - 1) ≤ g := by
      have := Nat.lt_size.mp (show Nat.size g - 1 < Nat.size g by omega)
      exact this
    calc 2 ^ 52 = 2 ^ (Nat.size g - 1) * 2 ^ k := by
          rw [← pow_add]
          congr 1
          omega
      _ ≤ g * 2 ^ k := Nat.mul_le_mul_right _ h1
  have hhi : g * 2 ^ k < 2 ^ 53 := by
    have h1 : g < 2 ^ Nat.size g := Nat.lt_size_self g
    calc g * 2 ^ k < 2 ^ Nat.size g * 2 ^ k := Nat.mul_lt_mul_of_pos_right h1 (by positivity)
      _ = 2 ^ 53 := by rw [← pow_add, hks]
  rw [hk]
  have hmod : g * 2 ^ k % 2 ^ 52 = g * 2 ^ k - 2 ^ 52 := by
    norm_num at hlo hhi ⊢
    omega
  have hf : g * 2 ^ k % 2 ^ 52 < 2 ^ 52 := Nat.mod_lt _ (by positivity)
  refine ⟨hf, ?_⟩
  obtain ⟨he, hfr, hnz⟩ := normalized_fields _ hf
  unfold ldexp
  have hcond : ¬ ((1022 : Nat) = 2047 ∨
      (0x3fe0000000000000 + g * 2 ^ k % 2 ^ 52) % 2 ^ 63 = 0) := by
    rintro (h | h)
    · omega
    · exact hnz h
  rw [he, hfr, if_neg hcond]
  have hsig : 2 ^ 52 + g * 2 ^ k % 2 ^ 52 = g * 2 ^ k := by
    rw [hmod]
    omega
  have hs : Nat.size (g * 2 ^ k) = 53 := size_of_range _ 52 hlo hhi
  simp only [show ¬ (1022 : Nat) = 0 by decide, if_false, hsig, hs]
  rw [if_neg (by push_cast; omega), if_neg (by push_cast; omega), if_neg (by push_cast; omega)]
  have e1 : (-(((1022 : Nat) : Int) - 1075 + ((Nat.size g : Int) - 1074) + 1074)).toNat = k := by
    push_cast
    omega
  rw [e1]
  unfold round_half_even
  have hm : g * 2 ^ k % 2 ^ k = 0 := Nat.mul_mod_left _ _
  have hp : 0 < 2 ^ (k - 1) := by positivity
  rw [if_neg (by omega), hm, if_neg (by omega), Nat.mul_div_cancel _ (by positivity)]
  simp [hg0]

/-- The decomposition of a positive finite double by `frexp` is a fraction in
`[0.5, 1)` and an exponent from which `ldexp` gives the double back. -/
theorem ldexp_frexp (a : Nat) (ha : a < 2 ^ 63) (hfin : dbl_exp a ≠ 2047) (hnz : a ≠ 0) :
    ∃ f, f < 2 ^ 52 ∧ (frexp a).1 = 0x3fe0000000000000 + f ∧
      -1073 ≤ (frexp a).2 ∧ (frexp a).2 ≤ 1024 ∧
      ldexp (0x3fe0000000000000 + f) (frexp a).2 = (a, false) := by
  have hmod : a % 2 ^ 63 = a := Nat.mod_eq_of_lt ha
  have hcond : ¬ (dbl_exp a = 2047 ∨ a % 2 ^ 63 = 0) := by
    rw [hmod]
    rintro (h | h)
    · exact hfin h
    · exact hnz h
  have hexp : dbl_exp a = a / 2 ^ 52 := by
    unfold dbl_exp
    norm_num at ha ⊢
    omega
  have hsplit : a = dbl_exp a * 2 ^ 52 + dbl_frac a := by
    rw [hexp]
    unfold dbl_frac
    norm_num
    omega
  have hfr : dbl_frac a < 2 ^ 52 := Nat.mod_lt _ (by positivity)
  unfold frexp
  rw [if_neg hcond]
  by_cases h0 : dbl_exp a = 0
  · rw [if_pos h0]
    have ha0 : a = dbl_frac a := by
      rw [h0] at hsplit
      omega
    have hg0 : dbl_frac a ≠ 0 := by
      rw [← ha0]
      exact hnz
    obtain ⟨h1, h2⟩ := ldexp_subnormal (dbl_frac a) hg0 hfr
    have hs1 : 0 < Nat.size (dbl_frac a) := Nat.size_pos.mpr (Nat.pos_of_ne_zero hg0)
    have hs2 : Nat.size (dbl_frac a) ≤ 52 := Nat.size_le.mpr hfr
    refine ⟨_, h1, rfl, ?_, ?_, ?_⟩
    · dsimp only
      omega
    · dsimp only
      omega
    · dsimp only
      rw [h2, ← ha0]
  · rw [if_neg h0]
    have hlt : dbl_exp a < 2048 := by
      unfold dbl_exp
      omega
    refine ⟨dbl_frac a, hfr, rfl, ?_, ?_, ?_⟩
    · dsimp only
      omega
    · dsimp only
      omega
    · dsimp only
      rw [ldexp_normal _ hfr _ (by omega) (by omega)]
      have e1 : ((dbl_exp a : Int) - 1022 + 1022).toNat = dbl_exp a := by
        simp
      rw [e1, ← hsplit]

theorem word_of_exp_bytes (le : Bool) (e : Int) (h1 : -2 ^ 15 ≤ e) (h2 : e < 2 ^ 15) :
    to_int16 (if le then
        le16toh (word_of_bytes (bytes_of_word 2
          (if le then htole16 (to_uint16 e) else htobe16 (to_uint16 e))))
      else
        be16toh (word_of_bytes (bytes_of_word 2
          (if le then htole16 (to_uint16 e) else htobe16 (to_uint16 e))))) = e := by
  rw [word_of_bytes_of_word]
  have h256 : (256 : Nat) ^ 2 = 2 ^ 16 := by norm_num
  rw [h256]
  cases le with
  | true =>
    simp only [if_true, htole16, le16toh]
    rw [Nat.mod_eq_of_lt (to_uint16_lt e), to_int16_to_uint16 e h1 h2]
  | false =>
    simp only [Bool.false_eq_true, if_false, be16toh]
    rw [Nat.mod_eq_of_lt (htobe16_lt _), htobe16_htobe16 _ (to_uint16_lt e),
      to_int16_to_uint16 e h1 h2]

theorem fraction_word (f : Nat) (hf : f < 2 ^ 52) :
    to_uint64 (to_int64 (to_uint64 (to_int64 f))) &&& 0xfff0000000000000 = 0 ∧
    to_uint64 (to_int64 (to_uint64 (to_int64 f))) ||| 0x3fe0000000000000
      = 0x3fe0000000000000 + f := by
  have hf64 : f < 2 ^ 64 := lt_of_lt_of_le hf (Nat.pow_le_pow_right (by decide) (by decide))
  rw [to_uint64_to_int64 f hf64, to_uint64_to_int64 f hf64]
  constructor
  · apply Nat.eq_of_testBit_eq
    intro i
    rw [Nat.testBit_and, Nat.zero_testBit]
    by_cases hi : i < 52
    · have : (0xfff0000000000000 : Nat) = 0xfff <<< 52 := by decide
      rw [this, Nat.testBit_shiftLeft]
      simp [hi]
    · have : f.testBit i = false := by
        apply Nat.testBit_lt_two_pow
        exact lt_of_lt_of_le hf (Nat.pow_le_pow_right (by decide) (by omega))
      simp [this]
  · have e : (0x3fe0000000000000 : Nat) = 2 ^ 52 * 0x3fe := by decide
    rw [e, Nat.lor_comm, Nat.mul_add_lt_is_or hf]

theorem bunpack_d_finite (le : Bool) (pre post : Bytes) (neg : Bool) (e : Int)
    (h1 : -2 ^ 15 ≤ e) (h2 : e < 2 ^ 15) (f : Nat) (hf : f < 2 ^ 52) (v : Nat)
    (hv : ldexp (0x3fe0000000000000 + f) e = (v, false)) :
    bunpack_d le ⟨pre ++ ((if neg then (0x01 : Byte) else 0x00) ::
        (bytes_of_word 2 (if le then htole16 (to_uint16 e) else htobe16 (to_uint16 e))
          ++ enc_l le (to_int64 f))) ++ post, pre.length⟩
      = (ERROR_OK, if neg then dbl_neg v else v,
          ⟨pre ++ ((if neg then (0x01 : Byte) else 0x00) ::
            (bytes_of_word 2 (if le then htole16 (to_uint16 e) else htobe16 (to_uint16 e))
              ++ enc_l le (to_int64 f))) ++ post, pre.length + 11⟩) := by
  generalize hsign : (if neg then (0x01 : Byte) else 0x00) = sign
  generalize he2 : bytes_of_word 2 (if le then htole16 (to_uint16 e) else htobe16 (to_uint16 e))
    = e2
  have hlen2 : e2.length = 2 := by
    rw [← he2, bytes_of_word_length]
  generalize hB : pre ++ (sign :: (e2 ++ enc_l le (to_int64 f))) ++ post = B
  have hread : data_store_read_byte ⟨B, pre.length⟩ = (ERROR_OK, some sign, ⟨B, pre.length + 1⟩) := by
    have := read_byte_at pre (e2 ++ enc_l le (to_int64 f) ++ post) sign
    have eb : pre ++ sign :: (e2 ++ enc_l le (to_int64 f) ++ post) = B := by
      rw [← hB]
      simp
    rw [eb] at this
    exact this
  have hloop : read_loop ⟨B, pre.length + 1⟩ 2 = (ERROR_OK, e2, ⟨B, pre.length + 3⟩) := by
    have := read_loop_append (pre ++ [sign]) e2 (enc_l le (to_int64 f) ++ post)
    have eb : pre ++ [sign] ++ e2 ++ (enc_l le (to_int64 f) ++ post) = B := by
      rw [← hB]
      simp
    rw [eb, hlen2] at this
    simpa using this
  have hl : bunpack_l le ⟨B, pre.length + 3⟩
      = (ERROR_OK, to_int64 (to_uint64 (to_int64 f)), ⟨B, pre.length + 11⟩) := by
    have := bunpack_l_enc le (to_int64 f) (pre ++ [sign] ++ e2) post
    have eb : pre ++ [sign] ++ e2 ++ enc_l le (to_int64 f) ++ post = B := by
      rw [← hB]
      simp
    rw [eb] at this
    simpa [hlen2, Nat.add_assoc] using this
  obtain ⟨hm1, hm2⟩ := fraction_word f hf
  have hexp := word_of_exp_bytes le e h1 h2
  rw [he2] at hexp
  unfold bunpack_d
  rw [hread]
  dsimp only
  rw [hloop]
  dsimp only
  rw [hl]
  dsimp only
  rw [hm1, hm2]
  have hexp2 : to_int16 (if le = true then le16toh (word_of_bytes e2)
      else be16toh (word_of_bytes e2)) = e := by
    cases le <;> simpa using hexp
  rw [hexp2, hv]
  cases neg with
  | true =>
    subst hsign
    rfl
  | false =>
    subst hsign
    rfl

theorem enc_d_finite (le : Bool) (x : Nat) (hfin : dbl_exp x ≠ 2047)
    (hnz : fabs x ≠ 0) (f : Nat) (hf : f < 2 ^ 52)
    (hm : (frexp (fabs x)).1 = 0x3fe0000000000000 + f) :
    enc_d le x = finite_double_bytes le x ∧
    enc_d le x = (if signbit x then (0x01 : Byte) else 0x00) ::
        (bytes_of_word 2 (if le then htole16 (to_uint16 (frexp (fabs x)).2)
            else htobe16 (to_uint16 (frexp (fabs x)).2))
          ++ enc_l le (to_int64 f)) := by
  have hnan : isnan x = false := by
    unfold isnan
    simp [hfin]
  have hinf : isinf x = false := by
    unfold isinf
    simp [hfin]
  have hsign : bpack_d_sign x = if signbit x then DOUBLE_NEG else 0 := by
    unfold bpack_d_sign
    rw [hnan, hinf]
    simp only [Bool.false_eq_true, if_false]
    rw [if_neg hnz]
  have hspecial : ¬ (bpack_d_sign x &&& DOUBLE_NAN ≠ 0 ∨ bpack_d_sign x &&& DOUBLE_INF ≠ 0 ∨
      bpack_d_sign x &&& DOUBLE_ZERO ≠ 0) := by
    rw [hsign]
    cases signbit x <;> decide
  have hbyte : byte_of (bpack_d_sign x) = if signbit x then (0x01 : Byte) else 0x00 := by
    rw [hsign]
    cases signbit x <;> rfl
  have hfrac : (frexp (fabs x)).1 &&& 0xfffffffffffff = f := by
    have e : (0xfffffffffffff : Nat) = 2 ^ 52 - 1 := by decide
    rw [e, Nat.and_pow_two_sub_one_eq_mod, hm]
    norm_num at hf ⊢
    omega
  have hdf : dbl_frac (frexp (fabs x)).1 = f := by
    rw [hm]
    exact (normalized_fields f hf).2.1
  have hf64 : f < 2 ^ 64 := lt_of_lt_of_le hf (Nat.pow_le_pow_right (by decide) (by decide))
  have h2 : enc_d le x = (if signbit x then (0x01 : Byte) else 0x00) ::
      (bytes_of_word 2 (if le then htole16 (to_uint16 (frexp (fabs x)).2)
          else htobe16 (to_uint16 (frexp (fabs x)).2))
        ++ enc_l le (to_int64 f)) := by
    unfold enc_d
    dsimp only
    rw [if_neg hspecial, hbyte, hfrac]
  refine ⟨?_, h2⟩
  rw [h2]
  unfold finite_double_bytes
  rw [hdf]
  cases le with
  | true =>
    simp only [if_true]
    rw [enc_l_le64 f hf64]
    have e1 : bytes_of_word 2 (htole16 (to_uint16 (frexp (fabs x)).2))
        = le16 (frexp (fabs x)).2 := by
      unfold bytes_of_word le16 htole16
      simp [List.range_succ]
    rw [e1]
  | false =>
    simp only [Bool.false_eq_true, if_false]
    rw [enc_l_be64 f hf64]
    have e1 : bytes_of_word 2 (htobe16 (to_uint16 (frexp (fabs x)).2))
        = be16 (frexp (fabs x)).2 := by
      unfold bytes_of_word be16
      have h0 := byte_of_htobe16 (to_uint16 (frexp (fabs x)).2) 0 (by decide)
      have h1 := byte_of_htobe16 (to_uint16 (frexp (fabs x)).2) 1 (by decide)
      simp only [pow_zero, Nat.div_one, Nat.sub_zero, pow_one, Nat.sub_self] at h0 h1
      simp [List.range_succ, h0, h1]
    rw [e1]

theorem bunpack_v_d_one (le : Bool) (ds ds1 : data_store_t) (v old : Nat)
    (h : bunpack_d le ds = (ERROR_OK, v, ds1)) :
    bunpack_v ['d'] le ds [Out.d (some old)] = some (ERROR_OK, ds1, [Out.d (some v)]) := by
  rw [bunpack_v_d _ _ _ _ _ _ _ h, bunpack_v_nil]
  rfl

theorem finite_double_frame (le : Bool) (x : Nat) (hx : x < 2 ^ 64) (hfin : dbl_exp x ≠ 2047)
    (hnz : fabs x ≠ 0) (buf pre post : Bytes) (old : Nat) :
    (0x3fe0000000000000 ≤ (frexp (fabs x)).1 ∧ (frexp (fabs x)).1 < 0x3ff0000000000000) ∧
    (finite_double_bytes le x).length = 11 ∧
    bpack_v ['d'] le ⟨buf, buf.length⟩ [Arg.d x]
      = some (ERROR_OK, ⟨buf ++ finite_double_bytes le x, buf.length + 11⟩) ∧
    bunpack_v ['d'] le ⟨pre ++ finite_double_bytes le x ++ post, pre.length⟩ [Out.d (some old)]
      = some (ERROR_OK, ⟨pre ++ finite_double_bytes le x ++ post, pre.length + 11⟩,
          [Out.d (some x)]) := by
  have ha : fabs x < 2 ^ 63 := Nat.mod_lt _ (by positivity)
  have hfa : dbl_exp (fabs x) ≠ 2047 := by
    unfold fabs dbl_exp at *
    norm_num at hx hfin ⊢
    omega
  obtain ⟨f, hf, hm, he1, he2, hld⟩ := ldexp_frexp (fabs x) ha hfa hnz
  obtain ⟨henc, henc2⟩ := enc_d_finite le x hfin hnz f hf hm
  have hlen : (finite_double_bytes le x).length = 11 := by
    unfold finite_double_bytes le16 be16 le64 be64
    cases le <;> simp
  refine ⟨?_, hlen, ?_, ?_⟩
  · rw [hm]
    norm_num at hf ⊢
    omega
  · rw [bpack_v_d_one, henc]
    simp only [List.length_append, hlen]
  · have hback : (if signbit x then dbl_neg (fabs x) else fabs x) = x := by
      unfold dbl_neg signbit fabs
      by_cases hs : x / 2 ^ 63 % 2 = 1
      · simp only [hs, decide_True, if_true]
        norm_num at hx hs ⊢
        omega
      · simp only [hs, decide_False, Bool.false_eq_true, if_false]
        norm_num at hx hs ⊢
        omega
    have hd := bunpack_d_finite le pre post (signbit x) (frexp (fabs x)).2 (by omega) (by omega)
      f hf (fabs x) hld
    rw [← henc2, henc, hback] at hd
    exact bunpack_v_d_one le _ _ x old hd

theorem dbl_value_normalized (f : Nat) (hf : f < 2 ^ 52) :
    dbl_value (0x3fe0000000000000 + f) = ((2 ^ 52 + f : Nat) : ℚ) * 2 ^ (-53 : Int) := by
  obtain ⟨he, hfr, _⟩ := normalized_fields f hf
  have hs : signbit (0x3fe0000000000000 + f) = false := by
    unfold signbit
    norm_num at hf ⊢
    omega
  unfold dbl_value
  rw [hs, he, hfr]
  simp only [Bool.false_eq_true, if_false, show ¬ (1022 : Nat) = 0 by decide, one_mul]
  norm_num

/-- The value of a positive finite double is the value of its normalized
fraction times two to the exponent that `frexp` gives. -/
theorem frexp_value (a : Nat) (ha : a < 2 ^ 63) (hfin : dbl_exp a ≠ 2047) (hnz : a ≠ 0) :
    dbl_value a = dbl_value (frexp a).1 * 2 ^ (frexp a).2 := by
  have hmod : a % 2 ^ 63 = a := Nat.mod_eq_of_lt ha
  have hcond : ¬ (dbl_exp a = 2047 ∨ a % 2 ^ 63 = 0) := by
    rw [hmod]
    rintro (h | h)
    · exact hfin h
    · exact hnz h
  have hsa : signbit a = false := by
    unfold signbit
    norm_num at ha ⊢
    omega
  have hfr : dbl_frac a < 2 ^ 52 := Nat.mod_lt _ (by positivity)
  have h2 : (2 : ℚ) ≠ 0 := by norm_num
  unfold frexp
  rw [if_neg hcond]
  by_cases h0 : dbl_exp a = 0
  · rw [if_pos h0]
    dsimp only
    have hg0 : dbl_frac a ≠ 0 := by
      intro h
      apply hnz
      unfold dbl_exp at h0
      unfold dbl_frac at h
      norm_num at ha h0 h
      omega
    have hs1 : 0 < Nat.size (dbl_frac a) := Nat.size_pos.mpr (Nat.pos_of_ne_zero hg0)
    have hs2 : Nat.size (dbl_frac a) ≤ 52 := Nat.size_le.mpr hfr
    generalize hg : dbl_frac a = g at *
    obtain ⟨k, hk⟩ : ∃ k, 53 - Nat.size g = k := ⟨_, rfl⟩
    have hks : Nat.size g + k = 53 := by omega
    have hlo : 2 ^ 52 ≤ g * 2 ^ k := by
      have h1 : 2 ^ (Nat.size g - 1) ≤ g :=
        Nat.lt_size.mp (show Nat.size g - 1 < Nat.size g by omega)
      calc 2 ^ 52 = 2 ^ (Nat.size g - 1) * 2 ^ k := by
            rw [← pow_add]
            congr 1
            omega
        _ ≤ g * 2 ^ k := Nat.mul_le_mul_right _ h1
    rw [hk]
    have hsig : 2 ^ 52 + g * 2 ^ k % 2 ^ 52 = g * 2 ^ k := by
      have hhi : g * 2 ^ k < 2 ^ 53 := by
        have h1 : g < 2 ^ Nat.size g := Nat.lt_size_self g
        calc g * 2 ^ k < 2 ^ Nat.size g * 2 ^ k :=
              Nat.mul_lt_mul_of_pos_right h1 (by positivity)
          _ = 2 ^ 53 := by rw [← pow_add, hks]
      norm_num at hlo hhi ⊢
      omega
    rw [dbl_value_normalized _ (Nat.mod_lt _ (by positivity)), hsig]
    unfold dbl_value
    rw [hsa, h0, hg]
    simp only [Bool.false_eq_true, if_false, if_true, one_mul]
    push_cast
    have hkz : ((k : Nat) : Int) = 53 - (Nat.size g : Int) := by omega
    rw [mul_assoc, mul_assoc, ← zpow_natCast (2 : ℚ) k, ← zpow_add₀ h2, ← zpow_add₀ h2, hkz]
    congr 2
    omega
  · rw [if_neg h0]
    dsimp only
    rw [dbl_value_normalized _ hfr]
    unfold dbl_value
    rw [hsa]
    simp only [Bool.false_eq_true, if_false, h0, one_mul]
    rw [mul_assoc, ← zpow_add₀ h2]
    congr 2
    omega

theorem dbl_value_fabs (x : Nat) :
    dbl_value x = (if signbit x then -1 else 1) * dbl_value (fabs x) := by
  have h1 : signbit (fabs x) = false := by
    unfold signbit fabs
    norm_num
  have h2 : dbl_exp (fabs x) = dbl_exp x := by
    unfold dbl_exp fabs
    norm_num
    omega
  have h3 : dbl_frac (fabs x) = dbl_frac x := by
    unfold dbl_frac fabs
    norm_num
  unfold dbl_value
  rw [h1, h2, h3]
  simp

/-- C14: for a finite double `x` that is not zero (normal or subnormal), `frexp`
splits the absolute value into a fraction `m` in `[0.5, 1)` and an exponent `e`
with `x = ± m * 2 ^ e`; `bpack` with the format `d` (little-endian) and `>d`
(big-endian) appends eleven bytes: the sign byte `0x00` or `0x01`, `e` as a
16-bit integer and the 52 fraction bits of `m` as a 64-bit integer; `bunpack`
with the same format on these bytes returns `ERROR_OK` and exactly `x`. -/
theorem bpack_bunpack_finite_double (x : Nat) (hx : x < 2 ^ 64) (hfin : dbl_exp x ≠ 2047)
    (hnz : fabs x ≠ 0) (buf pre post : Bytes) (old : Nat) :
    ((0x3fe0000000000000 ≤ (frexp (fabs x)).1 ∧ (frexp (fabs x)).1 < 0x3ff0000000000000) ∧
      dbl_value x = (if signbit x then -1 else 1)
        * (dbl_value (frexp (fabs x)).1 * 2 ^ (frexp (fabs x)).2)) ∧
    ((finite_double_bytes true x).length = 11 ∧
      bpack ⟨buf, buf.length⟩ "d" [Arg.d x]
        = some (ERROR_OK, ⟨buf ++ finite_double_bytes true x, buf.length + 11⟩) ∧
      bunpack ⟨pre ++ finite_double_bytes true x ++ post, pre.length⟩ "d" [Out.d (some old)]
        = some (ERROR_OK, ⟨pre ++ finite_double_bytes true x ++ post, pre.length + 11⟩,
            [Out.d (some x)])) ∧
    ((finite_double_bytes false x).length = 11 ∧
      bpack ⟨buf, buf.length⟩ ">d" [Arg.d x]
        = some (ERROR_OK, ⟨buf ++ finite_double_bytes false x, buf.length + 11⟩) ∧
      bunpack ⟨pre ++ finite_double_bytes false x ++ post, pre.length⟩ ">d" [Out.d (some old)]
        = some (ERROR_OK, ⟨pre ++ finite_double_bytes false x ++ post, pre.length + 11⟩,
            [Out.d (some x)])) := by
  have ha : fabs x < 2 ^ 63 := Nat.mod_lt _ (by positivity)
  have hfa : dbl_exp (fabs x) ≠ 2047 := by
    unfold fabs dbl_exp at *
    norm_num at hx hfin ⊢
    omega
  obtain ⟨hr, hl1, hp1, hu1⟩ := finite_double_frame true x hx hfin hnz buf pre post old
  obtain ⟨_, hl2, hp2, hu2⟩ := finite_double_frame false x hx hfin hnz buf pre post old
  refine ⟨⟨hr, ?_⟩, ⟨hl1, hp1, hu1⟩, hl2, ?_, ?_⟩
  · rw [dbl_value_fabs x, frexp_value (fabs x) ha hfa hnz]
  · show bpack_v ('>' :: ['d']) true ⟨buf, buf.length⟩ [Arg.d x] = _
    rw [bpack_v]
    simp only [Char.reduceEq, if_false, if_true]
    exact hp2
  · show bunpack_v ('>' :: ['d']) true _ [Out.d (some old)] = _
    rw [bunpack_v]
    simp only [Char.reduceEq, if_false, if_true]
    exact hu2

/-- Witness of C14: the double `-1.0`. -/
theorem bpack_bunpack_finite_double_witness :
    finite_double_bytes true 0xbff0000000000000 = [1, 1, 0, 0, 0, 0, 0, 0, 0, 0, 0] ∧
    finite_double_bytes false 0xbff0000000000000 = [1, 0, 1, 0, 0, 0, 0, 0, 0, 0, 0] ∧
    bpack ⟨[], 0⟩ "d" [Arg.d 0xbff0000000000000]
      = some (ERROR_OK, ⟨finite_double_bytes true 0xbff0000000000000, 11⟩) ∧
    bunpack ⟨finite_double_bytes true 0xbff0000000000000, 0⟩ "d" [Out.d (some 0)]
      = some (ERROR_OK, ⟨finite_double_bytes true 0xbff0000000000000, 11⟩,
          [Out.d (some 0xbff0000000000000)]) :=
  ⟨by decide, by decide,
    (bpack_bunpack_finite_double 0xbff0000000000000 (by decide) (by decide) (by decide)
      [] [] [] 0).2.1.2.1,
    by
      have h := (bpack_bunpack_finite_double 0xbff0000000000000 (by decide) (by decide)
        (by decide) [] [] [] 0).2.1.2.2
      simpa using h⟩

/-! ## C15: a character that is no format character -/

theorem bpack_v_default (c : Char) (hc : c ∉ ['l', 'd', 's', 'b', '<', '>']) (fmt : List Char)
    (le : Bool) (ds : data_store_t) (ap : List Arg) :
    bpack_v (c :: fmt) le ds ap = some (ERROR_BPACK_INVALID_FORMAT_STRING, ds) := by
  simp only [List.mem_cons, List.mem_singleton, List.mem_nil_iff, or_false, not_or] at hc
  obtain ⟨h1, h2, h3, h4, h5, h6⟩ := hc
  unfold bpack_v
  rw [if_neg h1, if_neg h5, if_neg h6, if_neg h2, if_neg h3, if_neg h4]

theorem bunpack_v_default (c : Char) (hc : c ∉ ['l', 'd', 's', 'b', '<', '>']) (fmt : List Char)
    (le : Bool) (ds : data_store_t) (ap : List Out) :
    bunpack_v (c :: fmt) le ds ap = some (ERROR_BPACK_INVALID_FORMAT_STRING, ds, ap) := by
  simp only [List.mem_cons, List.mem_singleton, List.mem_nil_iff, or_false, not_or] at hc
  obtain ⟨h1, h2, h3, h4, h5, h6⟩ := hc
  unfold bunpack_v
  rw [if_neg h1, if_neg h5, if_neg h6, if_neg h2, if_neg h3, if_neg h4]

theorem some_ok_of_ite {α : Type} (r : Int × α) (o : Option (Int × α)) (a : α)
    (h : (if r.1 ≠ ERROR_OK then some r else o) = some (ERROR_OK, a)) :
    r.1 = ERROR_OK ∧ o = some (ERROR_OK, a) := by
  by_cases hr : r.1 = ERROR_OK
  · rw [if_neg (by simpa using hr)] at h
    exact ⟨hr, h⟩
  · rw [if_pos hr] at h
    injection h with h
    rw [h] at hr
    exact absurd rfl hr

theorem bpack_v_before_invalid (c : Char) (hc : c ∉ ['l', 'd', 's', 'b', '<', '>']) (post : List Char)
    (rest : List Arg) : ∀ (pre : List Char) (le : Bool) (ds ds1 : data_store_t) (ap : List Arg),
    bpack_v pre le ds ap = some (ERROR_OK, ds1) →
    bpack_v (pre ++ c :: post) le ds (ap ++ rest)
      = some (ERROR_BPACK_INVALID_FORMAT_STRING, ds1) := by
  intro pre
  induction pre with
  | nil =>
    intro le ds ds1 ap h
    unfold bpack_v at h
    injection h with h
    injection h with _ h
    subst h
    exact bpack_v_default c hc post le ds (ap ++ rest)
  | cons a pre ih =>
    intro le ds ds1 ap h
    unfold bpack_v at h
    rw [List.cons_append]
    unfold bpack_v
    by_cases hl : a = 'l'
    · rw [if_pos hl] at h ⊢
      match ap, h with
      | Arg.l val :: ap, h =>
        obtain ⟨h1, h2⟩ := some_ok_of_ite _ _ _ h
        show (if (bpack_l le val ds).1 ≠ ERROR_OK then some (bpack_l le val ds)
          else bpack_v (pre ++ c :: post) le (bpack_l le val ds).2 (ap ++ rest)) = _
        rw [if_neg (by simpa using h1)]
        exact ih le _ ds1 ap h2
    · rw [if_neg hl] at h ⊢
      by_cases hlt : a = '<'
      · rw [if_pos hlt] at h ⊢
        exact ih true ds ds1 ap h
      · rw [if_neg hlt] at h ⊢
        by_cases hgt : a = '>'
        · rw [if_pos hgt] at h ⊢
          exact ih false ds ds1 ap h
        · rw [if_neg hgt] at h ⊢
          by_cases hd : a = 'd'
          · rw [if_pos hd] at h ⊢
            match ap, h with
            | Arg.d val :: ap, h =>
              obtain ⟨h1, h2⟩ := some_ok_of_ite _ _ _ h
              show (if (bpack_d le val ds).1 ≠ ERROR_OK then some (bpack_d le val ds)
                else bpack_v (pre ++ c :: post) le (bpack_d le val ds).2 (ap ++ rest)) = _
              rw [if_neg (by simpa using h1)]
              exact ih le _ ds1 ap h2
          · rw [if_neg hd] at h ⊢
            by_cases hs : a = 's'
            · rw [if_pos hs] at h ⊢
              match ap, h with
              | Arg.s (some val) :: ap, h =>
                obtain ⟨h1, h2⟩ := some_ok_of_ite _ _ _ h
                show (if (bpack_s le val ds).1 ≠ ERROR_OK then some (bpack_s le val ds)
                  else bpack_v (pre ++ c :: post) le (bpack_s le val ds).2 (ap ++ rest)) = _
                rw [if_neg (by simpa using h1)]
                exact ih le _ ds1 ap h2
              | Arg.s none :: ap, h =>
                exfalso
                injection h with h
                injection h with h _
                revert h
                decide
            · rw [if_neg hs] at h ⊢
              by_cases hb : a = 'b'
              · rw [if_pos hb] at h ⊢
                match ap, h with
                | Arg.b (some val) :: ap, h =>
                  obtain ⟨h1, h2⟩ := some_ok_of_ite _ _ _ h
                  show (if (bpack_b le val ds).1 ≠ ERROR_OK then some (bpack_b le val ds)
                    else bpack_v (pre ++ c :: post) le (bpack_b le val ds).2 (ap ++ rest)) = _
                  rw [if_neg (by simpa using h1)]
                  exact ih le _ ds1 ap h2
                | Arg.b none :: ap, h =>
                  exfalso
                  injection h with h
                  injection h with h _
                  revert h
                  decide
              · rw [if_neg hb] at h
                exfalso
                injection h with h
                injection h with h _
                revert h
                decide

theorem map_head_some (X : Out) (o : Option (Int × data_store_t × List Out)) (code : Int)
    (ds1 : data_store_t) (outs1 : List Out)
    (h : o.map (fun r => (r.1, r.2.1, X :: r.2.2)) = some (code, ds1, outs1)) :
    ∃ t, o = some (code, ds1, t) ∧ outs1 = X :: t := by
  match o, h with
  | some (a, b, t), h =>
    simp only [Option.map_some', Option.some.injEq, Prod.mk.injEq] at h
    obtain ⟨h1, h2, h3⟩ := h
    subst h1 h2 h3
    exact ⟨t, rfl, rfl⟩

theorem some_ok_of_ite_map (c : Int) (x : Int × data_store_t × List Out)
    (o : Option (Int × data_store_t × List Out)) (y : data_store_t × List Out)
    (h : (if c ≠ ERROR_OK then some x else o) = some (ERROR_OK, y)) (hx : x.1 = c) :
    c = ERROR_OK ∧ o = some (ERROR_OK, y) := by
  by_cases hr : c = ERROR_OK
  · rw [if_neg (by simpa using hr)] at h
    exact ⟨hr, h⟩
  · rw [if_pos hr] at h
    injection h with h
    rw [h] at hx
    exact absurd hx.symm hr

theorem bunpack_v_before_invalid (c : Char) (hc : c ∉ ['l', 'd', 's', 'b', '<', '>']) (post : List Char)
    (rest : List Out) : ∀ (pre : List Char) (le : Bool) (ds ds1 : data_store_t)
    (ap ap1 : List Out),
    bunpack_v pre le ds ap = some (ERROR_OK, ds1, ap1) →
    bunpack_v (pre ++ c :: post) le ds (ap ++ rest)
      = some (ERROR_BPACK_INVALID_FORMAT_STRING, ds1, ap1 ++ rest) := by
  intro pre
  induction pre with
  | nil =>
    intro le ds ds1 ap ap1 h
    rw [bunpack_v_nil] at h
    simp only [Option.some.injEq, Prod.mk.injEq, true_and] at h
    obtain ⟨h1, h2⟩ := h
    subst h1 h2
    exact bunpack_v_default c hc post le ds (ap ++ rest)
  | cons a pre ih =>
    intro le ds ds1 ap ap1 h
    unfold bunpack_v at h
    rw [List.cons_append]
    unfold bunpack_v
    by_cases hl : a = 'l'
    · rw [if_pos hl] at h ⊢
      match ap, h with
      | Out.l (some old) :: ap, h =>
        obtain ⟨h1, h2⟩ := some_ok_of_ite_map _ _ _ _ h rfl
        obtain ⟨t, h3, h4⟩ := map_head_some _ _ _ _ _ h2
        subst h4
        show (if (bunpack_l le ds).1 ≠ ERROR_OK then _ else
          (bunpack_v (pre ++ c :: post) le (bunpack_l le ds).2.2 (ap ++ rest)).map _) = _
        rw [if_neg (by simpa using h1), ih le _ ds1 ap t h3]
        rfl
      | Out.l none :: ap, h =>
        exfalso
        injection h with h
        injection h with h _
        revert h
        decide
    · rw [if_neg hl] at h ⊢
      by_cases hlt : a = '<'
      · rw [if_pos hlt] at h ⊢
        exact ih true ds ds1 ap ap1 h
      · rw [if_neg hlt] at h ⊢
        by_cases hgt : a = '>'
        · rw [if_pos hgt] at h ⊢
          exact ih false ds ds1 ap ap1 h
        · rw [if_neg hgt] at h ⊢
          by_cases hd : a = 'd'
          · rw [if_pos hd] at h ⊢
            match ap, h with
            | Out.d (some old) :: ap, h =>
              obtain ⟨h1, h2⟩ := some_ok_of_ite_map _ _ _ _ h rfl
              obtain ⟨t, h3, h4⟩ := map_head_some _ _ _ _ _ h2
              subst h4
              show (if (bunpack_d le ds).1 ≠ ERROR_OK then _ else
                (bunpack_v (pre ++ c :: post) le (bunpack_d le ds).2.2 (ap ++ rest)).map _) = _
              rw [if_neg (by simpa using h1), ih le _ ds1 ap t h3]
              rfl
            | Out.d none :: ap, h =>
              exfalso
              injection h with h
              injection h with h _
              revert h
              decide
          · rw [if_neg hd] at h ⊢
            by_cases hs : a = 's'
            · rw [if_pos hs] at h ⊢
              match ap, h with
              | Out.s (some old) :: ap, h =>
                obtain ⟨h1, h2⟩ := some_ok_of_ite_map _ _ _ _ h rfl
                obtain ⟨t, h3, h4⟩ := map_head_some _ _ _ _ _ h2
                subst h4
                show (if (bunpack_s le ds).1 ≠ ERROR_OK then _ else
                  (bunpack_v (pre ++ c :: post) le (bunpack_s le ds).2.2 (ap ++ rest)).map _) = _
                rw [if_neg (by simpa using h1), ih le _ ds1 ap t h3]
                rfl
              | Out.s none :: ap, h =>
                exfalso
                injection h with h
                injection h with h _
                revert h
                decide
            · rw [if_neg hs] at h ⊢
              by_cases hb : a = 'b'
              · rw [if_pos hb] at h ⊢
                match ap, h with
                | Out.b (some oldsize) (some old) :: ap, h =>
                  obtain ⟨h1, h2⟩ := some_ok_of_ite_map _ _ _ _ h rfl
                  obtain ⟨t, h3, h4⟩ := map_head_some _ _ _ _ _ h2
                  subst h4
                  show (if (bunpack_b le ds).1 ≠ ERROR_OK then _ else
                    (bunpack_v (pre ++ c :: post) le (bunpack_b le ds).2.2 (ap ++ rest)).map _) = _
                  rw [if_neg (by simpa using h1), ih le _ ds1 ap t h3]
                  rfl
                | Out.b none val :: ap, h =>
                  exfalso
                  injection h with h
                  injection h with h _
                  revert h
                  decide
                | Out.b (some oldsize) none :: ap, h =>
                  exfalso
                  injection h with h
                  injection h with h _
                  revert h
                  decide
              · rw [if_neg hb] at h
                exfalso
                injection h with h
                injection h with h _
                revert h
                decide

/-- C15: for a format string whose first character `c` outside the set
`l`, `d`, `s`, `b`, `<`, `>` stands behind the characters `pre`, and arguments
for which `bpack` (respectively `bunpack`) with the format `pre` succeeds,
`bpack` and `bunpack` return `ERROR_BPACK_INVALID_FORMAT_STRING`; the data
store of `bpack` then holds exactly what packing the slots of `pre` wrote, and
the targets of `bunpack` hold what unpacking the slots of `pre` gave, the
arguments behind them being untouched. -/
theorem bpack_bunpack_invalid_format (pre post : List Char) (c : Char)
    (hc : c ∉ ['l', 'd', 's', 'b', '<', '>'] ∧ c ≠ Char.ofNat 0)
    (ds ds1 : data_store_t) (ap rest : List Arg)
    (us us1 : data_store_t) (outs outs1 rest_outs : List Out)
    (hp : bpack ds (String.mk pre) ap = some (ERROR_OK, ds1))
    (hu : bunpack us (String.mk pre) outs = some (ERROR_OK, us1, outs1)) :
    bpack ds (String.mk (pre ++ c :: post)) (ap ++ rest)
      = some (ERROR_BPACK_INVALID_FORMAT_STRING, ds1) ∧
    bunpack us (String.mk (pre ++ c :: post)) (outs ++ rest_outs)
      = some (ERROR_BPACK_INVALID_FORMAT_STRING, us1, outs1 ++ rest_outs) :=
  ⟨bpack_v_before_invalid c hc.1 post rest pre true ds ds1 ap hp,
    bunpack_v_before_invalid c hc.1 post rest_outs pre true us us1 outs outs1 hu⟩

/-- Witness of C15: the format `lxs` with an integer and a string. -/
theorem bpack_bunpack_invalid_format_witness :
    bpack ⟨[], 0⟩ "lxs" [Arg.l 1, Arg.s (some [97])]
      = some (ERROR_BPACK_INVALID_FORMAT_STRING, ⟨[1, 0, 0, 0, 0, 0, 0, 0], 8⟩) ∧
    bunpack ⟨[1, 0, 0, 0, 0, 0, 0, 0, 9], 0⟩ "lxs" [Out.l (some 0), Out.s (some none)]
      = some (ERROR_BPACK_INVALID_FORMAT_STRING, ⟨[1, 0, 0, 0, 0, 0, 0, 0, 9], 8⟩,
          [Out.l (some 1), Out.s (some none)]) :=
  bpack_bunpack_invalid_format ['l'] ['s'] 'x' (by decide) ⟨[], 0⟩ ⟨[1, 0, 0, 0, 0, 0, 0, 0], 8⟩
    [Arg.l 1] [Arg.s (some [97])] ⟨[1, 0, 0, 0, 0, 0, 0, 0, 9], 0⟩
    ⟨[1, 0, 0, 0, 0, 0, 0, 0, 9], 8⟩ [Out.l (some 0)] [Out.l (some 1)] [Out.s (some none)]
    (by decide) (by decide)

/-! ## C16: bytes that are no double -/

set_option maxRecDepth 100000 in
theorem invalid_sign_byte : ∀ b : Byte, b ∉ [0x00, 0x01, 0x02, 0x04, 0x05, 0x08, 0x09] →
    (b.val &&& 0xFE = DOUBLE_NAN → b.val &&& DOUBLE_NEG ≠ 0) ∧ b.val &&& 0xFE ≠ DOUBLE_INF ∧
      b.val &&& 0xFE ≠ DOUBLE_ZERO ∧ b.val &&& 0xFE ≠ 0 := by
  decide

theorem bunpack_d_invalid_sign (le : Bool) (pre post : Bytes) (b : Byte)
    (hb : b ∉ [0x00, 0x01, 0x02, 0x04, 0x05, 0x08, 0x09]) :
    bunpack_d le ⟨pre ++ b :: post, pre.length⟩
      = (ERROR_BUNPACK_INVALID_DATA, 0, ⟨pre ++ b :: post, pre.length + 1⟩) := by
  obtain ⟨h1, h2, h3, h4⟩ := invalid_sign_byte b hb
  unfold bunpack_d
  rw [read_byte_at]
  dsimp only
  rw [if_neg (by simp)]
  by_cases hn : b.val &&& 0xFE = DOUBLE_NAN
  · rw [if_pos hn, if_pos (h1 hn)]
  · rw [if_neg hn, if_neg h2, if_neg h3, if_pos h4]

theorem bunpack_d_invalid_mantissa (le : Bool) (pre post : Bytes) (sign : Byte)
    (hs : sign = 0x00 ∨ sign = 0x01) (e2 : Bytes) (he2 : e2.length = 2) (m : Nat)
    (hm : m < 2 ^ 64) (hbits : m &&& 0xfff0000000000000 ≠ 0) :
    bunpack_d le ⟨pre ++ (sign :: (e2 ++ enc_l le (to_int64 m))) ++ post, pre.length⟩
      = (ERROR_BUNPACK_INVALID_DATA, 0,
          ⟨pre ++ (sign :: (e2 ++ enc_l le (to_int64 m))) ++ post, pre.length + 11⟩) := by
  generalize hB : pre ++ (sign :: (e2 ++ enc_l le (to_int64 m))) ++ post = B
  have hread : data_store_read_byte ⟨B, pre.length⟩ = (ERROR_OK, some sign, ⟨B, pre.length + 1⟩) := by
    have := read_byte_at pre (e2 ++ enc_l le (to_int64 m) ++ post) sign
    have eb : pre ++ sign :: (e2 ++ enc_l le (to_int64 m) ++ post) = B := by
      rw [← hB]
      simp
    rw [eb] at this
    exact this
  have hloop : read_loop ⟨B, pre.length + 1⟩ 2 = (ERROR_OK, e2, ⟨B, pre.length + 3⟩) := by
    have := read_loop_append (pre ++ [sign]) e2 (enc_l le (to_int64 m) ++ post)
    have eb : pre ++ [sign] ++ e2 ++ (enc_l le (to_int64 m) ++ post) = B := by
      rw [← hB]
      simp
    rw [eb, he2] at this
    simpa using this
  have hl : bunpack_l le ⟨B, pre.length + 3⟩
      = (ERROR_OK, to_int64 (to_uint64 (to_int64 m)), ⟨B, pre.length + 11⟩) := by
    have := bunpack_l_enc le (to_int64 m) (pre ++ [sign] ++ e2) post
    have eb : pre ++ [sign] ++ e2 ++ enc_l le (to_int64 m) ++ post = B := by
      rw [← hB]
      simp
    rw [eb] at this
    simpa [he2, Nat.add_assoc] using this
  have hsign : sign.val &&& 0xFE ≠ DOUBLE_NAN ∧ sign.val &&& 0xFE ≠ DOUBLE_INF ∧
      sign.val &&& 0xFE ≠ DOUBLE_ZERO ∧ ¬ sign.val &&& 0xFE ≠ 0 := by
    rcases hs with h | h <;> subst h <;> decide
  unfold bunpack_d
  rw [hread]
  dsimp only
  rw [if_neg (by simp), if_neg hsign.1, if_neg hsign.2.1, if_neg hsign.2.2.1, if_neg hsign.2.2.2,
    hloop]
  dsimp only
  rw [if_neg (by simp), hl]
  dsimp only
  rw [if_neg (by simp), to_uint64_to_int64 m hm, to_uint64_to_int64 m hm, if_pos hbits]

theorem upper_bits_set (m : Nat) (hm : m < 2 ^ 64) (hbits : 2 ^ 52 ≤ m) :
    m &&& 0xfff0000000000000 ≠ 0 := by
  intro h0
  have hlt : m < 2 ^ 52 := by
    apply Nat.lt_pow_two_of_testBit
    intro i hi
    by_cases h64 : i < 64
    · have hbit : (m &&& 0xfff0000000000000).testBit i = false := by
        rw [h0, Nat.zero_testBit]
      have hmask : (0xfff0000000000000 : Nat).testBit i = true := by
        have e : (0xfff0000000000000 : Nat) = (2 ^ 12 - 1) <<< 52 := by decide
        rw [e, Nat.testBit_shiftLeft, Nat.testBit_two_pow_sub_one]
        simp
        omega
      rw [Nat.testBit_and, hmask, Bool.and_true] at hbit
      exact hbit
    · apply Nat.testBit_lt_two_pow
      exact lt_of_lt_of_le hm (Nat.pow_le_pow_right (by decide) (by omega))
  omega

theorem bunpack_v_d_error (le : Bool) (ds ds1 : data_store_t) (v old : Nat) (code : Int)
    (hcode : code ≠ ERROR_OK) (h : bunpack_d le ds = (code, v, ds1)) :
    bunpack_v ['d'] le ds [Out.d (some old)] = some (code, ds1, [Out.d (some old)]) := by
  unfold bunpack_v
  simp only [Char.reduceEq, if_false, if_true]
  rw [h]
  dsimp only
  rw [if_pos hcode]

/-- C16: `bunpack` with the format `d` (and `>d`) returns
`ERROR_BUNPACK_INVALID_DATA` and leaves the target as it was when the sign byte
is none of `0x00`, `0x01`, `0x02`, `0x04`, `0x05`, `0x08`, `0x09`, and when a
sign byte `0x00` or `0x01` and two bytes of exponent are followed by a mantissa
word (in the byte order of the format) that has one of its upper 12 bits set. -/
theorem bunpack_double_invalid_data (pre post : Bytes) (old : Nat) (b : Byte)
    (hb : b ∉ [0x00, 0x01, 0x02, 0x04, 0x05, 0x08, 0x09])
    (sign : Byte) (hs : sign = 0x00 ∨ sign = 0x01) (e2 : Bytes) (he2 : e2.length = 2) (m : Nat)
    (hm : m < 2 ^ 64) (hbits : 2 ^ 52 ≤ m) :
    (bunpack ⟨pre ++ b :: post, pre.length⟩ "d" [Out.d (some old)]
        = some (ERROR_BUNPACK_INVALID_DATA, ⟨pre ++ b :: post, pre.length + 1⟩,
            [Out.d (some old)]) ∧
      bunpack ⟨pre ++ b :: post, pre.length⟩ ">d" [Out.d (some old)]
        = some (ERROR_BUNPACK_INVALID_DATA, ⟨pre ++ b :: post, pre.length + 1⟩,
            [Out.d (some old)])) ∧
    (bunpack ⟨pre ++ (sign :: (e2 ++ le64 m)) ++ post, pre.length⟩ "d" [Out.d (some old)]
        = some (ERROR_BUNPACK_INVALID_DATA,
            ⟨pre ++ (sign :: (e2 ++ le64 m)) ++ post, pre.length + 11⟩, [Out.d (some old)]) ∧
      bunpack ⟨pre ++ (sign :: (e2 ++ be64 m)) ++ post, pre.length⟩ ">d" [Out.d (some old)]
        = some (ERROR_BUNPACK_INVALID_DATA,
            ⟨pre ++ (sign :: (e2 ++ be64 m)) ++ post, pre.length + 11⟩, [Out.d (some old)])) := by
  have hcode : ERROR_BUNPACK_INVALID_DATA ≠ ERROR_OK := by decide
  have hbe : ∀ (ds : data_store_t),
      bunpack ds ">d" [Out.d (some old)] = bunpack_v ['d'] false ds [Out.d (some old)] := by
    intro ds
    show bunpack_v ('>' :: ['d']) true ds [Out.d (some old)] = _
    rw [bunpack_v]
    simp only [Char.reduceEq, if_false, if_true]
  have hle : ∀ (ds : data_store_t),
      bunpack ds "d" [Out.d (some old)] = bunpack_v ['d'] true ds [Out.d (some old)] :=
    fun _ => rfl
  refine ⟨⟨?_, ?_⟩, ?_, ?_⟩
  · rw [hle]
    exact bunpack_v_d_error true _ _ 0 old _ hcode (bunpack_d_invalid_sign true pre post b hb)
  · rw [hbe]
    exact bunpack_v_d_error false _ _ 0 old _ hcode (bunpack_d_invalid_sign false pre post b hb)
  · rw [hle, ← enc_l_le64 m hm]
    exact bunpack_v_d_error true _ _ 0 old _ hcode
      (bunpack_d_invalid_mantissa true pre post sign hs e2 he2 m hm (upper_bits_set m hm hbits))
  · rw [hbe, ← enc_l_be64 m hm]
    exact bunpack_v_d_error false _ _ 0 old _ hcode
      (bunpack_d_invalid_mantissa false pre post sign hs e2 he2 m hm (upper_bits_set m hm hbits))

set_option maxRecDepth 100000 in
/-- Witness of C16: the sign byte `0x03` (a negative NaN), and the sign byte
`0x00` with a mantissa word whose bit 52 is set. -/
theorem bunpack_double_invalid_data_witness :
    (bunpack ⟨[0x03], 0⟩ "d" [Out.d (some 7)]
        = some (ERROR_BUNPACK_INVALID_DATA, ⟨[0x03], 1⟩, [Out.d (some 7)]) ∧
      bunpack ⟨[0x03], 0⟩ ">d" [Out.d (some 7)]
        = some (ERROR_BUNPACK_INVALID_DATA, ⟨[0x03], 1⟩, [Out.d (some 7)])) ∧
    (bunpack ⟨[0, 1, 0, 0, 0, 0, 0, 0, 0, 16, 0], 0⟩ "d" [Out.d (some 7)]
        = some (ERROR_BUNPACK_INVALID_DATA, ⟨[0, 1, 0, 0, 0, 0, 0, 0, 0, 16, 0], 11⟩,
            [Out.d (some 7)]) ∧
      bunpack ⟨[0, 1, 0, 0, 16, 0, 0, 0, 0, 0, 0], 0⟩ ">d" [Out.d (some 7)]
        = some (ERROR_BUNPACK_INVALID_DATA, ⟨[0, 1, 0, 0, 16, 0, 0, 0, 0, 0, 0], 11⟩,
            [Out.d (some 7)])) :=
  bunpack_double_invalid_data [] [] 7 0x03 (by decide) 0x00 (Or.inl rfl) [1, 0] rfl
    0x10000000000000 (by decide) (by decide)

/-! ## C17: the targets after a failure of bunpack -/

theorem frame_head (malloc : Nat → Bool) (a : Char) (fmt : List Char) (le : Bool)
    (ds ds1 : data_store_t) (ap : List Out) (code : Int)
    (h : bunpack_v [a] le ds ap malloc = some (code, ds1, ap)) :
    frame_at malloc (a :: fmt) le ds ap code ds1 ap :=
  ⟨[], a, fmt, ds, rfl, by simp [slots, bunpack_v], h, rfl⟩

theorem frame_switch (malloc : Nat → Bool) (a : Char) (ha : a = '<' ∨ a = '>')
    (fmt : List Char) (le : Bool) (ds ds1 : data_store_t) (ap ap1 : List Out) (code : Int)
    (h : frame_at malloc fmt (if a = '<' then true else false) ds ap code ds1 ap1) :
    frame_at malloc (a :: fmt) le ds ap code ds1 ap1 := by
  obtain ⟨pre, c, post, ds0, h1, h2, h3, h4⟩ := h
  have hs : slots (a :: pre) = slots pre := by
    rcases ha with rfl | rfl <;> simp [slots]
  have hle : little_endian_after le (a :: pre)
      = little_endian_after (if a = '<' then true else false) pre := by
    rcases ha with rfl | rfl <;> simp [little_endian_after]
  refine ⟨a :: pre, c, post, ds0, by rw [h1]; rfl, ?_, ?_, ?_⟩
  · rw [hs]
    unfold bunpack_v
    rcases ha with rfl | rfl
    · simpa using h2
    · simpa using h2
  · rw [hs, hle]
    exact h3
  · rw [hs]
    exact h4

theorem frame_slot (malloc : Nat → Bool) (a : Char) (ha : a = 'l' ∨ a = 'd' ∨ a = 's' ∨ a = 'b')
    (fmt : List Char) (le : Bool) (ds ds' ds1 : data_store_t) (o o1 : Out) (rest t : List Out)
    (code : Int)
    (hstep : ∀ (f : List Char) (r : List Out),
      bunpack_v (a :: f) le ds (o :: r) malloc
        = (bunpack_v f le ds' r malloc).map (fun x => (x.1, x.2.1, o1 :: x.2.2)))
    (h : frame_at malloc fmt le ds' rest code ds1 t) :
    frame_at malloc (a :: fmt) le ds (o :: rest) code ds1 (o1 :: t) := by
  obtain ⟨pre, c, post, ds0, h1, h2, h3, h4⟩ := h
  have hs : slots (a :: pre) = slots pre + 1 := by
    simp [slots, ha]
  have hle : little_endian_after le (a :: pre) = little_endian_after le pre := by
    rcases ha with rfl | rfl | rfl | rfl <;> simp [little_endian_after]
  refine ⟨a :: pre, c, post, ds0, by rw [h1]; rfl, ?_, ?_, ?_⟩
  · rw [hs, List.take_succ_cons, List.take_succ_cons, hstep, h2]
    rfl
  · rw [hs, hle, List.drop_succ_cons]
    exact h3
  · rw [hs, List.drop_succ_cons, List.drop_succ_cons]
    exact h4

theorem some_fail_of_ite (c : Int) (x : Int × data_store_t × List Out)
    (o : Option (Int × data_store_t × List Out)) (y : Int × data_store_t × List Out)
    (h : (if c ≠ ERROR_OK then some x else o) = some y) :
    (c ≠ ERROR_OK ∧ x = y) ∨ (c = ERROR_OK ∧ o = some y) := by
  by_cases hr : c = ERROR_OK
  · rw [if_neg (by simpa using hr)] at h
    exact Or.inr ⟨hr, h⟩
  · rw [if_pos hr] at h
    injection h with h
    exact Or.inl ⟨hr, h⟩

theorem bunpack_v_frame (malloc : Nat → Bool) : ∀ (fmt : List Char) (le : Bool)
    (ds : data_store_t) (ap : List Out) (code : Int) (ds1 : data_store_t) (ap1 : List Out),
    bunpack_v fmt le ds ap malloc = some (code, ds1, ap1) → code ≠ ERROR_OK →
    frame_at malloc fmt le ds ap code ds1 ap1 := by
  intro fmt
  induction fmt with
  | nil =>
    intro le ds ap code ds1 ap1 h hc
    rw [bunpack_v] at h
    injection h with h
    injection h with h _
    exact absurd h.symm hc
  | cons a fmt ih =>
    intro le ds ap code ds1 ap1 h hc
    unfold bunpack_v at h
    by_cases hl : a = 'l'
    · rw [if_pos hl] at h
      subst hl
      match ap, h with
      | Out.l (some old) :: rest, h =>
        rcases some_fail_of_ite _ _ _ _ h with ⟨h1, h2⟩ | ⟨h1, h2⟩
        · simp only [Prod.mk.injEq] at h2
          obtain ⟨e1, e2, e3⟩ := h2
          subst e1 e2 e3
          apply frame_head malloc
          unfold bunpack_v
          simp only [Char.reduceEq, if_false, if_true]
          rw [if_pos h1]
        · obtain ⟨t, h3, h4⟩ := map_head_some _ _ _ _ _ h2
          subst h4
          refine frame_slot malloc 'l' (by simp) fmt le ds _ ds1 _ _ rest t code ?_ (ih le _ rest code ds1 t h3 hc)
          intro f r
          conv_lhs => unfold bunpack_v
          simp only [Char.reduceEq, if_false, if_true]
          rw [if_neg (by simpa using h1)]
      | Out.l none :: rest, h =>
        simp only [Option.some.injEq, Prod.mk.injEq] at h
        obtain ⟨e1, e2, e3⟩ := h
        subst e1 e2 e3
        apply frame_head malloc
        unfold bunpack_v
        simp only [Char.reduceEq, if_false, if_true]
    · rw [if_neg hl] at h
      by_cases hlt : a = '<'
      · rw [if_pos hlt] at h
        exact frame_switch malloc a (Or.inl hlt) fmt le ds ds1 ap ap1 code
          (by rw [if_pos hlt]; exact ih true ds ap code ds1 ap1 h hc)
      · rw [if_neg hlt] at h
        by_cases hgt : a = '>'
        · rw [if_pos hgt] at h
          exact frame_switch malloc a (Or.inr hgt) fmt le ds ds1 ap ap1 code
            (by rw [if_neg hlt]; exact ih false ds ap code ds1 ap1 h hc)
        · rw [if_neg hgt] at h
          by_cases hd : a = 'd'
          · rw [if_pos hd] at h
            subst hd
            match ap, h with
            | Out.d (some old) :: rest, h =>
              rcases some_fail_of_ite _ _ _ _ h with ⟨h1, h2⟩ | ⟨h1, h2⟩
              · simp only [Prod.mk.injEq] at h2
                obtain ⟨e1, e2, e3⟩ := h2
                subst e1 e2 e3
                apply frame_head malloc
                unfold bunpack_v
                simp only [Char.reduceEq, if_false, if_true]
                rw [if_pos h1]
              · obtain ⟨t, h3, h4⟩ := map_head_some _ _ _ _ _ h2
                subst h4
                refine frame_slot malloc 'd' (by simp) fmt le ds _ ds1 _ _ rest t code ?_
                  (ih le _ rest code ds1 t h3 hc)
                intro f r
                conv_lhs => unfold bunpack_v
                simp only [Char.reduceEq, if_false, if_true]
                rw [if_neg (by simpa using h1)]
            | Out.d none :: rest, h =>
              simp only [Option.some.injEq, Prod.mk.injEq] at h
              obtain ⟨e1, e2, e3⟩ := h
              subst e1 e2 e3
              apply frame_head malloc
              unfold bunpack_v
              simp only [Char.reduceEq, if_false, if_true]
          · rw [if_neg hd] at h
            by_cases hs : a = 's'
            · rw [if_pos hs] at h
              subst hs
              match ap, h with
              | Out.s (some old) :: rest, h =>
                rcases some_fail_of_ite _ _ _ _ h with ⟨h1, h2⟩ | ⟨h1, h2⟩
                · simp only [Prod.mk.injEq] at h2
                  obtain ⟨e1, e2, e3⟩ := h2
                  subst e1 e2 e3
                  apply frame_head malloc
                  unfold bunpack_v
                  simp only [Char.reduceEq, if_false, if_true]
                  rw [if_pos h1]
                · obtain ⟨t, h3, h4⟩ := map_head_some _ _ _ _ _ h2
                  subst h4
                  refine frame_slot malloc 's' (by simp) fmt le ds _ ds1 _ _ rest t code ?_
                    (ih le _ rest code ds1 t h3 hc)
                  intro f r
                  conv_lhs => unfold bunpack_v
                  simp only [Char.reduceEq, if_false, if_true]
                  rw [if_neg (by simpa using h1)]
              | Out.s none :: rest, h =>
                simp only [Option.some.injEq, Prod.mk.injEq] at h
                obtain ⟨e1, e2, e3⟩ := h
                subst e1 e2 e3
                apply frame_head malloc
                unfold bunpack_v
                simp only [Char.reduceEq, if_false, if_true]
            · rw [if_neg hs] at h
              by_cases hb : a = 'b'
              · rw [if_pos hb] at h
                subst hb
                match ap, h with
                | Out.b (some oldsize) (some old) :: rest, h =>
                  rcases some_fail_of_ite _ _ _ _ h with ⟨h1, h2⟩ | ⟨h1, h2⟩
                  · simp only [Prod.mk.injEq] at h2
                    obtain ⟨e1, e2, e3⟩ := h2
                    subst e1 e2 e3
                    apply frame_head malloc
                    unfold bunpack_v
                    simp only [Char.reduceEq, if_false, if_true]
                    rw [if_pos h1]
                  · obtain ⟨t, h3, h4⟩ := map_head_some _ _ _ _ _ h2
                    subst h4
                    refine frame_slot malloc 'b' (by simp) fmt le ds _ ds1 _ _ rest t code ?_
                      (ih le _ rest code ds1 t h3 hc)
                    intro f r
                    conv_lhs => unfold bunpack_v
                    simp only [Char.reduceEq, if_false, if_true]
                    rw [if_neg (by simpa using h1)]
                | Out.b none val :: rest, h =>
                  simp only [Option.some.injEq, Prod.mk.injEq] at h
                  obtain ⟨e1, e2, e3⟩ := h
                  subst e1 e2 e3
                  apply frame_head malloc
                  unfold bunpack_v
                  simp only [Char.reduceEq, if_false, if_true]
                | Out.b (some oldsize) none :: rest, h =>
                  simp only [Option.some.injEq, Prod.mk.injEq] at h
                  obtain ⟨e1, e2, e3⟩ := h
                  subst e1 e2 e3
                  apply frame_head malloc
                  unfold bunpack_v
                  simp only [Char.reduceEq, if_false, if_true]
              · rw [if_neg hb] at h
                simp only [Option.some.injEq, Prod.mk.injEq] at h
                obtain ⟨e1, e2, e3⟩ := h
                subst e1 e2 e3
                apply frame_head malloc
                unfold bunpack_v
                rw [if_neg hl, if_neg hlt, if_neg hgt, if_neg hd, if_neg hs, if_neg hb]

/-- C17: when `bunpack` returns a code other than `ERROR_OK`, whatever made the
slot fail (a read error, invalid data of a double, an allocation that `malloc`
refused, a NULL target or an invalid format character), the format splits at
the failing slot `c` behind the characters `pre`: unpacking with the format
`pre` alone succeeds and leaves, in the targets of the slots before `c`, the
values the failed call left there; the slot `c` fails with the returned code;
the targets of slot `c` and of every later slot are as before the call. -/
theorem bunpack_failure_frame (malloc : Nat → Bool) (f : String) (ds ds1 : data_store_t)
    (ap ap1 : List Out) (code : Int) (h : bunpack ds f ap malloc = some (code, ds1, ap1))
    (hc : code ≠ ERROR_OK) :
    ∃ pre c post ds0, f.toList = pre ++ c :: post ∧
      bunpack ds (String.mk pre) (ap.take (slots pre)) malloc
        = some (ERROR_OK, ds0, ap1.take (slots pre)) ∧
      bunpack_v [c] (little_endian_after true pre) ds0 (ap.drop (slots pre)) malloc
        = some (code, ds1, ap.drop (slots pre)) ∧
      ap1.drop (slots pre) = ap.drop (slots pre) :=
  bunpack_v_frame malloc f.toList true ds ap code ds1 ap1 h hc

set_option maxRecDepth 100000 in
/-- Witness of C17: the format `lb` on an integer followed by the length 2^40
and no content, with a `malloc` that gives up to 1000 bytes; the integer is
unpacked, the blob slot fails with `ERROR_MEMORY` after the length was read and
keeps its targets.  And the format `ll` on nine bytes: the second slot fails
with `ERROR_BPACK_READ`. -/
theorem bunpack_failure_frame_witness :
    bunpack ⟨[1, 0, 0, 0, 0, 0, 0, 0, 0, 0, 0, 0, 0, 1, 0, 0], 0⟩ "lb"
        [Out.l (some 5), Out.b (some 7) (some none)] (fun s => decide (s ≤ 1000))
      = some (ERROR_MEMORY, ⟨[1, 0, 0, 0, 0, 0, 0, 0, 0, 0, 0, 0, 0, 1, 0, 0], 16⟩,
          [Out.l (some 1), Out.b (some 7) (some none)]) ∧
    bunpack ⟨[1, 0, 0, 0, 0, 0, 0, 0, 9], 0⟩ "ll" [Out.l (some 5), Out.l (some 6)]
      = some (ERROR_BPACK_READ, ⟨[1, 0, 0, 0, 0, 0, 0, 0, 9], 9⟩,
          [Out.l (some 1), Out.l (some 6)]) ∧
    ∃ pre c post ds0, "lb".toList = pre ++ c :: post ∧
      bunpack ⟨[1, 0, 0, 0, 0, 0, 0, 0, 0, 0, 0, 0, 0, 1, 0, 0], 0⟩ (String.mk pre)
          ([Out.l (some 5), Out.b (some 7) (some none)].take (slots pre))
          (fun s => decide (s ≤ 1000))
        = some (ERROR_OK, ds0, [Out.l (some 1), Out.b (some 7) (some none)].take (slots pre)) ∧
      bunpack_v [c] (little_endian_after true pre) ds0
          ([Out.l (some 5), Out.b (some 7) (some none)].drop (slots pre))
          (fun s => decide (s ≤ 1000))
        = some (ERROR_MEMORY, ⟨[1, 0, 0, 0, 0, 0, 0, 0, 0, 0, 0, 0, 0, 1, 0, 0], 16⟩,
            [Out.l (some 5), Out.b (some 7) (some none)].drop (slots pre)) ∧
      [Out.l (some 1), Out.b (some 7) (some none)].drop (slots pre)
        = [Out.l (some 5), Out.b (some 7) (some none)].drop (slots pre) :=
  ⟨by decide, by decide,
    bunpack_failure_frame (fun s => decide (s ≤ 1000)) "lb"
      ⟨[1, 0, 0, 0, 0, 0, 0, 0, 0, 0, 0, 0, 0, 1, 0, 0], 0⟩
      ⟨[1, 0, 0, 0, 0, 0, 0, 0, 0, 0, 0, 0, 0, 1, 0, 0], 16⟩
      [Out.l (some 5), Out.b (some 7) (some none)] [Out.l (some 1), Out.b (some 7) (some none)]
      ERROR_MEMORY (by decide) (by decide)⟩

/-! ## C18 and C19: hmac and hmac_verify -/

/-- C18: for a non-empty key, a non-empty message and a tag `t` of 20 bytes,
`hmac_verify` returns `ERROR_OK` when `t` is the 20 bytes that `hmac` writes
for the key and the message, and `ERROR_HMAC_VERIFICATION_FAILED` otherwise; it
accepts the output of `hmac` for the same key and message. -/
theorem hmac_verify_tag (H : Sha1) (key message t : Bytes) (hk : key ≠ []) (hm : message ≠ [])
    (ht : t.length = 20) :
    hmac_verify H key message t
      = (if t = (hmac H key message).2 then ERROR_OK else ERROR_HMAC_VERIFICATION_FAILED) ∧
    (hmac H key message).1 = ERROR_OK ∧ (hmac H key message).2.length = 20 ∧
    hmac_verify H key message (hmac H key message).2 = ERROR_OK := by
  have hk0 : key.length ≠ 0 := fun h => hk (List.length_eq_zero.mp h)
  have hm0 : message.length ≠ 0 := fun h => hm (List.length_eq_zero.mp h)
  obtain ⟨h1, h2⟩ := hmac_length H key message hk0 hm0
  have hgen : ∀ u : Bytes, u.length = 20 → hmac_verify H key message u
      = (if u = (hmac H key message).2 then ERROR_OK else ERROR_HMAC_VERIFICATION_FAILED) := by
    intro u hu
    unfold hmac_verify
    rw [if_neg (by simp [hk0, hm0]), if_neg (by simp [h1])]
    have e1 : u.take SHA1_BLOCKSIZE = u := List.take_of_length_le (by rw [hu]; decide)
    have e2 : (hmac H key message).2.take SHA1_BLOCKSIZE = (hmac H key message).2 :=
      List.take_of_length_le (by rw [h2])
    rw [e1, e2]
    by_cases he : u = (hmac H key message).2
    · rw [if_neg (by simpa using he), if_pos he]
    · rw [if_pos he, if_neg he]
  refine ⟨hgen t ht, h1, h2, ?_⟩
  rw [hgen _ h2, if_pos rfl]

/-- Witness of C18: the key `01`, the message `02 03` and the example hash. -/
theorem hmac_verify_tag_witness :
    hmac_verify checksum_hash [1] [2, 3] (List.replicate 20 0)
      = (if List.replicate 20 0 = (hmac checksum_hash [1] [2, 3]).2 then ERROR_OK
          else ERROR_HMAC_VERIFICATION_FAILED) ∧
    (hmac checksum_hash [1] [2, 3]).1 = ERROR_OK ∧
    (hmac checksum_hash [1] [2, 3]).2.length = 20 ∧
    hmac_verify checksum_hash [1] [2, 3] (hmac checksum_hash [1] [2, 3]).2 = ERROR_OK :=
  hmac_verify_tag checksum_hash [1] [2, 3] (List.replicate 20 0) (by decide) (by decide)
    (by decide)

theorem zipWith_replicate (f : Byte → Byte → Byte) (c : Byte) : ∀ (l : Bytes) (n : Nat),
    l.length ≤ n → List.zipWith f l (List.replicate n c) = l.map (fun a => f a c) := by
  intro l
  induction l with
  | nil => intro n _; simp
  | cons a l ih =>
    intro n hn
    obtain ⟨m, rfl⟩ : ∃ m, n = m + 1 := ⟨n - 1, by simp at hn; omega⟩
    rw [List.replicate_succ, List.zipWith_cons_cons, ih m (by simpa using hn)]
    rfl

/-- C19: for a non-empty key `K` and a non-empty message `m`, `hmac` returns
`ERROR_OK` and writes the 20 bytes `H((K0 xor opad) || H((K0 xor ipad) || m))`
of RFC 2104 over the hash function, with 64-byte pads and a key of more than
64 bytes replaced by its hash; for an empty key or an empty message it returns
`ERROR_INVALID_ARGUMENTS`. -/
theorem hmac_is_rfc2104 (H : Sha1) (K m : Bytes) :
    (K ≠ [] → m ≠ [] →
      hmac H K m = (ERROR_OK, hmac_rfc2104 H K m) ∧ (hmac_rfc2104 H K m).length = 20) ∧
    (K = [] ∨ m = [] → (hmac H K m).1 = ERROR_INVALID_ARGUMENTS) := by
  constructor
  · intro hk hm
    have hk0 : K.length ≠ 0 := fun h => hk (List.length_eq_zero.mp h)
    have hm0 : m.length ≠ 0 := fun h => hm (List.length_eq_zero.mp h)
    have heq : hmac H K m = (ERROR_OK, hmac_rfc2104 H K m) := by
      unfold hmac hmac_rfc2104 xor_pad
      rw [if_neg (by simp [hk0, hm0])]
      dsimp only
      by_cases hlong : K.length > 64
      · rw [if_pos hlong, if_neg (by omega)]
        have hl : (H.hash K ++ List.replicate (64 - (H.hash K).length) 0).length ≤ 64 := by
          rw [List.length_append, List.length_replicate, H.hash_length]
          decide
        rw [zipWith_replicate _ _ _ 64 hl, zipWith_replicate _ _ _ 64 hl]
      · rw [if_neg hlong, if_pos (by omega)]
        have hl : (K ++ List.replicate (64 - K.length) 0).length ≤ 64 := by
          rw [List.length_append, List.length_replicate]
          omega
        rw [zipWith_replicate _ _ _ 64 hl, zipWith_replicate _ _ _ 64 hl]
    refine ⟨heq, ?_⟩
    unfold hmac_rfc2104
    exact H.hash_length _
  · intro h
    unfold hmac
    rw [if_pos (by rcases h with h | h <;> simp [h])]

/-- Witness of C19: the key `01`, the message `02 03` and the example hash. -/
theorem hmac_is_rfc2104_witness :
    (hmac checksum_hash [1] [2, 3] = (ERROR_OK, hmac_rfc2104 checksum_hash [1] [2, 3]) ∧
      (hmac_rfc2104 checksum_hash [1] [2, 3]).length = 20) ∧
    (hmac checksum_hash [] [2, 3]).1 = ERROR_INVALID_ARGUMENTS :=
  ⟨(hmac_is_rfc2104 checksum_hash [1] [2, 3]).1 (by decide) (by decide),
    (hmac_is_rfc2104 checksum_hash [] [2, 3]).2 (Or.inl rfl)⟩

/-! ## C20: an HMAC channel without a key -/

theorem ch_tagged_unkeyed (H : Sha1) (ch : channel_hmac_t) (m : Bytes) (hkey : ch.keyed = none) :
    ch_tagged H ch m = m := by
  unfold ch_tagged
  rw [hkey]

/-- C20 as stated fails for a non-empty message whose first byte is NUL: the
server channel accepts the server-send of the two bytes `00 01` and delivers
them to client-recv, but an HMAC channel without a key on top of it returns
`ERROR_INVALID_ARGUMENTS` for the server-send without calling its child, and
`ERROR_UNKNOWN` with no message for the client-recv. -/
theorem unkeyed_hmac_nul :
    ([0, 1] : Bytes) ≠ [] ∧
    (channel_server_write_bytes checksum_hash
        (channel_t.with_server (⟨none, ⟨0⟩⟩ : channel_server_t Nat)) [0, 1]
      = some (ERROR_OK, channel_t.with_server ⟨some [0, 1], ⟨0⟩⟩) ∧
      channel_server_write_bytes checksum_hash
        (channel_t.hmac ⟨none⟩ (channel_t.with_server (⟨none, ⟨0⟩⟩ : channel_server_t Nat))) [0, 1]
      = some (ERROR_INVALID_ARGUMENTS,
          channel_t.hmac ⟨none⟩ (channel_t.with_server ⟨none, ⟨0⟩⟩))) ∧
    (channel_client_read_bytes checksum_hash
        (channel_t.with_server (⟨some [0, 1], ⟨0⟩⟩ : channel_server_t Nat))
      = some (ERROR_OK, some [0, 1], channel_t.with_server ⟨none, ⟨0⟩⟩) ∧
      channel_client_read_bytes checksum_hash
        (channel_t.hmac ⟨none⟩ (channel_t.with_server (⟨some [0, 1], ⟨0⟩⟩ : channel_server_t Nat)))
      = some (ERROR_UNKNOWN, none, channel_t.hmac ⟨none⟩ (channel_t.with_server ⟨none, ⟨0⟩⟩))) := by
  decide

/-- C20, amended: for an HMAC channel on which no key is set and a message `m`
whose first byte is not NUL, client-send and server-send call the
corresponding send of the child with exactly the bytes of `m` (no tag is
appended) and return `ERROR_OK` when the child does and `ERROR_UNKNOWN`
otherwise; when the corresponding receive of the child returns `ERROR_OK` with
the message `m`, client-recv and server-recv return `ERROR_OK` with exactly the
bytes of `m`. -/
theorem unkeyed_hmac_passes {σ : Type} (H : Sha1) (S : Store σ) (ch : channel_hmac_t)
    (child : channel_t σ) (m : Bytes) (hkey : ch.keyed = none) (hm : strlen m ≠ 0) :
    (channel_client_write_bytes H S (channel_t.hmac ch child) m
        = (channel_client_write_bytes H S child m).map
            (fun r => (if r.1 ≠ ERROR_OK then ERROR_UNKNOWN else ERROR_OK, channel_t.hmac ch r.2)) ∧
      channel_server_write_bytes H (channel_t.hmac ch child) m
        = (channel_server_write_bytes H child m).map
            (fun r => (if r.1 ≠ ERROR_OK then ERROR_UNKNOWN else ERROR_OK, channel_t.hmac ch r.2))) ∧
    ((∀ child1, channel_client_read_bytes H child = some (ERROR_OK, some m, child1) →
        channel_client_read_bytes H (channel_t.hmac ch child)
          = some (ERROR_OK, some m, channel_t.hmac ch child1)) ∧
      (∀ child1, channel_server_read_bytes H child = some (ERROR_OK, some m, child1) →
        channel_server_read_bytes H (channel_t.hmac ch child)
          = some (ERROR_OK, some m, channel_t.hmac ch child1))) := by
  have hw := ch_write_message_tagged H ch m hm
  rw [ch_tagged_unkeyed H ch m hkey] at hw
  have hr : ∀ child1 : channel_t σ,
      ch_read_bytes H ch (ERROR_OK, some m, child1) = some (ERROR_OK, some m, child1) := by
    intro child1
    have := ch_read_bytes_tagged H ch m child1 hm
    rw [ch_tagged_unkeyed H ch m hkey] at this
    exact this
  refine ⟨⟨?_, ?_⟩, ?_, ?_⟩
  · rw [channel_client_write_bytes, if_neg (length_of_strlen m hm)]
    unfold ch_client_write_bytes
    rw [hw]
    dsimp only
    cases channel_client_write_bytes H S child m with
    | none => rfl
    | some r =>
      obtain ⟨ret, x⟩ := r
      by_cases h0 : ret = ERROR_OK
      · simp [h0]
      · simp [h0]
  · rw [channel_server_write_bytes, if_neg (length_of_strlen m hm)]
    unfold ch_server_write_bytes
    rw [hw]
    dsimp only
    cases channel_server_write_bytes H child m with
    | none => rfl
    | some r =>
      obtain ⟨ret, x⟩ := r
      by_cases h0 : ret = ERROR_OK
      · simp [h0]
      · simp [h0]
  · intro child1 h
    rw [channel_client_read_bytes, h]
    unfold ch_client_read_bytes
    dsimp only
    rw [hr]
    rfl
  · intro child1 h
    rw [channel_server_read_bytes, h]
    unfold ch_server_read_bytes
    dsimp only
    rw [hr]
    rfl

set_option maxRecDepth 100000 in
/-- Witness of C20: the message `message` on an HMAC channel without a key on
a server channel. -/
theorem unkeyed_hmac_passes_witness :
    channel_server_write_bytes checksum_hash
        (channel_t.hmac ⟨none⟩ (channel_t.with_server (⟨none, ⟨0⟩⟩ : channel_server_t Nat)))
        (ascii "message")
      = some (ERROR_OK, channel_t.hmac ⟨none⟩ (channel_t.with_server ⟨some (ascii "message"), ⟨0⟩⟩)) ∧
    channel_client_read_bytes checksum_hash
        (channel_t.hmac ⟨none⟩
          (channel_t.with_server (⟨some (ascii "message"), ⟨0⟩⟩ : channel_server_t Nat)))
      = some (ERROR_OK, some (ascii "message"),
          channel_t.hmac ⟨none⟩ (channel_t.with_server ⟨none, ⟨0⟩⟩)) :=
  ⟨(unkeyed_hmac_passes checksum_hash (constant_store DbCode.OK) ⟨none⟩
      (channel_t.with_server ⟨none, ⟨0⟩⟩) (ascii "message") rfl (by decide)).1.2,
    (unkeyed_hmac_passes checksum_hash (constant_store DbCode.OK) ⟨none⟩
      (channel_t.with_server ⟨some (ascii "message"), ⟨0⟩⟩) (ascii "message") rfl
      (by decide)).2.1 _ rfl⟩

/-! ## C21: client-send while a reply is pending -/

theorem cs_client_write_busy {σ : Type} (S : Store σ) (r : Bytes) (server : server_t σ)
    (m : Bytes) (hm : m.length ≠ 0) :
    cs_client_write_bytes S ⟨some r, server⟩ m = some (ERROR_CHANNEL_BUSY, ⟨some r, server⟩) := by
  unfold cs_client_write_bytes
  rw [if_neg hm, if_pos (by simp)]

/-- C21: a client-send of a message `m` whose first byte is not NUL, issued while
the server channel still holds the unclaimed reply `r`, leaves the pending reply
and the whole channel as they were, and returns `ERROR_CHANNEL_BUSY` on the
server channel itself, but `ERROR_UNKNOWN` on an HMAC channel around the server
channel and on every stack of one or more HMAC channels over the endpoint
connector: `ch_client_write_bytes` turns every failure of its child, the busy
answer included, into `ERROR_UNKNOWN`. -/
theorem client_send_busy {σ : Type} (H : Sha1) (S : Store σ) (r : Bytes) (server : server_t σ)
    (ch : channel_hmac_t) (chain : List channel_hmac_t) (hn : chain ≠ []) (m : Bytes)
    (hm : strlen m ≠ 0) :
    channel_client_write_bytes H S (channel_t.with_server ⟨some r, server⟩) m
      = some (ERROR_CHANNEL_BUSY, channel_t.with_server ⟨some r, server⟩) ∧
    channel_client_write_bytes H S (channel_t.hmac ch (channel_t.with_server ⟨some r, server⟩)) m
      = some (ERROR_UNKNOWN, channel_t.hmac ch (channel_t.with_server ⟨some r, server⟩)) ∧
    channel_client_write_bytes H S (channel_stack chain ⟨some r, server⟩) m
      = some (ERROR_UNKNOWN, channel_stack chain ⟨some r, server⟩) := by
  refine ⟨?_, ?_, ?_⟩
  · rw [channel_client_write_bytes, cs_client_write_busy S r server m (length_of_strlen m hm)]
    rfl
  · have e : channel_t.hmac ch (channel_t.with_server ⟨some r, server⟩)
        = hmac_stack [ch] (channel_t.with_server ⟨some r, server⟩) := rfl
    have hw : strlen (wrap H [ch] m) ≠ 0 := wrap_strlen H [ch] m hm
    rw [e, hmac_stack_client_write H S [ch] _ m hm, channel_client_write_bytes,
      cs_client_write_busy S r server _ (length_of_strlen _ hw)]
    simp [ERROR_CHANNEL_BUSY, ERROR_OK, ERROR_UNKNOWN]
  · unfold channel_stack
    rw [hmac_stack_client_write H S chain _ m hm, cec_client_write_wrapped H S chain _ m hm,
      cs_client_write_busy S r server m (length_of_strlen m hm)]
    simp [hn, ERROR_CHANNEL_BUSY, ERROR_OK, ERROR_UNKNOWN]

set_option maxRecDepth 100000 in
/-- Witness of C21: the request `PACKET_GET_INT` for the domain `d` and the key
`k` while the reply `01` is pending, with a keyed HMAC channel and with a stack
of two HMAC channels. -/
theorem client_send_busy_witness :
    ([⟨some [1]⟩, ⟨none⟩] : List channel_hmac_t) ≠ [] ∧
    strlen (request PACKET_GET_INT [100] [107] []) ≠ 0 ∧
    channel_client_write_bytes checksum_hash (constant_store DbCode.OK)
        (channel_t.hmac ⟨some [1]⟩ (channel_t.with_server ⟨some [1], ⟨0⟩⟩))
        (request PACKET_GET_INT [100] [107] [])
      = some (ERROR_UNKNOWN, channel_t.hmac ⟨some [1]⟩ (channel_t.with_server ⟨some [1], ⟨0⟩⟩)) :=
  ⟨by decide, by decide,
    (client_send_busy checksum_hash (constant_store DbCode.OK) [1] ⟨0⟩ ⟨some [1]⟩
      [⟨some [1]⟩, ⟨none⟩] (by decide) (request PACKET_GET_INT [100] [107] []) (by decide)).2.1⟩

/-! ## C22: the reply slot of the server channel -/

/-- C22: the reply slot of the server channel holds one message.  For non-empty
bytes `b`: server-send on the empty slot returns `ERROR_OK` and stores `b`, and
the client-recv that follows returns `ERROR_OK` with exactly `b` and empties the
slot; server-send on a slot that holds `old` returns `ERROR_CHANNEL_BUSY` and
keeps `old`; client-recv on the empty slot returns `ERROR_CHANNEL_BUSY` and
delivers nothing; server-recv returns `ERROR_INVALID_ARGUMENTS`, delivers
nothing and changes nothing. -/
theorem reply_slot_one_place {σ : Type} (H : Sha1) (server : server_t σ) (b old : Bytes)
    (cs : channel_server_t σ) (hb : b ≠ []) :
    channel_server_write_bytes H (channel_t.with_server ⟨none, server⟩) b
      = some (ERROR_OK, channel_t.with_server ⟨some b, server⟩) ∧
    channel_client_read_bytes H (channel_t.with_server ⟨some b, server⟩)
      = some (ERROR_OK, some b, channel_t.with_server ⟨none, server⟩) ∧
    channel_server_write_bytes H (channel_t.with_server ⟨some old, server⟩) b
      = some (ERROR_CHANNEL_BUSY, channel_t.with_server ⟨some old, server⟩) ∧
    channel_client_read_bytes H (channel_t.with_server ⟨none, server⟩)
      = some (ERROR_CHANNEL_BUSY, none, channel_t.with_server ⟨none, server⟩) ∧
    channel_server_read_bytes H (channel_t.with_server cs)
      = some (ERROR_INVALID_ARGUMENTS, none, channel_t.with_server cs) := by
  have hl : b.length ≠ 0 := fun h => hb (List.length_eq_zero.mp h)
  refine ⟨?_, ?_, ?_, ?_, ?_⟩
  · rw [channel_server_write_bytes]
    unfold cs_server_write_bytes
    rw [if_neg hl, if_neg (by simp)]
  · rw [channel_client_read_bytes]
    rfl
  · rw [channel_server_write_bytes]
    unfold cs_server_write_bytes
    rw [if_neg hl, if_pos (by simp)]
  · rw [channel_client_read_bytes]
    rfl
  · rw [channel_server_read_bytes]

/-- Witness of C22: the reply `01 02` on a server channel, a slot that holds
`03`. -/
theorem reply_slot_one_place_witness :
    ([1, 2] : Bytes) ≠ [] ∧
    channel_server_write_bytes checksum_hash
        (channel_t.with_server (⟨none, ⟨0⟩⟩ : channel_server_t Nat)) [1, 2]
      = some (ERROR_OK, channel_t.with_server ⟨some [1, 2], ⟨0⟩⟩) ∧
    channel_client_read_bytes checksum_hash
        (channel_t.with_server (⟨some [1, 2], ⟨0⟩⟩ : channel_server_t Nat))
      = some (ERROR_OK, some [1, 2], channel_t.with_server ⟨none, ⟨0⟩⟩) :=
  ⟨by decide,
    (reply_slot_one_place checksum_hash ⟨0⟩ [1, 2] [3] ⟨none, ⟨0⟩⟩ (by decide)).1,
    (reply_slot_one_place checksum_hash ⟨0⟩ [1, 2] [3] ⟨none, ⟨0⟩⟩ (by decide)).2.1⟩

/-! ## C23: the shutdown request -/

set_option maxRecDepth 100000 in
/-- C23 as stated fails: for the request that is the tag byte 19 alone,
`server_process` reads the tag, fails to unpack the domain and the key with
`ERROR_BPACK_READ`, skips the switch, does not close the database, answers with
the error packet for the code 7 and returns `ERROR_OK`. -/
theorem shutdown_tag_alone :
    server_process (constant_store DbCode.OK) ⟨0⟩ [PACKET_SHUTDOWN]
      = some (ERROR_OK, some (error_response ERROR_BPACK_READ), ⟨0⟩) ∧
    ERROR_OK ≠ ERROR_SERVER_SHUTDOWN := by
  decide

theorem server_dispatch_shutdown {σ : Type} (S : Store σ) (server s1 : server_t σ)
    (domain key : Bytes) (ds rds : data_store_t)
    (hs : server_shutdown S server = some (ERROR_OK, s1)) :
    server_dispatch S server PACKET_SHUTDOWN domain key ds rds
      = some (ERROR_SERVER_SHUTDOWN, rds, s1) := by
  unfold server_dispatch
  rw [if_neg (by decide), if_neg (by decide), if_neg (by decide), if_neg (by decide),
    if_neg (by decide), if_neg (by decide), if_neg (by decide), if_neg (by decide),
    if_neg (by decide), if_neg (by decide), if_pos rfl, hs]
  dsimp only
  rw [if_neg (by simp)]

theorem server_send_shutdown {σ : Type} (rds : data_store_t) (s1 : server_t σ) :
    server_send ERROR_SERVER_SHUTDOWN rds s1 = some (ERROR_SERVER_SHUTDOWN, none, s1) := by
  unfold server_send
  rw [if_neg (show ¬ ERROR_SERVER_SHUTDOWN = ERROR_OK by decide)]
  dsimp only
  rw [if_neg (by simp)]

/-- C23, amended: for a request that consists of the SHUTDOWN tag byte (19)
followed by a packed domain and a packed key (two C strings, as in every other
request; what follows them is not read), on a server whose database closes with
`ERROR_OK`, `server_process` closes the database, returns
`ERROR_SERVER_SHUTDOWN` and produces no response packet. -/
theorem shutdown_request {σ : Type} (S : Store σ) (server : server_t σ)
    (domain key payload : Bytes) (db1 : σ)
    (hd : is_c_string domain) (hk : is_c_string key)
    (hclose : S.close server.db = some (DbCode.OK, db1)) :
    server_process S server (request PACKET_SHUTDOWN domain key payload)
      = some (ERROR_SERVER_SHUTDOWN, none, ⟨db1⟩) := by
  have hs : server_shutdown S server = some (ERROR_OK, ⟨db1⟩) := by
    unfold server_shutdown
    rw [hclose]
    dsimp only
    rw [if_neg (by simp)]
  rw [server_process_request S server PACKET_SHUTDOWN domain key payload (by decide) hd hk,
    server_dispatch_shutdown S server ⟨db1⟩ domain key _ _ hs]
  rw [Option.some_bind]
  exact server_send_shutdown _ _

set_option maxRecDepth 100000 in
/-- Witness of C23: the shutdown request with the domain `d` and the key `k`. -/
theorem shutdown_request_witness :
    is_c_string [100] ∧ is_c_string [107] ∧
    (constant_store DbCode.OK).close (⟨0⟩ : server_t Nat).db = some (DbCode.OK, 1) ∧
    server_process (constant_store DbCode.OK) ⟨0⟩ (request PACKET_SHUTDOWN [100] [107] [])
      = some (ERROR_SERVER_SHUTDOWN, none, ⟨1⟩) :=
  ⟨by decide, by decide, rfl,
    shutdown_request (constant_store DbCode.OK) ⟨0⟩ [100] [107] [] 1 (by decide) (by decide) rfl⟩

/-! ## C24: the enumeration of keys -/

theorem key_le_refl : ∀ a : Bytes, key_le a a = true
  | [] => rfl
  | a :: s => by
    unfold key_le
    simp [key_le_refl s]

theorem key_le_total : ∀ a b : Bytes, key_le a b = true ∨ key_le b a = true
  | [], _ => Or.inl rfl
  | _ :: _, [] => Or.inr rfl
  | a :: s, b :: t => by
    unfold key_le
    rcases lt_trichotomy a b with h | h | h
    · left
      simp [h]
    · subst h
      rcases key_le_total s t with h1 | h1
      · left
        simp [h1]
      · right
        simp [h1]
    · right
      simp [h]

theorem key_le_trans : ∀ a b c : Bytes, key_le a b = true → key_le b c = true → key_le a c = true
  | [], _, _, _, _ => by unfold key_le; rfl
  | _ :: _, [], _, h, _ => by unfold key_le at h; cases h
  | _ :: _, _ :: _, [], _, h => by unfold key_le at h; cases h
  | a :: s, b :: t, c :: u, h1, h2 => by
    unfold key_le at h1 h2 ⊢
    simp only [Bool.or_eq_true, Bool.and_eq_true, decide_eq_true_eq] at h1 h2 ⊢
    rcases h1 with h1 | ⟨h1, h1t⟩
    · rcases h2 with h2 | ⟨h2, _⟩
      · exact Or.inl (lt_trans h1 h2)
      · subst h2
        exact Or.inl h1
    · subst h1
      rcases h2 with h2 | ⟨h2, h2t⟩
      · exact Or.inl h2
      · exact Or.inr ⟨h2, key_le_trans s t u h1t h2t⟩

theorem key_le_lex : ∀ a b : Bytes, key_le a b = true → a ≠ b → List.Lex (fun x y => x < y) a b
  | [], [], _, h => (h rfl).elim
  | [], _ :: _, _, _ => List.Lex.nil
  | _ :: _, [], h, _ => by unfold key_le at h; cases h
  | a :: s, b :: t, h, hne => by
    unfold key_le at h
    simp only [Bool.or_eq_true, Bool.and_eq_true, decide_eq_true_eq] at h
    rcases h with h | ⟨h, ht⟩
    · exact List.Lex.rel h
    · subst h
      exact List.Lex.cons (key_le_lex s t ht (fun e => hne (by rw [e])))

theorem enum_keys_loop_eq : ∀ (ks : List Bytes) (c : Nat) (buf : Bytes) (keys : Option Bytes),
    (∀ k ∈ ks, (0 : Byte) ∉ k) → keys.getD [] = buf →
    buf.length + (ks.map (fun k => k.length + 1)).sum ≤ 2 ^ 32 →
    enum_keys_loop ks c buf.length keys
      = some (c + ks.length, buf.length + (ks.map (fun k => k.length + 1)).sum,
          if ks = [] then keys else some (buf ++ ks.flatMap (fun k => k ++ [0])))
  | [], c, buf, keys, _, _, _ => by
    unfold enum_keys_loop
    simp
  | k :: ks, c, buf, keys, hz, hb, hs => by
    have hk : cstr k = k := cstr_of_no_zero k (hz k (List.mem_cons_self _ _))
    have hl : strlen k = k.length := by unfold strlen; rw [hk]
    simp only [List.map_cons, List.sum_cons] at hs
    unfold enum_keys_loop
    rw [hl, if_neg (by omega), hb, hk, List.take_length]
    have e : buf.length + k.length + 1 = (buf ++ k ++ [0]).length := by
      simp only [List.length_append, List.length_singleton]
    rw [e, enum_keys_loop_eq ks (c + 1) (buf ++ k ++ [0]) (some (buf ++ k ++ [0]))
      (fun x hx => hz x (List.mem_cons_of_mem _ hx)) rfl (by rw [← e]; omega)]
    simp only [List.map_cons, List.sum_cons, List.length_cons, List.flatMap_cons,
      if_neg (List.cons_ne_nil k ks), List.length_append, List.length_singleton]
    by_cases hn : ks = []
    · subst hn
      simp
      omega
    · rw [if_neg hn]
      simp only [List.append_assoc, Option.some.injEq, Prod.mk.injEq, and_true, List.length_nil]
      constructor
      · omega
      · omega

theorem select_keys_perm (G : Glob) (db : sqlite3) (dom pat : Bytes) :
    (select_keys G db dom pat).Perm
      ((db.KeyInfo.filter (fun r => decide (r.domain = some dom) && G.glob pat r.key)).map
        (fun r => r.key)) :=
  List.perm_insertionSort _ _

theorem select_keys_mem (G : Glob) (db : sqlite3) (dom pat k : Bytes) :
    k ∈ select_keys G db dom pat
      ↔ ∃ r ∈ db.KeyInfo, r.domain = some dom ∧ r.key = k ∧ G.glob pat k = true := by
  rw [(select_keys_perm G db dom pat).mem_iff]
  simp only [List.mem_map, List.mem_filter, Bool.and_eq_true, decide_eq_true_eq]
  constructor
  · rintro ⟨r, ⟨hr, hd, hg⟩, rfl⟩
    exact ⟨r, hr, hd, rfl, hg⟩
  · rintro ⟨r, hr, hd, rfl, hg⟩
    exact ⟨r, ⟨hr, hd, hg⟩, rfl⟩

theorem select_keys_nodup (G : Glob) (db : sqlite3) (hc : clean db) (dom pat : Bytes) :
    (select_keys G db dom pat).Nodup := by
  rw [(select_keys_perm G db dom pat).nodup_iff]
  have hn : db.KeyInfo.Nodup := List.Nodup.of_map _ hc.1
  refine List.Nodup.map_on ?_ (hn.filter _)
  intro r1 h1 r2 h2 hk
  simp only [List.mem_filter, Bool.and_eq_true, decide_eq_true_eq] at h1 h2
  exact hc.2.2.1 r1 h1.1 r2 h2.1 (by rw [h1.2.1, h2.2.1]) hk

theorem select_keys_sorted (G : Glob) (db : sqlite3) (dom pat : Bytes) :
    (select_keys G db dom pat).Pairwise (fun a b => key_le a b = true) := by
  haveI : IsTotal Bytes (fun a b => key_le a b = true) := ⟨key_le_total⟩
  haveI : IsTrans Bytes (fun a b => key_le a b = true) := ⟨key_le_trans⟩
  exact List.sorted_insertionSort _ _

theorem select_keys_sum (G : Glob) (db : sqlite3) (dom pat : Bytes) :
    ((select_keys G db dom pat).map (fun k => k.length + 1)).sum
      ≤ (db.KeyInfo.map (fun r => r.key.length + 1)).sum := by
  rw [((select_keys_perm G db dom pat).map _).sum_eq, List.map_map]
  exact List.Sublist.sum_le_sum ((List.filter_sublist _).map _) (fun _ _ => Nat.zero_le _)

/-- C24: on a clean database whose keys are non-empty C strings of less than
2^32 bytes altogether (terminators counted), for every non-empty domain and
every pattern, `database_enum_keys`, called with `*count = 0`, `*size = 0` and
`*keys = NULL`, returns `ERROR_OK` with a list `ks` of keys in `*keys`, each
followed by one NUL byte (`*keys` stays NULL when `ks` is empty): `ks` is
strictly ascending in the lexicographic order of the bytes, it holds exactly the
keys of the domain that the pattern matches, `*count` is the number of keys in
`ks` and `*size` the sum of `len(key) + 1` over `ks`; with the empty pattern
`ks` is empty, so that the count and the size are 0. -/
theorem enum_keys_sorted {φ : Type} (G : Glob) (handle : database_handle_t φ)
    (domain pattern : Bytes) (hb : strlen handle.blobpath ≠ 0) (hd : strlen domain ≠ 0)
    (hc : clean handle.db)
    (hk : ∀ r ∈ handle.db.KeyInfo, r.key ≠ [] ∧ (0 : Byte) ∉ r.key)
    (hs : (handle.db.KeyInfo.map (fun r => r.key.length + 1)).sum ≤ 2 ^ 32) :
    ∃ ks : List Bytes,
      database_enum_keys G handle domain pattern 0 0 none
        = some (DbCode.OK, ks.length, (ks.map (fun k => k.length + 1)).sum,
            if ks = [] then none else some (ks.flatMap (fun k => k ++ [0]))) ∧
      ks.Pairwise (List.Lex (fun x y => x < y)) ∧
      (∀ k, k ∈ ks ↔ ∃ r ∈ handle.db.KeyInfo,
        r.domain = some (cstr domain) ∧ r.key = k ∧ G.glob (cstr pattern) k = true) ∧
      (cstr pattern = [] → ks = []) := by
  refine ⟨select_keys G handle.db (cstr domain) (cstr pattern), ?_, ?_, ?_, ?_⟩
  · unfold database_enum_keys
    rw [if_neg (by simp [hb, hd])]
    have hz : ∀ k ∈ select_keys G handle.db (cstr domain) (cstr pattern), (0 : Byte) ∉ k := by
      intro k hmem
      obtain ⟨r, hr, _, rfl, _⟩ := (select_keys_mem G handle.db _ _ k).mp hmem
      exact (hk r hr).2
    have h := enum_keys_loop_eq (select_keys G handle.db (cstr domain) (cstr pattern)) 0 [] none
      hz rfl (by
        have := select_keys_sum G handle.db (cstr domain) (cstr pattern)
        simp only [List.length_nil]
        omega)
    simp only [List.length_nil, Nat.zero_add, List.nil_append] at h
    rw [h]
    rfl
  · have h1 := (select_keys_sorted G handle.db (cstr domain) (cstr pattern)).and
      (select_keys_nodup G handle.db hc (cstr domain) (cstr pattern))
    exact h1.imp (fun h => key_le_lex _ _ h.1 h.2)
  · exact select_keys_mem G handle.db _ _
  · intro hp
    rw [hp]
    apply List.eq_nil_iff_forall_not_mem.mpr
    intro k hmem
    obtain ⟨r, hr, _, rfl, hg⟩ := (select_keys_mem G handle.db _ _ k).mp hmem
    exact (hk r hr).1 ((G.empty_pattern r.key).mp hg)

set_option maxRecDepth 100000 in
/-- Witness of C24: the enumeration test of `test.c`, the pattern `key*` in the
domain `enum`; the call returns the count 3, the size 15 and the keys `key1`,
`key2`, `key3`. -/
theorem enum_keys_sorted_witness :
    strlen enum_database.blobpath ≠ 0 ∧ strlen [101, 110, 117, 109] ≠ 0 ∧
    clean enum_database.db ∧
    (∀ r ∈ enum_database.db.KeyInfo, r.key ≠ [] ∧ (0 : Byte) ∉ r.key) ∧
    (enum_database.db.KeyInfo.map (fun r => r.key.length + 1)).sum ≤ 2 ^ 32 ∧
    database_enum_keys star_glob enum_database [101, 110, 117, 109] [107, 101, 121, 42] 0 0 none
      = some (DbCode.OK, 3, 15,
          some [107, 101, 121, 49, 0, 107, 101, 121, 50, 0, 107, 101, 121, 51, 0]) ∧
    ∃ ks : List Bytes,
      database_enum_keys star_glob enum_database [101, 110, 117, 109] [107, 101, 121, 42] 0 0 none
        = some (DbCode.OK, ks.length, (ks.map (fun k => k.length + 1)).sum,
            if ks = [] then none else some (ks.flatMap (fun k => k ++ [0]))) ∧
      ks.Pairwise (List.Lex (fun x y => x < y)) ∧
      (∀ k, k ∈ ks ↔ ∃ r ∈ enum_database.db.KeyInfo,
        r.domain = some (cstr [101, 110, 117, 109]) ∧ r.key = k ∧
          star_glob.glob (cstr [107, 101, 121, 42]) k = true) ∧
      (cstr [107, 101, 121, 42] = [] → ks = []) :=
  have hc : clean enum_database.db :=
    ⟨by decide, fun t => by cases t <;> decide, by decide,
      fun t id => by
        cases t <;> simp [value_table, enum_database]
        constructor
        · rintro (h | h | h | h) <;> simp [h]
        · rintro (h | h | h | h) <;> simp [h],
      by decide⟩
  ⟨by decide, by decide, hc, by decide, by decide, by decide,
    enum_keys_sorted star_glob enum_database [101, 110, 117, 109] [107, 101, 121, 42]
      (by decide) (by decide) hc (by decide) (by decide)⟩

/-! ## C25: a set over a key that holds a blob -/

set_option maxRecDepth 100000 in
/-- C25 at the failing input: on the database without rows the blob `01` is set
for the domain `d` and the key `k`, which creates the blob file `/b/d/k`.  A
following `database_set_double` (and likewise `database_set_string`) for the
same domain and key returns `ERROR_OK`, the key then holds the double (the
string), and the blob file `/b/d/k` still exists; after `database_set_int64`
instead the file is gone. -/
theorem set_over_blob_keeps_file :
    (database_set_blob file_list empty_database [100] [107] [1]).bind
        (fun r => (database_set_double file_list r.2 [100] [107] 0).map
          (fun r2 => (r.1, file_list.stat r.2.fs [47, 98, 47, 100, 47, 107], r2.1,
            database_get_double r2.2 [100] [107], database_get_blob file_list r2.2 [100] [107],
            file_list.stat r2.2.fs [47, 98, 47, 100, 47, 107])))
      = some (DbCode.OK, some FileKind.regular, DbCode.OK, (DbCode.OK, some 0),
          (DbCode.DATABASE_NO_SUCH_KEY, none), some FileKind.regular) ∧
    (database_set_blob file_list empty_database [100] [107] [1]).bind
        (fun r => (database_set_string file_list r.2 [100] [107] [120]).map
          (fun r2 => (r.1, file_list.stat r.2.fs [47, 98, 47, 100, 47, 107], r2.1,
            database_get_string r2.2 [100] [107], database_get_blob file_list r2.2 [100] [107],
            file_list.stat r2.2.fs [47, 98, 47, 100, 47, 107])))
      = some (DbCode.OK, some FileKind.regular, DbCode.OK, (DbCode.OK, some [120]),
          (DbCode.DATABASE_NO_SUCH_KEY, none), some FileKind.regular) ∧
    (database_set_blob file_list empty_database [100] [107] [1]).bind
        (fun r => (database_set_int64 file_list r.2 [100] [107] 5).map
          (fun r2 => (r.1, file_list.stat r.2.fs [47, 98, 47, 100, 47, 107], r2.1,
            database_get_int64 r2.2 [100] [107], database_get_blob file_list r2.2 [100] [107],
            file_list.stat r2.2.fs [47, 98, 47, 100, 47, 107])))
      = some (DbCode.OK, some FileKind.regular, DbCode.OK, (DbCode.OK, some 5),
          (DbCode.DATABASE_NO_SUCH_KEY, none), none) := by
  refine ⟨?_, ?_, ?_⟩
  · rfl
  · rfl
  · rfl

/-! ## C26: the argument checks of the registry operations -/

theorem registry_call_invalid {σ : Type} (H : Sha1) (S : Store σ)
    (handle : Option (registry_t σ)) (key : Option Bytes) (args_ok : Bool) (tag : Byte)
    (fmt : String) (ap : Bytes → Bytes → List Arg)
    (h : null_or_empty handle key ∨ args_ok = false) :
    registry_call H S handle key false args_ok tag fmt ap
      = some (ERROR_INVALID_ARGUMENTS, none, handle) := by
  unfold registry_call
  split
  · rename_i channel domain k
    rw [if_pos]
    rcases h with h | h
    · rcases h with h | ⟨x, hx, h⟩ | h | ⟨x, hx, h⟩
      · cases h
      · injection hx with hx
        subst hx
        rcases h with h | h | ⟨d, hd, h⟩
        · cases h
        · cases h
        · injection hd with hd
          subst hd
          exact Or.inl h
      · cases h
      · injection hx with hx
        subst hx
        exact Or.inr (Or.inl ⟨h, rfl⟩)
    · exact Or.inr (Or.inr h)
  · rfl

theorem bpack_request_sss (tag : Byte) (domain key value : Bytes) :
    bpack (data_store_write_byte (simple_memory_buffer_new []) tag).2 "sss"
        [Arg.s (some domain), Arg.s (some key), Arg.s (some value)]
      = some (ERROR_OK, ⟨request tag domain key (enc_s true value),
          (request tag domain key (enc_s true value)).length⟩) := by
  have hw : (data_store_write_byte (simple_memory_buffer_new []) tag).2
      = ⟨[tag], ([tag] : Bytes).length⟩ := by
    simp [data_store_write_byte, simple_memory_buffer_write, simple_memory_buffer_new,
      simple_memory_buffer_t.size]
  rw [hw]
  have hfmt : "sss".toList = ['s', 's', 's'] := by decide
  simp only [bpack, hfmt, bpack_v, Char.reduceEq, if_false, if_true, bpack_s_append, ne_eq,
    not_true_eq_false]
  simp [request]

theorem bpack_request_ssb (tag : Byte) (domain key value : Bytes) :
    bpack (data_store_write_byte (simple_memory_buffer_new []) tag).2 "ssb"
        [Arg.s (some domain), Arg.s (some key), Arg.b (some value)]
      = some (ERROR_OK, ⟨request tag domain key (enc_b true value),
          (request tag domain key (enc_b true value)).length⟩) := by
  have hw : (data_store_write_byte (simple_memory_buffer_new []) tag).2
      = ⟨[tag], ([tag] : Bytes).length⟩ := by
    simp [data_store_write_byte, simple_memory_buffer_write, simple_memory_buffer_new,
      simple_memory_buffer_t.size]
  rw [hw]
  have hfmt : "ssb".toList = ['s', 's', 'b'] := by decide
  simp only [bpack, hfmt, bpack_v, Char.reduceEq, if_false, if_true, bpack_s_append,
    bpack_b_append, ne_eq, not_true_eq_false]
  simp [request]

/-- The exchange of a set operation whose request `req` is accepted by the
channel and whose reply is the byte `PACKET_OK`. -/
theorem registry_call_set {σ : Type} (H : Sha1) (S : Store σ)
    (channel channel1 channel2 : channel_t σ) (domain key req : Bytes) (tag : Byte)
    (fmt : String) (ap : Bytes → Bytes → List Arg)
    (hd : strlen domain ≠ 0) (hk : strlen key ≠ 0)
    (hp : bpack (data_store_write_byte (simple_memory_buffer_new []) tag).2 fmt (ap domain key)
      = some (ERROR_OK, ⟨req, req.length⟩))
    (hw : channel_client_write_bytes H S channel req = some (ERROR_OK, channel1))
    (hr : channel_client_read_bytes H channel1 = some (ERROR_OK, some [PACKET_OK], channel2)) :
    registry_call H S (some ⟨some channel, some domain⟩) (some key) false true tag fmt ap
      = some (ERROR_OK, some [PACKET_OK], some ⟨some channel2, some domain⟩) := by
  unfold registry_call registry_exchange
  have hw0 : (data_store_write_byte (simple_memory_buffer_new []) tag).1 = ERROR_OK := rfl
  simp only [hd, hk, false_and, or_self, if_false, hw0, ne_eq, not_true_eq_false,
    hp, simple_memory_buffer_get_data, hw, hr, Option.map_some']
  simp [ERROR_OK, ERROR_CHANNEL_BUSY]

/-- C26: each of `registry_get_int64`, `registry_set_int64`,
`registry_get_double`, `registry_set_double`, `registry_get_string`,
`registry_set_string`, `registry_get_blob`, `registry_set_blob` and
`registry_key_get_value_type` returns `ERROR_INVALID_ARGUMENTS` and leaves the
handle with its channel and the output variables as they were, when the handle,
its domain, its channel or the key is NULL, or the domain or the key is the
empty string, and a get operation also when an output pointer is NULL.  The
empty string and a blob of the size 0 are accepted as values: on a channel that
accepts the request (the packed value being the length 0 alone) and delivers the
reply `PACKET_OK`, `registry_set_string` and `registry_set_blob` return
`ERROR_OK`. -/
theorem registry_invalid_arguments {σ : Type} (H : Sha1) (S : Store σ)
    (handle : Option (registry_t σ)) (key : Option Bytes) :
    (null_or_empty handle key →
      (∀ value, registry_set_int64 H S handle key value
        = some (ERROR_INVALID_ARGUMENTS, handle)) ∧
      (∀ value, registry_set_double H S handle key value
        = some (ERROR_INVALID_ARGUMENTS, handle)) ∧
      (∀ value, registry_set_string H S handle key value
        = some (ERROR_INVALID_ARGUMENTS, handle)) ∧
      (∀ value, registry_set_blob H S handle key value
        = some (ERROR_INVALID_ARGUMENTS, handle))) ∧
    (∀ value, null_or_empty handle key ∨ value = none →
      registry_get_int64 H S handle key value
        = some (ERROR_INVALID_ARGUMENTS, value, handle)) ∧
    (∀ value, null_or_empty handle key ∨ value = none →
      registry_get_double H S handle key value
        = some (ERROR_INVALID_ARGUMENTS, value, handle)) ∧
    (∀ value, null_or_empty handle key ∨ value = none →
      registry_get_string H S handle key value
        = some (ERROR_INVALID_ARGUMENTS, value, handle)) ∧
    (∀ value size, null_or_empty handle key ∨ value = none ∨ size = none →
      registry_get_blob H S handle key value size
        = some (ERROR_INVALID_ARGUMENTS, value, size, handle)) ∧
    (∀ type, null_or_empty handle key ∨ type = none →
      registry_key_get_value_type H S handle key type
        = some (ERROR_INVALID_ARGUMENTS, type, handle)) ∧
    (∀ (channel channel1 channel2 : channel_t σ) (domain k : Bytes),
      handle = some ⟨some channel, some domain⟩ → key = some k →
      strlen domain ≠ 0 → strlen k ≠ 0 →
      channel_client_read_bytes H channel1 = some (ERROR_OK, some [PACKET_OK], channel2) →
      (channel_client_write_bytes H S channel
          (request PACKET_SET_STRING domain k (enc_l true 0)) = some (ERROR_OK, channel1) →
        registry_set_string H S handle key (some [])
          = some (ERROR_OK, some ⟨some channel2, some domain⟩)) ∧
      (channel_client_write_bytes H S channel
          (request PACKET_SET_BLOB domain k (enc_l true 0)) = some (ERROR_OK, channel1) →
        registry_set_blob H S handle key (some [])
          = some (ERROR_OK, some ⟨some channel2, some domain⟩))) := by
  refine ⟨?_, ?_, ?_, ?_, ?_, ?_, ?_⟩
  · intro h
    refine ⟨?_, ?_, ?_, ?_⟩
    · intro value
      unfold registry_set_int64
      rw [registry_call_invalid H S handle key _ _ _ _ (Or.inl h)]
      rfl
    · intro value
      unfold registry_set_double
      rw [registry_call_invalid H S handle key _ _ _ _ (Or.inl h)]
      rfl
    · intro value
      unfold registry_set_string
      rw [registry_call_invalid H S handle key _ _ _ _ (Or.inl h)]
      rfl
    · intro value
      unfold registry_set_blob
      rw [registry_call_invalid H S handle key _ _ _ _ (Or.inl h)]
      rfl
  · intro value h
    unfold registry_get_int64
    rw [registry_call_invalid H S handle key _ _ _ _
      (h.imp id (fun e => by rw [e]; rfl))]
    rfl
  · intro value h
    unfold registry_get_double
    rw [registry_call_invalid H S handle key _ _ _ _
      (h.imp id (fun e => by rw [e]; rfl))]
    rfl
  · intro value h
    unfold registry_get_string
    rw [registry_call_invalid H S handle key _ _ _ _
      (h.imp id (fun e => by rw [e]; rfl))]
    rfl
  · intro value size h
    unfold registry_get_blob
    rw [registry_call_invalid H S handle key _ _ _ _
      (h.imp id (fun e => by
        rcases e with e | e
        · rw [e]; rfl
        · rw [e]; simp))]
    rfl
  · intro type h
    unfold registry_key_get_value_type
    rw [registry_call_invalid H S handle key _ _ _ _
      (h.imp id (fun e => by rw [e]; rfl))]
    rfl
  · intro channel channel1 channel2 domain k hh hkey hd hk hr
    subst hh hkey
    have e0 : enc_s true [] = enc_l true 0 := by decide
    have eb : enc_b true [] = enc_l true 0 := by decide
    have hs : (some ([] : Bytes)).isSome = true := rfl
    constructor
    · intro hw
      unfold registry_set_string
      rw [hs, registry_call_set H S channel channel1 channel2 domain k
        (request PACKET_SET_STRING domain k (enc_s true [])) PACKET_SET_STRING "sss" _
        hd hk (bpack_request_sss PACKET_SET_STRING domain k []) (by rw [e0]; exact hw) hr]
      rfl
    · intro hw
      unfold registry_set_blob
      rw [hs, registry_call_set H S channel channel1 channel2 domain k
        (request PACKET_SET_BLOB domain k (enc_b true [])) PACKET_SET_BLOB "ssb" _
        hd hk (bpack_request_ssb PACKET_SET_BLOB domain k []) (by rw [eb]; exact hw) hr]
      rfl

set_option maxRecDepth 100000 in
/-- Witness of C26: `registry_get_int64` on a handle whose domain is the empty
string, and `registry_set_blob` with a blob of the size 0 for the domain `d` and
the key `k` on a server channel whose store accepts the set. -/
theorem registry_invalid_arguments_witness :
    null_or_empty (some (⟨some (channel_t.with_server ⟨none, ⟨0⟩⟩), some []⟩ : registry_t Nat))
      (some [107]) ∧
    registry_get_int64 checksum_hash (constant_store DbCode.OK)
        (some ⟨some (channel_t.with_server ⟨none, ⟨0⟩⟩), some []⟩) (some [107]) (some 5)
      = some (ERROR_INVALID_ARGUMENTS, some 5,
          some ⟨some (channel_t.with_server ⟨none, ⟨0⟩⟩), some []⟩) ∧
    registry_set_blob checksum_hash (constant_store DbCode.OK)
        (some ⟨some (channel_t.with_server ⟨none, ⟨0⟩⟩), some [100]⟩) (some [107]) (some [])
      = some (ERROR_OK, some ⟨some (channel_t.with_server ⟨none, ⟨1⟩⟩), some [100]⟩) :=
  have h : null_or_empty
      (some (⟨some (channel_t.with_server ⟨none, ⟨0⟩⟩), some []⟩ : registry_t Nat))
      (some [107]) :=
    Or.inr (Or.inl ⟨_, rfl, Or.inr (Or.inr ⟨[], rfl, rfl⟩)⟩)
  ⟨h,
    (registry_invalid_arguments checksum_hash (constant_store DbCode.OK)
      (some ⟨some (channel_t.with_server ⟨none, ⟨0⟩⟩), some []⟩) (some [107])).2.1
      (some 5) (Or.inl h),
    ((registry_invalid_arguments checksum_hash (constant_store DbCode.OK)
      (some ⟨some (channel_t.with_server ⟨none, ⟨0⟩⟩), some [100]⟩) (some [107])).2.2.2.2.2.2
      (channel_t.with_server ⟨none, ⟨0⟩⟩) (channel_t.with_server ⟨some [PACKET_OK], ⟨1⟩⟩)
      (channel_t.with_server ⟨none, ⟨1⟩⟩) [100] [107] rfl rfl (by decide) (by decide)
      (by decide)).2 (by decide)⟩

/-! ## C27: the channel stack that registry_open builds -/

theorem set_key_segment {σ : Type} (channel : channel_t σ) (pre s1 tail : Bytes)
    (hz : (0 : Byte) ∉ s1) :
    registry_open_set_key (channel_hmac_new channel).2 (pre ++ HMAC_SCHEME ++ s1 ++ tail)
        (pre.length + 7) (s1.length : Int)
      = (ERROR_OK, channel_t.hmac (key_channel s1) channel) := by
  unfold registry_open_set_key channel_hmac_new key_channel
  dsimp only
  by_cases h0 : s1 = []
  · subst h0
    rw [if_pos (by simp), if_pos rfl]
    rfl
  · have hl : (s1.length : Int) ≠ 0 := by
      intro h
      exact h0 (List.length_eq_zero.mp (by exact_mod_cast h))
    rw [if_neg hl, if_neg h0]
    have hd : List.drop (pre.length + 7) (pre ++ HMAC_SCHEME ++ s1 ++ tail) = s1 ++ tail := by
      have e : pre ++ HMAC_SCHEME ++ s1 ++ tail = (pre ++ HMAC_SCHEME) ++ (s1 ++ tail) := by simp
      rw [e]
      exact List.drop_left' (by simp [HMAC_SCHEME])
    rw [hd]
    unfold channel_hmac_set_key
    have h1 : (s1.length : Int).toNat ≠ 0 := by
      simp only [Int.toNat_ofNat]
      exact fun h => h0 (List.length_eq_zero.mp h)
    rw [if_neg h1]
    dsimp only
    have hs : strlen (s1 ++ tail) ≠ 0 := by
      obtain ⟨b, t, rfl⟩ := List.exists_cons_of_ne_nil h0
      have hb : b ≠ 0 := fun e => hz (by rw [e]; exact List.mem_cons_self _ _)
      exact strlen_cons b _ hb
    rw [if_neg hs, Int.toNat_ofNat, List.take_left' rfl]

theorem registry_open_loop_step_channel {σ : Type} (n : Nat) (pre s1 rest : Bytes) (d : Int)
    (channel : channel_t σ) (hs1 : DELIMITER ∉ s1) (hz : (0 : Byte) ∉ s1) :
    registry_open_loop (pre ++ (HMAC_SCHEME ++ s1 ++ DELIMITER :: rest)).length (n + 1)
        (pre ++ (HMAC_SCHEME ++ s1 ++ DELIMITER :: rest)) pre.length d channel
      = registry_open_loop ((pre ++ HMAC_SCHEME ++ s1 ++ [0]) ++ rest).length n
          ((pre ++ HMAC_SCHEME ++ s1 ++ [0]) ++ rest) (pre ++ HMAC_SCHEME ++ s1 ++ [0]).length 1
          (channel_t.hmac (key_channel s1) channel) := by
  have hpos : pre.length < (pre ++ (HMAC_SCHEME ++ s1 ++ DELIMITER :: rest)).length := by
    simp [HMAC_SCHEME]
  have hp : protocol_is HMAC_SCHEME (pre ++ (HMAC_SCHEME ++ s1 ++ DELIMITER :: rest)) pre.length
      = true := by
    unfold protocol_is
    rw [List.drop_left, List.append_assoc, List.take_left' (by rfl)]
    simp
  have hr : checkDelimiterAndSetToTerminator (pre ++ (HMAC_SCHEME ++ s1 ++ DELIMITER :: rest))
      (pre.length + 7) (pre ++ (HMAC_SCHEME ++ s1 ++ DELIMITER :: rest)).length 0
      = ((pre ++ HMAC_SCHEME) ++ s1 ++ 0 :: rest, ((pre ++ HMAC_SCHEME) ++ s1).length + 1, 1) := by
    unfold checkDelimiterAndSetToTerminator
    have e : pre ++ (HMAC_SCHEME ++ s1 ++ DELIMITER :: rest)
        = (pre ++ HMAC_SCHEME) ++ s1 ++ DELIMITER :: rest := by simp
    have e2 : pre.length + 7 = (pre ++ HMAC_SCHEME).length := by simp [HMAC_SCHEME]
    rw [e, e2]
    exact check_delimiter_found s1 (pre ++ HMAC_SCHEME) rest 0 _ hs1 (by simp; omega)
  rw [registry_open_loop, if_pos hpos, if_pos hp]
  dsimp only
  rw [hr]
  dsimp only
  have e : (((pre ++ HMAC_SCHEME ++ s1).length + 1 : Nat) - ((pre.length + 7 : Nat) : Int) - 1)
      = (s1.length : Int) := by
    simp [HMAC_SCHEME]
    omega
  rw [e, set_key_segment channel pre s1 (0 :: rest) hz]
  dsimp only
  rw [if_neg (by simp)]
  have e1 : pre ++ HMAC_SCHEME ++ s1 ++ 0 :: rest = (pre ++ HMAC_SCHEME ++ s1 ++ [0]) ++ rest := by
    simp
  have e2 : (pre ++ HMAC_SCHEME ++ s1).length + 1 = (pre ++ HMAC_SCHEME ++ s1 ++ [0]).length := by
    simp [HMAC_SCHEME]
    omega
  have e3 : (pre ++ (HMAC_SCHEME ++ s1 ++ DELIMITER :: rest)).length
      = ((pre ++ HMAC_SCHEME ++ s1 ++ [0]) ++ rest).length := by
    simp [HMAC_SCHEME]
  rw [e3, e2]
  rw [e1]

theorem registry_open_loop_last_channel {σ : Type} (n : Nat) (pre s1 : Bytes) (d : Int)
    (channel : channel_t σ) (hs1 : DELIMITER ∉ s1) (hz : (0 : Byte) ∉ s1) :
    registry_open_loop (pre ++ (HMAC_SCHEME ++ s1)).length (n + 1)
        (pre ++ (HMAC_SCHEME ++ s1)) pre.length d channel
      = (ERROR_OK, 0, channel_t.hmac (key_channel s1) channel) := by
  have hpos : pre.length < (pre ++ (HMAC_SCHEME ++ s1)).length := by
    simp [HMAC_SCHEME]
  have hp : protocol_is HMAC_SCHEME (pre ++ (HMAC_SCHEME ++ s1)) pre.length = true := by
    unfold protocol_is
    rw [List.drop_left, List.take_left' (by rfl)]
    simp
  have hr : checkDelimiterAndSetToTerminator (pre ++ (HMAC_SCHEME ++ s1))
      (pre.length + 7) (pre ++ (HMAC_SCHEME ++ s1)).length 0
      = (pre ++ HMAC_SCHEME ++ s1, (pre ++ HMAC_SCHEME ++ s1).length, 0) := by
    unfold checkDelimiterAndSetToTerminator
    have e : pre ++ (HMAC_SCHEME ++ s1) = (pre ++ HMAC_SCHEME) ++ s1 := by simp
    have e2 : pre.length + 7 = (pre ++ HMAC_SCHEME).length := by simp [HMAC_SCHEME]
    rw [e, e2, check_delimiter_not_found s1 (pre ++ HMAC_SCHEME) 0 _ hs1]
    rw [if_pos (by simp; omega)]
  rw [registry_open_loop, if_pos hpos, if_pos hp]
  dsimp only
  rw [hr]
  dsimp only
  have e : (((pre ++ HMAC_SCHEME ++ s1).length : Nat) - ((pre.length + 7 : Nat) : Int) - 0)
      = (s1.length : Int) := by
    simp [HMAC_SCHEME]
    omega
  have hkey := set_key_segment channel pre s1 [] hz
  rw [List.append_nil] at hkey
  rw [e, hkey]
  dsimp only
  rw [if_neg (by simp)]
  cases n with
  | zero =>
    rw [registry_open_loop]
  | succ m =>
    rw [registry_open_loop, if_neg (by simp)]

theorem registry_open_loop_channel {σ : Type} : ∀ (keys : List Bytes) (k1 : Bytes) (n : Nat)
    (pre : Bytes) (d : Int) (channel : channel_t σ),
    (HMAC_SCHEME ++ k1 ++ keys.flatMap (fun key => DELIMITER :: (HMAC_SCHEME ++ key))).length ≤ n →
    (∀ k ∈ k1 :: keys, DELIMITER ∉ k ∧ (0 : Byte) ∉ k) →
    registry_open_loop
        (pre ++ (HMAC_SCHEME ++ k1
          ++ keys.flatMap (fun key => DELIMITER :: (HMAC_SCHEME ++ key)))).length n
        (pre ++ (HMAC_SCHEME ++ k1 ++ keys.flatMap (fun key => DELIMITER :: (HMAC_SCHEME ++ key))))
        pre.length d channel
      = (ERROR_OK, 0, hmac_stack (((k1 :: keys).map key_channel).reverse) channel) := by
  intro keys
  induction keys with
  | nil =>
    intro k1 n pre d channel hn hk
    obtain ⟨m, rfl⟩ : ∃ m, n = m + 1 := ⟨n - 1, by simp [HMAC_SCHEME] at hn; omega⟩
    rw [List.flatMap_nil, List.append_nil]
    exact registry_open_loop_last_channel m pre k1 d channel
      (hk k1 (List.mem_cons_self _ _)).1 (hk k1 (List.mem_cons_self _ _)).2
  | cons k2 ks ih =>
    intro k1 n pre d channel hn hk
    obtain ⟨m, rfl⟩ : ∃ m, n = m + 1 := ⟨n - 1, by simp [HMAC_SCHEME] at hn; omega⟩
    have e : HMAC_SCHEME ++ k1 ++ (k2 :: ks).flatMap (fun key => DELIMITER :: (HMAC_SCHEME ++ key))
        = HMAC_SCHEME ++ k1 ++ DELIMITER ::
            (HMAC_SCHEME ++ k2 ++ ks.flatMap (fun key => DELIMITER :: (HMAC_SCHEME ++ key))) := by
      simp [List.flatMap_cons]
    rw [e] at hn ⊢
    rw [registry_open_loop_step_channel m pre k1
      (HMAC_SCHEME ++ k2 ++ ks.flatMap (fun key => DELIMITER :: (HMAC_SCHEME ++ key))) d channel
      (hk k1 (List.mem_cons_self _ _)).1 (hk k1 (List.mem_cons_self _ _)).2]
    have hl : (HMAC_SCHEME ++ k2
        ++ ks.flatMap (fun key => DELIMITER :: (HMAC_SCHEME ++ key))).length ≤ m := by
      simp [HMAC_SCHEME] at hn ⊢
      omega
    rw [ih k2 m (pre ++ HMAC_SCHEME ++ k1 ++ [0]) 1 (channel_t.hmac (key_channel k1) channel) hl
      (fun k hk1 => hk k (List.mem_cons_of_mem _ hk1))]
    simp [hmac_stack, List.foldr_append]

theorem hmac_chain_stack {σ : Type} (chain : List channel_hmac_t)
    (cec : channel_endpoint_connector_t) (server : channel_t σ) :
    hmac_chain (hmac_stack chain (channel_t.endpoint_connector cec server)) = chain := by
  induction chain with
  | nil => rfl
  | cons ch chain ih =>
    have e : hmac_stack (ch :: chain) (channel_t.endpoint_connector cec server)
        = channel_t.hmac ch (hmac_stack chain (channel_t.endpoint_connector cec server)) := rfl
    rw [e, hmac_chain, ih]

theorem set_endpoint_stack {σ : Type} (chain endpoint : List channel_hmac_t)
    (cec : channel_endpoint_connector_t) (server : channel_t σ) :
    channel_endpoint_connector_set_endpoint
        (hmac_stack chain (channel_t.endpoint_connector cec server)) endpoint
      = hmac_stack chain
          (channel_t.endpoint_connector { cec with endpoint := some endpoint } server) := by
  induction chain with
  | nil => rfl
  | cons ch chain ih =>
    have e : ∀ base : channel_t σ,
        hmac_stack (ch :: chain) base = channel_t.hmac ch (hmac_stack chain base) := fun _ => rfl
    rw [e, e, channel_endpoint_connector_set_endpoint, ih]

/-- C27: for an identifier `file://PATH` followed by one `|hmac://KEY` for each
of the keys `k1 .. kn`, with a non-empty path the storage backend opens, no `|`
and no NUL in the path and the keys, a non-empty domain and 15 characters or
more, `registry_open` returns `ERROR_OK` and a handle whose channel is: the
server channel alone when there is no key; otherwise the HMAC channels
`H_n, .., H_1` (the top one first) stacked on one endpoint connector on the
server channel, where `H_i` holds exactly the bytes of `k_i` (no key when `k_i`
is empty) and the endpoint of the connector is the top channel `H_n`. -/
theorem registry_open_channel_stack {σ : Type} (S : Store σ) (path domain : Bytes)
    (keys : List Bytes) (db : σ) (hd : strlen domain ≠ 0) (hpath : path ≠ [])
    (hp : DELIMITER ∉ path) (hz : (0 : Byte) ∉ path)
    (hk : ∀ k ∈ keys, DELIMITER ∉ k ∧ (0 : Byte) ∉ k)
    (hopen : S.open_path path = (DbCode.OK, some db))
    (hlen : 15 ≤ (identifier_of path keys).length) :
    registry_open S (some (identifier_of path keys)) (some domain)
      = (ERROR_OK, some ⟨some
          (if keys = [] then channel_t.with_server ⟨none, ⟨db⟩⟩
            else channel_stack ((keys.map key_channel).reverse) ⟨none, ⟨db⟩⟩),
          some (cstr domain)⟩) := by
  have hc := cstr_of_no_zero _ (identifier_of_no_zero path keys hz hk)
  have hsize : strlen (identifier_of path keys) = (identifier_of path keys).length := by
    unfold strlen
    rw [hc]
  have hcp : cstr path = path := cstr_of_no_zero path hz
  unfold registry_open
  dsimp only
  rw [if_neg hd, hsize, hc, if_neg (by omega), if_neg (by omega)]
  have hpr : protocol_is FILE_SCHEME (identifier_of path keys) 0 = true := by
    unfold protocol_is identifier_of
    rw [List.drop_zero, List.append_assoc, List.take_left' (by rfl)]
    simp
  rw [if_pos hpr]
  cases keys with
  | nil =>
    have hid : identifier_of path [] = FILE_SCHEME ++ path := by
      simp [identifier_of]
    rw [hid] at hlen ⊢
    have hr : checkDelimiterAndSetToTerminator (FILE_SCHEME ++ path) 7 (FILE_SCHEME ++ path).length 0
        = (FILE_SCHEME ++ path, (FILE_SCHEME ++ path).length, 0) := by
      unfold checkDelimiterAndSetToTerminator
      have e7 : (7 : Nat) = FILE_SCHEME.length := rfl
      rw [e7, check_delimiter_not_found path FILE_SCHEME 0 _ hp, if_pos (by simp)]
    rw [hr]
    dsimp only
    have hch : channel_with_server_new S (List.drop 7 (FILE_SCHEME ++ path))
        = (ERROR_OK, some (channel_t.with_server ⟨none, ⟨db⟩⟩)) := by
      have e : List.drop 7 (FILE_SCHEME ++ path) = path := List.drop_left' rfl
      rw [e]
      unfold channel_with_server_new
      have hl : strlen path ≠ 0 := by
        unfold strlen
        rw [hcp]
        exact fun h => hpath (List.length_eq_zero.mp h)
      rw [if_neg hl, hcp, hopen]
    rw [hch]
    dsimp only
    rw [if_neg (by simp), if_neg (Nat.lt_irrefl _)]
    obtain ⟨m, hm⟩ : ∃ m, (FILE_SCHEME ++ path).length = m + 1 :=
      ⟨(FILE_SCHEME ++ path).length - 1, by omega⟩
    have hloop : registry_open_loop (FILE_SCHEME ++ path).length (FILE_SCHEME ++ path).length
        (FILE_SCHEME ++ path) (FILE_SCHEME ++ path).length 0
        (channel_t.with_server ⟨none, ⟨db⟩⟩ : channel_t σ)
        = (ERROR_OK, 0, channel_t.with_server ⟨none, ⟨db⟩⟩) := by
      generalize (FILE_SCHEME ++ path).length = n at hm
      subst hm
      rw [registry_open_loop, if_neg (Nat.lt_irrefl _)]
    rw [hloop]
    dsimp only
    rw [if_neg (by simp), if_neg (by decide)]
    simp only [Nat.lt_irrefl, decide_False, Bool.false_eq_true, if_false, if_true]
  | cons k1 ks =>
    have hid : identifier_of path (k1 :: ks) = FILE_SCHEME ++ path ++ DELIMITER ::
        (HMAC_SCHEME ++ k1 ++ ks.flatMap (fun key => DELIMITER :: (HMAC_SCHEME ++ key))) := by
      simp [identifier_of, List.flatMap_cons]
    rw [hid] at hlen ⊢
    have hloopc := fun n pre d (channel : channel_t σ) hn =>
      registry_open_loop_channel ks k1 n pre d channel hn hk
    generalize hrest : HMAC_SCHEME ++ k1
      ++ ks.flatMap (fun key => DELIMITER :: (HMAC_SCHEME ++ key)) = rest at hlen hloopc ⊢
    have hr : checkDelimiterAndSetToTerminator (FILE_SCHEME ++ path ++ DELIMITER :: rest) 7
        (FILE_SCHEME ++ path ++ DELIMITER :: rest).length 0
        = (FILE_SCHEME ++ path ++ 0 :: rest, (FILE_SCHEME ++ path).length + 1, 1) := by
      unfold checkDelimiterAndSetToTerminator
      have e7 : (7 : Nat) = FILE_SCHEME.length := rfl
      rw [e7]
      exact check_delimiter_found path FILE_SCHEME rest 0 _ hp (by simp)
    rw [hr]
    dsimp only
    have hch : channel_with_server_new S (List.drop 7 (FILE_SCHEME ++ path ++ 0 :: rest))
        = (ERROR_OK, some (channel_t.with_server ⟨none, ⟨db⟩⟩)) := by
      have e : List.drop 7 (FILE_SCHEME ++ path ++ 0 :: rest) = path ++ 0 :: rest := by
        rw [List.append_assoc]
        exact List.drop_left' rfl
      rw [e]
      unfold channel_with_server_new
      have hl : strlen (path ++ 0 :: rest) ≠ 0 := by
        unfold strlen
        rw [cstr_append_zero path rest hz]
        exact fun h => hpath (List.length_eq_zero.mp h)
      rw [if_neg hl, cstr_append_zero path rest hz, hopen]
    rw [hch]
    dsimp only
    have hlt : (FILE_SCHEME ++ path).length + 1 < (FILE_SCHEME ++ path ++ DELIMITER :: rest).length := by
      have h7 : 7 ≤ rest.length := by
        rw [← hrest]
        have : HMAC_SCHEME.length = 7 := rfl
        simp only [List.length_append]
        omega
      simp only [List.length_append, List.length_cons]
      omega
    rw [if_neg (by simp), if_pos hlt, decide_eq_true hlt]
    have e1 : FILE_SCHEME ++ path ++ 0 :: rest = (FILE_SCHEME ++ path ++ [0]) ++ rest := by
      simp
    have e2 : (FILE_SCHEME ++ path).length + 1 = (FILE_SCHEME ++ path ++ [0]).length := by
      simp only [List.length_append, List.length_cons, List.length_nil]
    have e3 : (FILE_SCHEME ++ path ++ DELIMITER :: rest).length
        = ((FILE_SCHEME ++ path ++ [0]) ++ rest).length := by
      simp only [List.length_append, List.length_cons, List.length_nil]
      omega
    have hl : rest.length ≤ ((FILE_SCHEME ++ path ++ [0]) ++ rest).length := by
      simp only [List.length_append, List.length_cons, List.length_nil]
      omega
    have hloop := hloopc ((FILE_SCHEME ++ path ++ [0]) ++ rest).length
      (FILE_SCHEME ++ path ++ [0]) 1
      (channel_endpoint_connector_new (channel_t.with_server ⟨none, ⟨db⟩⟩ : channel_t σ)).2 hl
    rw [e1, e2, e3, hloop]
    dsimp only
    rw [if_neg (by simp), if_neg (by decide), if_neg (List.cons_ne_nil k1 ks), if_pos rfl]
    unfold channel_endpoint_connector_new
    dsimp only
    rw [hmac_chain_stack, set_endpoint_stack]
    rfl

set_option maxRecDepth 100000 in
/-- Witness of C27: the identifier `file://mydb.sqlite|hmac://key|hmac://` with
the keys `key` and the empty key; the channel of the handle is the HMAC channel
without key, on the HMAC channel with the key `key`, on the connector. -/
theorem registry_open_channel_stack_witness :
    identifier_of (ascii "mydb.sqlite") [ascii "key", []]
      = ascii "file://mydb.sqlite|hmac://key|hmac://" ∧
    channel_stack (([ascii "key", []].map key_channel).reverse) (⟨none, ⟨0⟩⟩ : channel_server_t Nat)
      = channel_t.hmac ⟨none⟩ (channel_t.hmac ⟨some (ascii "key")⟩
          (channel_t.endpoint_connector ⟨some [⟨none⟩, ⟨some (ascii "key")⟩], none, none⟩
            (channel_t.with_server ⟨none, ⟨0⟩⟩))) ∧
    registry_open (constant_store DbCode.OK)
        (some (identifier_of (ascii "mydb.sqlite") [ascii "key", []])) (some (ascii "domain"))
      = (ERROR_OK, some ⟨some
          (if [ascii "key", []] = [] then channel_t.with_server ⟨none, ⟨0⟩⟩
            else channel_stack (([ascii "key", []].map key_channel).reverse) ⟨none, ⟨0⟩⟩),
          some (cstr (ascii "domain"))⟩) :=
  ⟨by decide, by decide,
    registry_open_channel_stack (constant_store DbCode.OK) (ascii "mydb.sqlite") (ascii "domain")
      [ascii "key", []] 0 (by decide) (by decide) (by decide) (by decide) (by decide) rfl
      (by decide)⟩

/-! ## C28: the check of the path of a blob file -/

/-- C28: `check_blob_path` compares the first `strlen(referencepath)` characters
of the resolved path `p` with the blob directory `d` and nothing else.  It
returns `ERROR_OK` exactly when `p` starts with the characters of `d`, whatever
follows them, and `ERROR_DATABASE_INVALID` otherwise; so a path in a sibling
directory whose name extends the name of `d` is accepted. -/
theorem check_blob_path_compares_start {φ : Type} (F : FileSystem φ) (fs : φ)
    (blobpath d p : Bytes) (hp : F.realpath fs blobpath = some p) :
    (check_blob_path F fs blobpath d = DbCode.OK ↔ ∃ rest, cstr p = cstr d ++ rest) ∧
    (check_blob_path F fs blobpath d ≠ DbCode.OK →
      check_blob_path F fs blobpath d = DbCode.DATABASE_INVALID) := by
  unfold check_blob_path
  rw [hp]
  dsimp only
  unfold strlen
  by_cases h : (cstr p).take (cstr d).length = cstr d
  · rw [if_neg (by simp [h])]
    have e := List.take_append_drop (cstr d).length (cstr p)
    rw [h] at e
    exact ⟨⟨fun _ => ⟨(cstr p).drop (cstr d).length, e.symm⟩, fun _ => rfl⟩,
      fun hne => (hne rfl).elim⟩
  · rw [if_pos h]
    refine ⟨⟨fun hc => (by cases hc), ?_⟩, fun _ => rfl⟩
    rintro ⟨rest, hr⟩
    exact (h (by rw [hr, List.take_left' rfl])).elim

set_option maxRecDepth 100000 in
/-- Witness of C28: the blob directory `/b` and the file `/b2/x`, which is its
own resolved path and lies in the sibling directory `/b2`: `check_blob_path`
returns `ERROR_OK`. -/
theorem check_blob_path_compares_start_witness :
    file_list.realpath [(ascii "/b2/x", [])] (ascii "/b2/x") = some (ascii "/b2/x") ∧
    cstr (ascii "/b2/x") = cstr (ascii "/b") ++ ascii "2/x" ∧
    check_blob_path file_list [(ascii "/b2/x", [])] (ascii "/b2/x") (ascii "/b") = DbCode.OK :=
  ⟨by decide, by decide,
    (check_blob_path_compares_start file_list [(ascii "/b2/x", [])] (ascii "/b2/x") (ascii "/b")
      (ascii "/b2/x") (by decide)).1.mpr ⟨ascii "2/x", by decide⟩⟩

/-! ## C29: the cursor of the memory buffer -/

theorem buffer_read_invariant (b : simple_memory_buffer_t) (h : b.position ≤ b.size) :
    (simple_memory_buffer_read b).2.2.position ≤ (simple_memory_buffer_read b).2.2.size := by
  unfold simple_memory_buffer_read
  split
  · exact h
  · rename_i hlt
    unfold simple_memory_buffer_t.size at hlt ⊢
    dsimp only
    omega

theorem buffer_write_invariant (b : simple_memory_buffer_t) (byte : Byte)
    (h : b.position ≤ b.size) :
    (simple_memory_buffer_write b byte).2.position
      ≤ (simple_memory_buffer_write b byte).2.size := by
  unfold simple_memory_buffer_write simple_memory_buffer_t.size at *
  dsimp only
  rw [List.length_set]
  split
  · rw [List.length_append, List.length_singleton]
    omega
  · omega

/-- C29: `simple_memory_buffer_read` on a buffer with `position < size` returns
`ERROR_OK` with the byte at the cursor and moves the cursor by one, the size and
the content staying as they were; with `position >= size` it returns
`ERROR_EOF`, no byte, and the buffer as it was.  A buffer with
`position <= size`, as a new buffer is, has `position <= size` after every
sequence of read and write calls. -/
theorem buffer_cursor (b : simple_memory_buffer_t) (ops : List buffer_op) :
    (b.position < b.size →
      ∃ byte, b.buffer.get? b.position = some byte ∧
        simple_memory_buffer_read b
          = (ERROR_OK, some byte, ⟨b.buffer, b.position + 1⟩)) ∧
    (b.position ≥ b.size → simple_memory_buffer_read b = (ERROR_EOF, none, b)) ∧
    (b.position ≤ b.size → (buffer_run b ops).position ≤ (buffer_run b ops).size) := by
  refine ⟨?_, ?_, ?_⟩
  · intro h
    obtain ⟨byte, hb⟩ : ∃ byte, b.buffer.get? b.position = some byte :=
      ⟨b.buffer.get ⟨b.position, h⟩, List.get?_eq_get h⟩
    refine ⟨byte, hb, ?_⟩
    unfold simple_memory_buffer_read
    rw [if_neg (by omega), hb]
  · intro h
    unfold simple_memory_buffer_read
    rw [if_pos h]
  · intro h
    induction ops generalizing b with
    | nil => exact h
    | cons op ops ih =>
      cases op with
      | read_byte => exact ih _ (buffer_read_invariant b h)
      | write_byte byte => exact ih _ (buffer_write_invariant b byte h)

/-- Witness of C29: the buffer `01 02` with the cursor at 0 and at 2, and the
calls read, write `09`, read, read on it. -/
theorem buffer_cursor_witness :
    simple_memory_buffer_read ⟨[1, 2], 0⟩ = (ERROR_OK, some 1, ⟨[1, 2], 1⟩) ∧
    simple_memory_buffer_read ⟨[1, 2], 2⟩ = (ERROR_EOF, none, ⟨[1, 2], 2⟩) ∧
    (buffer_run ⟨[1, 2], 0⟩ [buffer_op.read_byte, buffer_op.write_byte 9, buffer_op.read_byte,
        buffer_op.read_byte]).position
      ≤ (buffer_run ⟨[1, 2], 0⟩ [buffer_op.read_byte, buffer_op.write_byte 9,
        buffer_op.read_byte, buffer_op.read_byte]).size :=
  ⟨by decide,
    (buffer_cursor ⟨[1, 2], 2⟩ []).2.1 (by decide),
    (buffer_cursor ⟨[1, 2], 0⟩ [buffer_op.read_byte, buffer_op.write_byte 9,
      buffer_op.read_byte, buffer_op.read_byte]).2.2 (by decide)⟩

/-! ## C30: a keyed HMAC channel and a message shorter than the tag -/

/-- C30: on an HMAC channel with a key, for a message `m` of the child whose
first byte is not NUL and that has 20 bytes or fewer, `ch_client_read_bytes` and
`ch_server_read_bytes` return no error: they do not compare the length with the
size of the tag.  For fewer than 20 bytes they copy 20 bytes from
`message + message_size - 20`, which lies before the message, and compute
`message_size - 20`; for exactly 20 bytes they resize the message to 0 bytes,
which frees it twice.  The behaviour is undefined (no result in the model). -/
theorem keyed_read_short_message {χ : Type} (H : Sha1) (ch : channel_hmac_t) (key m : Bytes)
    (x : χ) (hkey : ch.keyed = some key) (hm : strlen m ≠ 0) (hlen : m.length ≤ 20) :
    ch_client_read_bytes H ch (some (ERROR_OK, some m, x)) = none ∧
    ch_server_read_bytes H ch (some (ERROR_OK, some m, x)) = none := by
  have h0 : ¬ (strlen m = 0 ∨ m.length = 0) := by
    simp [hm, length_of_strlen m hm]
  have hr : ch_read_bytes H ch (ERROR_OK, some m, x) = none := by
    unfold ch_read_bytes
    dsimp only
    rw [if_neg (by simp), if_neg h0, hkey]
    dsimp only
    rw [if_pos (show m.length ≤ SHA1_BLOCKSIZE from hlen)]
  exact ⟨hr, hr⟩

set_option maxRecDepth 100000 in
/-- Witness of C30: the HMAC channel with the key `k` around a server channel
that holds the one-byte reply `PACKET_OK`, and a message of exactly 20 bytes:
the client-recv has no defined result. -/
theorem keyed_read_short_message_witness :
    (⟨some [107]⟩ : channel_hmac_t).keyed = some [107] ∧ strlen [PACKET_OK] ≠ 0 ∧
    ([PACKET_OK] : Bytes).length ≤ 20 ∧
    channel_client_read_bytes checksum_hash
        (channel_t.hmac ⟨some [107]⟩
          (channel_t.with_server (⟨some [PACKET_OK], ⟨0⟩⟩ : channel_server_t Nat))) = none ∧
    ch_client_read_bytes checksum_hash ⟨some [107]⟩
        (some (ERROR_OK, some [PACKET_OK], (0 : Nat))) = none ∧
    ch_server_read_bytes checksum_hash ⟨some [107]⟩
        (some (ERROR_OK, some (List.replicate 20 (1 : Byte)), (0 : Nat))) = none :=
  ⟨rfl, by decide, by decide, by decide,
    (keyed_read_short_message checksum_hash ⟨some [107]⟩ [107] [PACKET_OK] (0 : Nat) rfl
      (by decide) (by decide)).1,
    (keyed_read_short_message checksum_hash ⟨some [107]⟩ [107] (List.replicate 20 (1 : Byte))
      (0 : Nat) rfl (by decide) (by decide)).2⟩

end Sis
